import Mathlib

/-!
Motion-control core of the iMe firmware (`src/motors.cpp`).

A shallow embedding of the geometry model, the step scheduler and the motion
orchestrator of `motors.cpp`, followed by theorems about them.

Conventions of the embedding.

* `float` values are exact rationals (`ℚ`): rounding of the hardware floating
  point unit is not modelled, and a division by zero yields `0`. Two places keep
  more of the `float` type: the constant `UINT32_MAX` that `Motors::move` compares
  a `float` with is taken at the value of its conversion to `float`, `2 ^ 32`
  (`UINT32_MAX_AS_FLOAT`), and the values of the axis records that
  `Motors::changeState` copies to and from the EEPROM are numbers or a NaN
  (`FloatContents`), compared as `float` operands are (`floatDiffers`).
* `uint32_t` values are natural numbers, reduced modulo `2 ^ 32` wherever the
  source stores the result of an arithmetic operation.
* Global arrays indexed by an axis are functions on `AXES`.
* Digital pins are booleans, `true` standing for `IOPORT_PIN_LEVEL_HIGH`.
-/

namespace IMe

/-! ## Vectors and planes -/

/-- Modelled from the spec: the four-component vector class declared in
`vector.h`, which is not among the sources. Index `0..3` of the source is
`x`, `y`, `z`, `w`. -/
structure Vector where
  x : ℚ
  y : ℚ
  z : ℚ
  w : ℚ
deriving DecidableEq

namespace Vector

/-- Modelled from the spec: component-wise `operator-` of `vector.h`. -/
def sub (a b : Vector) : Vector := ⟨a.x - b.x, a.y - b.y, a.z - b.z, a.w - b.w⟩

/-- Modelled from the spec: component-wise `operator+` of `vector.h`. -/
def add (a b : Vector) : Vector := ⟨a.x + b.x, a.y + b.y, a.z + b.z, a.w + b.w⟩

/-- Modelled from the spec: scaling `operator*` of `vector.h`. -/
def smul (a : Vector) (k : ℚ) : Vector := ⟨a.x * k, a.y * k, a.z * k, a.w * k⟩

instance : Sub Vector := ⟨sub⟩
instance : Add Vector := ⟨add⟩

end Vector

/-- Source `calculatePlaneNormalVector` (motors.cpp 193-206). -/
def calculatePlaneNormalVector (v1 v2 v3 : Vector) : Vector :=
  let vector := v2 - v1
  let vector2 := v3 - v1
  { x := vector.y * vector2.z - vector2.y * vector.z
    y := vector.z * vector2.x - vector2.z * vector.x
    z := vector.x * vector2.y - vector2.x * vector.y
    w := 0 }

/-- Source `generatePlaneEquation` (motors.cpp 208-220): the result holds `A, B, C, D`
in its components `x, y, z, w`. -/
def generatePlaneEquation (v1 v2 v3 : Vector) : Vector :=
  let vector2 := calculatePlaneNormalVector v1 v2 v3
  { x := vector2.x
    y := vector2.y
    z := vector2.z
    w := -(vector2.x * v1.x + vector2.y * v1.y + vector2.z * v1.z) }

/-- Source `getZFromXYAndPlane` (motors.cpp 222-226). -/
def getZFromXYAndPlane (point planeABC : Vector) : ℚ :=
  if planeABC.z ≠ 0 then
    (planeABC.x * point.x + planeABC.y * point.y + planeABC.w) / -planeABC.z
  else 0

/-- Source `sign` (motors.cpp 228-232). -/
def sign (p1 p2 p3 : Vector) : ℚ :=
  (p1.x - p3.x) * (p2.y - p3.y) - (p2.x - p3.x) * (p1.y - p3.y)

/-- Source `isPointInTriangle` (motors.cpp 234-253). `normalize` stands for
`Vector::normalize` of `vector.h`, which is not among the sources and needs a
square root. -/
def isPointInTriangle (normalize : Vector → Vector) (pt v1 v2 v3 : Vector) : Bool :=
  let vector := normalize (v1 - v2 + v1 - v3)
  let vector2 := v1 + vector.smul (1 / 100)
  let vector := normalize (v2 - v1 + v2 - v3)
  let vector3 := v2 + vector.smul (1 / 100)
  let vector := normalize (v3 - v1 + v3 - v2)
  let vector4 := v3 + vector.smul (1 / 100)
  let flag := decide (sign pt vector2 vector3 < 0)
  let flag2 := decide (sign pt vector3 vector4 < 0)
  let flag3 := decide (sign pt vector4 vector2 < 0)
  flag == flag2 && flag2 == flag3

/-- The point `p` satisfies the plane equation `A x + B y + C z + D = 0`. -/
def onPlane (plane p : Vector) : Prop :=
  plane.x * p.x + plane.y * p.y + plane.z * p.z + plane.w = 0

/-! ## Axes, constants and helpers -/

/-- Source enumeration `AXES` of `motors.h`: the four motors and the feed-rate slot
`F` of `currentValues`. -/
inductive AXES where
  | X
  | Y
  | Z
  | E
  | F
deriving DecidableEq

/-- The motors in index order `0 .. NUMBER_OF_MOTORS - 1`. -/
def motorList : List AXES := [AXES.X, AXES.Y, AXES.Z, AXES.E]

/-- Array store `a[i] = v`. -/
def upd {α : Type} (a : AXES → α) (i : AXES) (v : α) : AXES → α :=
  fun j => if j = i then v else a j

/-- Constant `UINT32_MAX`. -/
def UINT32_MAX : Nat := 4294967295

/-- The value of `UINT32_MAX` in the comparison `totalNumberOfSteps > UINT32_MAX` of
`Motors::move` (motors.cpp 741): the other operand is a `float`, so the constant is
converted to `float`, and the `float` nearest to 4294967295 is 2^32. -/
def UINT32_MAX_AS_FLOAT : ℚ := 4294967296

/-- Constant `MICROSTEPS_PER_STEP` (motors.cpp 50). -/
def MICROSTEPS_PER_STEP : Nat := 8

/-- Constant `MOTORS_STEP_TIMER_PERIOD` (motors.cpp 58). -/
def MOTORS_STEP_TIMER_PERIOD : Nat := 1024

/-- Constant `SEGMENT_LENGTH` (motors.cpp 18). -/
def SEGMENT_LENGTH : ℚ := 2

/-- Conversion of a `float` to `uint32_t`: truncation, reduced modulo `2 ^ 32`. -/
def toUInt32 (q : ℚ) : Nat := (Int.toNat ⌊q⌋) % 4294967296

/-- Modelled from the spec: `getValueInRange` of `common.h`, which is not among
the sources; it limits a value to the range `[minValue, maxValue]`. -/
def getValueInRange (value minValue maxValue : ℚ) : ℚ :=
  min maxValue (max minValue value)

/-- Modelled from the spec: `minimumOneCeil` of `common.h`, which is not among
the sources; the ceiling of a value, at least one. The conversion of a ceiling
beyond the range of `uint32_t`, which is undefined in the source, is not
modelled. -/
def minimumOneCeil (value : ℚ) : Nat :=
  max 1 (Int.toNat ⌈value⌉)

/-! ## Step scheduler -/

/-- The global variables of motors.cpp 119-126, together with the four step
pins, which the timer interrupt drives. -/
structure Globals where
  motorsDelaySkips : AXES → Nat
  motorsDelaySkipsCounter : AXES → Nat
  motorsStepDelay : AXES → Nat
  motorsStepDelayCounter : AXES → Nat
  motorsNumberOfSteps : AXES → Nat
  motorsNumberOfRemainingSteps : AXES → ℚ
  motorsIsMoving : AXES → Bool
  stepPin : AXES → Bool

/-- Source `motorsStepAction` (motors.cpp 130-173). The post-increment of the skip
counter happens whenever `motorsDelaySkips[motor]` is nonzero, and the comparison
uses the value before the increment; `skipsCounter` is the skip counter array
after that increment. -/
def motorsStepAction (motor : AXES) (g : Globals) : Globals :=
  let skips := g.motorsDelaySkips motor
  let old := g.motorsDelaySkipsCounter motor
  if skips ≠ 0 ∧ old ≥ skips then
    -- motors.cpp 139
    { g with motorsDelaySkipsCounter := upd g.motorsDelaySkipsCounter motor 0 }
  else
    let skipsCounter :=
      if skips ≠ 0 then upd g.motorsDelaySkipsCounter motor ((old + 1) % 4294967296)
      else g.motorsDelaySkipsCounter
    -- motors.cpp 142
    let c := (g.motorsStepDelayCounter motor + 1) % 4294967296
    if c ≥ g.motorsStepDelay motor then
      -- motors.cpp 145-171
      let n := (g.motorsNumberOfSteps motor + 4294967295) % 4294967296
      { g with
        motorsDelaySkipsCounter := skipsCounter
        motorsNumberOfSteps := upd g.motorsNumberOfSteps motor n
        motorsIsMoving := if n = 0 then upd g.motorsIsMoving motor false else g.motorsIsMoving
        stepPin := upd g.stepPin motor true
        motorsStepDelayCounter := upd g.motorsStepDelayCounter motor 0 }
    else
      { g with
        motorsDelaySkipsCounter := skipsCounter
        motorsStepDelayCounter := upd g.motorsStepDelayCounter motor c }

/-- Source `updateMotorsStepTimer` (motors.cpp 175-191): one tick of the step timer. -/
def updateMotorsStepTimer (g : Globals) : Globals :=
  let g0 : Globals := { g with stepPin := fun _ => false }
  motorList.foldl (fun acc i => if acc.motorsIsMoving i then motorsStepAction i acc else acc) g0

/-- The state after `k` ticks of the step timer. -/
def ticks : Nat → Globals → Globals
  | 0, g => g
  | k + 1, g => ticks k (updateMotorsStepTimer g)

/-- The number of step pulses issued on `motor` during the first `k` ticks. -/
def pulses (motor : AXES) : Nat → Globals → Nat
  | 0, _ => 0
  | k + 1, g =>
    (if (updateMotorsStepTimer g).stepPin motor then 1 else 0)
      + pulses motor k (updateMotorsStepTimer g)

/-- Source `Motors::areMotorsMoving` (motors.cpp 255-268). -/
def areMotorsMoving (g : Globals) : Bool :=
  motorList.any (fun i => g.motorsIsMoving i)

/-- Source `Motors::getMovementsNumberOfCycles` (motors.cpp 1822-1826); `cpuHz` is
the value of `sysclk_get_cpu_hz()`. -/
def getMovementsNumberOfCycles (cpuHz : ℚ) (g : Globals) (motor : AXES)
    (stepsPerMm feedRate : ℚ) : ℚ :=
  max ((g.motorsNumberOfSteps motor : ℚ) / stepsPerMm / MICROSTEPS_PER_STEP / feedRate * 60 * cpuHz)
    ((g.motorsNumberOfSteps motor : ℚ) * MOTORS_STEP_TIMER_PERIOD)

/-- The value `Motors::setMotorDelayAndSkip` stores in `motorsStepDelay[motor]`
(motors.cpp 1833-1840) for `n = motorsNumberOfSteps[motor]`. The factor
`(1 + 1 / 1)` of the source is an integer expression. -/
def stepDelayFor (movementsNumberOfCycles : ℚ) (n : Nat) : Nat :=
  let delay0 := toUInt32
    (getValueInRange (movementsNumberOfCycles / MOTORS_STEP_TIMER_PERIOD / (n : ℚ)) 1 UINT32_MAX)
  if ((⌈(n : ℚ) * delay0 * ((1 + 1 / 1 : Nat) : ℚ) - 1⌉ : ℤ) : ℚ) * MOTORS_STEP_TIMER_PERIOD
      < movementsNumberOfCycles then
    (delay0 + 1) % 4294967296
  else delay0

/-- The value `Motors::setMotorDelayAndSkip` stores in `motorsDelaySkips[motor]`
(motors.cpp 1842-1844) for `n = motorsNumberOfSteps[motor]`. -/
def delaySkipsFor (movementsNumberOfCycles : ℚ) (n : Nat) : Nat :=
  let delay := stepDelayFor movementsNumberOfCycles n
  let denominator : ℚ :=
    movementsNumberOfCycles / MOTORS_STEP_TIMER_PERIOD - ((n : ℚ) * delay - 1)
  if denominator ≠ 0 then
    toUInt32 (getValueInRange ((n : ℚ) * delay / denominator) 0 UINT32_MAX)
  else 0

/-- Source `Motors::setMotorDelayAndSkip` (motors.cpp 1828-1845). -/
def setMotorDelayAndSkip (motor : AXES) (movementsNumberOfCycles : ℚ) (g : Globals) : Globals :=
  { g with
    motorsStepDelayCounter := upd g.motorsStepDelayCounter motor 0
    motorsDelaySkipsCounter := upd g.motorsDelaySkipsCounter motor 0
    motorsStepDelay :=
      upd g.motorsStepDelay motor (stepDelayFor movementsNumberOfCycles (g.motorsNumberOfSteps motor))
    motorsDelaySkips :=
      upd g.motorsDelaySkips motor
        (delaySkipsFor movementsNumberOfCycles (g.motorsNumberOfSteps motor)) }

/-! ## Motors state -/

/-- Source enumeration `MODES` of `motors.h`. -/
inductive MODES where
  | RELATIVE
  | ABSOLUTE
deriving DecidableEq

/-- Source enumeration `UNITS` of `motors.h`. -/
inductive UNITS where
  | MILLIMETERS
  | INCHES
deriving DecidableEq

/-- Source enumeration `BACKLASH_DIRECTION` of `motors.h`. -/
inductive BACKLASH_DIRECTION where
  | NONE
  | POSITIVE
  | NEGATIVE
deriving DecidableEq

/-- Modelled from the spec: task flag of `motors.h` (not among the sources) meaning
no task, the physical pass of `move`. -/
def NO_TASK : Nat := 0

/-- Modelled from the spec: single-bit task flag of `motors.h` (not among the sources). -/
def BACKLASH_TASK : Nat := 1

/-- Modelled from the spec: single-bit task flag of `motors.h` (not among the sources). -/
def BED_LEVELING_TASK : Nat := 2

/-- Modelled from the spec: single-bit task flag of `motors.h` (not among the sources). -/
def HANDLE_RECEIVED_COMMAND_TASK : Nat := 4

/-- Modelled from the spec: single-bit parameter mask of `gcode.h` (not among the sources). -/
def PARAMETER_X_OFFSET : Nat := 1

/-- Modelled from the spec: single-bit parameter mask of `gcode.h` (not among the sources). -/
def PARAMETER_Y_OFFSET : Nat := 2

/-- Modelled from the spec: single-bit parameter mask of `gcode.h` (not among the sources). -/
def PARAMETER_Z_OFFSET : Nat := 4

/-- Modelled from the spec: single-bit parameter mask of `gcode.h` (not among the sources). -/
def PARAMETER_E_OFFSET : Nat := 8

/-- Modelled from the spec: single-bit parameter mask of `gcode.h` (not among the sources). -/
def PARAMETER_F_OFFSET : Nat := 16

/-- The test `flags & mask` of the source, as a boolean. -/
def hasFlag (flags mask : Nat) : Bool := flags &&& mask != 0

/-- Modelled from the spec: the parsed move record of `gcode.h` (not among the
sources): the which-parameters-present bitmask and the parameter values. -/
structure Gcode where
  commandParameters : Nat
  valueX : ℚ
  valueY : ℚ
  valueZ : ℚ
  valueE : ℚ
  valueF : ℚ

/-- Constants of headers that are not among the sources (`common.h`, `eeprom.h`,
the clock configuration) and the two library functions that need a square root. -/
structure Config where
  cpuHz : ℚ
  INCHES_TO_MILLIMETERS_SCALAR : ℚ
  EEPROM_SPEED_LIMIT_X_MAX : ℚ
  EEPROM_SPEED_LIMIT_X_MIN : ℚ
  EEPROM_SPEED_LIMIT_Y_MAX : ℚ
  EEPROM_SPEED_LIMIT_Y_MIN : ℚ
  EEPROM_SPEED_LIMIT_Z_MAX : ℚ
  EEPROM_SPEED_LIMIT_Z_MIN : ℚ
  EEPROM_SPEED_LIMIT_E_POSITIVE_MAX : ℚ
  EEPROM_SPEED_LIMIT_E_POSITIVE_MIN : ℚ
  EEPROM_SPEED_LIMIT_E_NEGATIVE_MAX : ℚ
  EEPROM_SPEED_LIMIT_E_NEGATIVE_MIN : ℚ
  sqrt : ℚ → ℚ
  normalize : Vector → Vector

/-- The EEPROM fields the motion core reads, one field per symbolic offset. -/
structure Eeprom where
  X_MOTOR_STEPS_PER_MM : ℚ
  Y_MOTOR_STEPS_PER_MM : ℚ
  Z_MOTOR_STEPS_PER_MM : ℚ
  E_MOTOR_STEPS_PER_MM : ℚ
  SPEED_LIMIT_X : ℚ
  SPEED_LIMIT_Y : ℚ
  SPEED_LIMIT_Z : ℚ
  SPEED_LIMIT_E_POSITIVE : ℚ
  SPEED_LIMIT_E_NEGATIVE : ℚ
  BACKLASH_X : ℚ
  BACKLASH_Y : ℚ
  BACKLASH_SPEED : ℚ
  BED_ORIENTATION_BACK_RIGHT : ℚ
  BED_ORIENTATION_BACK_LEFT : ℚ
  BED_ORIENTATION_FRONT_LEFT : ℚ
  BED_ORIENTATION_FRONT_RIGHT : ℚ
  BED_OFFSET_BACK_RIGHT : ℚ
  BED_OFFSET_BACK_LEFT : ℚ
  BED_OFFSET_FRONT_LEFT : ℚ
  BED_OFFSET_FRONT_RIGHT : ℚ
  BED_HEIGHT_OFFSET : ℚ

/-- The state of the `Motors` object, the globals of the step scheduler, the
direction pins, the EEPROM contents and the environment. `ticksToStop` is the
number of step-timer periods the environment lets pass, while motors are being
waited for, before it raises the emergency stop. Motor reference voltages, the
enable pin and the clock source of the timers are not modelled. -/
structure Motors where
  currentValues : AXES → ℚ
  startValues : AXES → ℚ
  currentStateOfValues : AXES → Bool
  currentMotorDirections : AXES → Bool
  mode : MODES
  extruderMode : MODES
  units : UNITS
  emergencyStopOccured : Bool
  backRightVector : Vector
  backLeftVector : Vector
  frontLeftVector : Vector
  frontRightVector : Vector
  centerVector : Vector
  backPlane : Vector
  leftPlane : Vector
  rightPlane : Vector
  frontPlane : Vector
  bedHeightOffset : ℚ
  directionPin : AXES → Bool
  globals : Globals
  eeprom : Eeprom
  ticksToStop : Nat

/-- Pin level `DIRECTION_LEFT` (motors.cpp 104). -/
def DIRECTION_LEFT : Bool := true

/-- Pin level `DIRECTION_RIGHT` (motors.cpp 105). -/
def DIRECTION_RIGHT : Bool := false

/-- Pin level `DIRECTION_BACKWARD` (motors.cpp 106). -/
def DIRECTION_BACKWARD : Bool := true

/-- Pin level `DIRECTION_FORWARD` (motors.cpp 107). -/
def DIRECTION_FORWARD : Bool := false

/-- Pin level `DIRECTION_UP` (motors.cpp 108). -/
def DIRECTION_UP : Bool := true

/-- Pin level `DIRECTION_DOWN` (motors.cpp 109). -/
def DIRECTION_DOWN : Bool := false

/-- Pin level `DIRECTION_EXTRUDE` (motors.cpp 110). -/
def DIRECTION_EXTRUDE : Bool := false

/-- Pin level `DIRECTION_RETRACT` (motors.cpp 111). -/
def DIRECTION_RETRACT : Bool := true

/-- State `INVALID` of an axis value (motors.cpp 114). -/
def INVALID : Bool := false

/-- State `VALID` of an axis value (motors.cpp 115). -/
def VALID : Bool := true

/-- Constant `BED_LOW_MAX_X` (motors.cpp 30). -/
def BED_LOW_MAX_X : ℚ := 106

/-- Constant `BED_LOW_MIN_X` (motors.cpp 31). -/
def BED_LOW_MIN_X : ℚ := -2

/-- Constant `BED_LOW_MAX_Y` (motors.cpp 32). -/
def BED_LOW_MAX_Y : ℚ := 105

/-- Constant `BED_LOW_MIN_Y` (motors.cpp 33). -/
def BED_LOW_MIN_Y : ℚ := -2

/-- Constant `BED_LOW_MAX_Z` (motors.cpp 34). -/
def BED_LOW_MAX_Z : ℚ := 5

/-- Constant `BED_MEDIUM_MAX_X` (motors.cpp 36). -/
def BED_MEDIUM_MAX_X : ℚ := 106

/-- Constant `BED_MEDIUM_MIN_X` (motors.cpp 37). -/
def BED_MEDIUM_MIN_X : ℚ := -2

/-- Constant `BED_MEDIUM_MAX_Y` (motors.cpp 38). -/
def BED_MEDIUM_MAX_Y : ℚ := 105

/-- Constant `BED_MEDIUM_MIN_Y` (motors.cpp 39). -/
def BED_MEDIUM_MIN_Y : ℚ := -9

/-- Constant `BED_MEDIUM_MAX_Z` (motors.cpp 40). -/
def BED_MEDIUM_MAX_Z : ℚ := 147 / 2

/-- Constant `BED_HIGH_MAX_X` (motors.cpp 42). -/
def BED_HIGH_MAX_X : ℚ := 97

/-- Constant `BED_HIGH_MIN_X` (motors.cpp 43). -/
def BED_HIGH_MIN_X : ℚ := 7

/-- Constant `BED_HIGH_MAX_Y` (motors.cpp 44). -/
def BED_HIGH_MAX_Y : ℚ := 85

/-- Constant `BED_HIGH_MIN_Y` (motors.cpp 45). -/
def BED_HIGH_MIN_Y : ℚ := 9

/-- The selection of `minValue` and `maxValue` in `Motors::move` (motors.cpp
603-615) for axis `i`, which is `X` or `Y`, from the current Z value. -/
def bedLimits (currentZ : ℚ) (i : AXES) : ℚ × ℚ :=
  if currentZ < BED_LOW_MAX_Z then
    (if i = AXES.X then BED_LOW_MIN_X else BED_LOW_MIN_Y,
      if i = AXES.X then BED_LOW_MAX_X else BED_LOW_MAX_Y)
  else if currentZ < BED_MEDIUM_MAX_Z then
    (if i = AXES.X then BED_MEDIUM_MIN_X else BED_MEDIUM_MIN_Y,
      if i = AXES.X then BED_MEDIUM_MAX_X else BED_MEDIUM_MAX_Y)
  else
    (if i = AXES.X then BED_HIGH_MIN_X else BED_HIGH_MIN_Y,
      if i = AXES.X then BED_HIGH_MAX_X else BED_HIGH_MAX_Y)

/-! ## Geometry model on the state -/

/-- Source `Motors::getHeightAdjustmentRequired` (motors.cpp 295-336). Only the
`x` and `y` components of `point` are read. -/
def getHeightAdjustmentRequired (cfg : Config) (s : Motors) (x y : ℚ) : ℚ :=
  let point : Vector := ⟨x, y, 0, 1⟩
  if x ≤ s.frontLeftVector.x ∧ y ≥ s.backRightVector.y then
    (getZFromXYAndPlane point s.backPlane + getZFromXYAndPlane point s.leftPlane) / 2
  else if x ≤ s.frontLeftVector.x ∧ y ≤ s.frontLeftVector.y then
    (getZFromXYAndPlane point s.frontPlane + getZFromXYAndPlane point s.leftPlane) / 2
  else if x ≥ s.frontRightVector.x ∧ y ≤ s.frontLeftVector.y then
    (getZFromXYAndPlane point s.frontPlane + getZFromXYAndPlane point s.rightPlane) / 2
  else if x ≥ s.frontRightVector.x ∧ y ≥ s.backRightVector.y then
    (getZFromXYAndPlane point s.backPlane + getZFromXYAndPlane point s.rightPlane) / 2
  else if x ≤ s.frontLeftVector.x then
    getZFromXYAndPlane point s.leftPlane
  else if x ≥ s.frontRightVector.x then
    getZFromXYAndPlane point s.rightPlane
  else if y ≥ s.backRightVector.y then
    getZFromXYAndPlane point s.backPlane
  else if y ≤ s.frontLeftVector.y then
    getZFromXYAndPlane point s.frontPlane
  else if isPointInTriangle cfg.normalize point s.centerVector s.frontLeftVector s.backLeftVector then
    getZFromXYAndPlane point s.leftPlane
  else if isPointInTriangle cfg.normalize point s.centerVector s.frontRightVector s.backRightVector then
    getZFromXYAndPlane point s.rightPlane
  else if isPointInTriangle cfg.normalize point s.centerVector s.backLeftVector s.backRightVector then
    getZFromXYAndPlane point s.backPlane
  else
    getZFromXYAndPlane point s.frontPlane

/-- The "Set vectors" step of `Motors::initialize` (motors.cpp 449-454), with
`BED_CENTER_X = 54`, `BED_CENTER_Y = 50` and
`BED_CALIBRATION_POSITIONS_DISTANCE_FROM_CENTER = 45`. The arguments `z0` and `w0`
are the default third and fourth arguments of `Vector::initialize`. -/
def setVectors (z0 w0 : ℚ) (s : Motors) : Motors :=
  { s with
    backRightVector := ⟨54 + 45, 50 + 45, z0, w0⟩
    backLeftVector := ⟨54 - 45, 50 + 45, z0, w0⟩
    frontLeftVector := ⟨54 - 45, 50 - 45, z0, w0⟩
    frontRightVector := ⟨54 + 45, 50 - 45, z0, w0⟩
    centerVector := ⟨54, 50, z0, w0⟩ }

/-- Source `Motors::updateBedChanges` (motors.cpp 1159-1237). -/
def updateBedChanges (cfg : Config) (adjustHeight : Bool) (s : Motors) : Motors :=
  let previousHeightAdjustment :=
    getHeightAdjustmentRequired cfg s (s.currentValues AXES.X) (s.currentValues AXES.Y)
      + s.bedHeightOffset
  let s1 : Motors :=
    { s with
      backRightVector :=
        { s.backRightVector with
          z := s.eeprom.BED_ORIENTATION_BACK_RIGHT + s.eeprom.BED_OFFSET_BACK_RIGHT }
      backLeftVector :=
        { s.backLeftVector with
          z := s.eeprom.BED_ORIENTATION_BACK_LEFT + s.eeprom.BED_OFFSET_BACK_LEFT }
      frontLeftVector :=
        { s.frontLeftVector with
          z := s.eeprom.BED_ORIENTATION_FRONT_LEFT + s.eeprom.BED_OFFSET_FRONT_LEFT }
      frontRightVector :=
        { s.frontRightVector with
          z := s.eeprom.BED_ORIENTATION_FRONT_RIGHT + s.eeprom.BED_OFFSET_FRONT_RIGHT } }
  let s2 : Motors :=
    { s1 with
      backPlane := generatePlaneEquation s1.backLeftVector s1.backRightVector s1.centerVector
      leftPlane := generatePlaneEquation s1.backLeftVector s1.frontLeftVector s1.centerVector
      rightPlane := generatePlaneEquation s1.backRightVector s1.frontRightVector s1.centerVector
      frontPlane := generatePlaneEquation s1.frontLeftVector s1.frontRightVector s1.centerVector }
  let s3 : Motors := { s2 with bedHeightOffset := s2.eeprom.BED_HEIGHT_OFFSET }
  if adjustHeight then
    { s3 with
      currentValues := upd s3.currentValues AXES.Z
        (s3.currentValues AXES.Z
          + (previousHeightAdjustment
              - getHeightAdjustmentRequired cfg s3 (s3.currentValues AXES.X) (s3.currentValues AXES.Y)
              - s3.bedHeightOffset)) }
  else s3

/-! ## Motion orchestrator -/

/-- The local variables of `Motors::move` that live across its loop over the motors. -/
structure MoveLocals where
  movementsHighestNumberOfCycles : ℚ
  backlashDirections : AXES → BACKLASH_DIRECTION
  validValues : AXES → Bool

/-- The parameter mask and value of motor `i` (motors.cpp 558-582). -/
def gcodeParameter (gcode : Gcode) (i : AXES) : Nat × ℚ :=
  match i with
  | AXES.X => (PARAMETER_X_OFFSET, gcode.valueX)
  | AXES.Y => (PARAMETER_Y_OFFSET, gcode.valueY)
  | AXES.Z => (PARAMETER_Z_OFFSET, gcode.valueZ)
  | _ => (PARAMETER_E_OFFSET, gcode.valueE)

/-- The level of the direction pin of motor `i` for a move towards a lower
(`lowerNewValue = true`) or a higher value (motors.cpp 638, 653, 668, 684). -/
def directionLevel (i : AXES) (lowerNewValue : Bool) : Bool :=
  match i with
  | AXES.X => if lowerNewValue then DIRECTION_LEFT else DIRECTION_RIGHT
  | AXES.Y => if lowerNewValue then DIRECTION_FORWARD else DIRECTION_BACKWARD
  | AXES.Z => if lowerNewValue then DIRECTION_DOWN else DIRECTION_UP
  | _ => if lowerNewValue then DIRECTION_RETRACT else DIRECTION_EXTRUDE

/-- The steps/mm of motor `i` read from the EEPROM (motors.cpp 639, 654, 669, 685). -/
def stepsPerMmOf (e : Eeprom) (i : AXES) : ℚ :=
  match i with
  | AXES.X => e.X_MOTOR_STEPS_PER_MM
  | AXES.Y => e.Y_MOTOR_STEPS_PER_MM
  | AXES.Z => e.Z_MOTOR_STEPS_PER_MM
  | _ => e.E_MOTOR_STEPS_PER_MM

/-- The speed limit, maximum feed rate and minimum feed rate of motor `i` in a
physical pass (motors.cpp 642-647, 657-662, 672-677, 688-702). -/
def feedRateSettings (cfg : Config) (e : Eeprom) (i : AXES) (lowerNewValue : Bool) : ℚ × ℚ × ℚ :=
  match i with
  | AXES.X => (e.SPEED_LIMIT_X, cfg.EEPROM_SPEED_LIMIT_X_MAX, cfg.EEPROM_SPEED_LIMIT_X_MIN)
  | AXES.Y => (e.SPEED_LIMIT_Y, cfg.EEPROM_SPEED_LIMIT_Y_MAX, cfg.EEPROM_SPEED_LIMIT_Y_MIN)
  | AXES.Z => (e.SPEED_LIMIT_Z, cfg.EEPROM_SPEED_LIMIT_Z_MAX, cfg.EEPROM_SPEED_LIMIT_Z_MIN)
  | _ =>
    if lowerNewValue then
      (e.SPEED_LIMIT_E_NEGATIVE, cfg.EEPROM_SPEED_LIMIT_E_NEGATIVE_MAX,
        cfg.EEPROM_SPEED_LIMIT_E_NEGATIVE_MIN)
    else
      (e.SPEED_LIMIT_E_POSITIVE, cfg.EEPROM_SPEED_LIMIT_E_POSITIVE_MAX,
        cfg.EEPROM_SPEED_LIMIT_E_POSITIVE_MIN)

/-- The test `i == X || i == Y || i == Z` of the source. -/
def isLinear (i : AXES) : Bool := i = AXES.X || i = AXES.Y || i = AXES.Z

/-- The value of `newValue` of `Motors::move` for a motor whose parameter is
present, after unit conversion, relative resolution and clamping (motors.cpp
587-618). -/
def resolveNewValue (cfg : Config) (s : Motors) (tasks : Nat) (i : AXES) (value : ℚ) : ℚ :=
  let v1 :=
    if hasFlag tasks HANDLE_RECEIVED_COMMAND_TASK ∧ s.units = UNITS.INCHES then
      value * cfg.INCHES_TO_MILLIMETERS_SCALAR
    else value
  let v2 :=
    if (isLinear i ∧ s.mode = MODES.RELATIVE) ∨ (i = AXES.E ∧ s.extruderMode = MODES.RELATIVE) then
      v1 + s.currentValues i
    else v1
  if hasFlag tasks HANDLE_RECEIVED_COMMAND_TASK ∧ (i = AXES.X ∨ i = AXES.Y) then
    getValueInRange v2 (bedLimits (s.currentValues AXES.Z) i).1 (bedLimits (s.currentValues AXES.Z) i).2
  else v2

/-- The value of `totalNumberOfSteps` of `Motors::move` for motor `i` moving to
`newValue` (motors.cpp 621-706). -/
def totalNumberOfSteps (s : Motors) (i : AXES) (newValue : ℚ) : ℚ :=
  let distanceTraveled := |newValue - s.currentValues i|
  let lowerNewValue := decide (newValue < s.currentValues i)
  let directionChange := s.directionPin i != directionLevel i lowerNewValue
  distanceTraveled * stepsPerMmOf s.eeprom i * MICROSTEPS_PER_STEP
    + (if directionChange then -s.globals.motorsNumberOfRemainingSteps i
        else s.globals.motorsNumberOfRemainingSteps i)

/-- The motors with a higher index than `i`, in index order: those the loop of
`Motors::move` has gone through before `i`. -/
def motorsAfter (i : AXES) : List AXES :=
  match i with
  | AXES.X => [AXES.Y, AXES.Z, AXES.E]
  | AXES.Y => [AXES.Z, AXES.E]
  | AXES.Z => [AXES.E]
  | _ => []

/-- The loop that restores the previously calculated motors when a movement is
too big (motors.cpp 743-760). -/
def restoreMotors (validValues : AXES → Bool) (i : AXES) (s : Motors) : Motors :=
  (motorsAfter i).foldl
    (fun acc j =>
      { acc with
        currentValues := upd acc.currentValues j (acc.startValues j)
        currentStateOfValues :=
          if isLinear j then upd acc.currentStateOfValues j (validValues j)
          else acc.currentStateOfValues })
    s

/-- One iteration of the loop over the motors of `Motors::move` (motors.cpp
543-791) for motor `i` in a pass with tasks (`tasks` nonzero): the statements
guarded by `if(!tasks)` do not run. The result is `Except.error` with the
restored state when the source returns `false` (motors.cpp 740-764). -/
def moveMotorTask (cfg : Config) (gcode : Gcode) (tasks : Nat) (i : AXES)
    (sl : Motors × MoveLocals) : Except Motors (Motors × MoveLocals) :=
  let s := sl.1
  let l := sl.2
  -- motors.cpp 548-549
  let startValues := upd s.startValues i (s.currentValues i)
  -- motors.cpp 551-555
  let validValues :=
    if isLinear i then upd l.validValues i (s.currentStateOfValues i) else l.validValues
  -- motors.cpp 584-625
  let newValue := resolveNewValue cfg s tasks i (gcodeParameter gcode i).2
  let lowerNewValue := decide (newValue < s.currentValues i)
  -- motors.cpp 705-706
  let total := totalNumberOfSteps s i newValue
  if hasFlag gcode.commandParameters (gcodeParameter gcode i).1
      ∧ |newValue - s.currentValues i| ≠ 0 then
    if total ≥ 1 ∧ total > UINT32_MAX_AS_FLOAT then
      -- motors.cpp 740-764
      Except.error (restoreMotors validValues i { s with startValues := startValues })
    else
      Except.ok
        ({ s with
            startValues := startValues
            -- motors.cpp 766-777
            currentStateOfValues :=
              if total ≥ 1 ∧ isLinear i then upd s.currentStateOfValues i INVALID
              else s.currentStateOfValues
            -- motors.cpp 781-788
            currentValues := upd s.currentValues i newValue },
          { l with
            validValues := validValues
            -- motors.cpp 769-773
            backlashDirections :=
              if total ≥ 1 ∧ (i = AXES.X ∨ i = AXES.Y)
                  ∧ s.currentMotorDirections i ≠ directionLevel i lowerNewValue then
                upd l.backlashDirections i
                  (if lowerNewValue then BACKLASH_DIRECTION.NEGATIVE
                    else BACKLASH_DIRECTION.POSITIVE)
              else l.backlashDirections })
  else Except.ok ({ s with startValues := startValues }, { l with validValues := validValues })

/-- One iteration of the loop over the motors of `Motors::move` (motors.cpp
543-791) for motor `i` in a physical pass (`tasks` zero): the statements guarded
by `if(tasks)` do not run, and the source does not return in the loop. -/
def moveMotorPhysical (cfg : Config) (gcode : Gcode) (i : AXES)
    (sl : Motors × MoveLocals) : Motors × MoveLocals :=
  let s := sl.1
  let l := sl.2
  -- motors.cpp 584-625
  let newValue := resolveNewValue cfg s NO_TASK i (gcodeParameter gcode i).2
  let lowerNewValue := decide (newValue < s.currentValues i)
  -- motors.cpp 705-706: the direction pin is read before it is set
  let total := totalNumberOfSteps s i newValue
  if hasFlag gcode.commandParameters (gcodeParameter gcode i).1
      ∧ |newValue - s.currentValues i| ≠ 0 then
    -- motors.cpp 708-710, no step in the current direction
    let still : Globals :=
      { s.globals with
        motorsNumberOfRemainingSteps := upd s.globals.motorsNumberOfRemainingSteps i total }
    -- motors.cpp 716-725
    let moving : Globals :=
      { s.globals with
        motorsIsMoving := upd s.globals.motorsIsMoving i true
        motorsNumberOfSteps := upd s.globals.motorsNumberOfSteps i (toUInt32 total)
        motorsNumberOfRemainingSteps :=
          upd s.globals.motorsNumberOfRemainingSteps i (total - (toUInt32 total : ℚ)) }
    -- motors.cpp 727-734
    let settings := feedRateSettings cfg s.eeprom i lowerNewValue
    let motorFeedRate :=
      getValueInRange (min (s.currentValues AXES.F) settings.1) settings.2.2 settings.2.1
    ({ s with
        -- motors.cpp 643, 658, 673, 691, 697
        directionPin := upd s.directionPin i (directionLevel i lowerNewValue)
        globals := if total ≥ 1 then moving else still
        -- motors.cpp 781-788
        currentValues := upd s.currentValues i newValue },
      { l with
        movementsHighestNumberOfCycles :=
          if total ≥ 1 then
            max (getMovementsNumberOfCycles cfg.cpuHz moving i (stepsPerMmOf s.eeprom i) motorFeedRate)
              l.movementsHighestNumberOfCycles
          else l.movementsHighestNumberOfCycles })
  else (s, l)

/-- One iteration of the loop over the motors of `Motors::move` (motors.cpp
543-791) for motor `i`. -/
def moveMotor (cfg : Config) (gcode : Gcode) (tasks : Nat) (i : AXES)
    (sl : Motors × MoveLocals) : Except Motors (Motors × MoveLocals) :=
  if tasks ≠ 0 then moveMotorTask cfg gcode tasks i sl
  else Except.ok (moveMotorPhysical cfg gcode i sl)

/-- The loop over the motors of `Motors::move`, from the last motor down to the
first (motors.cpp 543). -/
def moveLoop (cfg : Config) (gcode : Gcode) (tasks : Nat) :
    List AXES → Motors × MoveLocals → Except Motors (Motors × MoveLocals)
  | [], sl => Except.ok sl
  | i :: rest, sl =>
    match moveMotor cfg gcode tasks i sl with
    | Except.ok sl1 => moveLoop cfg gcode tasks rest sl1
    | Except.error s1 => Except.error s1

/-- The order in which `Motors::move` goes through the motors: `E`, `Z`, `Y`, `X`. -/
def moveOrder : List AXES := [AXES.E, AXES.Z, AXES.Y, AXES.X]

/-- The setting of the F value at the start of `Motors::move` (motors.cpp 524-535). -/
def setFeedRate (cfg : Config) (gcode : Gcode) (tasks : Nat) (s : Motors) : Motors :=
  { s with
    currentValues :=
      if hasFlag gcode.commandParameters PARAMETER_F_OFFSET then
        upd s.currentValues AXES.F
          (if hasFlag tasks HANDLE_RECEIVED_COMMAND_TASK ∧ s.units = UNITS.INCHES then
            gcode.valueF * cfg.INCHES_TO_MILLIMETERS_SCALAR
          else gcode.valueF)
      else s.currentValues }

/-- The initial values of the local variables of `Motors::move` (motors.cpp
537-540); `validValues` is uninitialised in the source. -/
def initialLocals : MoveLocals :=
  { movementsHighestNumberOfCycles := 0
    backlashDirections := fun _ => BACKLASH_DIRECTION.NONE
    validValues := fun _ => false }

/-- Source `Motors::stopMotorsStepTimer` (motors.cpp 280-293). -/
def stopMotorsStepTimer (g : Globals) : Globals :=
  updateMotorsStepTimer { g with motorsIsMoving := fun _ => false }

/-- The busy-wait "until all motors stop moving or an emergency stop occurs"
(motors.cpp 873-918). Each iteration lets one period of the step timer pass.
The first argument is the number of periods after which the environment raises
the emergency stop. The regulation of the extruder current only writes a
reference voltage, which is not modelled. -/
def waitForMotors : Nat → Motors → Motors
  | 0, s =>
    { s with
      emergencyStopOccured := s.emergencyStopOccured || areMotorsMoving s.globals
      ticksToStop := 0 }
  | k + 1, s =>
    if areMotorsMoving s.globals && !s.emergencyStopOccured then
      waitForMotors k { s with globals := updateMotorsStepTimer s.globals }
    else { s with ticksToStop := k + 1 }

/-- The physical pass of `Motors::move` after the loop (motors.cpp 824-928). -/
def physicalPass (l : MoveLocals) (s : Motors) : Motors :=
  let g1 : Globals :=
    motorList.foldl
      (fun acc i =>
        if acc.motorsIsMoving i then setMotorDelayAndSkip i l.movementsHighestNumberOfCycles acc
        else acc)
      s.globals
  let s1 : Motors := waitForMotors s.ticksToStop { s with globals := g1 }
  { s1 with globals := stopMotorsStepTimer s1.globals }

/-- Source `Motors::move` called with `NO_TASK` (motors.cpp 522-932): the F value,
the loop over the motors and the physical pass. It always returns `true`. -/
def moveNoTask (cfg : Config) (gcode : Gcode) (s : Motors) : Motors :=
  match moveLoop cfg gcode NO_TASK moveOrder (setFeedRate cfg gcode NO_TASK s, initialLocals) with
  | Except.ok sl => if !sl.1.emergencyStopOccured then physicalPass sl.2 sl.1 else sl.1
  | Except.error s1 => s1

/-- The G-code of `Motors::compensateForBacklash` (motors.cpp 980-1000). The
values of the parameters that are not present are not initialised in the source. -/
def backlashGcode (e : Eeprom) (backlashDirectionX backlashDirectionY : BACKLASH_DIRECTION) :
    Gcode :=
  { commandParameters := PARAMETER_X_OFFSET ||| PARAMETER_Y_OFFSET ||| PARAMETER_F_OFFSET
    valueX :=
      if backlashDirectionX ≠ BACKLASH_DIRECTION.NONE then
        (if backlashDirectionX = BACKLASH_DIRECTION.NEGATIVE then e.BACKLASH_X * -1
          else e.BACKLASH_X)
      else 0
    valueY :=
      if backlashDirectionY ≠ BACKLASH_DIRECTION.NONE then
        (if backlashDirectionY = BACKLASH_DIRECTION.NEGATIVE then e.BACKLASH_Y * -1
          else e.BACKLASH_Y)
      else 0
    valueZ := 0
    valueE := 0
    valueF := e.BACKLASH_SPEED }

/-- Source `Motors::compensateForBacklash` (motors.cpp 961-1041). -/
def compensateForBacklash (cfg : Config)
    (backlashDirectionX backlashDirectionY : BACKLASH_DIRECTION) (s : Motors) : Motors :=
  -- motors.cpp 967-978 and 1002-1006
  let s1 : Motors :=
    { s with
      globals :=
        { s.globals with
          motorsNumberOfRemainingSteps :=
            upd (upd s.globals.motorsNumberOfRemainingSteps AXES.X 0) AXES.Y 0 }
      mode := MODES.RELATIVE }
  -- motors.cpp 1013-1014
  let s2 := moveNoTask cfg (backlashGcode s.eeprom backlashDirectionX backlashDirectionY) s1
  -- motors.cpp 1016-1040
  { s2 with
    currentValues :=
      upd (upd (upd s2.currentValues AXES.X (s.currentValues AXES.X)) AXES.Y
        (s.currentValues AXES.Y)) AXES.F (s.currentValues AXES.F)
    mode := s.mode
    globals :=
      { s2.globals with
        motorsNumberOfRemainingSteps :=
          upd (upd s2.globals.motorsNumberOfRemainingSteps AXES.X
            (s.globals.motorsNumberOfRemainingSteps AXES.X)) AXES.Y
            (s.globals.motorsNumberOfRemainingSteps AXES.Y) }
    directionPin :=
      upd (upd s2.directionPin AXES.X (s.directionPin AXES.X)) AXES.Y (s.directionPin AXES.Y) }

/-- The G-code of one segment of `Motors::splitUpMovement` (motors.cpp 1102-1133)
for the segment counter `segmentCounter`. -/
def segmentGcode (cfg : Config) (adjustHeight : Bool) (endValues valueChanges : AXES → ℚ)
    (numberOfSegments segmentCounter : Nat) (s : Motors) : Gcode :=
  let segmentValue (i : AXES) : ℚ :=
    if segmentCounter ≠ numberOfSegments then
      s.startValues i + (segmentCounter : ℚ) * SEGMENT_LENGTH * valueChanges i
    else endValues i
  let valueX := segmentValue AXES.X
  let valueY := segmentValue AXES.Y
  let valueZ :=
    if adjustHeight then segmentValue AXES.Z + getHeightAdjustmentRequired cfg s valueX valueY
    else segmentValue AXES.Z
  { commandParameters :=
      PARAMETER_X_OFFSET ||| PARAMETER_Y_OFFSET ||| PARAMETER_Z_OFFSET ||| PARAMETER_E_OFFSET
    valueX := valueX
    valueY := valueY
    valueZ := valueZ
    valueE := segmentValue AXES.E
    valueF := 0 }

/-- The loop over the segments of `Motors::splitUpMovement` (motors.cpp 1099-1143).
The first argument is `numberOfSegments - segmentCounter`, the number of
iterations that follow the current one. -/
def segmentLoop (cfg : Config) (adjustHeight : Bool) (endValues valueChanges : AXES → ℚ)
    (numberOfSegments : Nat) : Nat → Nat → Motors → Motors
  | 0, segmentCounter, s =>
    moveNoTask cfg
      (segmentGcode cfg adjustHeight endValues valueChanges numberOfSegments segmentCounter s) s
  | remaining + 1, segmentCounter, s =>
    segmentLoop cfg adjustHeight endValues valueChanges numberOfSegments remaining
      (segmentCounter + 1)
      (moveNoTask cfg
        (segmentGcode cfg adjustHeight endValues valueChanges numberOfSegments segmentCounter s) s)

/-- Source `Motors::splitUpMovement` (motors.cpp 1043-1157). -/
def splitUpMovement (cfg : Config) (adjustHeight : Bool) (s : Motors) : Motors :=
  -- motors.cpp 1049-1066
  let endValues := s.currentValues
  let startOfSegment : AXES → ℚ :=
    motorList.foldl (fun acc i => upd acc i (s.startValues i)) s.currentValues
  let valueChanges : AXES → ℚ := fun i => endValues i - s.startValues i
  -- motors.cpp 1081-1086
  let horizontalDistance := cfg.sqrt (valueChanges AXES.X ^ 2 + valueChanges AXES.Y ^ 2)
  let valueRatios : AXES → ℚ :=
    fun i => if horizontalDistance ≠ 0 then valueChanges i / horizontalDistance else 0
  -- motors.cpp 1068-1079 and 1092-1097
  let s1 : Motors :=
    { s with
      currentValues :=
        if adjustHeight then
          upd startOfSegment AXES.Z
            (startOfSegment AXES.Z
              + getHeightAdjustmentRequired cfg s (s.startValues AXES.X) (s.startValues AXES.Y))
        else startOfSegment
      mode := MODES.ABSOLUTE
      extruderMode := MODES.ABSOLUTE }
  -- motors.cpp 1099-1143
  let numberOfSegments := minimumOneCeil (horizontalDistance / SEGMENT_LENGTH)
  let segmentCounter := if adjustHeight then 1 else numberOfSegments
  let s2 :=
    segmentLoop cfg adjustHeight endValues valueRatios numberOfSegments
      (numberOfSegments - segmentCounter) segmentCounter s1
  -- motors.cpp 1145-1156
  { s2 with
    currentValues := upd s2.currentValues AXES.Z (endValues AXES.Z)
    mode := s.mode
    extruderMode := s.extruderMode }

/-- The backlash compensation of a pass with tasks of `Motors::move` (motors.cpp
796-800). -/
def backlashPass (cfg : Config) (tasks : Nat) (l : MoveLocals) (s : Motors) : Motors :=
  if hasFlag tasks BACKLASH_TASK
      ∧ (l.backlashDirections AXES.X ≠ BACKLASH_DIRECTION.NONE
        ∨ l.backlashDirections AXES.Y ≠ BACKLASH_DIRECTION.NONE) then
    compensateForBacklash cfg (l.backlashDirections AXES.X) (l.backlashDirections AXES.Y) s
  else s

/-- The recording of the changed X and Y directions at the end of a pass with
tasks of `Motors::move` (motors.cpp 805-812). -/
def recordDirections (l : MoveLocals) (s : Motors) : Motors :=
  { s with
    currentMotorDirections :=
      [AXES.X, AXES.Y].foldl
        (fun acc i =>
          if l.backlashDirections i ≠ BACKLASH_DIRECTION.NONE then
            upd acc i
              (directionLevel i (decide (l.backlashDirections i = BACKLASH_DIRECTION.NEGATIVE)))
          else acc)
        s.currentMotorDirections }

/-- The restoring of the validity flags at the end of a pass with tasks of
`Motors::move`, when no emergency stop occurred (motors.cpp 814-821). -/
def restoreValidity (l : MoveLocals) (s : Motors) : Motors :=
  { s with
    currentStateOfValues :=
      if !s.emergencyStopOccured then
        [AXES.X, AXES.Y, AXES.Z].foldl (fun acc i => upd acc i (l.validValues i))
          s.currentStateOfValues
      else s.currentStateOfValues }

/-- Source `Motors::move` (motors.cpp 522-932): the returned boolean and the state
on return. -/
def move (cfg : Config) (gcode : Gcode) (tasks : Nat) (s : Motors) : Bool × Motors :=
  match moveLoop cfg gcode tasks moveOrder (setFeedRate cfg gcode tasks s, initialLocals) with
  | Except.error s1 => (false, s1)
  | Except.ok sl =>
    if tasks ≠ 0 then
      -- motors.cpp 793-822
      (true,
        restoreValidity sl.2
          (recordDirections sl.2
            (splitUpMovement cfg (hasFlag tasks BED_LEVELING_TASK)
              (backlashPass cfg tasks sl.2 sl.1))))
    else if !sl.1.emergencyStopOccured then (true, physicalPass sl.2 sl.1)
    else (true, sl.1)

/-- The G-code of `Motors::moveToHeight` (motors.cpp 936-940). The values of the
parameters that are not present are not initialised in the source. -/
def heightGcode (cfg : Config) (height : ℚ) : Gcode :=
  { commandParameters := PARAMETER_Z_OFFSET ||| PARAMETER_F_OFFSET
    valueX := 0
    valueY := 0
    valueZ := height
    valueE := 0
    valueF := cfg.EEPROM_SPEED_LIMIT_Z_MAX }

/-- Source `Motors::moveToHeight` (motors.cpp 934-959). -/
def moveToHeight (cfg : Config) (height : ℚ) (s : Motors) : Motors :=
  let s1 := (move cfg (heightGcode cfg height) BACKLASH_TASK { s with mode := MODES.ABSOLUTE }).2
  { s1 with
    currentValues := upd s1.currentValues AXES.F (s.currentValues AXES.F)
    mode := s.mode }

/-- The state after the vectors are set and the bed changes are updated, as in
`Motors::initialize` (motors.cpp 449-457). -/
def calibratedState (cfg : Config) (z0 w0 : ℚ) (adjustHeight : Bool) (s : Motors) : Motors :=
  updateBedChanges cfg adjustHeight (setVectors z0 w0 s)

/-! ## The step scheduler seen from one motor -/

/-- The part of the scheduler state that belongs to one motor. -/
structure AxisState where
  skips : Nat
  skipsCounter : Nat
  delay : Nat
  delayCounter : Nat
  steps : Nat
  moving : Bool
  pin : Bool
deriving DecidableEq

/-- The scheduler state of motor `a`. -/
def axisOf (g : Globals) (a : AXES) : AxisState :=
  { skips := g.motorsDelaySkips a
    skipsCounter := g.motorsDelaySkipsCounter a
    delay := g.motorsStepDelay a
    delayCounter := g.motorsStepDelayCounter a
    steps := g.motorsNumberOfSteps a
    moving := g.motorsIsMoving a
    pin := g.stepPin a }

/-- The effect of `motorsStepAction` on the state of its own motor. -/
def axisAction (x : AxisState) : AxisState :=
  if x.skips ≠ 0 ∧ x.skipsCounter ≥ x.skips then { x with skipsCounter := 0 }
  else
    let skipsCounter := if x.skips ≠ 0 then (x.skipsCounter + 1) % 4294967296 else x.skipsCounter
    let c := (x.delayCounter + 1) % 4294967296
    if c ≥ x.delay then
      let n := (x.steps + 4294967295) % 4294967296
      { x with
        skipsCounter := skipsCounter
        steps := n
        moving := if n = 0 then false else x.moving
        pin := true
        delayCounter := 0 }
    else { x with skipsCounter := skipsCounter, delayCounter := c }

/-- The effect of one tick of the step timer on the state of one motor. -/
def axisTick (x : AxisState) : AxisState :=
  if x.moving then axisAction { x with pin := false } else { x with pin := false }

/-- The state of one motor after `k` ticks. -/
def axisTicks : Nat → AxisState → AxisState
  | 0, x => x
  | k + 1, x => axisTicks k (axisTick x)

/-- The number of pulses of one motor during `k` ticks. -/
def axisPulses : Nat → AxisState → Nat
  | 0, _ => 0
  | k + 1, x => (if (axisTick x).pin then 1 else 0) + axisPulses k (axisTick x)

/-- A motor in the Stepping state whose values fit `uint32_t`, with at least one
step left, a delay of at least one tick and counters below their thresholds. -/
def AxisOk (x : AxisState) : Prop :=
  1 ≤ x.steps ∧ x.steps < 4294967296 ∧ 1 ≤ x.delay ∧ x.delay < 4294967296
    ∧ x.delayCounter < x.delay ∧ x.skips < 4294967296 ∧ x.skipsCounter ≤ x.skips
    ∧ x.moving = true

/-- The skip counter after a tick that is not suppressed. -/
def countedSkips (x : AxisState) : Nat :=
  if x.skips ≠ 0 then x.skipsCounter + 1 else x.skipsCounter

/-- A bound on the number of ticks a motor in the Stepping state still needs;
it decreases with every tick. -/
def axisMeasure (x : AxisState) : Nat :=
  2 * (x.steps * x.delay - x.delayCounter)
    + (if x.skips ≠ 0 ∧ x.skipsCounter ≥ x.skips then 1 else 0)

/-- The body of the loop of `updateMotorsStepTimer` for motor `i`. -/
def stepIfMoving (i : AXES) (g : Globals) : Globals :=
  if g.motorsIsMoving i then motorsStepAction i g else g

/-- A scheduler state in which motor X is Stepping with two steps, delay three
and skip interval one, and the other motors are Idle. -/
def steppingExample : Globals :=
  { motorsDelaySkips := fun i => if i = AXES.X then 1 else 0
    motorsDelaySkipsCounter := fun _ => 0
    motorsStepDelay := fun i => if i = AXES.X then 3 else 0
    motorsStepDelayCounter := fun _ => 0
    motorsNumberOfSteps := fun i => if i = AXES.X then 2 else 0
    motorsNumberOfRemainingSteps := fun _ => 0
    motorsIsMoving := fun i => decide (i = AXES.X)
    stepPin := fun _ => false }

/-- The value of `currentValues[i]` after the iteration of the loop of
`Motors::move` for motor `i`, started in state `s`. -/
def targetValue (cfg : Config) (gcode : Gcode) (tasks : Nat) (s : Motors) (i : AXES) : ℚ :=
  if hasFlag gcode.commandParameters (gcodeParameter gcode i).1 then
    resolveNewValue cfg s tasks i (gcodeParameter gcode i).2
  else s.currentValues i

/-- The step count `totalNumberOfSteps` that the iteration for motor `i`, started
in state `s`, computes is at least one and exceeds `UINT32_MAX` as the comparison of
motors.cpp 741 converts it, 2^32. -/
def overflowAt (cfg : Config) (gcode : Gcode) (tasks : Nat) (s : Motors) (i : AXES) : Prop :=
  hasFlag gcode.commandParameters (gcodeParameter gcode i).1
    ∧ |resolveNewValue cfg s tasks i (gcodeParameter gcode i).2 - s.currentValues i| ≠ 0
    ∧ totalNumberOfSteps s i (resolveNewValue cfg s tasks i (gcodeParameter gcode i).2) ≥ 1
    ∧ totalNumberOfSteps s i (resolveNewValue cfg s tasks i (gcodeParameter gcode i).2)
        > UINT32_MAX_AS_FLOAT

/-- The state after an iteration of the loop of `Motors::move` for motor `i` in a
pass with tasks that does not return. -/
def taskState (cfg : Config) (gcode : Gcode) (tasks : Nat) (i : AXES) (s : Motors) : Motors :=
  { s with
    startValues := upd s.startValues i (s.currentValues i)
    currentStateOfValues :=
      if hasFlag gcode.commandParameters (gcodeParameter gcode i).1
          ∧ |resolveNewValue cfg s tasks i (gcodeParameter gcode i).2 - s.currentValues i| ≠ 0
          ∧ totalNumberOfSteps s i (resolveNewValue cfg s tasks i (gcodeParameter gcode i).2) ≥ 1
          ∧ isLinear i then
        upd s.currentStateOfValues i INVALID
      else s.currentStateOfValues
    currentValues := upd s.currentValues i (targetValue cfg gcode tasks s i) }

/-- The validity flags saved by an iteration of the loop of `Motors::move` for
motor `i` in a pass with tasks. -/
def taskValidValues (i : AXES) (s : Motors) (validValues : AXES → Bool) : AXES → Bool :=
  if isLinear i then upd validValues i (s.currentStateOfValues i) else validValues

/-- The local variables after an iteration of the loop of `Motors::move` for
motor `i` in a pass with tasks that does not return. -/
def taskLocals (cfg : Config) (gcode : Gcode) (tasks : Nat) (i : AXES) (s : Motors)
    (l : MoveLocals) : MoveLocals :=
  { l with
    validValues := taskValidValues i s l.validValues
    backlashDirections :=
      if hasFlag gcode.commandParameters (gcodeParameter gcode i).1
          ∧ |resolveNewValue cfg s tasks i (gcodeParameter gcode i).2 - s.currentValues i| ≠ 0
          ∧ totalNumberOfSteps s i (resolveNewValue cfg s tasks i (gcodeParameter gcode i).2) ≥ 1
          ∧ (i = AXES.X ∨ i = AXES.Y)
          ∧ s.currentMotorDirections i
              ≠ directionLevel i
                  (decide (resolveNewValue cfg s tasks i (gcodeParameter gcode i).2
                    < s.currentValues i)) then
        upd l.backlashDirections i
          (if decide (resolveNewValue cfg s tasks i (gcodeParameter gcode i).2 < s.currentValues i)
            then BACKLASH_DIRECTION.NEGATIVE else BACKLASH_DIRECTION.POSITIVE)
      else l.backlashDirections }

/-- The state in which the loop of `Motors::move`, in a pass with tasks started in
state `s`, reaches motor `i`, when it has not returned before. -/
def stateBefore (cfg : Config) (gcode : Gcode) (tasks : Nat) (s : Motors) (i : AXES) : Motors :=
  match i with
  | AXES.Z => taskState cfg gcode tasks AXES.E s
  | AXES.Y => taskState cfg gcode tasks AXES.Z (taskState cfg gcode tasks AXES.E s)
  | AXES.X =>
    taskState cfg gcode tasks AXES.Y
      (taskState cfg gcode tasks AXES.Z (taskState cfg gcode tasks AXES.E s))
  | _ => s

/-- Some motor's computed step count exceeds `UINT32_MAX` as the comparison of
motors.cpp 741 converts it, 2^32, in a pass with tasks of `Motors::move` started in
state `s`: the pass takes the branch of motors.cpp 743-763. -/
def overflows (cfg : Config) (gcode : Gcode) (tasks : Nat) (s : Motors) : Prop :=
  ∃ i, i ∈ moveOrder
    ∧ overflowAt cfg gcode tasks (stateBefore cfg gcode tasks (setFeedRate cfg gcode tasks s) i) i

/-- Sample values for the constants of the headers that are not among the
sources. The square root stand-in is exact on `0` and `1`, and the normalisation
stand-in is not reached by the examples. -/
def exampleConfig : Config :=
  { cpuHz := 32000000
    INCHES_TO_MILLIMETERS_SCALAR := 127 / 5
    EEPROM_SPEED_LIMIT_X_MAX := 4800
    EEPROM_SPEED_LIMIT_X_MIN := 120
    EEPROM_SPEED_LIMIT_Y_MAX := 4800
    EEPROM_SPEED_LIMIT_Y_MIN := 120
    EEPROM_SPEED_LIMIT_Z_MAX := 60
    EEPROM_SPEED_LIMIT_Z_MIN := 30
    EEPROM_SPEED_LIMIT_E_POSITIVE_MAX := 600
    EEPROM_SPEED_LIMIT_E_POSITIVE_MIN := 60
    EEPROM_SPEED_LIMIT_E_NEGATIVE_MAX := 720
    EEPROM_SPEED_LIMIT_E_NEGATIVE_MIN := 60
    sqrt := fun x => x
    normalize := fun v => v }

/-- Sample EEPROM contents: 100 steps/mm on every motor and a flat bed. -/
def exampleEeprom : Eeprom :=
  { X_MOTOR_STEPS_PER_MM := 100
    Y_MOTOR_STEPS_PER_MM := 100
    Z_MOTOR_STEPS_PER_MM := 100
    E_MOTOR_STEPS_PER_MM := 100
    SPEED_LIMIT_X := 1500
    SPEED_LIMIT_Y := 1500
    SPEED_LIMIT_Z := 60
    SPEED_LIMIT_E_POSITIVE := 100
    SPEED_LIMIT_E_NEGATIVE := 100
    BACKLASH_X := 3 / 10
    BACKLASH_Y := 3 / 5
    BACKLASH_SPEED := 1500
    BED_ORIENTATION_BACK_RIGHT := 0
    BED_ORIENTATION_BACK_LEFT := 0
    BED_ORIENTATION_FRONT_LEFT := 0
    BED_ORIENTATION_FRONT_RIGHT := 0
    BED_OFFSET_BACK_RIGHT := 0
    BED_OFFSET_BACK_LEFT := 0
    BED_OFFSET_FRONT_LEFT := 0
    BED_OFFSET_FRONT_RIGHT := 0
    BED_HEIGHT_OFFSET := 0 }

/-- A sample state: every axis at zero and valid, feed rate 1000, absolute modes,
millimetres, all motors Idle and no emergency stop. -/
def exampleMotors : Motors :=
  { currentValues := fun i => if i = AXES.F then 1000 else 0
    startValues := fun _ => 0
    currentStateOfValues := fun _ => VALID
    currentMotorDirections := fun _ => false
    mode := MODES.ABSOLUTE
    extruderMode := MODES.ABSOLUTE
    units := UNITS.MILLIMETERS
    emergencyStopOccured := false
    backRightVector := ⟨99, 95, 0, 1⟩
    backLeftVector := ⟨9, 95, 0, 1⟩
    frontLeftVector := ⟨9, 5, 0, 1⟩
    frontRightVector := ⟨99, 5, 0, 1⟩
    centerVector := ⟨54, 50, 0, 1⟩
    backPlane := ⟨0, 0, -4050, 0⟩
    leftPlane := ⟨0, 0, 4050, 0⟩
    rightPlane := ⟨0, 0, -4050, 0⟩
    frontPlane := ⟨0, 0, 4050, 0⟩
    bedHeightOffset := 0
    directionPin := fun _ => false
    globals :=
      { motorsDelaySkips := fun _ => 0
        motorsDelaySkipsCounter := fun _ => 0
        motorsStepDelay := fun _ => 0
        motorsStepDelayCounter := fun _ => 0
        motorsNumberOfSteps := fun _ => 0
        motorsNumberOfRemainingSteps := fun _ => 0
        motorsIsMoving := fun _ => false
        stepPin := fun _ => false }
    eeprom := exampleEeprom
    ticksToStop := 1000000 }

/-- A command that moves the extruder by 5 mm and Z to 10^10 mm at feed rate 100. -/
def overflowGcode : Gcode :=
  { commandParameters := PARAMETER_Z_OFFSET ||| PARAMETER_E_OFFSET ||| PARAMETER_F_OFFSET
    valueX := 0
    valueY := 0
    valueZ := 10000000000
    valueE := 5
    valueF := 100 }

/-- Two motors of one move: X with 42 steps and Y with 30 steps, both Stepping. -/
def syncExample : Globals :=
  { motorsDelaySkips := fun _ => 0
    motorsDelaySkipsCounter := fun _ => 0
    motorsStepDelay := fun _ => 0
    motorsStepDelayCounter := fun _ => 0
    motorsNumberOfSteps := fun i => if i = AXES.X then 42 else if i = AXES.Y then 30 else 0
    motorsNumberOfRemainingSteps := fun _ => 0
    motorsIsMoving := fun i => decide (i = AXES.X ∨ i = AXES.Y)
    stepPin := fun _ => false }

/-- The delays and skip intervals of `syncExample` for a budget of 43008 cycles. -/
def syncStart : Globals :=
  { motorsDelaySkips := fun i => if i = AXES.X then 42 else if i = AXES.Y then 2 else 0
    motorsDelaySkipsCounter := fun _ => 0
    motorsStepDelay := fun i => if i = AXES.X then 1 else if i = AXES.Y then 1 else 0
    motorsStepDelayCounter := fun _ => 0
    motorsNumberOfSteps := fun i => if i = AXES.X then 42 else if i = AXES.Y then 30 else 0
    motorsNumberOfRemainingSteps := fun _ => 0
    motorsIsMoving := fun i => decide (i = AXES.X ∨ i = AXES.Y)
    stepPin := fun _ => false }

/-- The state `r` has the fields of `s` that no pass of `move` writes in its loop
or in its physical pass: start values, validity flags, recorded directions,
modes, units, bed vectors and planes, and the EEPROM contents. -/
def sameLogical (s r : Motors) : Prop :=
  r.startValues = s.startValues ∧ r.currentStateOfValues = s.currentStateOfValues
    ∧ r.currentMotorDirections = s.currentMotorDirections ∧ r.mode = s.mode
    ∧ r.extruderMode = s.extruderMode ∧ r.units = s.units
    ∧ r.backRightVector = s.backRightVector ∧ r.backLeftVector = s.backLeftVector
    ∧ r.frontLeftVector = s.frontLeftVector ∧ r.frontRightVector = s.frontRightVector
    ∧ r.centerVector = s.centerVector ∧ r.backPlane = s.backPlane ∧ r.leftPlane = s.leftPlane
    ∧ r.rightPlane = s.rightPlane ∧ r.frontPlane = s.frontPlane
    ∧ r.bedHeightOffset = s.bedHeightOffset ∧ r.eeprom = s.eeprom

/-- The value of `currentValues[i]` after a physical pass of `move`, from the
modes and the value `cur` before it. -/
def physTarget (gcode : Gcode) (mode extruderMode : MODES) (cur : ℚ) (i : AXES) : ℚ :=
  if hasFlag gcode.commandParameters (gcodeParameter gcode i).1 then
    (if (isLinear i ∧ mode = MODES.RELATIVE) ∨ (i = AXES.E ∧ extruderMode = MODES.RELATIVE) then
      (gcodeParameter gcode i).2 + cur
    else (gcodeParameter gcode i).2)
  else cur

/-- The target of motor `i` before clamping, in the words of the specification:
the commanded value, converted to millimetres for a received command in inches,
taken as it is in absolute mode and added to the current value in relative mode;
X, Y and Z are governed by `mode`, the extruder by `extruderMode`. -/
def unclampedTarget (cfg : Config) (tasks : Nat) (s : Motors) (i : AXES) (commanded : ℚ) : ℚ :=
  let millimetres :=
    if hasFlag tasks HANDLE_RECEIVED_COMMAND_TASK = true ∧ s.units = UNITS.INCHES then
      commanded * cfg.INCHES_TO_MILLIMETERS_SCALAR
    else commanded
  match i with
  | AXES.E =>
    if s.extruderMode = MODES.RELATIVE then s.currentValues AXES.E + millimetres else millimetres
  | AXES.F => millimetres
  | _ => if s.mode = MODES.RELATIVE then s.currentValues i + millimetres else millimetres

/-- The resolved target of motor `i`, in the words of the specification: for X
and Y in a received command the unclamped target brought into the band of the Z
value `zBand` by `getValueInRange`, otherwise the unclamped target. -/
def resolvedTarget (cfg : Config) (tasks : Nat) (s : Motors) (i : AXES) (commanded zBand : ℚ) :
    ℚ :=
  if hasFlag tasks HANDLE_RECEIVED_COMMAND_TASK = true ∧ (i = AXES.X ∨ i = AXES.Y) then
    getValueInRange (unclampedTarget cfg tasks s i commanded) (bedLimits zBand i).1
      (bedLimits zBand i).2
  else unclampedTarget cfg tasks s i commanded

/-- A received command that asks for X = 1000 mm, beyond every band. -/
def clampGcode : Gcode :=
  { commandParameters := PARAMETER_X_OFFSET
    valueX := 1000
    valueY := 0
    valueZ := 0
    valueE := 0
    valueF := 0 }

/-- A command that moves X to 10 mm and Z to 2 mm. -/
def levelGcode : Gcode :=
  { commandParameters := PARAMETER_X_OFFSET ||| PARAMETER_Z_OFFSET
    valueX := 10
    valueY := 0
    valueZ := 2
    valueE := 0
    valueF := 0 }

/-- The sample state with the relative mode selected. -/
def relativeMotors : Motors := { exampleMotors with mode := MODES.RELATIVE }

/-- The carry-over of every motor lies in `[-1, 1)`. -/
def remainingInRange (g : Globals) : Prop :=
  ∀ i, -1 ≤ g.motorsNumberOfRemainingSteps i ∧ g.motorsNumberOfRemainingSteps i < 1

/-- The carry-over that the iteration of `Motors::move` for motor `i` leaves in a
physical pass (motors.cpp 705-725), from the value `total` of `totalNumberOfSteps`. -/
def remainingAfter (total : ℚ) : ℚ :=
  if total ≥ 1 then total - (toUInt32 total : ℚ) else total

/-- The value of `totalNumberOfSteps` that the iteration of `Motors::move` for a
motor `i` whose parameter is present, started in state `s`, computes in a
physical pass (motors.cpp 584-706). -/
def physicalSteps (cfg : Config) (gcode : Gcode) (s : Motors) (i : AXES) : ℚ :=
  totalNumberOfSteps s i (resolveNewValue cfg s NO_TASK i (gcodeParameter gcode i).2)

/-- The test "parameter present and motor moves" of the iteration of `Motors::move`
for motor `i` in a physical pass started in state `s` (motors.cpp 585, 621-622). -/
def physicalMoves (cfg : Config) (gcode : Gcode) (s : Motors) (i : AXES) : Prop :=
  hasFlag gcode.commandParameters (gcodeParameter gcode i).1
    ∧ |resolveNewValue cfg s NO_TASK i (gcodeParameter gcode i).2 - s.currentValues i| ≠ 0

/-- The state after the loop over the motors of `Motors::move` in a pass with
tasks, started in state `s`, that does not return in the loop. -/
def loopState (cfg : Config) (gcode : Gcode) (tasks : Nat) (s : Motors) : Motors :=
  taskState cfg gcode tasks AXES.X
    (stateBefore cfg gcode tasks (setFeedRate cfg gcode tasks s) AXES.X)

/-- The local variables after the loop over the motors of `Motors::move` in a pass
with tasks, started in state `s`, that does not return in the loop. -/
def loopLocals (cfg : Config) (gcode : Gcode) (tasks : Nat) (s : Motors) : MoveLocals :=
  taskLocals cfg gcode tasks AXES.X
    (stateBefore cfg gcode tasks (setFeedRate cfg gcode tasks s) AXES.X)
    (taskLocals cfg gcode tasks AXES.Y
      (stateBefore cfg gcode tasks (setFeedRate cfg gcode tasks s) AXES.Y)
      (taskLocals cfg gcode tasks AXES.Z
        (stateBefore cfg gcode tasks (setFeedRate cfg gcode tasks s) AXES.Z)
        (taskLocals cfg gcode tasks AXES.E (setFeedRate cfg gcode tasks s) initialLocals)))

/-- The state before the validity flags are restored at the end of a pass with
tasks of `Motors::move` (motors.cpp 793-812). -/
def beforeRestore (cfg : Config) (gcode : Gcode) (tasks : Nat) (s : Motors) : Motors :=
  recordDirections (loopLocals cfg gcode tasks s)
    (splitUpMovement cfg (hasFlag tasks BED_LEVELING_TASK)
      (backlashPass cfg tasks (loopLocals cfg gcode tasks s) (loopState cfg gcode tasks s)))

/-- The test of the loop of `Motors::move`, in a pass with tasks started in state
`s`, that motor `i` is requested, moves, and moves by at least one step (motors.cpp
585, 622, 712). -/
def stepsAtLeastOne (cfg : Config) (gcode : Gcode) (tasks : Nat) (s : Motors) (i : AXES) : Prop :=
  hasFlag gcode.commandParameters (gcodeParameter gcode i).1
    ∧ |resolveNewValue cfg (stateBefore cfg gcode tasks (setFeedRate cfg gcode tasks s) i) tasks i
          (gcodeParameter gcode i).2
        - (stateBefore cfg gcode tasks (setFeedRate cfg gcode tasks s) i).currentValues i| ≠ 0
    ∧ totalNumberOfSteps (stateBefore cfg gcode tasks (setFeedRate cfg gcode tasks s) i) i
        (resolveNewValue cfg (stateBefore cfg gcode tasks (setFeedRate cfg gcode tasks s) i) tasks i
          (gcodeParameter gcode i).2) ≥ 1

/-- The state after the loop over the motors of `Motors::move` in a physical pass
started in state `s`. -/
def physicalLoopState (cfg : Config) (gcode : Gcode) (s : Motors) : Motors × MoveLocals :=
  moveOrder.foldl (fun acc i => moveMotorPhysical cfg gcode i acc)
    (setFeedRate cfg gcode NO_TASK s, initialLocals)

/-- The G-code of the last segment of `Motors::splitUpMovement` when the height is
not adjusted: all four motors, at their end values (motors.cpp 1090, 1102-1133). -/
def endGcode (endValues : AXES → ℚ) : Gcode :=
  { commandParameters :=
      PARAMETER_X_OFFSET ||| PARAMETER_Y_OFFSET ||| PARAMETER_Z_OFFSET ||| PARAMETER_E_OFFSET
    valueX := endValues AXES.X
    valueY := endValues AXES.Y
    valueZ := endValues AXES.Z
    valueE := endValues AXES.E
    valueF := 0 }

/-- The state in which `Motors::splitUpMovement` starts its segments when the
height is not adjusted: the motors at their start values, both modes absolute
(motors.cpp 1049-1066, 1092-1097). -/
def segmentStart (s : Motors) : Motors :=
  { s with
    currentValues := motorList.foldl (fun acc i => upd acc i (s.startValues i)) s.currentValues
    mode := MODES.ABSOLUTE
    extruderMode := MODES.ABSOLUTE }

/-- The state in which `Motors::compensateForBacklash` makes its move: the
carry-over of X and Y cleared and the mode relative (motors.cpp 967-978, 1002-1006). -/
def backlashStart (s : Motors) : Motors :=
  { s with
    globals :=
      { s.globals with
        motorsNumberOfRemainingSteps :=
          upd (upd s.globals.motorsNumberOfRemainingSteps AXES.X 0) AXES.Y 0 }
    mode := MODES.RELATIVE }

/-- The state from which the move of `Motors::splitUpMovement` starts in a pass
with tasks: after the loop and the backlash compensation. -/
def afterBacklash (cfg : Config) (gcode : Gcode) (tasks : Nat) (s : Motors) : Motors :=
  backlashPass cfg tasks (loopLocals cfg gcode tasks s) (loopState cfg gcode tasks s)

/-- The move that `splitUpMovement` makes in a pass with tasks without bed
leveling. -/
def segmentMove (cfg : Config) (gcode : Gcode) (tasks : Nat) (s : Motors) : Motors :=
  moveNoTask cfg (endGcode (afterBacklash cfg gcode tasks s).currentValues)
    (segmentStart (afterBacklash cfg gcode tasks s))

/-- The sample state when the environment raises the emergency stop as soon as
motors are waited for. -/
def stopPendingMotors : Motors := { exampleMotors with ticksToStop := 0 }

/-- A command that moves X to -1 mm. -/
def leftGcode : Gcode :=
  { commandParameters := PARAMETER_X_OFFSET
    valueX := -1
    valueY := 0
    valueZ := 0
    valueE := 0
    valueF := 0 }

/-- The value of `distanceTraveled` that the iteration of `Motors::move` for motor
`i` computes in a physical pass started in state `s` (motors.cpp 621). -/
def physicalDistance (cfg : Config) (gcode : Gcode) (s : Motors) (i : AXES) : ℚ :=
  |resolveNewValue cfg s NO_TASK i (gcodeParameter gcode i).2 - s.currentValues i|

/-- The value of `motorFeedRate` that the iteration of `Motors::move` for motor `i`
computes in a physical pass started in state `s`: the F value after the command,
limited by the speed limit of the motor and brought into the range of its minimum
and maximum feed rates (motors.cpp 524-535, 727-731). -/
def motorFeedRate (cfg : Config) (gcode : Gcode) (s : Motors) (i : AXES) : ℚ :=
  getValueInRange
    (min ((setFeedRate cfg gcode NO_TASK s).currentValues AXES.F)
      (feedRateSettings cfg s.eeprom i
        (decide (resolveNewValue cfg s NO_TASK i (gcodeParameter gcode i).2
          < s.currentValues i))).1)
    (feedRateSettings cfg s.eeprom i
      (decide (resolveNewValue cfg s NO_TASK i (gcodeParameter gcode i).2
        < s.currentValues i))).2.2
    (feedRateSettings cfg s.eeprom i
      (decide (resolveNewValue cfg s NO_TASK i (gcodeParameter gcode i).2
        < s.currentValues i))).2.1

/-- A command that moves X to 50 mm at 1500 mm/min. -/
def fiftyGcode : Gcode :=
  { commandParameters := PARAMETER_X_OFFSET ||| PARAMETER_F_OFFSET
    valueX := 50
    valueY := 0
    valueZ := 0
    valueE := 0
    valueF := 1500 }

/-- The sample state with 200 steps/mm on the X motor. -/
def fineMotors : Motors :=
  { exampleMotors with eeprom := { exampleEeprom with X_MOTOR_STEPS_PER_MM := 200 } }

/-- The sample constants with a CPU clock of `c` Hz. -/
def clockConfig (c : ℚ) : Config := { exampleConfig with cpuHz := c }

/-- Constant `HOMING_FEED_RATE` (motors.cpp 19). -/
def HOMING_FEED_RATE : ℚ := 1500

/-- Constant `CALIBRATING_Z_FEED_RATE` (motors.cpp 20). -/
def CALIBRATING_Z_FEED_RATE : ℚ := 17

/-- Constant `HOMING_ADDITIONAL_DISTANCE` (motors.cpp 22). -/
def HOMING_ADDITIONAL_DISTANCE : ℚ := 8

/-- Constant `BED_CENTER_X` (motors.cpp 25). -/
def BED_CENTER_X : ℚ := 54

/-- Constant `BED_CENTER_Y` (motors.cpp 26). -/
def BED_CENTER_Y : ℚ := 50

/-- Constant `BED_CENTER_X_DISTANCE_FROM_HOMING_CORNER` (motors.cpp 27). -/
def BED_CENTER_X_DISTANCE_FROM_HOMING_CORNER : ℚ := 55

/-- Constant `BED_CENTER_Y_DISTANCE_FROM_HOMING_CORNER` (motors.cpp 28). -/
def BED_CENTER_Y_DISTANCE_FROM_HOMING_CORNER : ℚ := 55

/-- Constant `BED_CALIBRATION_POSITIONS_DISTANCE_FROM_CENTER` (motors.cpp 29). -/
def BED_CALIBRATION_POSITIONS_DISTANCE_FROM_CENTER : ℚ := 45

/-- Modelled from the spec: the accelerometer as `Motors` uses it; the class that
motors.cpp is written against (`readAccelerationValues` returning a boolean, the
member `isWorking`) is not among the sources. -/
structure Accelerometer where
  isWorking : Bool
  xAcceleration : Int
  yAcceleration : Int

/-- What the environment delivers for one call of `readAccelerationValues`:
whether the read succeeds, the sample, and the number of periods of the step timer
that pass during the call. -/
structure Reading where
  success : Bool
  xAcceleration : Int
  yAcceleration : Int
  ticks : Nat

/-- Constants of headers that are not among the sources (`eeprom.h`,
`accelerometer.h`) and the EEPROM cells that the homing and calibration procedures
only read. -/
structure SensorConfig where
  EEPROM_X_JERK_SENSITIVITY_MAX : Nat
  EEPROM_Y_JERK_SENSITIVITY_MAX : Nat
  X_JERK_SENSITIVITY : Nat
  Y_JERK_SENSITIVITY : Nat
  Y_TILT_ACCELERATION : ℚ
  CALIBRATE_Z0_CORRECTION : ℚ
  BED_ORIENTATION_VERSION : Nat

/-- The `Motors` object with its accelerometer, the stored byte
`EEPROM_BED_ORIENTATION_VERSION` and the environment of the sensing loops:
`sessions` holds, for each sensing loop that is started (a homing stroke, a descent
of the Z-touch), the readings that the accelerometer delivers during it; a read
beyond the readings of its session fails. -/
structure Printer where
  motors : Motors
  accelerometer : Accelerometer
  bedOrientationVersion : Nat
  sessions : List (List Reading)

/-- The four calibrated corners of the bed. -/
inductive BedCorner where
  | FRONT_LEFT
  | FRONT_RIGHT
  | BACK_RIGHT
  | BACK_LEFT
deriving DecidableEq

/-- The passing of `n` periods of the step timer while it runs: each period the
interrupt `updateMotorsStepTimer` runs; the environment raises the emergency stop
when a period passes with `ticksToStop` at zero. -/
def elapse : Nat → Motors → Motors
  | 0, s => s
  | n + 1, s =>
    if s.ticksToStop = 0 then
      elapse n
        { s with
          emergencyStopOccured := true
          globals := updateMotorsStepTimer s.globals }
    else
      elapse n
        { s with
          globals := updateMotorsStepTimer s.globals
          ticksToStop := s.ticksToStop - 1 }

/-- Modelled from the spec: `Accelerometer::readAccelerationValues`, which is not
among the sources in the form motors.cpp uses; a successful read stores the sample,
and the accelerometer is working exactly when its last read succeeded. -/
def readAccelerationValues (r : Reading) (a : Accelerometer) : Bool × Accelerometer :=
  if r.success then
    (true, { isWorking := true, xAcceleration := r.xAcceleration, yAcceleration := r.yAcceleration })
  else (false, { a with isWorking := false })

/-- The value of `distance` in `Motors::homeXY` (motors.cpp 1336, 1349). -/
def homingDistance (i : AXES) : ℚ :=
  if i = AXES.Y then
    max (max BED_LOW_MAX_Y BED_MEDIUM_MAX_Y) BED_HIGH_MAX_Y
      - min (min BED_LOW_MIN_Y BED_MEDIUM_MIN_Y) BED_HIGH_MIN_Y + HOMING_ADDITIONAL_DISTANCE
  else
    max (max BED_LOW_MAX_X BED_MEDIUM_MAX_X) BED_HIGH_MAX_X
      - min (min BED_LOW_MIN_X BED_MEDIUM_MIN_X) BED_HIGH_MIN_X + HOMING_ADDITIONAL_DISTANCE

/-- The value of the `uint8_t` variable `jerkAcceleration` in `Motors::homeXY`
(motors.cpp 1363). -/
def jerkAcceleration (sc : SensorConfig) (i : AXES) : Nat :=
  Int.toNat
    ((((if i = AXES.Y then sc.EEPROM_Y_JERK_SENSITIVITY_MAX
          else sc.EEPROM_X_JERK_SENSITIVITY_MAX : Nat) : Int)
        - ((if i = AXES.Y then sc.Y_JERK_SENSITIVITY else sc.X_JERK_SENSITIVITY : Nat) : Int))
      % 256)

/-- The setting up of a homing stroke of motor `i` in `Motors::homeXY` (motors.cpp
1331-1375): direction, number of steps, cleared carry-over, delay and skips, moving
flag. -/
def homingSetup (cfg : Config) (i : AXES) (s : Motors) : Motors :=
  let stepsPerMm := stepsPerMmOf s.eeprom i
  let g1 : Globals :=
    { s.globals with
      motorsNumberOfSteps :=
        upd s.globals.motorsNumberOfSteps i
          (minimumOneCeil (homingDistance i * stepsPerMm * MICROSTEPS_PER_STEP) % 4294967296)
      motorsNumberOfRemainingSteps := upd s.globals.motorsNumberOfRemainingSteps i 0 }
  let g2 : Globals :=
    setMotorDelayAndSkip i (getMovementsNumberOfCycles cfg.cpuHz g1 i stepsPerMm HOMING_FEED_RATE) g1
  { s with
    directionPin :=
      upd s.directionPin i (if i = AXES.Y then DIRECTION_BACKWARD else DIRECTION_RIGHT)
    currentMotorDirections :=
      upd s.currentMotorDirections i (if i = AXES.Y then DIRECTION_BACKWARD else DIRECTION_RIGHT)
    globals := { g2 with motorsIsMoving := upd g2.motorsIsMoving i true } }

/-- The loop of a homing stroke, "wait until all motors stop moving or an emergency
stop occurs" (motors.cpp 1384-1409), over the readings of its session; the
arguments after the readings are `firstRun`, `lastValue` and `counter`. -/
def homingLoop (i : AXES) (jerk : Nat) :
    List Reading → Bool → Int → Nat → Motors × Accelerometer → Motors × Accelerometer
  | [], _, _, _, q =>
    if areMotorsMoving q.1.globals && !q.1.emergencyStopOccured then
      (q.1, { q.2 with isWorking := false })
    else q
  | r :: rs, firstRun, lastValue, counter, q =>
    if areMotorsMoving q.1.globals && !q.1.emergencyStopOccured then
      let s1 := elapse r.ticks q.1
      let read := readAccelerationValues r q.2
      if read.1 then
        let value := if i = AXES.Y then read.2.yAcceleration else read.2.xAcceleration
        if firstRun then homingLoop i jerk rs false value counter (s1, read.2)
        else if |lastValue - value| ≥ (jerk : Int) then
          if (counter + 1) % 256 ≥ 2 then
            homingLoop i jerk rs false value ((counter + 1) % 256)
              ({ s1 with
                  globals :=
                    { s1.globals with motorsIsMoving := upd s1.globals.motorsIsMoving i false } },
                read.2)
          else homingLoop i jerk rs false value ((counter + 1) % 256) (s1, read.2)
        else homingLoop i jerk rs false value 0 (s1, read.2)
      else (s1, read.2)
    else q

/-- One iteration of the loop over the Y and X motors of `Motors::homeXY`
(motors.cpp 1328-1416), up to the test that ends the homing. -/
def homingStroke (cfg : Config) (sc : SensorConfig) (i : AXES) (p : Printer) : Printer :=
  let r :=
    homingLoop i (jerkAcceleration sc i) (p.sessions.headD []) true 0 0
      (homingSetup cfg i p.motors, p.accelerometer)
  { p with
    motors := { r.1 with globals := stopMotorsStepTimer r.1.globals }
    accelerometer := r.2
    sessions := p.sessions.tail }

/-- The G-code of the moves to the centre of `Motors::homeXY` (motors.cpp
1426-1432, 1439, 1461); `valueE` is not initialised in the source. -/
def centerGcode (cfg : Config) (adjustHeight : Bool) (commandParameters : Nat) (s : Motors) :
    Gcode :=
  { commandParameters := commandParameters
    valueX := -BED_CENTER_X_DISTANCE_FROM_HOMING_CORNER
    valueY := -BED_CENTER_Y_DISTANCE_FROM_HOMING_CORNER
    valueZ :=
      if adjustHeight then
        getHeightAdjustmentRequired cfg s BED_CENTER_X BED_CENTER_Y
          - getHeightAdjustmentRequired cfg s (s.currentValues AXES.X) (s.currentValues AXES.Y)
      else 0
    valueE := 0
    valueF := cfg.EEPROM_SPEED_LIMIT_X_MAX }

/-- The two moves to the centre of `Motors::homeXY`, in relative mode (motors.cpp
1434-1464). -/
def centerMoves (cfg : Config) (adjustHeight : Bool) (s : Motors) : Motors :=
  let s1 : Motors :=
    if adjustHeight then
      { s with currentStateOfValues := upd s.currentStateOfValues AXES.Z INVALID }
    else s
  let s2 : Motors := { s1 with mode := MODES.RELATIVE }
  let s3 :=
    (move cfg (centerGcode cfg adjustHeight (PARAMETER_X_OFFSET ||| PARAMETER_F_OFFSET) s)
      BACKLASH_TASK s2).2
  (move cfg (centerGcode cfg adjustHeight (PARAMETER_Y_OFFSET ||| PARAMETER_Z_OFFSET) s)
    BACKLASH_TASK s3).2

/-- The part of `Motors::homeXY` after the homing strokes (motors.cpp 1425-1494). -/
def centerAfterHoming (cfg : Config) (adjustHeight : Bool) (s : Motors) : Motors :=
  let s4 := centerMoves cfg adjustHeight s
  let s5 : Motors :=
    { s4 with
      currentValues :=
        upd (upd (upd (upd s4.currentValues AXES.X BED_CENTER_X) AXES.Y BED_CENTER_Y) AXES.Z
          (s.currentValues AXES.Z)) AXES.F (s.currentValues AXES.F)
      mode := s.mode }
  if !s5.emergencyStopOccured then
    { s5 with
      currentStateOfValues :=
        upd (upd (upd s5.currentStateOfValues AXES.Y VALID) AXES.X VALID) AXES.Z
          (s.currentStateOfValues AXES.Z) }
  else s5

/-- Source `Motors::homeXY` (motors.cpp 1322-1495): the returned boolean and the
state on return. -/
def homeXY (cfg : Config) (sc : SensorConfig) (adjustHeight : Bool) (p : Printer) :
    Bool × Printer :=
  let p0 : Printer :=
    { p with
      motors :=
        { p.motors with
          currentStateOfValues :=
            upd (upd p.motors.currentStateOfValues AXES.Y INVALID) AXES.X INVALID } }
  let p1 := homingStroke cfg sc AXES.Y p0
  if p1.motors.emergencyStopOccured || !p1.accelerometer.isWorking then
    (p1.accelerometer.isWorking, p1)
  else
    let p2 := homingStroke cfg sc AXES.X p1
    if p2.motors.emergencyStopOccured || !p2.accelerometer.isWorking then
      (p2.accelerometer.isWorking, p2)
    else (true, { p2 with motors := centerAfterHoming cfg adjustHeight p2.motors })

/-- The setting up of a descent of `Motors::moveToZ0` (motors.cpp 1531-1546). -/
def z0Setup (cfg : Config) (s : Motors) : Motors :=
  let g1 : Globals :=
    { s.globals with
      motorsNumberOfSteps := upd s.globals.motorsNumberOfSteps AXES.Z UINT32_MAX
      motorsIsMoving := upd s.globals.motorsIsMoving AXES.Z true
      motorsNumberOfRemainingSteps := upd s.globals.motorsNumberOfRemainingSteps AXES.Z 0 }
  { s with
    directionPin := upd s.directionPin AXES.Z DIRECTION_DOWN
    globals :=
      setMotorDelayAndSkip AXES.Z
        (getMovementsNumberOfCycles cfg.cpuHz g1 AXES.Z (stepsPerMmOf s.eeprom AXES.Z)
          CALIBRATING_Z_FEED_RATE) g1 }

/-- The loop of a descent, "wait until Z motor stops moving or an emergency stop
occurs" (motors.cpp 1567-1584), over the readings of its session that follow the
still value; the argument after the readings is `counter`. -/
def z0Loop (sc : SensorConfig) (stillValue : Int) :
    List Reading → Nat → Motors × Accelerometer → Motors × Accelerometer
  | [], _, q =>
    if q.1.globals.motorsIsMoving AXES.Z && !q.1.emergencyStopOccured then
      (q.1, { q.2 with isWorking := false })
    else q
  | r :: rs, counter, q =>
    if q.1.globals.motorsIsMoving AXES.Z && !q.1.emergencyStopOccured then
      let s1 := elapse r.ticks q.1
      let read := readAccelerationValues r q.2
      if read.1 then
        if ((|stillValue - read.2.yAcceleration| : Int) : ℚ) ≥ sc.Y_TILT_ACCELERATION then
          if (counter + 1) % 256 ≥ 2 then
            z0Loop sc stillValue rs ((counter + 1) % 256)
              ({ s1 with
                  globals :=
                    { s1.globals with
                      motorsIsMoving := upd s1.globals.motorsIsMoving AXES.Z false } },
                read.2)
          else z0Loop sc stillValue rs ((counter + 1) % 256) (s1, read.2)
        else z0Loop sc stillValue rs 0 (s1, read.2)
      else (s1, read.2)
    else q

/-- One descent of `Motors::moveToZ0` (motors.cpp 1531-1597), up to the update of
the current Z: the still value is the first reading of the session, read while the
step timer is stopped. -/
def z0Descent (cfg : Config) (sc : SensorConfig) (session : List Reading)
    (q : Motors × Accelerometer) : Motors × Accelerometer :=
  let s1 := z0Setup cfg q.1
  let r : Motors × Accelerometer :=
    match session with
    | [] => (s1, { q.2 with isWorking := false })
    | r0 :: rs =>
      let read := readAccelerationValues r0 q.2
      if read.1 then
        let q2 := z0Loop sc read.2.yAcceleration rs 0 (s1, read.2)
        ({ q2.1 with globals := stopMotorsStepTimer q2.1.globals }, q2.2)
      else (s1, read.2)
  ({ r.1 with
      currentValues :=
        upd r.1.currentValues AXES.Z
          (r.1.currentValues AXES.Z
            - ((UINT32_MAX - r.1.globals.motorsNumberOfSteps AXES.Z : Nat) : ℚ)
              / (stepsPerMmOf r.1.eeprom AXES.Z * MICROSTEPS_PER_STEP)) },
    r.2)

/-- The end of the search of `Motors::moveToZ0` once the real Z0 is found (motors.cpp
1608-1624): the move by the correction and the adjustment of the current Z. -/
def applyZ0Correction (cfg : Config) (sc : SensorConfig) (s : Motors) : Motors :=
  let s2 := moveToHeight cfg (s.currentValues AXES.Z + sc.CALIBRATE_Z0_CORRECTION) s
  { s2 with
    currentValues :=
      upd s2.currentValues AXES.Z (s2.currentValues AXES.Z - sc.CALIBRATE_Z0_CORRECTION) }

/-- The loop "find Z0" of `Motors::moveToZ0` (motors.cpp 1529-1636) over the
sessions that are left; the arguments after the sessions are `matchCounter` and
`lastZ0`. It returns the sessions it has not used. -/
def z0Search (cfg : Config) (sc : SensorConfig) (maxZ : ℚ) :
    List (List Reading) → Nat → ℚ → Motors × Accelerometer →
      (Motors × Accelerometer) × List (List Reading)
  | [], _, _, q =>
    if !q.1.emergencyStopOccured then (z0Descent cfg sc [] q, []) else (q, [])
  | session :: rest, matchCounter, lastZ0, q =>
    if !q.1.emergencyStopOccured then
      let q1 := z0Descent cfg sc session q
      if q1.1.emergencyStopOccured || !q1.2.isWorking then (q1, rest)
      else if |lastZ0 - q1.1.currentValues AXES.Z| ≤ 1 then
        if (matchCounter + 1) % 256 ≥ 2 then ((applyZ0Correction cfg sc q1.1, q1.2), rest)
        else
          z0Search cfg sc maxZ rest ((matchCounter + 1) % 256) (q1.1.currentValues AXES.Z)
            (moveToHeight cfg (min (q1.1.currentValues AXES.Z + 2) maxZ) q1.1, q1.2)
      else
        z0Search cfg sc maxZ rest 0 (q1.1.currentValues AXES.Z)
          (moveToHeight cfg (min (q1.1.currentValues AXES.Z + 2) maxZ) q1.1, q1.2)
    else (q, session :: rest)

/-- Source `Motors::moveToZ0` (motors.cpp 1519-1650): the returned boolean and the
state on return. -/
def moveToZ0 (cfg : Config) (sc : SensorConfig) (p : Printer) : Bool × Printer :=
  let s0 : Motors :=
    { p.motors with
      currentStateOfValues := upd p.motors.currentStateOfValues AXES.Z INVALID }
  let r :=
    z0Search cfg sc (p.motors.currentValues AXES.Z) p.sessions 0 (p.motors.currentValues AXES.Z)
      (s0, p.accelerometer)
  let s1 : Motors :=
    if !r.1.1.emergencyStopOccured then
      { r.1.1 with
        currentStateOfValues :=
          upd r.1.1.currentStateOfValues AXES.Z (p.motors.currentStateOfValues AXES.Z) }
    else r.1.1
  (r.1.2.isWorking, { p with motors := s1, accelerometer := r.1.2, sessions := r.2 })

/-- Source `Motors::saveZAsBedCenterZ0` (motors.cpp 1497-1517). -/
def saveZAsBedCenterZ0 (cfg : Config) (s : Motors) : Motors :=
  let s1 := updateBedChanges cfg false { s with eeprom := { s.eeprom with BED_HEIGHT_OFFSET := 0 } }
  { s1 with
    currentValues := upd s1.currentValues AXES.Z 0
    currentStateOfValues := upd s1.currentStateOfValues AXES.Z VALID }

/-- Source `Motors::calibrateBedCenterZ0` (motors.cpp 1652-1689): the returned
boolean and the state on return. -/
def calibrateBedCenterZ0 (cfg : Config) (sc : SensorConfig) (p : Printer) : Bool × Printer :=
  let p1 : Printer :=
    { p with motors := moveToHeight cfg (p.motors.currentValues AXES.Z + 3) p.motors }
  if !p1.motors.emergencyStopOccured then
    let h := homeXY cfg sc false p1
    if !h.1 then (false, h.2)
    else if !h.2.motors.emergencyStopOccured then
      let z := moveToZ0 cfg sc h.2
      if !z.1 then (false, z.2)
      else if !z.2.motors.emergencyStopOccured then
        (true, { z.2 with motors := moveToHeight cfg 3 (saveZAsBedCenterZ0 cfg z.2.motors) })
      else (true, z.2)
    else (true, h.2)
  else (true, p1)

/-- The positions of `Motors::calibrateBedOrientation` (motors.cpp 1700-1717), each
with the corner whose orientation and offset are saved there (motors.cpp
1751-1781). -/
def calibrationPositions : List (ℚ × ℚ × Option BedCorner) :=
  [(BED_CENTER_X - BED_CALIBRATION_POSITIONS_DISTANCE_FROM_CENTER, BED_CENTER_Y, none),
   (BED_CENTER_X - BED_CALIBRATION_POSITIONS_DISTANCE_FROM_CENTER,
     BED_CENTER_Y - BED_CALIBRATION_POSITIONS_DISTANCE_FROM_CENTER, some BedCorner.FRONT_LEFT),
   (BED_CENTER_X + BED_CALIBRATION_POSITIONS_DISTANCE_FROM_CENTER,
     BED_CENTER_Y - BED_CALIBRATION_POSITIONS_DISTANCE_FROM_CENTER, some BedCorner.FRONT_RIGHT),
   (BED_CENTER_X + BED_CALIBRATION_POSITIONS_DISTANCE_FROM_CENTER,
     BED_CENTER_Y + BED_CALIBRATION_POSITIONS_DISTANCE_FROM_CENTER, some BedCorner.BACK_RIGHT),
   (BED_CENTER_X - BED_CALIBRATION_POSITIONS_DISTANCE_FROM_CENTER,
     BED_CENTER_Y + BED_CALIBRATION_POSITIONS_DISTANCE_FROM_CENTER, some BedCorner.BACK_LEFT),
   (BED_CENTER_X - BED_CALIBRATION_POSITIONS_DISTANCE_FROM_CENTER, BED_CENTER_Y, none),
   (BED_CENTER_X, BED_CENTER_Y, none)]

/-- The erasing of the offset of a corner and the saving of its orientation
(motors.cpp 1791-1796). -/
def saveCorner (c : BedCorner) (z : ℚ) (e : Eeprom) : Eeprom :=
  match c with
  | BedCorner.FRONT_LEFT => { e with BED_OFFSET_FRONT_LEFT := 0, BED_ORIENTATION_FRONT_LEFT := z }
  | BedCorner.FRONT_RIGHT =>
    { e with BED_OFFSET_FRONT_RIGHT := 0, BED_ORIENTATION_FRONT_RIGHT := z }
  | BedCorner.BACK_RIGHT => { e with BED_OFFSET_BACK_RIGHT := 0, BED_ORIENTATION_BACK_RIGHT := z }
  | BedCorner.BACK_LEFT => { e with BED_OFFSET_BACK_LEFT := 0, BED_ORIENTATION_BACK_LEFT := z }

/-- The G-code of the moves of `Motors::calibrateBedOrientation` (motors.cpp
1720-1722, 1737-1738); `valueZ` and `valueE` are not initialised in the source. -/
def positionGcode (cfg : Config) (x y : ℚ) : Gcode :=
  { commandParameters := PARAMETER_X_OFFSET ||| PARAMETER_Y_OFFSET ||| PARAMETER_F_OFFSET
    valueX := x
    valueY := y
    valueZ := 0
    valueE := 0
    valueF := cfg.EEPROM_SPEED_LIMIT_X_MAX }

/-- The loop over the positions of `Motors::calibrateBedOrientation` (motors.cpp
1733-1801). -/
def orientationLoop (cfg : Config) (sc : SensorConfig) :
    List (ℚ × ℚ × Option BedCorner) → Printer → Printer
  | [], p => p
  | position :: rest, p =>
    if !p.motors.emergencyStopOccured then
      let s1 := (move cfg (positionGcode cfg position.1 position.2.1) BACKLASH_TASK p.motors).2
      if s1.emergencyStopOccured then { p with motors := s1 }
      else
        match position.2.2 with
        | some c =>
          let z := moveToZ0 cfg sc { p with motors := s1 }
          if !z.1 || z.2.motors.emergencyStopOccured then z.2
          else
            orientationLoop cfg sc rest
              { z.2 with
                motors :=
                  moveToHeight cfg 3
                    { z.2.motors with
                      eeprom := saveCorner c (z.2.motors.currentValues AXES.Z) z.2.motors.eeprom } }
        | none => orientationLoop cfg sc rest { p with motors := moveToHeight cfg 3 s1 }
    else p

/-- Source `Motors::calibrateBedOrientation` (motors.cpp 1691-1820): the returned
boolean and the state on return. -/
def calibrateBedOrientation (cfg : Config) (sc : SensorConfig) (p : Printer) : Bool × Printer :=
  let c := calibrateBedCenterZ0 cfg sc p
  if !c.1 then (false, c.2)
  else
    let p1 :=
      orientationLoop cfg sc calibrationPositions
        { c.2 with motors := { c.2.motors with mode := MODES.ABSOLUTE } }
    let s2 := updateBedChanges cfg false p1.motors
    (p1.accelerometer.isWorking,
      { p1 with
        motors :=
          { s2 with
            currentValues := upd s2.currentValues AXES.F (c.2.motors.currentValues AXES.F)
            mode := c.2.motors.mode }
        bedOrientationVersion :=
          if !s2.emergencyStopOccured && p1.accelerometer.isWorking then sc.BED_ORIENTATION_VERSION
          else p1.bedOrientationVersion })

/-- The initial value of `motorsNumberOfRemainingSteps` (motors.cpp 125). -/
def initialRemainingSteps : AXES → ℚ := fun _ => 0

/-- A command that moves X to 10^10 mm. -/
def farGcode : Gcode :=
  { commandParameters := PARAMETER_X_OFFSET
    valueX := 10000000000
    valueY := 0
    valueZ := 0
    valueE := 0
    valueF := 0 }

/-- Sample constants of the sensing procedures: jerk thresholds of 50, a tilt
threshold of 2, no Z0 correction. -/
def exampleSensorConfig : SensorConfig :=
  { EEPROM_X_JERK_SENSITIVITY_MAX := 255
    EEPROM_Y_JERK_SENSITIVITY_MAX := 255
    X_JERK_SENSITIVITY := 205
    Y_JERK_SENSITIVITY := 205
    Y_TILT_ACCELERATION := 2
    CALIBRATE_Z0_CORRECTION := 0
    BED_ORIENTATION_VERSION := 1 }

/-- A working accelerometer at rest. -/
def exampleAccelerometer : Accelerometer :=
  { isWorking := true
    xAcceleration := 0
    yAcceleration := 0 }

/-- The sample state with a working accelerometer, no stored calibration version
and no readings. -/
def examplePrinter : Printer :=
  { motors := exampleMotors
    accelerometer := exampleAccelerometer
    bedOrientationVersion := 0
    sessions := [] }

/-- The printer at the start of the homing strokes of `Motors::homeXY`: X and Y are
set invalid (motors.cpp 1325). -/
def homingStart (p : Printer) : Printer :=
  { p with
    motors :=
      { p.motors with
        currentStateOfValues :=
          upd (upd p.motors.currentStateOfValues AXES.Y INVALID) AXES.X INVALID } }

/-- The test "emergency stop occured or accelerometer isn't working" after a homing
stroke (motors.cpp 1420). -/
def strokeFailed (p : Printer) : Bool :=
  p.motors.emergencyStopOccured || !p.accelerometer.isWorking

/-- The homing strokes end `Motors::homeXY`: the test after the stroke of Y or the
one after the stroke of X holds (motors.cpp 1420-1423). -/
def homingAborted (cfg : Config) (sc : SensorConfig) (p : Printer) : Bool :=
  strokeFailed (homingStroke cfg sc AXES.Y (homingStart p))
    || strokeFailed (homingStroke cfg sc AXES.X (homingStroke cfg sc AXES.Y (homingStart p)))

/-- A reading that takes no time, with the value `v` on both axes. -/
def jerkReading (v : Int) : Reading :=
  { success := true
    xAcceleration := v
    yAcceleration := v
    ticks := 0 }

/-- Three readings that rise by 100 each: the signature of a hard stop for a jerk
threshold of 50. -/
def jerkSession : List Reading := [jerkReading 0, jerkReading 100, jerkReading 200]

/-- The sample printer with readings for the two homing strokes, in an environment
that raises the emergency stop as soon as motors are waited for. -/
def centeringStopPrinter : Printer :=
  { examplePrinter with
    motors := stopPendingMotors
    sessions := [jerkSession, jerkSession] }

/-- A motor that is moving with values that fit `uint32_t` and counters that have
not passed their thresholds; the delay may be zero and the step count may be zero,
which stands for 2^32 steps. -/
def AxisLive (x : AxisState) : Prop :=
  x.moving = true ∧ x.steps < 4294967296 ∧ x.delay < 4294967296 ∧ x.skips < 4294967296
    ∧ x.delayCounter < max x.delay 1 ∧ x.skipsCounter ≤ x.skips

/-- A bound on the number of ticks a moving motor still needs. -/
def liveMeasure (x : AxisState) : Nat :=
  2 * ((if x.steps = 0 then 4294967296 else x.steps) * max x.delay 1 - x.delayCounter)
    + (if x.skips ≠ 0 ∧ x.skipsCounter ≥ x.skips then 1 else 0)

/-- A bound on the number of ticks of one wait for the motors. -/
def WAIT_BOUND : Nat := 2 * (4294967296 * 4294967296) + 1

/-- Every motor that is moving is live. -/
def GlobalsLive (g : Globals) : Prop :=
  ∀ a, a ≠ AXES.F → g.motorsIsMoving a = true → AxisLive (axisOf g a)

/-- The steps of every moving motor fit `uint32_t`. -/
def StepsFit (g : Globals) : Prop :=
  ∀ a, g.motorsIsMoving a = true → g.motorsNumberOfSteps a < 4294967296

/-- The timing values of motor `a` are those of a motor that was just programmed. -/
def Programmed (g : Globals) (a : AXES) : Prop :=
  g.motorsStepDelayCounter a = 0 ∧ g.motorsDelaySkipsCounter a = 0
    ∧ g.motorsStepDelay a < 4294967296 ∧ g.motorsDelaySkips a < 4294967296

/-- No emergency stop has occurred, no motor is moving, and at least `R` ticks are
left before the environment raises the emergency stop. -/
def Ready (R : Nat) (s : Motors) : Prop :=
  s.emergencyStopOccured = false ∧ (∀ a, s.globals.motorsIsMoving a = false)
    ∧ R ≤ s.ticksToStop

/-- Whether `Motors::calibrateBedCenterZ0` reaches its call of `saveZAsBedCenterZ0`
(motors.cpp 1658, 1661, 1667, 1670, 1676). -/
def centerSaved (cfg : Config) (sc : SensorConfig) (p : Printer) : Bool :=
  let p1 : Printer :=
    { p with motors := moveToHeight cfg (p.motors.currentValues AXES.Z + 3) p.motors }
  let h := homeXY cfg sc false p1
  let z := moveToZ0 cfg sc h.2
  !p1.motors.emergencyStopOccured && h.1 && !h.2.motors.emergencyStopOccured && z.1
    && !z.2.motors.emergencyStopOccured

/-- The stored calibration values: the orientation heights of the four corners,
their offsets, the bed height offset and the version marker. -/
def storedCalibration (p : Printer) : List ℚ × Nat :=
  ([p.motors.eeprom.BED_ORIENTATION_BACK_RIGHT, p.motors.eeprom.BED_ORIENTATION_BACK_LEFT,
    p.motors.eeprom.BED_ORIENTATION_FRONT_LEFT, p.motors.eeprom.BED_ORIENTATION_FRONT_RIGHT,
    p.motors.eeprom.BED_OFFSET_BACK_LEFT, p.motors.eeprom.BED_OFFSET_BACK_RIGHT,
    p.motors.eeprom.BED_OFFSET_FRONT_RIGHT, p.motors.eeprom.BED_OFFSET_FRONT_LEFT,
    p.motors.eeprom.BED_HEIGHT_OFFSET],
   p.bedOrientationVersion)

/-- The number of ticks that is enough for `n` waits for the motors and `R` more
ticks. -/
def waitBudget : Nat → Nat → Nat
  | 0, R => R
  | n + 1, R => WAIT_BOUND + waitBudget n R

/-- A printer whose stored bed height offset is 1/2 mm, with readings for the two
homing strokes and two Z touches and none after them, in an environment that
raises no emergency stop for 10^30 ticks. -/
def erasedOffsetPrinter : Printer :=
  { examplePrinter with
    motors :=
      { exampleMotors with
        eeprom := { exampleEeprom with BED_HEIGHT_OFFSET := 1 / 2 }
        bedHeightOffset := 1 / 2
        ticksToStop := 1000000000000000000000000000000 }
    sessions := [jerkSession, jerkSession, jerkSession, jerkSession] }

/-- The states after the descents ("contact attempts") that the loop "find Z0" of
`Motors::moveToZ0` (motors.cpp 1529-1636) makes, in order; the arguments are those of
`z0Search`. -/
def z0Attempts (cfg : Config) (sc : SensorConfig) (maxZ : ℚ) :
    List (List Reading) → Nat → ℚ → Motors × Accelerometer → List (Motors × Accelerometer)
  | [], _, _, q => if !q.1.emergencyStopOccured then [z0Descent cfg sc [] q] else []
  | session :: rest, matchCounter, lastZ0, q =>
    if !q.1.emergencyStopOccured then
      let q1 := z0Descent cfg sc session q
      if q1.1.emergencyStopOccured || !q1.2.isWorking then [q1]
      else if |lastZ0 - q1.1.currentValues AXES.Z| ≤ 1 then
        if (matchCounter + 1) % 256 ≥ 2 then [q1]
        else
          q1 :: z0Attempts cfg sc maxZ rest ((matchCounter + 1) % 256) (q1.1.currentValues AXES.Z)
            (moveToHeight cfg (min (q1.1.currentValues AXES.Z + 2) maxZ) q1.1, q1.2)
      else
        q1 :: z0Attempts cfg sc maxZ rest 0 (q1.1.currentValues AXES.Z)
          (moveToHeight cfg (min (q1.1.currentValues AXES.Z + 2) maxZ) q1.1, q1.2)
    else []

/-- The states after the contact attempts of a call of `Motors::moveToZ0`. -/
def contactAttempts (cfg : Config) (sc : SensorConfig) (p : Printer) :
    List (Motors × Accelerometer) :=
  z0Attempts cfg sc (p.motors.currentValues AXES.Z) p.sessions 0 (p.motors.currentValues AXES.Z)
    ({ p.motors with
        currentStateOfValues := upd p.motors.currentStateOfValues AXES.Z INVALID },
      p.accelerometer)

/-- The heights reached by the contact attempts of a call of `Motors::moveToZ0`. -/
def contactHeights (cfg : Config) (sc : SensorConfig) (p : Printer) : List ℚ :=
  (contactAttempts cfg sc p).map (fun q => q.1.currentValues AXES.Z)

/-- The value of `matchCounter` after contact attempts that reach the given
heights, from its value and the value of `lastZ0` before them (motors.cpp
1606-1633), as long as it stays below 2. -/
def matchCount : ℚ → Nat → List ℚ → Nat
  | _, matchCounter, [] => matchCounter
  | lastZ0, matchCounter, z :: rest =>
    matchCount z (if |lastZ0 - z| ≤ 1 then matchCounter + 1 else 0) rest

/-- The readings of a descent that travels for `k` ticks before the touch: the
still value, a reading equal to it that takes `k` ticks, and a touch signature
that takes no time. -/
def travelSession (k : Nat) : List Reading :=
  [jerkReading 0, { jerkReading 0 with ticks := k }, jerkReading 100, jerkReading 200]

/-- A printer at Z = 65 mm with 100 steps/mm, with the readings of three descents
that travel for 2416, 1944 and 1600 ticks before the touch, in an environment that
raises no emergency stop for 10^30 ticks. -/
def threeAttemptsPrinter : Printer :=
  { examplePrinter with
    motors :=
      { exampleMotors with
        currentValues := fun i => if i = AXES.F then 1000 else if i = AXES.Z then 65 else 0
        ticksToStop := 1000000000000000000000000000000 }
    sessions := [travelSession 2416, travelSession 1944, travelSession 1600] }

/-- The corner vectors and the centre vector have the x and y coordinates that
`Motors::initialize` gives them (motors.cpp 449-454, with `BED_CENTER_X = 54`,
`BED_CENTER_Y = 50` and `BED_CALIBRATION_POSITIONS_DISTANCE_FROM_CENTER = 45`). -/
def BedCoordinates (s : Motors) : Prop :=
  s.backRightVector.x = 99 ∧ s.backRightVector.y = 95
    ∧ s.backLeftVector.x = 9 ∧ s.backLeftVector.y = 95
    ∧ s.frontLeftVector.x = 9 ∧ s.frontLeftVector.y = 5
    ∧ s.frontRightVector.x = 99 ∧ s.frontRightVector.y = 5
    ∧ s.centerVector.x = 54 ∧ s.centerVector.y = 50

/-- A received command that asks for X = 1000 mm and Z = 100 mm. -/
def highGcode : Gcode :=
  { commandParameters := PARAMETER_X_OFFSET ||| PARAMETER_Z_OFFSET
    valueX := 1000
    valueY := 0
    valueZ := 100
    valueE := 0
    valueF := 0 }

/-- The value that `Motors::setMotorDelayAndSkip` first stores in
`motorsStepDelay[motor]` (motors.cpp 1834), before the test that may increment it,
for `n = motorsNumberOfSteps[motor]`. -/
def initialStepDelay (movementsNumberOfCycles : ℚ) (n : Nat) : Nat :=
  toUInt32
    (getValueInRange (movementsNumberOfCycles / MOTORS_STEP_TIMER_PERIOD / (n : ℚ)) 1 UINT32_MAX)

/-- The number of ticks after which a motor in the Stepping state is Idle: the
counted ticks that are left, and one suppressed tick after every `skips` counted
ticks. -/
def idleTime (x : AxisState) : Nat :=
  if x.skips = 0 then x.steps * x.delay - x.delayCounter
  else
    (x.steps * x.delay - x.delayCounter)
      + (x.steps * x.delay - x.delayCounter - 1 + x.skipsCounter) / x.skips

/-- The statements of the loop "find Z0" of `Motors::moveToZ0` that assign
`currentValues[Z]`: the update after a descent (motors.cpp 1594), the retraction
`moveToHeight(min(currentValues[Z] + 2, maxZ))` (motors.cpp 1636), the move by the
correction (motors.cpp 1614) and the adjustment after it (motors.cpp 1620). -/
inductive Z0Kind where
  | DESCENT
  | RETRACTION
  | CORRECTION
  | ADJUSTMENT
deriving DecidableEq

/-- One assignment of `currentValues[Z]` in the loop "find Z0": the value before it,
the height it aims at (the argument of `moveToHeight`, or the assigned value) and the
value after it. -/
structure Z0Step where
  kind : Z0Kind
  zBefore : ℚ
  target : ℚ
  zAfter : ℚ
deriving DecidableEq

/-- The assignments of `currentValues[Z]` that the loop "find Z0" of
`Motors::moveToZ0` (motors.cpp 1529-1636) makes, in order; the arguments are those of
`z0Search`. -/
def z0Steps (cfg : Config) (sc : SensorConfig) (maxZ : ℚ) :
    List (List Reading) → Nat → ℚ → Motors × Accelerometer → List Z0Step
  | [], _, _, q =>
    if !q.1.emergencyStopOccured then
      [{ kind := Z0Kind.DESCENT
         zBefore := q.1.currentValues AXES.Z
         target := (z0Descent cfg sc [] q).1.currentValues AXES.Z
         zAfter := (z0Descent cfg sc [] q).1.currentValues AXES.Z }]
    else []
  | session :: rest, matchCounter, lastZ0, q =>
    if !q.1.emergencyStopOccured then
      let q1 := z0Descent cfg sc session q
      let descent : Z0Step :=
        { kind := Z0Kind.DESCENT
          zBefore := q.1.currentValues AXES.Z
          target := q1.1.currentValues AXES.Z
          zAfter := q1.1.currentValues AXES.Z }
      let retraction : Z0Step :=
        { kind := Z0Kind.RETRACTION
          zBefore := q1.1.currentValues AXES.Z
          target := min (q1.1.currentValues AXES.Z + 2) maxZ
          zAfter :=
            (moveToHeight cfg (min (q1.1.currentValues AXES.Z + 2) maxZ) q1.1).currentValues
              AXES.Z }
      if q1.1.emergencyStopOccured || !q1.2.isWorking then [descent]
      else if |lastZ0 - q1.1.currentValues AXES.Z| ≤ 1 then
        if (matchCounter + 1) % 256 ≥ 2 then
          [descent,
            { kind := Z0Kind.CORRECTION
              zBefore := q1.1.currentValues AXES.Z
              target := q1.1.currentValues AXES.Z + sc.CALIBRATE_Z0_CORRECTION
              zAfter :=
                (moveToHeight cfg (q1.1.currentValues AXES.Z + sc.CALIBRATE_Z0_CORRECTION)
                  q1.1).currentValues AXES.Z },
            { kind := Z0Kind.ADJUSTMENT
              zBefore :=
                (moveToHeight cfg (q1.1.currentValues AXES.Z + sc.CALIBRATE_Z0_CORRECTION)
                  q1.1).currentValues AXES.Z
              target := (applyZ0Correction cfg sc q1.1).currentValues AXES.Z
              zAfter := (applyZ0Correction cfg sc q1.1).currentValues AXES.Z }]
        else
          descent :: retraction ::
            z0Steps cfg sc maxZ rest ((matchCounter + 1) % 256) (q1.1.currentValues AXES.Z)
              (moveToHeight cfg (min (q1.1.currentValues AXES.Z + 2) maxZ) q1.1, q1.2)
      else
        descent :: retraction ::
          z0Steps cfg sc maxZ rest 0 (q1.1.currentValues AXES.Z)
            (moveToHeight cfg (min (q1.1.currentValues AXES.Z + 2) maxZ) q1.1, q1.2)
    else []

/-- The assignments of `currentValues[Z]` in the loop "find Z0" of a call of
`Motors::moveToZ0`. -/
def searchSteps (cfg : Config) (sc : SensorConfig) (p : Printer) : List Z0Step :=
  z0Steps cfg sc (p.motors.currentValues AXES.Z) p.sessions 0 (p.motors.currentValues AXES.Z)
    ({ p.motors with
        currentStateOfValues := upd p.motors.currentStateOfValues AXES.Z INVALID },
      p.accelerometer)

/-- The sample sensor constants with a Z0 correction of 1 mm. -/
def raisedCorrectionConfig : SensorConfig :=
  { exampleSensorConfig with CALIBRATE_Z0_CORRECTION := 1 }

/-- A printer at Z = 65 mm with 100 steps/mm, with the readings of two descents that
travel for 400 ticks before the touch, in an environment that raises no emergency
stop for 10^30 ticks. -/
def nearBedPrinter : Printer :=
  { threeAttemptsPrinter with sessions := [travelSession 400, travelSession 400] }

/-- The samples that the loop of a homing stroke reads (motors.cpp 1384-1409), in
order, each with whether the statement `motorsIsMoving[i] = false` (motors.cpp 1401)
is executed at it; the arguments are those of `homingLoop`. -/
def homingTrace (i : AXES) (jerk : Nat) :
    List Reading → Bool → Int → Nat → Motors × Accelerometer → List (Int × Bool)
  | [], _, _, _, _ => []
  | r :: rs, firstRun, lastValue, counter, q =>
    if areMotorsMoving q.1.globals && !q.1.emergencyStopOccured then
      let s1 := elapse r.ticks q.1
      let read := readAccelerationValues r q.2
      if read.1 then
        let value := if i = AXES.Y then read.2.yAcceleration else read.2.xAcceleration
        if firstRun then (value, false) :: homingTrace i jerk rs false value counter (s1, read.2)
        else if |lastValue - value| ≥ (jerk : Int) then
          if (counter + 1) % 256 ≥ 2 then
            (value, true) ::
              homingTrace i jerk rs false value ((counter + 1) % 256)
                ({ s1 with
                    globals :=
                      { s1.globals with motorsIsMoving := upd s1.globals.motorsIsMoving i false } },
                  read.2)
          else (value, false) :: homingTrace i jerk rs false value ((counter + 1) % 256) (s1, read.2)
        else (value, false) :: homingTrace i jerk rs false value 0 (s1, read.2)
      else []
    else []

/-- The samples of the homing stroke of motor `i` in `Motors::homeXY`, each with
whether the motor is stopped at it. -/
def strokeTrace (cfg : Config) (sc : SensorConfig) (i : AXES) (p : Printer) : List (Int × Bool) :=
  homingTrace i (jerkAcceleration sc i) (p.sessions.headD []) true 0 0
    (homingSetup cfg i p.motors, p.accelerometer)

/-- The accelerometer samples of the homing stroke of motor `i`. -/
def homingSamples (cfg : Config) (sc : SensorConfig) (i : AXES) (p : Printer) : List Int :=
  (strokeTrace cfg sc i p).map Prod.fst

/-- The index of the first `true` of a list. -/
def firstStop : List Bool → Option Nat
  | [] => none
  | b :: bs => if b then some 0 else (firstStop bs).map (· + 1)

/-- The index of the first sample of the homing stroke of motor `i` at which the
loop stops the motor, if there is one. -/
def homingStopAt (cfg : Config) (sc : SensorConfig) (i : AXES) (p : Printer) : Option Nat :=
  firstStop ((strokeTrace cfg sc i p).map Prod.snd)

/-- Follows the spec's words: the index of the first sample such that it and the
sample before it each deviate from their own immediately preceding sample. -/
def firstDoubleDeviation (deviates : Int → Int → Bool) : List Int → Option Nat
  | a :: b :: c :: rest =>
    if deviates a b && deviates b c then some 2
    else (firstDoubleDeviation deviates (b :: c :: rest)).map (· + 1)
  | _ => none

/-- Follows the spec's words: a sample deviates from the preceding one by more than
the jerk threshold. -/
def deviatesByMoreThan (jerk : Nat) (a b : Int) : Bool := decide (|a - b| > (jerk : Int))

/-- The test of motors.cpp 1397, `abs(lastValue - *accelerometerValue) >=
jerkAcceleration`: a sample deviates from the preceding one by the jerk threshold or
more. -/
def deviatesByAtLeast (jerk : Nat) (a b : Int) : Bool := decide (|a - b| ≥ (jerk : Int))

/-- Three readings that rise by 50 each, the jerk threshold of the sample sensor
constants. -/
def thresholdSession : List Reading := [jerkReading 0, jerkReading 50, jerkReading 100]

/-- The sample printer with the readings of `thresholdSession` for a homing stroke. -/
def thresholdPrinter : Printer :=
  { examplePrinter with sessions := [thresholdSession] }

/-- The sub-moves `move(gcode, NO_TASK)` of the loop over the segments of
`Motors::splitUpMovement` (motors.cpp 1099-1143), in order: the G-code of each and
the state in which it starts; the arguments are those of `segmentLoop`. -/
def segmentMoves (cfg : Config) (adjustHeight : Bool) (endValues valueChanges : AXES → ℚ)
    (numberOfSegments : Nat) : Nat → Nat → Motors → List (Gcode × Motors)
  | 0, segmentCounter, s =>
    [(segmentGcode cfg adjustHeight endValues valueChanges numberOfSegments segmentCounter s, s)]
  | remaining + 1, segmentCounter, s =>
    (segmentGcode cfg adjustHeight endValues valueChanges numberOfSegments segmentCounter s, s) ::
      segmentMoves cfg adjustHeight endValues valueChanges numberOfSegments remaining
        (segmentCounter + 1)
        (moveNoTask cfg
          (segmentGcode cfg adjustHeight endValues valueChanges numberOfSegments segmentCounter s)
          s)

/-- The sub-moves of `Motors::splitUpMovement` (motors.cpp 1043-1143), in order. -/
def subMoves (cfg : Config) (adjustHeight : Bool) (s : Motors) : List (Gcode × Motors) :=
  -- motors.cpp 1049-1066
  let endValues := s.currentValues
  let startOfSegment : AXES → ℚ :=
    motorList.foldl (fun acc i => upd acc i (s.startValues i)) s.currentValues
  let valueChanges : AXES → ℚ := fun i => endValues i - s.startValues i
  -- motors.cpp 1081-1086
  let horizontalDistance := cfg.sqrt (valueChanges AXES.X ^ 2 + valueChanges AXES.Y ^ 2)
  let valueRatios : AXES → ℚ :=
    fun i => if horizontalDistance ≠ 0 then valueChanges i / horizontalDistance else 0
  -- motors.cpp 1068-1079 and 1092-1097
  let s1 : Motors :=
    { s with
      currentValues :=
        if adjustHeight then
          upd startOfSegment AXES.Z
            (startOfSegment AXES.Z
              + getHeightAdjustmentRequired cfg s (s.startValues AXES.X) (s.startValues AXES.Y))
        else startOfSegment
      mode := MODES.ABSOLUTE
      extruderMode := MODES.ABSOLUTE }
  -- motors.cpp 1099-1143
  let numberOfSegments := minimumOneCeil (horizontalDistance / SEGMENT_LENGTH)
  let segmentCounter := if adjustHeight then 1 else numberOfSegments
  segmentMoves cfg adjustHeight endValues valueRatios numberOfSegments
    (numberOfSegments - segmentCounter) segmentCounter s1

/-- The sub-moves of a call of `Motors::move` (motors.cpp 522-932): those of the
call of `splitUpMovement` in a pass with tasks that does not return in the loop
(motors.cpp 802-803). -/
def moveSubMoves (cfg : Config) (gcode : Gcode) (tasks : Nat) (s : Motors) :
    List (Gcode × Motors) :=
  match moveLoop cfg gcode tasks moveOrder (setFeedRate cfg gcode tasks s, initialLocals) with
  | Except.error _ => []
  | Except.ok sl =>
    if tasks ≠ 0 then
      subMoves cfg (hasFlag tasks BED_LEVELING_TASK) (backlashPass cfg tasks sl.2 sl.1)
    else []

/-- The value of `horizontalDistance` of `Motors::splitUpMovement` called in state
`s` (motors.cpp 1082). -/
def horizontalDistance (cfg : Config) (s : Motors) : ℚ :=
  cfg.sqrt ((s.currentValues AXES.X - s.startValues AXES.X) ^ 2
    + (s.currentValues AXES.Y - s.startValues AXES.Y) ^ 2)

/-- The value of `numberOfSegments` of `Motors::splitUpMovement` called in state `s`
(motors.cpp 1099). -/
def numberOfSegments (cfg : Config) (s : Motors) : Nat :=
  minimumOneCeil (horizontalDistance cfg s / SEGMENT_LENGTH)

/-- The value of `valueChanges[i]` of `Motors::splitUpMovement` called in state `s`
after it is set to a ratio of the horizontal distance (motors.cpp 1085-1086). -/
def valueRatio (cfg : Config) (s : Motors) (i : AXES) : ℚ :=
  if horizontalDistance cfg s ≠ 0 then
    (s.currentValues i - s.startValues i) / horizontalDistance cfg s
  else 0

/-- The sample constants with a square root stand-in that is also exact on 100. -/
def squareRootConfig : Config :=
  { exampleConfig with sqrt := fun x => if x = 100 then 10 else x }

/-- A command that moves X to 10 mm. -/
def tenGcode : Gcode :=
  { commandParameters := PARAMETER_X_OFFSET
    valueX := 10
    valueY := 0
    valueZ := 0
    valueE := 0
    valueF := 0 }

/-- Modelled from the spec: the enumeration `AXES_PARAMETER` of `motors.h`, which
is not among the sources; the fields of an axis record in the order direction,
validity, value. -/
inductive AXES_PARAMETER where
  | DIRECTION
  | VALIDITY
  | VALUE
deriving DecidableEq

/-- The byte cells of the EEPROM that `Motors::changeState` reads and writes
(motors.cpp 1256-1269): the saved states of X, Y and Z and the last recorded
directions of X and Y. -/
inductive ByteCell where
  | SAVED_X_STATE
  | SAVED_Y_STATE
  | SAVED_Z_STATE
  | LAST_RECORDED_X_DIRECTION
  | LAST_RECORDED_Y_DIRECTION
deriving DecidableEq

/-- The `float` cells of the EEPROM that `Motors::changeState` reads and writes
(motors.cpp 1256-1269). -/
inductive ValueCell where
  | LAST_RECORDED_X_VALUE
  | LAST_RECORDED_Y_VALUE
  | LAST_RECORDED_Z_VALUE
deriving DecidableEq

/-- A cell of the axis records. -/
inductive RecordCell where
  | byte (c : ByteCell)
  | value (c : ValueCell)
deriving DecidableEq

/-- The contents of a `float` variable or of a `float` cell of the EEPROM: a number,
as an exact rational, or a NaN. An erased cell, whose four bytes are `0xFF`, holds a
NaN. -/
inductive FloatContents where
  | number (q : ℚ)
  | nan
deriving DecidableEq

/-- The operator `!=` on two `float` operands (motors.cpp 1297): false for two equal
numbers only; a NaN differs from every operand, itself included. -/
def floatDiffers : FloatContents → FloatContents → Bool
  | FloatContents.number a, FloatContents.number b => decide (a ≠ b)
  | _, _ => true

/-- The members of `Motors` that `Motors::changeState` reads and writes (motors.cpp
1280-1317), the current values as the contents of the `float` variables. -/
structure AxisMemory where
  currentValues : AXES → FloatContents
  currentStateOfValues : AXES → Bool
  currentMotorDirections : AXES → Bool

/-- The members of a state that `Motors::changeState` reads and writes, when the
current values are numbers. -/
def axisMemory (s : Motors) : AxisMemory :=
  { currentValues := fun i => FloatContents.number (s.currentValues i)
    currentStateOfValues := s.currentStateOfValues
    currentMotorDirections := s.currentMotorDirections }

/-- The axis records of the EEPROM, with the list of the cells written so far, in
the order of the writes. -/
structure AxisRecords where
  bytes : ByteCell → Nat
  values : ValueCell → FloatContents
  writes : List RecordCell

/-- The static variables of the callback of the motors save timer (motors.cpp
464-466). -/
structure SaveTimer where
  motorsSaveTimerCounter : Nat
  currentSaveMotor : AXES
  currentSaveParameter : AXES_PARAMETER

/-- Constant `MOTORS_SAVE_TIMER_PERIOD` (motors.cpp 55, fan.h 8). -/
def MOTORS_SAVE_TIMER_PERIOD : Nat := 0x208D

/-- Constant `MOTORS_SAVE_VALUE_MILLISECONDS` (motors.cpp 56). -/
def MOTORS_SAVE_VALUE_MILLISECONDS : Nat := 200

/-- The index of an axis in the enumeration `AXES`. -/
def axisIndex : AXES → Nat
  | AXES.X => 0
  | AXES.Y => 1
  | AXES.Z => 2
  | AXES.E => 3
  | AXES.F => 4

/-- The byte that stores a `bool`. -/
def boolByte (b : Bool) : Nat := if b then 1 else 0

/-- The `bool` that a byte converts to. -/
def byteBool (n : Nat) : Bool := decide (n ≠ 0)

/-- Library `nvm_eeprom_write_byte` on the axis records. -/
def writeByte (r : AxisRecords) (c : ByteCell) (v : Nat) : AxisRecords :=
  { r with
    bytes := fun d => if d = c then v else r.bytes d
    writes := r.writes ++ [RecordCell.byte c] }

/-- Library `nvm_eeprom_erase_and_write_buffer` on a `float` cell of the axis
records. -/
def writeValue (r : AxisRecords) (c : ValueCell) (v : FloatContents) : AxisRecords :=
  { r with
    values := fun d => if d = c then v else r.values d
    writes := r.writes ++ [RecordCell.value c] }

/-- The offset `savedValueOffset` that the `switch` of `Motors::changeState`
selects (motors.cpp 1252-1269). -/
def savedValueOffset : AXES → ValueCell
  | AXES.X => ValueCell.LAST_RECORDED_X_VALUE
  | AXES.Y => ValueCell.LAST_RECORDED_Y_VALUE
  | _ => ValueCell.LAST_RECORDED_Z_VALUE

/-- The offset `savedStateOffset` that the `switch` of `Motors::changeState`
selects (motors.cpp 1252-1269). -/
def savedStateOffset : AXES → ByteCell
  | AXES.X => ByteCell.SAVED_X_STATE
  | AXES.Y => ByteCell.SAVED_Y_STATE
  | _ => ByteCell.SAVED_Z_STATE

/-- The offset `savedDirectionOffset` that the `switch` of `Motors::changeState`
selects (motors.cpp 1249-1269); `none` is its initial value `EEPROM_SIZE`, which
the cases of X and Y only replace. -/
def savedDirectionOffset : AXES → Option ByteCell
  | AXES.X => some ByteCell.LAST_RECORDED_X_DIRECTION
  | AXES.Y => some ByteCell.LAST_RECORDED_Y_DIRECTION
  | _ => none

/-- One iteration of the loop of `Motors::changeState` (motors.cpp 1248-1319). -/
def changeStateMotor (save : Bool) (parameter : AXES_PARAMETER) (i : AXES)
    (p : AxisMemory × AxisRecords) : AxisMemory × AxisRecords :=
  if save then
    match savedDirectionOffset i with
    | some c =>
      if parameter = AXES_PARAMETER.DIRECTION
          ∧ p.2.bytes c ≠ boolByte (p.1.currentMotorDirections i) then
        (p.1, writeByte p.2 c (boolByte (p.1.currentMotorDirections i)))
      else if parameter = AXES_PARAMETER.VALIDITY
          ∧ p.2.bytes (savedStateOffset i) ≠ boolByte (p.1.currentStateOfValues i) then
        (p.1, writeByte p.2 (savedStateOffset i) (boolByte (p.1.currentStateOfValues i)))
      else if parameter = AXES_PARAMETER.VALUE then
        if floatDiffers (p.2.values (savedValueOffset i)) (p.1.currentValues i) then
          (p.1, writeValue p.2 (savedValueOffset i) (p.1.currentValues i))
        else p
      else p
    | none =>
      if parameter = AXES_PARAMETER.VALIDITY
          ∧ p.2.bytes (savedStateOffset i) ≠ boolByte (p.1.currentStateOfValues i) then
        (p.1, writeByte p.2 (savedStateOffset i) (boolByte (p.1.currentStateOfValues i)))
      else if parameter = AXES_PARAMETER.VALUE then
        if floatDiffers (p.2.values (savedValueOffset i)) (p.1.currentValues i) then
          (p.1, writeValue p.2 (savedValueOffset i) (p.1.currentValues i))
        else p
      else p
  else
    let s1 : AxisMemory :=
      match savedDirectionOffset i with
      | some c =>
        { p.1 with currentMotorDirections := upd p.1.currentMotorDirections i (byteBool (p.2.bytes c)) }
      | none => p.1
    let s2 : AxisMemory :=
      { s1 with
        currentStateOfValues :=
          upd s1.currentStateOfValues i (byteBool (p.2.bytes (savedStateOffset i))) }
    ({ s2 with currentValues := upd s2.currentValues i (p.2.values (savedValueOffset i)) }, p.2)

/-- The values that the loop variable of `Motors::changeState` takes: `motor` alone
when saving, `motor` up to `Z` when restoring (motors.cpp 1248). -/
def changeStateRange (save : Bool) (motor : AXES) : List AXES :=
  [AXES.X, AXES.Y, AXES.Z, AXES.E, AXES.F].filter
    (fun i => decide (axisIndex motor ≤ axisIndex i
      ∧ axisIndex i ≤ axisIndex (if save then motor else AXES.Z)))

/-- Source `Motors::changeState` (motors.cpp 1245-1320). -/
def changeState (save : Bool) (motor : AXES) (parameter : AXES_PARAMETER)
    (p : AxisMemory × AxisRecords) : AxisMemory × AxisRecords :=
  (changeStateRange save motor).foldl (fun acc i => changeStateMotor save parameter i acc) p

/-- Modelled from the spec: `Motors::saveState` of `motors.h`, which is not among
the sources; it saves one field of one axis. -/
def saveState (motor : AXES) (parameter : AXES_PARAMETER) (p : AxisMemory × AxisRecords) :
    AxisMemory × AxisRecords :=
  changeState true motor parameter p

/-- Modelled from the spec: `Motors::restoreState` of `motors.h`, which is not among
the sources; it reads the records of X, Y and Z back into memory. -/
def restoreState (p : AxisMemory × AxisRecords) : AxisMemory × AxisRecords :=
  changeState false AXES.X AXES_PARAMETER.DIRECTION p

/-- The initial values of the static variables of the callback (motors.cpp
464-466). -/
def initialSaveTimer : SaveTimer :=
  { motorsSaveTimerCounter := 0
    currentSaveMotor := AXES.Z
    currentSaveParameter := AXES_PARAMETER.VALUE }

/-- The value of `static_cast<AXES_PARAMETER>(currentSaveParameter + 1)` (motors.cpp
488), which the callback computes for a parameter other than `VALUE`. -/
def nextSaveParameter : AXES_PARAMETER → AXES_PARAMETER
  | AXES_PARAMETER.DIRECTION => AXES_PARAMETER.VALIDITY
  | _ => AXES_PARAMETER.VALUE

/-- The value of `currentSaveMotor == Z ? X : static_cast<AXES>(currentSaveMotor + 1)`
(motors.cpp 481). -/
def nextSaveMotor : AXES → AXES
  | AXES.X => AXES.Y
  | AXES.Y => AXES.Z
  | AXES.Z => AXES.X
  | _ => AXES.F

/-- The body of the callback of the motors save timer once enough time to save a
value has passed (motors.cpp 471-505): it selects the next field and saves it. -/
def saveTick (q : SaveTimer × (AxisMemory × AxisRecords)) : SaveTimer × (AxisMemory × AxisRecords) :=
  let t : SaveTimer :=
    if q.1.currentSaveParameter = AXES_PARAMETER.VALUE then
      { motorsSaveTimerCounter := 0
        currentSaveMotor := nextSaveMotor q.1.currentSaveMotor
        currentSaveParameter := AXES_PARAMETER.DIRECTION }
    else
      { motorsSaveTimerCounter := 0
        currentSaveMotor := q.1.currentSaveMotor
        currentSaveParameter := nextSaveParameter q.1.currentSaveParameter }
  (t, saveState t.currentSaveMotor t.currentSaveParameter q.2)

/-- The callback of the motors save timer (motors.cpp 461-506) with a CPU clock of
`cpuHz` Hz; the counter is a `uint8_t`. -/
def motorsSaveTimerCallback (cpuHz : Nat) (q : SaveTimer × (AxisMemory × AxisRecords)) :
    SaveTimer × (AxisMemory × AxisRecords) :=
  if (q.1.motorsSaveTimerCounter + 1) % 256
      ≥ cpuHz / MOTORS_SAVE_TIMER_PERIOD / 64 * MOTORS_SAVE_VALUE_MILLISECONDS / 1000 then
    saveTick q
  else
    ({ q.1 with motorsSaveTimerCounter := (q.1.motorsSaveTimerCounter + 1) % 256 }, q.2)

/-- The state after `n` save ticks. -/
def saveTicks : Nat → SaveTimer × (AxisMemory × AxisRecords) → SaveTimer × (AxisMemory × AxisRecords)
  | 0, q => q
  | n + 1, q => saveTick (saveTicks n q)

/-- The field that the static variables of the callback select. -/
def selected (t : SaveTimer) : AXES × AXES_PARAMETER :=
  (t.currentSaveMotor, t.currentSaveParameter)

/-- The sequence of fields of the spec: direction, validity and value of X, then of
Y, then of Z. -/
def saveCycle : List (AXES × AXES_PARAMETER) :=
  [(AXES.X, AXES_PARAMETER.DIRECTION), (AXES.X, AXES_PARAMETER.VALIDITY),
   (AXES.X, AXES_PARAMETER.VALUE),
   (AXES.Y, AXES_PARAMETER.DIRECTION), (AXES.Y, AXES_PARAMETER.VALIDITY),
   (AXES.Y, AXES_PARAMETER.VALUE),
   (AXES.Z, AXES_PARAMETER.DIRECTION), (AXES.Z, AXES_PARAMETER.VALIDITY),
   (AXES.Z, AXES_PARAMETER.VALUE)]

/-- The selection that follows a selection in `saveTick`. -/
def nextSelected (x : AXES × AXES_PARAMETER) : AXES × AXES_PARAMETER :=
  if x.2 = AXES_PARAMETER.VALUE then (nextSaveMotor x.1, AXES_PARAMETER.DIRECTION)
  else (x.1, nextSaveParameter x.2)

/-- The cell of the axis records that holds a field of an axis: the offset that
`Motors::changeState` uses for it; `none` for the direction of an axis whose
`savedDirectionOffset` is `EEPROM_SIZE`. -/
def fieldCell (i : AXES) : AXES_PARAMETER → Option RecordCell
  | AXES_PARAMETER.DIRECTION => (savedDirectionOffset i).map RecordCell.byte
  | AXES_PARAMETER.VALIDITY => some (RecordCell.byte (savedStateOffset i))
  | AXES_PARAMETER.VALUE => some (RecordCell.value (savedValueOffset i))

/-- The stored field of an axis equals the in-memory field: the field has a cell
and the cell holds what `Motors::changeState` would write when saving the field. -/
def fieldUpToDate (s : AxisMemory) (r : AxisRecords) (i : AXES) : AXES_PARAMETER → Prop
  | AXES_PARAMETER.DIRECTION =>
    ∃ c, savedDirectionOffset i = some c ∧ r.bytes c = boolByte (s.currentMotorDirections i)
  | AXES_PARAMETER.VALIDITY => r.bytes (savedStateOffset i) = boolByte (s.currentStateOfValues i)
  | AXES_PARAMETER.VALUE => r.values (savedValueOffset i) = s.currentValues i

/-- Saving the nine fields of X, Y and Z, in the order of the autosave sequence. -/
def saveAllFields (p : AxisMemory × AxisRecords) : AxisMemory × AxisRecords :=
  saveCycle.foldl (fun acc x => saveState x.1 x.2 acc) p

/-- The test of the `if` that guards the write of a field in `Motors::changeState`
(motors.cpp 1280, 1286, 1297): the field has a cell and the comparison of the stored
field with the in-memory field gives that they differ. -/
def fieldComparesUnequal (s : AxisMemory) (r : AxisRecords) (i : AXES) : AXES_PARAMETER → Prop
  | AXES_PARAMETER.DIRECTION =>
    ∃ c, savedDirectionOffset i = some c ∧ r.bytes c ≠ boolByte (s.currentMotorDirections i)
  | AXES_PARAMETER.VALIDITY => r.bytes (savedStateOffset i) ≠ boolByte (s.currentStateOfValues i)
  | AXES_PARAMETER.VALUE =>
    floatDiffers (r.values (savedValueOffset i)) (s.currentValues i) = true

/-- The two memories hold the same field of an axis. -/
def sameField (a b : AxisMemory) (i : AXES) : AXES_PARAMETER → Prop
  | AXES_PARAMETER.DIRECTION => a.currentMotorDirections i = b.currentMotorDirections i
  | AXES_PARAMETER.VALIDITY => a.currentStateOfValues i = b.currentStateOfValues i
  | AXES_PARAMETER.VALUE => a.currentValues i = b.currentValues i

/-- The in-memory axis state of the sample state. -/
def exampleMemory : AxisMemory := axisMemory exampleMotors

/-- An in-memory axis state that differs from `exampleMemory` in every field. -/
def otherMemory : AxisMemory :=
  { currentValues := fun _ => FloatContents.number 7
    currentStateOfValues := fun _ => INVALID
    currentMotorDirections := fun _ => true }

/-- Sample axis records: every byte cell erased (`0xFF`), every value `5`, no write
issued so far. -/
def exampleRecords : AxisRecords :=
  { bytes := fun _ => 255
    values := fun _ => FloatContents.number 5
    writes := [] }

/-- The axis records of an erased EEPROM: every byte `0xFF`, so that every `float`
cell holds a NaN; no write issued so far. -/
def erasedRecords : AxisRecords :=
  { bytes := fun _ => 255
    values := fun _ => FloatContents.nan
    writes := [] }

/-- The sample state with 128 steps/mm on the X motor. -/
def coarseMotors : Motors :=
  { exampleMotors with eeprom := { exampleEeprom with X_MOTOR_STEPS_PER_MM := 128 } }

/-- A command that moves X to 4194304 mm, which is 2^22 mm. -/
def twoTo32Gcode : Gcode :=
  { commandParameters := PARAMETER_X_OFFSET
    valueX := 4194304
    valueY := 0
    valueZ := 0
    valueE := 0
    valueF := 0 }

/-- One iteration of the loop of a homing stroke of motor `i` in which the read
succeeds (motors.cpp 1387-1408), on the state: the time of the reading elapses, the
sample is stored, and the statement `motorsIsMoving[i] = false` (motors.cpp 1401) is
executed when the flag of the reading holds. -/
def homingStep (i : AXES) (q : Motors × Accelerometer) (x : Reading × Bool) :
    Motors × Accelerometer :=
  let s1 := elapse x.1.ticks q.1
  let read := readAccelerationValues x.1 q.2
  if x.2 then
    ({ s1 with
        globals := { s1.globals with motorsIsMoving := upd s1.globals.motorsIsMoving i false } },
      read.2)
  else (s1, read.2)

/-- The end of the loop of a homing stroke (motors.cpp 1384-1409) on the readings
that are left: the loop is over when no motor moves or an emergency stop occurred;
otherwise the next read fails, after its time has elapsed, or there is no reading
left, which stands for an accelerometer that does not answer. -/
def homingEnd (rest : List Reading) (q : Motors × Accelerometer) : Motors × Accelerometer :=
  if areMotorsMoving q.1.globals && !q.1.emergencyStopOccured then
    match rest with
    | [] => (q.1, { q.2 with isWorking := false })
    | r :: _ => (elapse r.ticks q.1, (readAccelerationValues r q.2).2)
  else q

/-- The state in which the loop of the homing stroke of motor `i` in
`Motors::homeXY` ends, from the samples of `strokeTrace`: the iterations of the
samples, the motor being stopped at the samples that the trace flags, and the end of
the loop on the readings that are left. -/
def strokeEnd (cfg : Config) (sc : SensorConfig) (i : AXES) (p : Printer) :
    Motors × Accelerometer :=
  homingEnd ((p.sessions.headD []).drop (strokeTrace cfg sc i p).length)
    (((p.sessions.headD []).zip ((strokeTrace cfg sc i p).map Prod.snd)).foldl (homingStep i)
      (homingSetup cfg i p.motors, p.accelerometer))

/-! ## Theorems: geometry model -/

/-- C1: for every three points `p1`, `p2`, `p3`, the coefficients `(A, B, C, D)` returned by
`generatePlaneEquation` have the cross product `(p2 - p1) × (p3 - p1)` as normal `(A, B, C)`,
and `A x + B y + C z + D = 0` holds at `p1`, at `p2` and at `p3`. -/
theorem generatePlaneEquation_spec (p1 p2 p3 : Vector) :
    ![(generatePlaneEquation p1 p2 p3).x, (generatePlaneEquation p1 p2 p3).y,
        (generatePlaneEquation p1 p2 p3).z]
      = crossProduct ![p2.x - p1.x, p2.y - p1.y, p2.z - p1.z]
          ![p3.x - p1.x, p3.y - p1.y, p3.z - p1.z]
    ∧ onPlane (generatePlaneEquation p1 p2 p3) p1
    ∧ onPlane (generatePlaneEquation p1 p2 p3) p2
    ∧ onPlane (generatePlaneEquation p1 p2 p3) p3 := by
  have hs : ∀ a b : Vector, a - b = Vector.sub a b := fun _ _ => rfl
  refine ⟨?_, ?_, ?_, ?_⟩
  · simp only [generatePlaneEquation, calculatePlaneNormalVector, hs, Vector.sub, cross_apply,
      Matrix.cons_val_zero, Matrix.cons_val_one, Matrix.head_cons, Matrix.cons_val_two,
      Matrix.tail_cons]
    ext i
    fin_cases i <;> simp <;> ring
  · simp only [onPlane, generatePlaneEquation, calculatePlaneNormalVector, hs, Vector.sub]; ring
  · simp only [onPlane, generatePlaneEquation, calculatePlaneNormalVector, hs, Vector.sub]; ring
  · simp only [onPlane, generatePlaneEquation, calculatePlaneNormalVector, hs, Vector.sub]; ring

/-- C2: `getZFromXYAndPlane` returns `0` when `C = 0`; otherwise it returns
`-(A x + B y + D) / C`, which satisfies `A x + B y + C z + D = 0` and is the only `z` that does. -/
theorem getZFromXYAndPlane_spec (point plane : Vector) :
    (plane.z = 0 → getZFromXYAndPlane point plane = 0)
    ∧ (plane.z ≠ 0 →
        getZFromXYAndPlane point plane = -(plane.x * point.x + plane.y * point.y + plane.w) / plane.z
        ∧ plane.x * point.x + plane.y * point.y + plane.z * getZFromXYAndPlane point plane + plane.w = 0
        ∧ ∀ z : ℚ, plane.x * point.x + plane.y * point.y + plane.z * z + plane.w = 0 →
            z = getZFromXYAndPlane point plane) := by
  refine ⟨fun h => by simp [getZFromXYAndPlane, h], fun h => ?_⟩
  have h1 : getZFromXYAndPlane point plane
      = -(plane.x * point.x + plane.y * point.y + plane.w) / plane.z := by
    simp only [getZFromXYAndPlane, if_pos h]
    rw [div_neg, neg_div]
  refine ⟨h1, ?_, ?_⟩
  · rw [h1]; field_simp; ring
  · intro z hz
    rw [h1]; field_simp; linarith


theorem getZ_of_onPlane (plane p : Vector) (z w : ℚ) (hz : plane.z ≠ 0) (h : onPlane plane p) :
    getZFromXYAndPlane ⟨p.x, p.y, z, w⟩ plane = p.z := by
  simp only [getZFromXYAndPlane, if_pos hz]
  unfold onPlane at h
  rw [div_neg, eq_comm, eq_neg_iff_add_eq_zero, eq_comm, ← sub_eq_zero]
  field_simp
  linarith

theorem onPlane_first (p1 p2 p3 : Vector) : onPlane (generatePlaneEquation p1 p2 p3) p1 := by
  have hs : ∀ a b : Vector, a - b = Vector.sub a b := fun _ _ => rfl
  simp only [onPlane, generatePlaneEquation, calculatePlaneNormalVector, hs, Vector.sub]; ring

theorem onPlane_second (p1 p2 p3 : Vector) : onPlane (generatePlaneEquation p1 p2 p3) p2 := by
  have hs : ∀ a b : Vector, a - b = Vector.sub a b := fun _ _ => rfl
  simp only [onPlane, generatePlaneEquation, calculatePlaneNormalVector, hs, Vector.sub]; ring

theorem onPlane_third (p1 p2 p3 : Vector) : onPlane (generatePlaneEquation p1 p2 p3) p3 := by
  have hs : ∀ a b : Vector, a - b = Vector.sub a b := fun _ _ => rfl
  simp only [onPlane, generatePlaneEquation, calculatePlaneNormalVector, hs, Vector.sub]; ring

theorem generatePlaneEquation_z (p1 p2 p3 : Vector) :
    (generatePlaneEquation p1 p2 p3).z
      = (p2.x - p1.x) * (p3.y - p1.y) - (p3.x - p1.x) * (p2.y - p1.y) := rfl

/-- The vectors and planes of the calibrated state. -/
theorem calibratedState_geometry (cfg : Config) (z0 w0 : ℚ) (adjustHeight : Bool) (s0 : Motors) :
    (calibratedState cfg z0 w0 adjustHeight s0).backLeftVector
        = ⟨54 - 45, 50 + 45, s0.eeprom.BED_ORIENTATION_BACK_LEFT + s0.eeprom.BED_OFFSET_BACK_LEFT, w0⟩
    ∧ (calibratedState cfg z0 w0 adjustHeight s0).backRightVector
        = ⟨54 + 45, 50 + 45, s0.eeprom.BED_ORIENTATION_BACK_RIGHT + s0.eeprom.BED_OFFSET_BACK_RIGHT, w0⟩
    ∧ (calibratedState cfg z0 w0 adjustHeight s0).frontLeftVector
        = ⟨54 - 45, 50 - 45, s0.eeprom.BED_ORIENTATION_FRONT_LEFT + s0.eeprom.BED_OFFSET_FRONT_LEFT, w0⟩
    ∧ (calibratedState cfg z0 w0 adjustHeight s0).frontRightVector
        = ⟨54 + 45, 50 - 45, s0.eeprom.BED_ORIENTATION_FRONT_RIGHT + s0.eeprom.BED_OFFSET_FRONT_RIGHT, w0⟩
    ∧ (calibratedState cfg z0 w0 adjustHeight s0).centerVector = ⟨54, 50, z0, w0⟩
    ∧ (calibratedState cfg z0 w0 adjustHeight s0).backPlane
        = generatePlaneEquation (calibratedState cfg z0 w0 adjustHeight s0).backLeftVector
            (calibratedState cfg z0 w0 adjustHeight s0).backRightVector
            (calibratedState cfg z0 w0 adjustHeight s0).centerVector
    ∧ (calibratedState cfg z0 w0 adjustHeight s0).leftPlane
        = generatePlaneEquation (calibratedState cfg z0 w0 adjustHeight s0).backLeftVector
            (calibratedState cfg z0 w0 adjustHeight s0).frontLeftVector
            (calibratedState cfg z0 w0 adjustHeight s0).centerVector
    ∧ (calibratedState cfg z0 w0 adjustHeight s0).rightPlane
        = generatePlaneEquation (calibratedState cfg z0 w0 adjustHeight s0).backRightVector
            (calibratedState cfg z0 w0 adjustHeight s0).frontRightVector
            (calibratedState cfg z0 w0 adjustHeight s0).centerVector
    ∧ (calibratedState cfg z0 w0 adjustHeight s0).frontPlane
        = generatePlaneEquation (calibratedState cfg z0 w0 adjustHeight s0).frontLeftVector
            (calibratedState cfg z0 w0 adjustHeight s0).frontRightVector
            (calibratedState cfg z0 w0 adjustHeight s0).centerVector := by
  cases adjustHeight <;> exact ⟨rfl, rfl, rfl, rfl, rfl, rfl, rfl, rfl, rfl⟩

/-- The branch `getHeightAdjustmentRequired` takes at the four corner points. -/
theorem getHeightAdjustmentRequired_corners (cfg : Config) (s : Motors)
    (h1 : s.frontLeftVector.x = 9) (h2 : s.frontLeftVector.y = 5)
    (h3 : s.frontRightVector.x = 99) (h4 : s.backRightVector.y = 95) :
    getHeightAdjustmentRequired cfg s 9 95
        = (getZFromXYAndPlane ⟨9, 95, 0, 1⟩ s.backPlane
            + getZFromXYAndPlane ⟨9, 95, 0, 1⟩ s.leftPlane) / 2
    ∧ getHeightAdjustmentRequired cfg s 99 95
        = (getZFromXYAndPlane ⟨99, 95, 0, 1⟩ s.backPlane
            + getZFromXYAndPlane ⟨99, 95, 0, 1⟩ s.rightPlane) / 2
    ∧ getHeightAdjustmentRequired cfg s 9 5
        = (getZFromXYAndPlane ⟨9, 5, 0, 1⟩ s.frontPlane
            + getZFromXYAndPlane ⟨9, 5, 0, 1⟩ s.leftPlane) / 2
    ∧ getHeightAdjustmentRequired cfg s 99 5
        = (getZFromXYAndPlane ⟨99, 5, 0, 1⟩ s.frontPlane
            + getZFromXYAndPlane ⟨99, 5, 0, 1⟩ s.rightPlane) / 2 := by
  refine ⟨?_, ?_, ?_, ?_⟩
  · unfold getHeightAdjustmentRequired
    rw [h1, h4]
    exact if_pos ⟨le_refl _, le_refl _⟩
  · unfold getHeightAdjustmentRequired
    rw [h1, h2, h3, h4]
    rw [if_neg (by norm_num : ¬ ((99 : ℚ) ≤ 9 ∧ (95 : ℚ) ≥ 95)),
      if_neg (by norm_num : ¬ ((99 : ℚ) ≤ 9 ∧ (95 : ℚ) ≤ 5)),
      if_neg (by norm_num : ¬ ((99 : ℚ) ≥ 99 ∧ (95 : ℚ) ≤ 5))]
    exact if_pos ⟨le_refl _, le_refl _⟩
  · unfold getHeightAdjustmentRequired
    rw [h1, h2, h4]
    rw [if_neg (by norm_num : ¬ ((9 : ℚ) ≤ 9 ∧ (5 : ℚ) ≥ 95))]
    exact if_pos ⟨le_refl _, le_refl _⟩
  · unfold getHeightAdjustmentRequired
    rw [h1, h2, h3, h4]
    rw [if_neg (by norm_num : ¬ ((99 : ℚ) ≤ 9 ∧ (5 : ℚ) ≥ 95)),
      if_neg (by norm_num : ¬ ((99 : ℚ) ≤ 9 ∧ (5 : ℚ) ≤ 5))]
    exact if_pos ⟨le_refl _, le_refl _⟩

/-- The vectors of the calibrated state, with the coordinates evaluated. -/
theorem calibratedState_vectors (cfg : Config) (z0 w0 : ℚ) (adjustHeight : Bool) (s0 : Motors) :
    (calibratedState cfg z0 w0 adjustHeight s0).backLeftVector
        = ⟨9, 95, s0.eeprom.BED_ORIENTATION_BACK_LEFT + s0.eeprom.BED_OFFSET_BACK_LEFT, w0⟩
    ∧ (calibratedState cfg z0 w0 adjustHeight s0).backRightVector
        = ⟨99, 95, s0.eeprom.BED_ORIENTATION_BACK_RIGHT + s0.eeprom.BED_OFFSET_BACK_RIGHT, w0⟩
    ∧ (calibratedState cfg z0 w0 adjustHeight s0).frontLeftVector
        = ⟨9, 5, s0.eeprom.BED_ORIENTATION_FRONT_LEFT + s0.eeprom.BED_OFFSET_FRONT_LEFT, w0⟩
    ∧ (calibratedState cfg z0 w0 adjustHeight s0).frontRightVector
        = ⟨99, 5, s0.eeprom.BED_ORIENTATION_FRONT_RIGHT + s0.eeprom.BED_OFFSET_FRONT_RIGHT, w0⟩
    ∧ (calibratedState cfg z0 w0 adjustHeight s0).centerVector = ⟨54, 50, z0, w0⟩ := by
  obtain ⟨a, b, c, d, e, -⟩ := calibratedState_geometry cfg z0 w0 adjustHeight s0
  have e1 : (54 - 45 : ℚ) = 9 := by norm_num
  have e2 : (54 + 45 : ℚ) = 99 := by norm_num
  have e3 : (50 + 45 : ℚ) = 95 := by norm_num
  have e4 : (50 - 45 : ℚ) = 5 := by norm_num
  rw [e1, e3] at a
  rw [e2, e3] at b
  rw [e1, e4] at c
  rw [e2, e4] at d
  exact ⟨a, b, c, d, e⟩

/-- The C coefficients of the four planes of the calibrated state. -/
theorem calibratedState_plane_z (cfg : Config) (z0 w0 : ℚ) (adjustHeight : Bool) (s0 : Motors) :
    (calibratedState cfg z0 w0 adjustHeight s0).backPlane.z = -4050
    ∧ (calibratedState cfg z0 w0 adjustHeight s0).leftPlane.z = 4050
    ∧ (calibratedState cfg z0 w0 adjustHeight s0).rightPlane.z = -4050
    ∧ (calibratedState cfg z0 w0 adjustHeight s0).frontPlane.z = 4050 := by
  obtain ⟨-, -, -, -, -, hb, hl, hr, hf⟩ := calibratedState_geometry cfg z0 w0 adjustHeight s0
  obtain ⟨a, b, c, d, e⟩ := calibratedState_vectors cfg z0 w0 adjustHeight s0
  rw [hb, hl, hr, hf]
  simp only [generatePlaneEquation_z, a, b, c, d, e]
  norm_num

/-- C3: for every choice of the calibrated corner heights (orientation plus offset, read from
the EEPROM), with the vectors set as in `Motors::initialize` and the planes built by
`updateBedChanges`, `getHeightAdjustmentRequired` at each of the four corner points averages
two planes that both contain that corner and returns exactly that corner's height. -/
theorem corner_heights_exact (cfg : Config) (z0 w0 : ℚ) (adjustHeight : Bool) (s0 : Motors) :
    -- back-left corner (9, 95): back and left planes
    (getHeightAdjustmentRequired cfg (calibratedState cfg z0 w0 adjustHeight s0) 9 95
        = (getZFromXYAndPlane ⟨9, 95, 0, 1⟩ (calibratedState cfg z0 w0 adjustHeight s0).backPlane
            + getZFromXYAndPlane ⟨9, 95, 0, 1⟩ (calibratedState cfg z0 w0 adjustHeight s0).leftPlane) / 2
      ∧ onPlane (calibratedState cfg z0 w0 adjustHeight s0).backPlane
          ⟨9, 95, s0.eeprom.BED_ORIENTATION_BACK_LEFT + s0.eeprom.BED_OFFSET_BACK_LEFT, w0⟩
      ∧ onPlane (calibratedState cfg z0 w0 adjustHeight s0).leftPlane
          ⟨9, 95, s0.eeprom.BED_ORIENTATION_BACK_LEFT + s0.eeprom.BED_OFFSET_BACK_LEFT, w0⟩
      ∧ getHeightAdjustmentRequired cfg (calibratedState cfg z0 w0 adjustHeight s0) 9 95
          = s0.eeprom.BED_ORIENTATION_BACK_LEFT + s0.eeprom.BED_OFFSET_BACK_LEFT)
    -- back-right corner (99, 95): back and right planes
    ∧ (getHeightAdjustmentRequired cfg (calibratedState cfg z0 w0 adjustHeight s0) 99 95
        = (getZFromXYAndPlane ⟨99, 95, 0, 1⟩ (calibratedState cfg z0 w0 adjustHeight s0).backPlane
            + getZFromXYAndPlane ⟨99, 95, 0, 1⟩ (calibratedState cfg z0 w0 adjustHeight s0).rightPlane) / 2
      ∧ onPlane (calibratedState cfg z0 w0 adjustHeight s0).backPlane
          ⟨99, 95, s0.eeprom.BED_ORIENTATION_BACK_RIGHT + s0.eeprom.BED_OFFSET_BACK_RIGHT, w0⟩
      ∧ onPlane (calibratedState cfg z0 w0 adjustHeight s0).rightPlane
          ⟨99, 95, s0.eeprom.BED_ORIENTATION_BACK_RIGHT + s0.eeprom.BED_OFFSET_BACK_RIGHT, w0⟩
      ∧ getHeightAdjustmentRequired cfg (calibratedState cfg z0 w0 adjustHeight s0) 99 95
          = s0.eeprom.BED_ORIENTATION_BACK_RIGHT + s0.eeprom.BED_OFFSET_BACK_RIGHT)
    -- front-left corner (9, 5): front and left planes
    ∧ (getHeightAdjustmentRequired cfg (calibratedState cfg z0 w0 adjustHeight s0) 9 5
        = (getZFromXYAndPlane ⟨9, 5, 0, 1⟩ (calibratedState cfg z0 w0 adjustHeight s0).frontPlane
            + getZFromXYAndPlane ⟨9, 5, 0, 1⟩ (calibratedState cfg z0 w0 adjustHeight s0).leftPlane) / 2
      ∧ onPlane (calibratedState cfg z0 w0 adjustHeight s0).frontPlane
          ⟨9, 5, s0.eeprom.BED_ORIENTATION_FRONT_LEFT + s0.eeprom.BED_OFFSET_FRONT_LEFT, w0⟩
      ∧ onPlane (calibratedState cfg z0 w0 adjustHeight s0).leftPlane
          ⟨9, 5, s0.eeprom.BED_ORIENTATION_FRONT_LEFT + s0.eeprom.BED_OFFSET_FRONT_LEFT, w0⟩
      ∧ getHeightAdjustmentRequired cfg (calibratedState cfg z0 w0 adjustHeight s0) 9 5
          = s0.eeprom.BED_ORIENTATION_FRONT_LEFT + s0.eeprom.BED_OFFSET_FRONT_LEFT)
    -- front-right corner (99, 5): front and right planes
    ∧ (getHeightAdjustmentRequired cfg (calibratedState cfg z0 w0 adjustHeight s0) 99 5
        = (getZFromXYAndPlane ⟨99, 5, 0, 1⟩ (calibratedState cfg z0 w0 adjustHeight s0).frontPlane
            + getZFromXYAndPlane ⟨99, 5, 0, 1⟩ (calibratedState cfg z0 w0 adjustHeight s0).rightPlane) / 2
      ∧ onPlane (calibratedState cfg z0 w0 adjustHeight s0).frontPlane
          ⟨99, 5, s0.eeprom.BED_ORIENTATION_FRONT_RIGHT + s0.eeprom.BED_OFFSET_FRONT_RIGHT, w0⟩
      ∧ onPlane (calibratedState cfg z0 w0 adjustHeight s0).rightPlane
          ⟨99, 5, s0.eeprom.BED_ORIENTATION_FRONT_RIGHT + s0.eeprom.BED_OFFSET_FRONT_RIGHT, w0⟩
      ∧ getHeightAdjustmentRequired cfg (calibratedState cfg z0 w0 adjustHeight s0) 99 5
          = s0.eeprom.BED_ORIENTATION_FRONT_RIGHT + s0.eeprom.BED_OFFSET_FRONT_RIGHT) := by
  obtain ⟨hBL, hBR, hFL, hFR, -⟩ := calibratedState_vectors cfg z0 w0 adjustHeight s0
  obtain ⟨-, -, -, -, -, hb, hl, hr, hf⟩ := calibratedState_geometry cfg z0 w0 adjustHeight s0
  obtain ⟨zb, zl, zr, zf⟩ := calibratedState_plane_z cfg z0 w0 adjustHeight s0
  obtain ⟨c1, c2, c3, c4⟩ :=
    getHeightAdjustmentRequired_corners cfg (calibratedState cfg z0 w0 adjustHeight s0)
      (by rw [hFL]) (by rw [hFL]) (by rw [hFR]) (by rw [hBR])
  generalize calibratedState cfg z0 w0 adjustHeight s0 = S at *
  have nb : S.backPlane.z ≠ 0 := by rw [zb]; norm_num
  have nl : S.leftPlane.z ≠ 0 := by rw [zl]; norm_num
  have nr : S.rightPlane.z ≠ 0 := by rw [zr]; norm_num
  have nf : S.frontPlane.z ≠ 0 := by rw [zf]; norm_num
  have bBL := onPlane_first S.backLeftVector S.backRightVector S.centerVector
  have bBR := onPlane_second S.backLeftVector S.backRightVector S.centerVector
  have lBL := onPlane_first S.backLeftVector S.frontLeftVector S.centerVector
  have lFL := onPlane_second S.backLeftVector S.frontLeftVector S.centerVector
  have rBR := onPlane_first S.backRightVector S.frontRightVector S.centerVector
  have rFR := onPlane_second S.backRightVector S.frontRightVector S.centerVector
  have fFL := onPlane_first S.frontLeftVector S.frontRightVector S.centerVector
  have fFR := onPlane_second S.frontLeftVector S.frontRightVector S.centerVector
  rw [← hb] at bBL bBR
  rw [← hl] at lBL lFL
  rw [← hr] at rBR rFR
  rw [← hf] at fFL fFR
  rw [hBL] at bBL lBL
  rw [hBR] at bBR rBR
  rw [hFL] at lFL fFL
  rw [hFR] at rFR fFR
  refine ⟨⟨c1, bBL, lBL, ?_⟩, ⟨c2, bBR, rBR, ?_⟩, ⟨c3, fFL, lFL, ?_⟩, ⟨c4, fFR, rFR, ?_⟩⟩
  · rw [c1, getZ_of_onPlane S.backPlane _ 0 1 nb bBL, getZ_of_onPlane S.leftPlane _ 0 1 nl lBL]
    ring
  · rw [c2, getZ_of_onPlane S.backPlane _ 0 1 nb bBR, getZ_of_onPlane S.rightPlane _ 0 1 nr rBR]
    ring
  · rw [c3, getZ_of_onPlane S.frontPlane _ 0 1 nf fFL, getZ_of_onPlane S.leftPlane _ 0 1 nl lFL]
    ring
  · rw [c4, getZ_of_onPlane S.frontPlane _ 0 1 nf fFR, getZ_of_onPlane S.rightPlane _ 0 1 nr rFR]
    ring

/-! ## Theorems: step scheduler -/

theorem motorsStepAction_self (a : AXES) (g : Globals) :
    axisOf (motorsStepAction a g) a = axisAction (axisOf g a) := by
  unfold motorsStepAction axisAction axisOf
  dsimp only
  split_ifs <;> simp_all [upd]

theorem motorsStepAction_other (a i : AXES) (g : Globals) (h : a ≠ i) :
    axisOf (motorsStepAction i g) a = axisOf g a := by
  unfold motorsStepAction axisOf
  dsimp only
  split_ifs <;> simp [upd, h]

theorem stepIfMoving_other (a i : AXES) (g : Globals) (h : a ≠ i) :
    axisOf (stepIfMoving i g) a = axisOf g a := by
  unfold stepIfMoving
  split_ifs
  · exact motorsStepAction_other a i g h
  · rfl

theorem stepIfMoving_self (a : AXES) (g : Globals) :
    axisOf (stepIfMoving a g) a
      = if (axisOf g a).moving then axisAction (axisOf g a) else axisOf g a := by
  have hm : (axisOf g a).moving = g.motorsIsMoving a := rfl
  unfold stepIfMoving
  rw [hm]
  split_ifs
  · exact motorsStepAction_self a g
  · rfl

theorem updateMotorsStepTimer_eq (g : Globals) :
    updateMotorsStepTimer g
      = stepIfMoving AXES.E (stepIfMoving AXES.Z (stepIfMoving AXES.Y
          (stepIfMoving AXES.X { g with stepPin := fun _ => false }))) := rfl

/-- One tick of the step timer acts on each motor separately. -/
theorem axisOf_updateMotorsStepTimer (a : AXES) (g : Globals) (ha : a ≠ AXES.F) :
    axisOf (updateMotorsStepTimer g) a = axisTick (axisOf g a) := by
  have h0 : axisOf { g with stepPin := fun _ => false } a = { axisOf g a with pin := false } := rfl
  have hm : ({ axisOf g a with pin := false } : AxisState).moving = (axisOf g a).moving := rfl
  rw [updateMotorsStepTimer_eq]
  unfold axisTick
  cases a
  · rw [stepIfMoving_other _ _ _ (by decide), stepIfMoving_other _ _ _ (by decide),
      stepIfMoving_other _ _ _ (by decide), stepIfMoving_self, h0, hm]
  · rw [stepIfMoving_other _ _ _ (by decide), stepIfMoving_other _ _ _ (by decide),
      stepIfMoving_self, stepIfMoving_other _ _ _ (by decide), h0, hm]
  · rw [stepIfMoving_other _ _ _ (by decide), stepIfMoving_self,
      stepIfMoving_other _ _ _ (by decide), stepIfMoving_other _ _ _ (by decide), h0, hm]
  · rw [stepIfMoving_self, stepIfMoving_other _ _ _ (by decide),
      stepIfMoving_other _ _ _ (by decide), stepIfMoving_other _ _ _ (by decide), h0, hm]
  · exact absurd rfl ha

theorem axisOf_ticks (a : AXES) (ha : a ≠ AXES.F) (k : Nat) (g : Globals) :
    axisOf (ticks k g) a = axisTicks k (axisOf g a) := by
  induction k generalizing g with
  | zero => rfl
  | succ k ih => rw [ticks, axisTicks, ih, axisOf_updateMotorsStepTimer a g ha]

theorem pulses_eq_axisPulses (a : AXES) (ha : a ≠ AXES.F) (k : Nat) (g : Globals) :
    pulses a k g = axisPulses k (axisOf g a) := by
  induction k generalizing g with
  | zero => rfl
  | succ k ih =>
    rw [pulses, axisPulses, ih, ← axisOf_updateMotorsStepTimer a g ha]
    rfl

/-- The three kinds of tick of a motor in the Stepping state: a suppressed tick,
a counted tick without a pulse and a counted tick with a pulse. -/
theorem axisTick_cases (x : AxisState) (h : AxisOk x) :
    (x.skips ≠ 0 ∧ x.skipsCounter ≥ x.skips
        ∧ axisTick x = { x with pin := false, skipsCounter := 0 })
    ∨ (¬ (x.skips ≠ 0 ∧ x.skipsCounter ≥ x.skips) ∧ x.delayCounter + 1 < x.delay
        ∧ axisTick x
            = { x with pin := false, skipsCounter := countedSkips x,
                       delayCounter := x.delayCounter + 1 })
    ∨ (¬ (x.skips ≠ 0 ∧ x.skipsCounter ≥ x.skips) ∧ x.delayCounter + 1 = x.delay
        ∧ axisTick x
            = { x with pin := true, skipsCounter := countedSkips x, delayCounter := 0,
                       steps := x.steps - 1, moving := decide (x.steps ≠ 1) }) := by
  obtain ⟨h1, h2, h3, h4, h5, h6, h7, h8⟩ := h
  by_cases hs : x.skips ≠ 0 ∧ x.skipsCounter ≥ x.skips
  · left
    refine ⟨hs.1, hs.2, ?_⟩
    unfold axisTick
    rw [if_pos h8]
    unfold axisAction
    dsimp only
    rw [if_pos hs]
  · right
    have hsc : (if x.skips ≠ 0 then (x.skipsCounter + 1) % 4294967296 else x.skipsCounter)
        = countedSkips x := by
      unfold countedSkips
      split_ifs with h0
      · apply Nat.mod_eq_of_lt
        have : ¬ x.skipsCounter ≥ x.skips := fun hc => hs ⟨h0, hc⟩
        omega
      · rfl
    have hc : (x.delayCounter + 1) % 4294967296 = x.delayCounter + 1 :=
      Nat.mod_eq_of_lt (by omega)
    by_cases hd : x.delayCounter + 1 < x.delay
    · left
      refine ⟨hs, hd, ?_⟩
      unfold axisTick
      rw [if_pos h8]
      unfold axisAction
      dsimp only
      rw [if_neg hs, hsc, hc, if_neg (by omega)]
    · right
      have hd2 : x.delayCounter + 1 = x.delay := by omega
      refine ⟨hs, hd2, ?_⟩
      have hn : (x.steps + 4294967295) % 4294967296 = x.steps - 1 := by omega
      have hm : (if x.steps - 1 = 0 then false else x.moving) = decide (x.steps ≠ 1) := by
        by_cases h1s : x.steps = 1
        · simp [h1s]
        · have : x.steps - 1 ≠ 0 := by omega
          simp [h1s, this, h8]
      unfold axisTick
      rw [if_pos h8]
      unfold axisAction
      dsimp only
      rw [if_neg hs, hsc, hc, if_pos (by omega), hn, hm]

/-- Every tick of a motor in the Stepping state either issues no pulse and keeps
the step count, or issues a pulse and decrements the step count; the motor
stays in the Stepping state, with a smaller measure, unless that pulse was its
last one. -/
theorem axisTick_progress (x : AxisState) (h : AxisOk x) :
    ((axisTick x).pin = false ∧ (axisTick x).steps = x.steps ∧ AxisOk (axisTick x)
        ∧ axisMeasure (axisTick x) < axisMeasure x)
    ∨ ((axisTick x).pin = true ∧ (axisTick x).steps + 1 = x.steps
        ∧ ((x.steps = 1 ∧ (axisTick x).moving = false)
          ∨ (AxisOk (axisTick x) ∧ axisMeasure (axisTick x) < axisMeasure x))) := by
  have hcases := axisTick_cases x h
  obtain ⟨h1, h2, h3, h4, h5, h6, h7, h8⟩ := h
  have hsd : x.delay ≤ x.steps * x.delay := Nat.le_mul_of_pos_left _ h1
  rcases hcases with ⟨ha, hb, he⟩ | ⟨ha, hb, he⟩ | ⟨ha, hb, he⟩
  · left
    rw [he]
    refine ⟨rfl, rfl, ⟨h1, h2, h3, h4, h5, h6, Nat.zero_le _, h8⟩, ?_⟩
    unfold axisMeasure
    dsimp only
    rw [if_neg (by omega : ¬ (x.skips ≠ 0 ∧ 0 ≥ x.skips)), if_pos ⟨ha, hb⟩]
    omega
  · left
    have hcs : countedSkips x ≤ x.skips := by
      unfold countedSkips
      split_ifs with h0
      · have : ¬ x.skipsCounter ≥ x.skips := fun hc => ha ⟨h0, hc⟩
        omega
      · exact h7
    rw [he]
    refine ⟨rfl, rfl, ⟨h1, h2, h3, h4, hb, h6, hcs, h8⟩, ?_⟩
    unfold axisMeasure
    dsimp only
    rw [if_neg ha]
    split_ifs <;> omega
  · right
    have hcs : countedSkips x ≤ x.skips := by
      unfold countedSkips
      split_ifs with h0
      · have : ¬ x.skipsCounter ≥ x.skips := fun hc => ha ⟨h0, hc⟩
        omega
      · exact h7
    rw [he]
    refine ⟨rfl, by dsimp only; omega, ?_⟩
    by_cases h1s : x.steps = 1
    · left
      exact ⟨h1s, by simp [h1s]⟩
    · right
      have hmul : (x.steps - 1) * x.delay + x.delay = x.steps * x.delay := by
        have : x.steps = (x.steps - 1) + 1 := by omega
        conv_rhs => rw [this, Nat.add_mul, Nat.one_mul]
      refine ⟨⟨by dsimp only; omega, by dsimp only; omega, h3, h4, by dsimp only; omega, h6,
        hcs, by simp [h1s]⟩, ?_⟩
      unfold axisMeasure
      dsimp only
      rw [if_neg ha]
      split_ifs <;> omega

theorem axisTick_idle (x : AxisState) (h : x.moving = false) :
    axisTick x = { x with pin := false } := by
  unfold axisTick
  rw [if_neg (by simp [h])]

theorem axisTicks_idle (k : Nat) (x : AxisState) (h : x.moving = false) :
    (axisTicks k x).moving = false ∧ axisPulses k x = 0 := by
  induction k generalizing x with
  | zero => exact ⟨h, rfl⟩
  | succ k ih =>
    rw [axisTicks, axisPulses, axisTick_idle x h]
    have := ih { x with pin := false } h
    exact ⟨this.1, by rw [this.2]; rfl⟩

theorem axisTicks_add (j k : Nat) (x : AxisState) :
    axisTicks (j + k) x = axisTicks k (axisTicks j x) := by
  induction j generalizing x with
  | zero => rw [Nat.zero_add]; rfl
  | succ j ih => rw [Nat.succ_add, axisTicks, axisTicks, ih]

theorem axisPulses_add (j k : Nat) (x : AxisState) :
    axisPulses (j + k) x = axisPulses j x + axisPulses k (axisTicks j x) := by
  induction j generalizing x with
  | zero => rw [Nat.zero_add]; simp [axisPulses, axisTicks]
  | succ j ih => rw [Nat.succ_add, axisPulses, axisPulses, axisTicks, ih, Nat.add_assoc]

/-- A motor in the Stepping state becomes Idle after finitely many ticks, on a
tick that issues a pulse, having issued exactly as many pulses as it had steps. -/
theorem axis_run (m : Nat) :
    ∀ x : AxisState, AxisOk x → axisMeasure x ≤ m →
      ∃ T, 1 ≤ T ∧ (∀ k, k < T → (axisTicks k x).moving = true)
        ∧ (axisTicks T x).moving = false ∧ (axisTicks T x).pin = true
        ∧ (axisTicks T x).steps = 0
        ∧ ∀ k, k ≤ T → (axisTicks k x).steps + axisPulses k x = x.steps := by
  induction m with
  | zero =>
    intro x h hm
    obtain ⟨h1, h2, h3, h4, h5, h6, h7, h8⟩ := h
    have hsd : x.delay ≤ x.steps * x.delay := Nat.le_mul_of_pos_left _ h1
    unfold axisMeasure at hm
    omega
  | succ m ih =>
    intro x h hm
    have hmov : x.moving = true := h.2.2.2.2.2.2.2
    rcases axisTick_progress x h with ⟨hp, hst, hok, hlt⟩ | ⟨hp, hst, hlast | ⟨hok, hlt⟩⟩
    · obtain ⟨T, hT1, hmv, hidle, hpin, hz, hsum⟩ := ih (axisTick x) hok (by omega)
      refine ⟨T + 1, by omega, ?_, hidle, hpin, hz, ?_⟩
      · intro k hk
        cases k with
        | zero => exact hmov
        | succ k => exact hmv k (by omega)
      · intro k hk
        cases k with
        | zero => simp [axisTicks, axisPulses]
        | succ k =>
          have := hsum k (by omega)
          rw [axisTicks, axisPulses, hp]
          simp only [Bool.false_eq_true, if_false]
          omega
    · refine ⟨1, le_refl _, ?_, hlast.2, hp, ?_, ?_⟩
      · intro k hk
        have : k = 0 := by omega
        subst this
        exact hmov
      · show (axisTick x).steps = 0
        omega
      · intro k hk
        cases k with
        | zero => simp [axisTicks, axisPulses]
        | succ k =>
          have : k = 0 := by omega
          subst this
          simp only [axisTicks, axisPulses, hp, if_true]
          omega
    · obtain ⟨T, hT1, hmv, hidle, hpin, hz, hsum⟩ := ih (axisTick x) hok (by omega)
      refine ⟨T + 1, by omega, ?_, hidle, hpin, hz, ?_⟩
      · intro k hk
        cases k with
        | zero => exact hmov
        | succ k => exact hmv k (by omega)
      · intro k hk
        cases k with
        | zero => simp [axisTicks, axisPulses]
        | succ k =>
          have := hsum k (by omega)
          rw [axisTicks, axisPulses, hp]
          simp only [if_true]
          omega

/-- With skipping disabled, a tick of a motor in the Stepping state is a counted
tick; it issues a pulse exactly when the delay counter reaches the delay. -/
theorem axisTick_noskip (x : AxisState) (h : AxisOk x) (hs : x.skips = 0)
    (hc : x.skipsCounter = 0) :
    (axisTick x).skips = 0 ∧ (axisTick x).skipsCounter = 0 ∧ (axisTick x).delay = x.delay
    ∧ ((axisTick x).pin = true ↔ x.delayCounter + 1 = x.delay)
    ∧ ((x.steps * x.delay - x.delayCounter = 1 ∧ (axisTick x).moving = false)
      ∨ (AxisOk (axisTick x)
          ∧ (axisTick x).steps * (axisTick x).delay - (axisTick x).delayCounter + 1
              = x.steps * x.delay - x.delayCounter
          ∧ ((axisTick x).delayCounter = x.delayCounter + 1
              ∨ ((axisTick x).delayCounter = 0 ∧ x.delayCounter + 1 = x.delay)))) := by
  have hcases := axisTick_cases x h
  have hprog := axisTick_progress x h
  obtain ⟨h1, h2, h3, h4, h5, h6, h7, h8⟩ := h
  have hcs : countedSkips x = 0 := by
    unfold countedSkips
    rw [if_neg (by simp [hs]), hc]
  have hsd : x.delay ≤ x.steps * x.delay := Nat.le_mul_of_pos_left _ h1
  rcases hcases with ⟨ha, -, -⟩ | ⟨-, hb, he⟩ | ⟨-, hb, he⟩
  · exact absurd hs ha
  · rw [he] at hprog ⊢
    dsimp only at hprog ⊢
    refine ⟨hs, hcs, rfl, by simp; omega, Or.inr ⟨?_, by omega, Or.inl rfl⟩⟩
    rcases hprog with ⟨-, -, hok, -⟩ | ⟨hp, -⟩
    · exact hok
    · exact absurd hp (by simp)
  · rw [he] at hprog ⊢
    dsimp only at hprog ⊢
    refine ⟨hs, hcs, rfl, by simp [hb], ?_⟩
    by_cases h1s : x.steps = 1
    · left
      refine ⟨?_, by simp [h1s]⟩
      rw [h1s, Nat.one_mul]
      omega
    · right
      have hmul : (x.steps - 1) * x.delay + x.delay = x.steps * x.delay := by
        have : x.steps = (x.steps - 1) + 1 := by omega
        conv_rhs => rw [this, Nat.add_mul, Nat.one_mul]
      refine ⟨?_, by omega, Or.inr ⟨rfl, hb⟩⟩
      rcases hprog with ⟨hp, -⟩ | ⟨-, -, hlast | ⟨hok, -⟩⟩
      · exact absurd hp (by simp)
      · exact absurd hlast.1 h1s
      · exact hok

/-- With skipping disabled, a motor in the Stepping state stays there for
`steps * delay - delayCounter` ticks, and the pulses fall on the ticks at which
the number of counted ticks is a multiple of the delay. -/
theorem axisTicks_noskip (k : Nat) :
    ∀ x : AxisState, AxisOk x → x.skips = 0 → x.skipsCounter = 0 →
      k < x.steps * x.delay - x.delayCounter →
      (axisTicks k x).moving = true
      ∧ (1 ≤ k → ((axisTicks k x).pin = true ↔ x.delay ∣ x.delayCounter + k)) := by
  induction k with
  | zero =>
    intro x h _ _ _
    exact ⟨h.2.2.2.2.2.2.2, fun hk => absurd hk (by omega)⟩
  | succ k ih =>
    intro x h hs hc hk
    obtain ⟨hs1, hc1, hd1, hpin, hlast | ⟨hok, hrem, hdc⟩⟩ := axisTick_noskip x h hs hc
    · omega
    · have := ih (axisTick x) hok hs1 hc1 (by omega)
      rw [axisTicks]
      refine ⟨this.1, fun _ => ?_⟩
      obtain ⟨-, -, h3, -, h5, -⟩ := h
      cases k with
      | zero =>
        rw [axisTicks, hpin]
        constructor
        · intro he
          rw [he]
        · intro hdvd
          have := Nat.le_of_dvd (by omega) hdvd
          omega
      | succ k =>
        rw [this.2 (by omega), hd1]
        rcases hdc with hdc | ⟨hdc, hfull⟩
        · rw [hdc]
          have : x.delayCounter + 1 + (k + 1) = x.delayCounter + (k + 1 + 1) := by omega
          rw [this]
        · rw [hdc, ← hfull]
          have : x.delayCounter + (k + 1 + 1) = (x.delayCounter + 1) + (0 + (k + 1)) := by omega
          rw [this, Nat.dvd_add_right (dvd_refl _)]

/-- With skipping disabled, a motor in the Stepping state is Idle after
`steps * delay - delayCounter` ticks. -/
theorem axisTicks_noskip_idle (k : Nat) :
    ∀ x : AxisState, AxisOk x → x.skips = 0 → x.skipsCounter = 0 →
      x.steps * x.delay - x.delayCounter = k → (axisTicks k x).moving = false := by
  induction k with
  | zero =>
    intro x h _ _ hk
    obtain ⟨h1, -, -, -, h5, -⟩ := h
    have hsd : x.delay ≤ x.steps * x.delay := Nat.le_mul_of_pos_left _ h1
    omega
  | succ k ih =>
    intro x h hs hc hk
    obtain ⟨hs1, hc1, -, -, hlast | ⟨hok, hrem, -⟩⟩ := axisTick_noskip x h hs hc
    · have : k = 0 := by omega
      subst this
      exact hlast.2
    · rw [axisTicks]
      exact ih (axisTick x) hok hs1 hc1 (by omega)

/-- C4: a motor entered into Stepping with cleared counters, `n ≥ 1` steps and a delay
`d ≥ 1` (any skip setting, all values within `uint32_t`) becomes Idle on some tick `T`, which
issues a pulse; up to `T` it is Stepping, it has issued exactly `n` pulses, each pulse
decrementing the remaining step count by one, and no later tick issues a pulse for it. With
skipping disabled `T = n * d` and the pulses fall exactly on the multiples of `d`. -/
theorem stepping_emits_exactly_n_pulses (g : Globals) (a : AXES) (ha : a ≠ AXES.F)
    (hmov : g.motorsIsMoving a = true)
    (hdc : g.motorsStepDelayCounter a = 0) (hsc : g.motorsDelaySkipsCounter a = 0)
    (hn1 : 1 ≤ g.motorsNumberOfSteps a) (hn : g.motorsNumberOfSteps a < 4294967296)
    (hd1 : 1 ≤ g.motorsStepDelay a) (hd : g.motorsStepDelay a < 4294967296)
    (hs : g.motorsDelaySkips a < 4294967296) :
    ∃ T, 1 ≤ T
      ∧ (∀ k, k < T → (ticks k g).motorsIsMoving a = true)
      ∧ (ticks T g).motorsIsMoving a = false
      ∧ (ticks T g).stepPin a = true
      ∧ pulses a T g = g.motorsNumberOfSteps a
      ∧ (∀ k, k ≤ T →
          (ticks k g).motorsNumberOfSteps a + pulses a k g = g.motorsNumberOfSteps a)
      ∧ (∀ k, (ticks (T + k) g).motorsIsMoving a = false
          ∧ pulses a (T + k) g = g.motorsNumberOfSteps a)
      ∧ (g.motorsDelaySkips a = 0 →
          T = g.motorsNumberOfSteps a * g.motorsStepDelay a
          ∧ ∀ k, 1 ≤ k → k ≤ T →
              ((ticks k g).stepPin a = true ↔ g.motorsStepDelay a ∣ k)) := by
  have hok : AxisOk (axisOf g a) :=
    ⟨hn1, hn, hd1, hd, by show g.motorsStepDelayCounter a < g.motorsStepDelay a; omega, hs,
      by show g.motorsDelaySkipsCounter a ≤ g.motorsDelaySkips a; omega, hmov⟩
  obtain ⟨T, hT1, hmv, hidle, hpin, hz, hsum⟩ := axis_run _ (axisOf g a) hok (le_refl _)
  have hmoving : ∀ k, (ticks k g).motorsIsMoving a = (axisTicks k (axisOf g a)).moving := by
    intro k; rw [← axisOf_ticks a ha k g]; rfl
  have hpins : ∀ k, (ticks k g).stepPin a = (axisTicks k (axisOf g a)).pin := by
    intro k; rw [← axisOf_ticks a ha k g]; rfl
  have hsteps : ∀ k, (ticks k g).motorsNumberOfSteps a = (axisTicks k (axisOf g a)).steps := by
    intro k; rw [← axisOf_ticks a ha k g]; rfl
  have hn0 : (axisOf g a).steps = g.motorsNumberOfSteps a := rfl
  have hpT : axisPulses T (axisOf g a) = g.motorsNumberOfSteps a := by
    have := hsum T (le_refl _)
    omega
  refine ⟨T, hT1, ?_, ?_, ?_, ?_, ?_, ?_, ?_⟩
  · intro k hk; rw [hmoving]; exact hmv k hk
  · rw [hmoving]; exact hidle
  · rw [hpins]; exact hpin
  · rw [pulses_eq_axisPulses a ha]; exact hpT
  · intro k hk
    rw [hsteps, pulses_eq_axisPulses a ha]
    exact hsum k hk
  · intro k
    have := axisTicks_idle k (axisTicks T (axisOf g a)) hidle
    rw [hmoving, pulses_eq_axisPulses a ha, axisTicks_add, axisPulses_add, this.2, hpT]
    exact ⟨this.1, rfl⟩
  · intro hs0
    have hc0 : (axisOf g a).skipsCounter = 0 := hsc
    have hdc0 : (axisOf g a).delayCounter = 0 := hdc
    have hA : (axisOf g a).steps * (axisOf g a).delay - (axisOf g a).delayCounter
        = g.motorsNumberOfSteps a * g.motorsStepDelay a := by
      rw [hdc0]; rfl
    have hTeq : T = g.motorsNumberOfSteps a * g.motorsStepDelay a := by
      rcases Nat.lt_trichotomy T (g.motorsNumberOfSteps a * g.motorsStepDelay a) with h | h | h
      · have := (axisTicks_noskip T (axisOf g a) hok hs0 hc0 (by rw [hA]; exact h)).1
        rw [hidle] at this
        exact absurd this (by simp)
      · exact h
      · have h1 := axisTicks_noskip_idle _ (axisOf g a) hok hs0 hc0 hA
        have h2 := hmv _ h
        rw [h1] at h2
        exact absurd h2 (by simp)
    refine ⟨hTeq, fun k hk1 hkT => ?_⟩
    rw [hpins]
    rcases Nat.lt_or_ge k T with hlt | hge
    · have := (axisTicks_noskip k (axisOf g a) hok hs0 hc0 (by rw [hA, ← hTeq]; exact hlt)).2 hk1
      rw [this, hdc0, Nat.zero_add]
      rfl
    · have hkeq : k = T := by omega
      rw [hkeq, hpin, hTeq]
      simp

theorem stepping_emits_exactly_n_pulses_witness :
    ∃ T, 1 ≤ T
      ∧ (∀ k, k < T → (ticks k steppingExample).motorsIsMoving AXES.X = true)
      ∧ (ticks T steppingExample).motorsIsMoving AXES.X = false
      ∧ (ticks T steppingExample).stepPin AXES.X = true
      ∧ pulses AXES.X T steppingExample = steppingExample.motorsNumberOfSteps AXES.X
      ∧ (∀ k, k ≤ T →
          (ticks k steppingExample).motorsNumberOfSteps AXES.X + pulses AXES.X k steppingExample
            = steppingExample.motorsNumberOfSteps AXES.X)
      ∧ (∀ k, (ticks (T + k) steppingExample).motorsIsMoving AXES.X = false
          ∧ pulses AXES.X (T + k) steppingExample = steppingExample.motorsNumberOfSteps AXES.X)
      ∧ (steppingExample.motorsDelaySkips AXES.X = 0 →
          T = steppingExample.motorsNumberOfSteps AXES.X * steppingExample.motorsStepDelay AXES.X
          ∧ ∀ k, 1 ≤ k → k ≤ T →
              ((ticks k steppingExample).stepPin AXES.X = true
                ↔ steppingExample.motorsStepDelay AXES.X ∣ k)) :=
  stepping_emits_exactly_n_pulses steppingExample AXES.X (by decide) (by decide) (by decide)
    (by decide) (by decide) (by decide) (by decide) (by decide) (by decide)

/-! ## Theorems: motion orchestrator -/

theorem upd_self {α : Type} (a : AXES → α) (i : AXES) : upd a i (a i) = a := by
  funext j
  unfold upd
  split_ifs with h
  · rw [h]
  · rfl

theorem moveMotorTask_ok (cfg : Config) (gcode : Gcode) (tasks : Nat) (i : AXES) (s : Motors)
    (l : MoveLocals) (h : ¬ overflowAt cfg gcode tasks s i) :
    moveMotorTask cfg gcode tasks i (s, l)
      = Except.ok (taskState cfg gcode tasks i s, taskLocals cfg gcode tasks i s l) := by
  unfold moveMotorTask
  dsimp only
  by_cases hp : hasFlag gcode.commandParameters (gcodeParameter gcode i).1
      ∧ |resolveNewValue cfg s tasks i (gcodeParameter gcode i).2 - s.currentValues i| ≠ 0
  · rw [if_pos hp]
    have hno : ¬ (totalNumberOfSteps s i (resolveNewValue cfg s tasks i (gcodeParameter gcode i).2) ≥ 1
        ∧ totalNumberOfSteps s i (resolveNewValue cfg s tasks i (gcodeParameter gcode i).2)
            > UINT32_MAX_AS_FLOAT) := fun hc => h ⟨hp.1, hp.2, hc.1, hc.2⟩
    rw [if_neg hno]
    unfold taskState targetValue taskLocals taskValidValues
    simp only [hp.1, hp.2, true_and, if_true, ne_eq, not_false_eq_true]
  · rw [if_neg hp]
    unfold taskState targetValue taskLocals taskValidValues
    by_cases hf : hasFlag gcode.commandParameters (gcodeParameter gcode i).1
    · have hd : |resolveNewValue cfg s tasks i (gcodeParameter gcode i).2 - s.currentValues i| = 0 := by
        by_contra hne
        exact hp ⟨hf, hne⟩
      have he : resolveNewValue cfg s tasks i (gcodeParameter gcode i).2 = s.currentValues i := by
        rw [abs_eq_zero, sub_eq_zero] at hd
        exact hd
      simp [hf, he, upd_self]
    · simp [hf, upd_self]

theorem moveMotorTask_error (cfg : Config) (gcode : Gcode) (tasks : Nat) (i : AXES) (s : Motors)
    (l : MoveLocals) (h : overflowAt cfg gcode tasks s i) :
    moveMotorTask cfg gcode tasks i (s, l)
      = Except.error (restoreMotors (taskValidValues i s l.validValues) i
          { s with startValues := upd s.startValues i (s.currentValues i) }) := by
  unfold moveMotorTask
  dsimp only
  rw [if_pos ⟨h.1, h.2.1⟩, if_pos ⟨h.2.2.1, h.2.2.2⟩]
  rfl

theorem moveMotor_task (cfg : Config) (gcode : Gcode) (tasks : Nat) (ht : tasks ≠ 0) (i : AXES)
    (sl : Motors × MoveLocals) :
    moveMotor cfg gcode tasks i sl = moveMotorTask cfg gcode tasks i sl := by
  unfold moveMotor
  rw [if_pos ht]

/-- The state and the local variables after the loop of a pass with tasks in
which no step count overflows. -/
theorem moveLoop_task_ok (cfg : Config) (gcode : Gcode) (tasks : Nat) (ht : tasks ≠ 0)
    (s : Motors) (l : MoveLocals)
    (h : ∀ i, i ∈ moveOrder → ¬ overflowAt cfg gcode tasks (stateBefore cfg gcode tasks s i) i) :
    moveLoop cfg gcode tasks moveOrder (s, l)
      = Except.ok
          (taskState cfg gcode tasks AXES.X (stateBefore cfg gcode tasks s AXES.X),
            taskLocals cfg gcode tasks AXES.X (stateBefore cfg gcode tasks s AXES.X)
              (taskLocals cfg gcode tasks AXES.Y (stateBefore cfg gcode tasks s AXES.Y)
                (taskLocals cfg gcode tasks AXES.Z (stateBefore cfg gcode tasks s AXES.Z)
                  (taskLocals cfg gcode tasks AXES.E s l)))) := by
  have hE := h AXES.E (by decide)
  have hZ := h AXES.Z (by decide)
  have hY := h AXES.Y (by decide)
  have hX := h AXES.X (by decide)
  unfold stateBefore at hE hZ hY hX
  dsimp only at hE hZ hY hX
  unfold moveOrder
  rw [moveLoop, moveMotor_task cfg gcode tasks ht, moveMotorTask_ok cfg gcode tasks AXES.E s l hE]
  dsimp only
  rw [moveLoop, moveMotor_task cfg gcode tasks ht, moveMotorTask_ok cfg gcode tasks AXES.Z _ _ hZ]
  dsimp only
  rw [moveLoop, moveMotor_task cfg gcode tasks ht, moveMotorTask_ok cfg gcode tasks AXES.Y _ _ hY]
  dsimp only
  rw [moveLoop, moveMotor_task cfg gcode tasks ht, moveMotorTask_ok cfg gcode tasks AXES.X _ _ hX]
  dsimp only
  rw [moveLoop]
  rfl

/-- Two states with the same start values are equal when their other fields agree. -/
theorem eq_with_startValues (s r : Motors)
    (h1 : r.currentValues = s.currentValues)
    (h2 : r.currentStateOfValues = s.currentStateOfValues)
    (h3 : r.currentMotorDirections = s.currentMotorDirections)
    (h4 : r.mode = s.mode) (h5 : r.extruderMode = s.extruderMode) (h6 : r.units = s.units)
    (h7 : r.emergencyStopOccured = s.emergencyStopOccured)
    (h8 : r.backRightVector = s.backRightVector) (h9 : r.backLeftVector = s.backLeftVector)
    (h10 : r.frontLeftVector = s.frontLeftVector) (h11 : r.frontRightVector = s.frontRightVector)
    (h12 : r.centerVector = s.centerVector) (h13 : r.backPlane = s.backPlane)
    (h14 : r.leftPlane = s.leftPlane) (h15 : r.rightPlane = s.rightPlane)
    (h16 : r.frontPlane = s.frontPlane) (h17 : r.bedHeightOffset = s.bedHeightOffset)
    (h18 : r.directionPin = s.directionPin) (h19 : r.globals = s.globals)
    (h20 : r.eeprom = s.eeprom) (h21 : r.ticksToStop = s.ticksToStop) :
    r = { s with startValues := r.startValues } := by
  cases r
  cases s
  simp only [Motors.mk.injEq] at *
  simp only [h1, h2, h3, h4, h5, h6, h7, h8, h9, h10, h11, h12, h13, h14, h15, h16, h17, h18,
    h19, h20, h21, and_self]

theorem restore_E (s : Motors) (vv : AXES → Bool) :
    restoreMotors vv AXES.E { s with startValues := upd s.startValues AXES.E (s.currentValues AXES.E) }
      = { s with
          startValues := (restoreMotors vv AXES.E
            { s with startValues := upd s.startValues AXES.E (s.currentValues AXES.E) }).startValues } :=
  rfl

theorem restore_Z (cfg : Config) (gcode : Gcode) (tasks : Nat) (s : Motors) (vv : AXES → Bool) :
    restoreMotors
        (taskValidValues AXES.Z (taskState cfg gcode tasks AXES.E s) vv) AXES.Z
        { taskState cfg gcode tasks AXES.E s with
          startValues := upd (taskState cfg gcode tasks AXES.E s).startValues AXES.Z
            ((taskState cfg gcode tasks AXES.E s).currentValues AXES.Z) }
      = { s with
          startValues := (restoreMotors
            (taskValidValues AXES.Z (taskState cfg gcode tasks AXES.E s) vv) AXES.Z
            { taskState cfg gcode tasks AXES.E s with
              startValues := upd (taskState cfg gcode tasks AXES.E s).startValues AXES.Z
                ((taskState cfg gcode tasks AXES.E s).currentValues AXES.Z) }).startValues } := by
  have hE : isLinear AXES.E = false := rfl
  apply eq_with_startValues <;> try rfl
  · unfold restoreMotors motorsAfter
    simp only [List.foldl, taskState]
    funext j
    cases j <;> simp [upd]
  · unfold restoreMotors motorsAfter
    simp only [List.foldl, taskState, hE, Bool.false_eq_true, if_false, and_false]

theorem restore_Y (cfg : Config) (gcode : Gcode) (tasks : Nat) (s : Motors) (vv : AXES → Bool) :
    restoreMotors (taskValidValues AXES.Y (taskState cfg gcode tasks AXES.Z (taskState cfg gcode tasks AXES.E s)) (taskValidValues AXES.Z (taskState cfg gcode tasks AXES.E s) vv)) AXES.Y { (taskState cfg gcode tasks AXES.Z (taskState cfg gcode tasks AXES.E s)) with startValues := upd (taskState cfg gcode tasks AXES.Z (taskState cfg gcode tasks AXES.E s)).startValues AXES.Y ((taskState cfg gcode tasks AXES.Z (taskState cfg gcode tasks AXES.E s)).currentValues AXES.Y) }
      = { s with startValues := (restoreMotors (taskValidValues AXES.Y (taskState cfg gcode tasks AXES.Z (taskState cfg gcode tasks AXES.E s)) (taskValidValues AXES.Z (taskState cfg gcode tasks AXES.E s) vv)) AXES.Y { (taskState cfg gcode tasks AXES.Z (taskState cfg gcode tasks AXES.E s)) with startValues := upd (taskState cfg gcode tasks AXES.Z (taskState cfg gcode tasks AXES.E s)).startValues AXES.Y ((taskState cfg gcode tasks AXES.Z (taskState cfg gcode tasks AXES.E s)).currentValues AXES.Y) }).startValues } := by
  have hE : isLinear AXES.E = false := rfl
  have hZ : isLinear AXES.Z = true := rfl
  have hY : isLinear AXES.Y = true := rfl
  apply eq_with_startValues <;> try rfl
  · unfold restoreMotors motorsAfter
    simp only [List.foldl, taskState]
    funext j
    cases j <;> simp [upd]
  · unfold restoreMotors motorsAfter
    simp only [List.foldl, taskState, taskValidValues, hE, hZ, hY, Bool.false_eq_true, if_false,
      and_false, if_true]
    funext j
    cases j <;> simp [upd] <;> split_ifs <;> simp [upd]

theorem restore_X (cfg : Config) (gcode : Gcode) (tasks : Nat) (s : Motors) (vv : AXES → Bool) :
    restoreMotors (taskValidValues AXES.X (taskState cfg gcode tasks AXES.Y (taskState cfg gcode tasks AXES.Z (taskState cfg gcode tasks AXES.E s))) (taskValidValues AXES.Y (taskState cfg gcode tasks AXES.Z (taskState cfg gcode tasks AXES.E s)) (taskValidValues AXES.Z (taskState cfg gcode tasks AXES.E s) vv))) AXES.X { (taskState cfg gcode tasks AXES.Y (taskState cfg gcode tasks AXES.Z (taskState cfg gcode tasks AXES.E s))) with startValues := upd (taskState cfg gcode tasks AXES.Y (taskState cfg gcode tasks AXES.Z (taskState cfg gcode tasks AXES.E s))).startValues AXES.X ((taskState cfg gcode tasks AXES.Y (taskState cfg gcode tasks AXES.Z (taskState cfg gcode tasks AXES.E s))).currentValues AXES.X) }
      = { s with startValues := (restoreMotors (taskValidValues AXES.X (taskState cfg gcode tasks AXES.Y (taskState cfg gcode tasks AXES.Z (taskState cfg gcode tasks AXES.E s))) (taskValidValues AXES.Y (taskState cfg gcode tasks AXES.Z (taskState cfg gcode tasks AXES.E s)) (taskValidValues AXES.Z (taskState cfg gcode tasks AXES.E s) vv))) AXES.X { (taskState cfg gcode tasks AXES.Y (taskState cfg gcode tasks AXES.Z (taskState cfg gcode tasks AXES.E s))) with startValues := upd (taskState cfg gcode tasks AXES.Y (taskState cfg gcode tasks AXES.Z (taskState cfg gcode tasks AXES.E s))).startValues AXES.X ((taskState cfg gcode tasks AXES.Y (taskState cfg gcode tasks AXES.Z (taskState cfg gcode tasks AXES.E s))).currentValues AXES.X) }).startValues } := by
  have hE : isLinear AXES.E = false := rfl
  have hZ : isLinear AXES.Z = true := rfl
  have hY : isLinear AXES.Y = true := rfl
  apply eq_with_startValues <;> try rfl
  · unfold restoreMotors motorsAfter
    simp only [List.foldl, taskState]
    funext j
    cases j <;> simp [upd]
  · unfold restoreMotors motorsAfter
    simp only [List.foldl, taskState, taskValidValues, hE, hZ, hY, Bool.false_eq_true, if_false,
      and_false, if_true]
    funext j
    cases j <;> simp [upd] <;> split_ifs <;> simp [upd]

/-- In a pass with tasks in which some step count overflows, the loop returns with
a state that differs from the state at the start of the loop in the start values
only. -/
theorem moveLoop_task_error (cfg : Config) (gcode : Gcode) (tasks : Nat) (ht : tasks ≠ 0)
    (s : Motors) (l : MoveLocals)
    (h : ∃ i, i ∈ moveOrder ∧ overflowAt cfg gcode tasks (stateBefore cfg gcode tasks s i) i) :
    ∃ r, moveLoop cfg gcode tasks moveOrder (s, l) = Except.error r
      ∧ r = { s with startValues := r.startValues } := by
  unfold moveOrder
  by_cases hE : overflowAt cfg gcode tasks s AXES.E
  · rw [moveLoop, moveMotor_task cfg gcode tasks ht, moveMotorTask_error cfg gcode tasks AXES.E s l hE]
    exact ⟨_, rfl, restore_E s _⟩
  rw [moveLoop, moveMotor_task cfg gcode tasks ht, moveMotorTask_ok cfg gcode tasks AXES.E s l hE]
  dsimp only
  by_cases hZ : overflowAt cfg gcode tasks (taskState cfg gcode tasks AXES.E s) AXES.Z
  · rw [moveLoop, moveMotor_task cfg gcode tasks ht,
      moveMotorTask_error cfg gcode tasks AXES.Z _ _ hZ]
    exact ⟨_, rfl, restore_Z cfg gcode tasks s _⟩
  rw [moveLoop, moveMotor_task cfg gcode tasks ht, moveMotorTask_ok cfg gcode tasks AXES.Z _ _ hZ]
  dsimp only
  by_cases hY : overflowAt cfg gcode tasks
      (taskState cfg gcode tasks AXES.Z (taskState cfg gcode tasks AXES.E s)) AXES.Y
  · rw [moveLoop, moveMotor_task cfg gcode tasks ht,
      moveMotorTask_error cfg gcode tasks AXES.Y _ _ hY]
    exact ⟨_, rfl, restore_Y cfg gcode tasks s _⟩
  rw [moveLoop, moveMotor_task cfg gcode tasks ht, moveMotorTask_ok cfg gcode tasks AXES.Y _ _ hY]
  dsimp only
  by_cases hX : overflowAt cfg gcode tasks
      (taskState cfg gcode tasks AXES.Y
        (taskState cfg gcode tasks AXES.Z (taskState cfg gcode tasks AXES.E s))) AXES.X
  · rw [moveLoop, moveMotor_task cfg gcode tasks ht,
      moveMotorTask_error cfg gcode tasks AXES.X _ _ hX]
    exact ⟨_, rfl, restore_X cfg gcode tasks s _⟩
  exfalso
  obtain ⟨i, hi, ho⟩ := h
  unfold moveOrder at hi
  simp only [List.mem_cons, List.mem_singleton, List.not_mem_nil, or_false] at hi
  rcases hi with rfl | rfl | rfl | rfl
  · exact hE ho
  · exact hZ ho
  · exact hY ho
  · exact hX ho

theorem moveLoop_physical (cfg : Config) (gcode : Gcode) (order : List AXES)
    (sl : Motors × MoveLocals) :
    moveLoop cfg gcode 0 order sl
      = Except.ok (order.foldl (fun acc i => moveMotorPhysical cfg gcode i acc) sl) := by
  induction order generalizing sl with
  | nil => rfl
  | cons i rest ih =>
    rw [moveLoop]
    unfold moveMotor
    rw [if_neg (by simp)]
    dsimp only
    rw [ih]
    rfl

/-- A pass with tasks in which some step count overflows returns `false`, in a
state that differs from the state after the F value is set in the start values
only. -/
theorem move_overflow (cfg : Config) (gcode : Gcode) (tasks : Nat) (s : Motors)
    (ht : tasks ≠ 0) (h : overflows cfg gcode tasks s) :
    (move cfg gcode tasks s).1 = false
    ∧ (move cfg gcode tasks s).2
        = { setFeedRate cfg gcode tasks s with
            startValues := (move cfg gcode tasks s).2.startValues } := by
  obtain ⟨r, hr, hframe⟩ :=
    moveLoop_task_error cfg gcode tasks ht (setFeedRate cfg gcode tasks s) initialLocals h
  unfold move
  rw [hr]
  exact ⟨rfl, hframe⟩

/-- In a pass with tasks in which no step count overflows, `move` returns `true`. -/
theorem move_no_overflow (cfg : Config) (gcode : Gcode) (tasks : Nat) (s : Motors)
    (ht : tasks ≠ 0) (h : ¬ overflows cfg gcode tasks s) :
    (move cfg gcode tasks s).1 = true := by
  have hok := moveLoop_task_ok cfg gcode tasks ht (setFeedRate cfg gcode tasks s) initialLocals
    (fun i hi ho => h ⟨i, hi, ho⟩)
  unfold move
  rw [hok]
  dsimp only
  rw [if_pos ht]

theorem move_physical_true (cfg : Config) (gcode : Gcode) (s : Motors) :
    (move cfg gcode 0 s).1 = true := by
  unfold move
  rw [moveLoop_physical]
  dsimp only
  rw [if_neg (by simp)]
  split_ifs <;> rfl

/-- The function `move` returns `false` exactly in a pass with tasks in which some
step count overflows. -/
theorem move_false_iff (cfg : Config) (gcode : Gcode) (tasks : Nat) (s : Motors) :
    (move cfg gcode tasks s).1 = false ↔ tasks ≠ 0 ∧ overflows cfg gcode tasks s := by
  constructor
  · intro h
    by_cases ht : tasks = 0
    · subst ht
      rw [move_physical_true] at h
      exact absurd h (by simp)
    · refine ⟨ht, ?_⟩
      by_contra hno
      rw [move_no_overflow cfg gcode tasks s ht hno] at h
      exact absurd h (by simp)
  · intro h
    exact (move_overflow cfg gcode tasks s h.1 h.2).1

theorem setFeedRate_currentValues (cfg : Config) (gcode : Gcode) (tasks : Nat) (s : Motors)
    (i : AXES) (hi : i ≠ AXES.F) :
    (setFeedRate cfg gcode tasks s).currentValues i = s.currentValues i := by
  unfold setFeedRate
  dsimp only
  split_ifs <;> simp [upd, hi]

theorem setFeedRate_frame (cfg : Config) (gcode : Gcode) (tasks : Nat) (s : Motors) :
    setFeedRate cfg gcode tasks s
      = { s with currentValues := (setFeedRate cfg gcode tasks s).currentValues } := rfl

/-- In every pass of `move` with tasks (nonzero `tasks`) in which the step count computed
for some requested motor exceeds 2^32, the value with which the comparison of motors.cpp 741
is made, `move` returns `false`, and on return the current values of X, Y, Z and E and the
validity flags of X, Y and Z equal their values before the call, those of the motors resolved
before the overflowing one included. -/
theorem move_overflow_rolls_back (cfg : Config) (gcode : Gcode) (tasks : Nat) (s : Motors)
    (ht : tasks ≠ 0) (h : overflows cfg gcode tasks s) :
    (move cfg gcode tasks s).1 = false
    ∧ (∀ i, i ≠ AXES.F → (move cfg gcode tasks s).2.currentValues i = s.currentValues i)
    ∧ (move cfg gcode tasks s).2.currentStateOfValues = s.currentStateOfValues := by
  obtain ⟨h1, h2⟩ := move_overflow cfg gcode tasks s ht h
  refine ⟨h1, ?_, ?_⟩
  · intro i hi
    rw [h2]
    exact setFeedRate_currentValues cfg gcode tasks s i hi
  · rw [h2, setFeedRate_frame]

theorem overflowGcode_overflows :
    overflows exampleConfig overflowGcode BACKLASH_TASK exampleMotors := by
  refine ⟨AXES.Z, by decide, ?_⟩
  have hnv : resolveNewValue exampleConfig
      (stateBefore exampleConfig overflowGcode BACKLASH_TASK
        (setFeedRate exampleConfig overflowGcode BACKLASH_TASK exampleMotors) AXES.Z)
      BACKLASH_TASK AXES.Z (gcodeParameter overflowGcode AXES.Z).2 = 10000000000 := by
    unfold resolveNewValue
    have h1 : hasFlag BACKLASH_TASK HANDLE_RECEIVED_COMMAND_TASK = false := by decide
    rw [h1]
    simp only [Bool.false_eq_true, false_and, if_false]
    rw [if_neg]
    · rfl
    · intro h
      rcases h with ⟨-, h⟩ | ⟨h, -⟩
      · exact absurd h (by decide)
      · exact absurd h (by decide)
  have hcur : (stateBefore exampleConfig overflowGcode BACKLASH_TASK
        (setFeedRate exampleConfig overflowGcode BACKLASH_TASK exampleMotors) AXES.Z).currentValues AXES.Z
      = 0 := rfl
  have htot : totalNumberOfSteps (stateBefore exampleConfig overflowGcode BACKLASH_TASK
        (setFeedRate exampleConfig overflowGcode BACKLASH_TASK exampleMotors) AXES.Z) AXES.Z
      10000000000 = 8000000000000 := by
    unfold totalNumberOfSteps
    rw [hcur]
    have hs : stepsPerMmOf (stateBefore exampleConfig overflowGcode BACKLASH_TASK
        (setFeedRate exampleConfig overflowGcode BACKLASH_TASK exampleMotors) AXES.Z).eeprom AXES.Z
        = 100 := rfl
    have hr : (stateBefore exampleConfig overflowGcode BACKLASH_TASK
        (setFeedRate exampleConfig overflowGcode BACKLASH_TASK exampleMotors)
          AXES.Z).globals.motorsNumberOfRemainingSteps AXES.Z = 0 := rfl
    rw [hs, hr]
    unfold MICROSTEPS_PER_STEP
    norm_num
  unfold overflowAt
  rw [hnv, htot, hcur]
  refine ⟨by decide, by norm_num, by norm_num, by unfold UINT32_MAX_AS_FLOAT; norm_num⟩

theorem move_overflow_rolls_back_witness :
    BACKLASH_TASK ≠ 0 ∧ overflows exampleConfig overflowGcode BACKLASH_TASK exampleMotors
    ∧ ((move exampleConfig overflowGcode BACKLASH_TASK exampleMotors).1 = false
      ∧ (∀ i, i ≠ AXES.F →
          (move exampleConfig overflowGcode BACKLASH_TASK exampleMotors).2.currentValues i
            = exampleMotors.currentValues i)
      ∧ (move exampleConfig overflowGcode BACKLASH_TASK exampleMotors).2.currentStateOfValues
          = exampleMotors.currentStateOfValues) :=
  ⟨by decide, overflowGcode_overflows,
    move_overflow_rolls_back exampleConfig overflowGcode BACKLASH_TASK exampleMotors (by decide)
      overflowGcode_overflows⟩

/-- C7 (as stated, refuted): the command `overflowGcode`, which carries an F parameter, is
rejected for overflow, and the stored feed rate is 100 on return while it was 1000 before the
call. -/
theorem move_rejection_changes_feed_rate :
    (move exampleConfig overflowGcode BACKLASH_TASK exampleMotors).1 = false
    ∧ (move exampleConfig overflowGcode BACKLASH_TASK exampleMotors).2.currentValues AXES.F = 100
    ∧ exampleMotors.currentValues AXES.F = 1000 := by
  obtain ⟨h1, h2⟩ :=
    move_overflow exampleConfig overflowGcode BACKLASH_TASK exampleMotors (by decide)
      overflowGcode_overflows
  refine ⟨h1, ?_, rfl⟩
  rw [h2]
  rfl

/-- C7 (amended): when `move` returns `false`, the current values of X, Y, Z and E, the
validity flags, the recorded directions, the fractional carry-over and the mode flags equal
their values before the call; the stored feed rate is not rolled back: for a command with an F
parameter it is the command's F value (converted to millimetres for a received command in
inches), otherwise it is unchanged. -/
theorem move_rejection_keeps_store_except_feed_rate (cfg : Config) (gcode : Gcode) (tasks : Nat)
    (s : Motors) (h : (move cfg gcode tasks s).1 = false) :
    (∀ i, i ≠ AXES.F → (move cfg gcode tasks s).2.currentValues i = s.currentValues i)
    ∧ (move cfg gcode tasks s).2.currentStateOfValues = s.currentStateOfValues
    ∧ (move cfg gcode tasks s).2.currentMotorDirections = s.currentMotorDirections
    ∧ (move cfg gcode tasks s).2.globals.motorsNumberOfRemainingSteps
        = s.globals.motorsNumberOfRemainingSteps
    ∧ (move cfg gcode tasks s).2.mode = s.mode
    ∧ (move cfg gcode tasks s).2.extruderMode = s.extruderMode
    ∧ (move cfg gcode tasks s).2.units = s.units
    ∧ (move cfg gcode tasks s).2.currentValues AXES.F
        = (if hasFlag gcode.commandParameters PARAMETER_F_OFFSET then
            (if hasFlag tasks HANDLE_RECEIVED_COMMAND_TASK ∧ s.units = UNITS.INCHES then
              gcode.valueF * cfg.INCHES_TO_MILLIMETERS_SCALAR
            else gcode.valueF)
          else s.currentValues AXES.F) := by
  obtain ⟨ht, ho⟩ := (move_false_iff cfg gcode tasks s).mp h
  obtain ⟨-, h2⟩ := move_overflow cfg gcode tasks s ht ho
  refine ⟨?_, ?_, ?_, ?_, ?_, ?_, ?_, ?_⟩
  · intro i hi
    rw [h2]
    exact setFeedRate_currentValues cfg gcode tasks s i hi
  · rw [h2]; rfl
  · rw [h2]; rfl
  · rw [h2]; rfl
  · rw [h2]; rfl
  · rw [h2]; rfl
  · rw [h2]; rfl
  · rw [h2]
    show (setFeedRate cfg gcode tasks s).currentValues AXES.F = _
    unfold setFeedRate
    dsimp only
    split_ifs <;> simp [upd]

theorem move_rejection_keeps_store_except_feed_rate_witness :
    (move exampleConfig overflowGcode BACKLASH_TASK exampleMotors).1 = false
    ∧ ((∀ i, i ≠ AXES.F →
        (move exampleConfig overflowGcode BACKLASH_TASK exampleMotors).2.currentValues i
          = exampleMotors.currentValues i)
      ∧ (move exampleConfig overflowGcode BACKLASH_TASK exampleMotors).2.currentStateOfValues
          = exampleMotors.currentStateOfValues
      ∧ (move exampleConfig overflowGcode BACKLASH_TASK exampleMotors).2.currentMotorDirections
          = exampleMotors.currentMotorDirections
      ∧ (move exampleConfig overflowGcode BACKLASH_TASK
            exampleMotors).2.globals.motorsNumberOfRemainingSteps
          = exampleMotors.globals.motorsNumberOfRemainingSteps
      ∧ (move exampleConfig overflowGcode BACKLASH_TASK exampleMotors).2.mode = exampleMotors.mode
      ∧ (move exampleConfig overflowGcode BACKLASH_TASK exampleMotors).2.extruderMode
          = exampleMotors.extruderMode
      ∧ (move exampleConfig overflowGcode BACKLASH_TASK exampleMotors).2.units
          = exampleMotors.units
      ∧ (move exampleConfig overflowGcode BACKLASH_TASK exampleMotors).2.currentValues AXES.F
          = (if hasFlag overflowGcode.commandParameters PARAMETER_F_OFFSET then
              (if hasFlag BACKLASH_TASK HANDLE_RECEIVED_COMMAND_TASK
                  ∧ exampleMotors.units = UNITS.INCHES then
                overflowGcode.valueF * exampleConfig.INCHES_TO_MILLIMETERS_SCALAR
              else overflowGcode.valueF)
            else exampleMotors.currentValues AXES.F)) :=
  ⟨(move_overflow exampleConfig overflowGcode BACKLASH_TASK exampleMotors (by decide)
      overflowGcode_overflows).1,
    move_rejection_keeps_store_except_feed_rate exampleConfig overflowGcode BACKLASH_TASK
      exampleMotors
      (move_overflow exampleConfig overflowGcode BACKLASH_TASK exampleMotors (by decide)
        overflowGcode_overflows).1⟩

/-! ## Theorems: synchronisation of two motors -/

theorem toUInt32_natCast (n : Nat) (h : n < 4294967296) : toUInt32 (n : ℚ) = n := by
  unfold toUInt32
  rw [Int.floor_natCast, Int.toNat_natCast, Nat.mod_eq_of_lt h]

theorem syncExample_cycles :
    max (getMovementsNumberOfCycles 32000000 syncExample AXES.X 200 1500)
      (getMovementsNumberOfCycles 32000000 syncExample AXES.Y 200 1500) = 43008 := by
  have hx : syncExample.motorsNumberOfSteps AXES.X = 42 := rfl
  have hy : syncExample.motorsNumberOfSteps AXES.Y = 30 := rfl
  simp only [getMovementsNumberOfCycles, hx, hy, MICROSTEPS_PER_STEP, MOTORS_STEP_TIMER_PERIOD]
  norm_num

theorem stepDelayFor_42 : stepDelayFor 43008 42 = 1 := by
  have h1 : toUInt32 (getValueInRange ((43008 : ℚ) / (1024 : ℕ) / ((42 : ℕ) : ℚ)) 1 (UINT32_MAX : ℕ)) = 1 := by
    have : getValueInRange ((43008 : ℚ) / (1024 : ℕ) / ((42 : ℕ) : ℚ)) 1 (UINT32_MAX : ℕ) = ((1 : ℕ) : ℚ) := by
      unfold getValueInRange UINT32_MAX
      norm_num
    rw [this, toUInt32_natCast 1 (by norm_num)]
  unfold stepDelayFor
  simp only [MOTORS_STEP_TIMER_PERIOD, h1]
  norm_num

theorem stepDelayFor_30 : stepDelayFor 43008 30 = 1 := by
  have h1 : toUInt32 (getValueInRange ((43008 : ℚ) / (1024 : ℕ) / ((30 : ℕ) : ℚ)) 1 (UINT32_MAX : ℕ)) = 1 := by
    have : getValueInRange ((43008 : ℚ) / (1024 : ℕ) / ((30 : ℕ) : ℚ)) 1 (UINT32_MAX : ℕ) = 7 / 5 := by
      unfold getValueInRange UINT32_MAX
      norm_num
    rw [this]
    unfold toUInt32
    norm_num
  unfold stepDelayFor
  simp only [MOTORS_STEP_TIMER_PERIOD, h1]
  norm_num

theorem delaySkipsFor_42 : delaySkipsFor 43008 42 = 42 := by
  unfold delaySkipsFor
  simp only [stepDelayFor_42, MOTORS_STEP_TIMER_PERIOD]
  have : getValueInRange (((42 : ℕ) : ℚ) * ((1 : ℕ) : ℚ) / ((43008 : ℚ) / ((1024 : ℕ) : ℚ) - (((42 : ℕ) : ℚ) * ((1 : ℕ) : ℚ) - 1))) 0
      (UINT32_MAX : ℕ) = ((42 : ℕ) : ℚ) := by
    unfold getValueInRange UINT32_MAX
    norm_num
  rw [this, toUInt32_natCast 42 (by norm_num)]
  norm_num

theorem delaySkipsFor_30 : delaySkipsFor 43008 30 = 2 := by
  unfold delaySkipsFor
  simp only [stepDelayFor_30, MOTORS_STEP_TIMER_PERIOD]
  have : getValueInRange (((30 : ℕ) : ℚ) * ((1 : ℕ) : ℚ) / ((43008 : ℚ) / ((1024 : ℕ) : ℚ) - (((30 : ℕ) : ℚ) * ((1 : ℕ) : ℚ) - 1))) 0
      (UINT32_MAX : ℕ) = 30 / 13 := by
    unfold getValueInRange UINT32_MAX
    norm_num
  rw [this]
  unfold toUInt32
  have hf : ⌊(30 : ℚ) / 13⌋ = 2 := by
    rw [Int.floor_eq_iff]; norm_num
  rw [hf, if_pos (by norm_num)]
  rfl

theorem syncStart_eq :
    setMotorDelayAndSkip AXES.Y 43008 (setMotorDelayAndSkip AXES.X 43008 syncExample) = syncStart := by
  have hx : syncExample.motorsNumberOfSteps AXES.X = 42 := rfl
  have hy : (setMotorDelayAndSkip AXES.X 43008 syncExample).motorsNumberOfSteps AXES.Y = 30 := rfl
  unfold setMotorDelayAndSkip at hy ⊢
  rw [hy]
  dsimp only
  rw [hx, stepDelayFor_42, stepDelayFor_30, delaySkipsFor_42, delaySkipsFor_30]
  unfold syncStart syncExample
  congr 1 <;> funext i <;> cases i <;> rfl

set_option maxRecDepth 100000 in
/-- C5 (failing input): X with 42 steps and Y with 30 steps share the budget of one move,
43008 cycles (200 steps/mm, 1500 mm/min, a 32 MHz clock, 42 timer periods). With the delays and
skip intervals `setMotorDelayAndSkip` computes, X is Stepping after tick 41 and Idle after tick
42, and Y is Stepping after tick 43 and Idle after tick 44: the motors finish two timer periods
apart. -/
theorem sync_differs_by_two_ticks :
    (ticks 41
        (setMotorDelayAndSkip AXES.Y
          (max (getMovementsNumberOfCycles 32000000 syncExample AXES.X 200 1500)
            (getMovementsNumberOfCycles 32000000 syncExample AXES.Y 200 1500))
          (setMotorDelayAndSkip AXES.X
            (max (getMovementsNumberOfCycles 32000000 syncExample AXES.X 200 1500)
              (getMovementsNumberOfCycles 32000000 syncExample AXES.Y 200 1500))
            syncExample))).motorsIsMoving AXES.X = true
    ∧ (ticks 42
        (setMotorDelayAndSkip AXES.Y
          (max (getMovementsNumberOfCycles 32000000 syncExample AXES.X 200 1500)
            (getMovementsNumberOfCycles 32000000 syncExample AXES.Y 200 1500))
          (setMotorDelayAndSkip AXES.X
            (max (getMovementsNumberOfCycles 32000000 syncExample AXES.X 200 1500)
              (getMovementsNumberOfCycles 32000000 syncExample AXES.Y 200 1500))
            syncExample))).motorsIsMoving AXES.X = false
    ∧ (ticks 43
        (setMotorDelayAndSkip AXES.Y
          (max (getMovementsNumberOfCycles 32000000 syncExample AXES.X 200 1500)
            (getMovementsNumberOfCycles 32000000 syncExample AXES.Y 200 1500))
          (setMotorDelayAndSkip AXES.X
            (max (getMovementsNumberOfCycles 32000000 syncExample AXES.X 200 1500)
              (getMovementsNumberOfCycles 32000000 syncExample AXES.Y 200 1500))
            syncExample))).motorsIsMoving AXES.Y = true
    ∧ (ticks 44
        (setMotorDelayAndSkip AXES.Y
          (max (getMovementsNumberOfCycles 32000000 syncExample AXES.X 200 1500)
            (getMovementsNumberOfCycles 32000000 syncExample AXES.Y 200 1500))
          (setMotorDelayAndSkip AXES.X
            (max (getMovementsNumberOfCycles 32000000 syncExample AXES.X 200 1500)
              (getMovementsNumberOfCycles 32000000 syncExample AXES.Y 200 1500))
            syncExample))).motorsIsMoving AXES.Y = false := by
  rw [syncExample_cycles, syncStart_eq]
  decide

/-! ## Theorems: physical pass, backlash compensation and segments -/

theorem sameLogical_refl (s : Motors) : sameLogical s s :=
  ⟨rfl, rfl, rfl, rfl, rfl, rfl, rfl, rfl, rfl, rfl, rfl, rfl, rfl, rfl, rfl, rfl, rfl⟩

theorem sameLogical_trans (a b c : Motors) (h1 : sameLogical a b) (h2 : sameLogical b c) :
    sameLogical a c := by
  obtain ⟨a1, a2, a3, a4, a5, a6, a7, a8, a9, a10, a11, a12, a13, a14, a15, a16, a17⟩ := h1
  obtain ⟨b1, b2, b3, b4, b5, b6, b7, b8, b9, b10, b11, b12, b13, b14, b15, b16, b17⟩ := h2
  exact ⟨b1.trans a1, b2.trans a2, b3.trans a3, b4.trans a4, b5.trans a5, b6.trans a6,
    b7.trans a7, b8.trans a8, b9.trans a9, b10.trans a10, b11.trans a11, b12.trans a12,
    b13.trans a13, b14.trans a14, b15.trans a15, b16.trans a16, b17.trans a17⟩

theorem hasFlag_zero (mask : Nat) : hasFlag 0 mask = false := by
  unfold hasFlag
  simp

theorem targetValue_noTask (cfg : Config) (gcode : Gcode) (s : Motors) (i : AXES) :
    targetValue cfg gcode NO_TASK s i
      = physTarget gcode s.mode s.extruderMode (s.currentValues i) i := by
  unfold targetValue physTarget resolveNewValue NO_TASK
  simp only [hasFlag_zero, Bool.false_eq_true, false_and, if_false]

theorem moveMotorPhysical_spec (cfg : Config) (gcode : Gcode) (i : AXES)
    (sl : Motors × MoveLocals) :
    (moveMotorPhysical cfg gcode i sl).1.currentValues
        = upd sl.1.currentValues i (targetValue cfg gcode NO_TASK sl.1 i)
    ∧ sameLogical sl.1 (moveMotorPhysical cfg gcode i sl).1 := by
  unfold moveMotorPhysical
  dsimp only
  by_cases hp : hasFlag gcode.commandParameters (gcodeParameter gcode i).1
      ∧ |resolveNewValue cfg sl.1 NO_TASK i (gcodeParameter gcode i).2 - sl.1.currentValues i| ≠ 0
  · rw [if_pos hp]
    refine ⟨?_, sameLogical_refl _⟩
    unfold targetValue
    rw [if_pos hp.1]
  · rw [if_neg hp]
    refine ⟨?_, sameLogical_refl _⟩
    unfold targetValue
    by_cases hf : hasFlag gcode.commandParameters (gcodeParameter gcode i).1
    · have hd : |resolveNewValue cfg sl.1 NO_TASK i (gcodeParameter gcode i).2
          - sl.1.currentValues i| = 0 := by
        by_contra hne
        exact hp ⟨hf, hne⟩
      rw [abs_eq_zero, sub_eq_zero] at hd
      rw [if_pos hf, hd, upd_self]
    · rw [if_neg hf, upd_self]

theorem waitForMotors_spec (k : Nat) (s : Motors) :
    (waitForMotors k s).currentValues = s.currentValues ∧ sameLogical s (waitForMotors k s) := by
  induction k generalizing s with
  | zero => exact ⟨rfl, sameLogical_refl _⟩
  | succ k ih =>
    rw [waitForMotors]
    split_ifs
    · have := ih { s with globals := updateMotorsStepTimer s.globals }
      exact ⟨this.1, this.2⟩
    · exact ⟨rfl, sameLogical_refl _⟩

theorem physicalPass_spec (l : MoveLocals) (s : Motors) :
    (physicalPass l s).currentValues = s.currentValues ∧ sameLogical s (physicalPass l s) := by
  unfold physicalPass
  dsimp only
  have := waitForMotors_spec s.ticksToStop
    { s with
      globals :=
        motorList.foldl
          (fun acc i =>
            if acc.motorsIsMoving i then setMotorDelayAndSkip i l.movementsHighestNumberOfCycles acc
            else acc)
          s.globals }
  exact ⟨this.1, this.2⟩

theorem setFeedRate_sameLogical (cfg : Config) (gcode : Gcode) (tasks : Nat) (s : Motors) :
    sameLogical s (setFeedRate cfg gcode tasks s) :=
  sameLogical_refl _

/-- A physical pass of `move` writes, of the axis store, only the current values:
each motor present in the command gets its resolved value, and the feed rate is
the one set from the command. -/
theorem moveNoTask_spec (cfg : Config) (gcode : Gcode) (s : Motors) :
    sameLogical s (moveNoTask cfg gcode s)
    ∧ (∀ i, i ≠ AXES.F →
        (moveNoTask cfg gcode s).currentValues i
          = physTarget gcode s.mode s.extruderMode (s.currentValues i) i)
    ∧ (moveNoTask cfg gcode s).currentValues AXES.F
        = (setFeedRate cfg gcode NO_TASK s).currentValues AXES.F := by
  have hloop := moveLoop_physical cfg gcode moveOrder (setFeedRate cfg gcode NO_TASK s, initialLocals)
  unfold moveOrder at hloop
  simp only [List.foldl] at hloop
  obtain ⟨c1, f1⟩ := moveMotorPhysical_spec cfg gcode AXES.E
    (setFeedRate cfg gcode NO_TASK s, initialLocals)
  generalize moveMotorPhysical cfg gcode AXES.E (setFeedRate cfg gcode NO_TASK s, initialLocals)
    = p1 at hloop c1 f1
  obtain ⟨c2, f2⟩ := moveMotorPhysical_spec cfg gcode AXES.Z p1
  generalize moveMotorPhysical cfg gcode AXES.Z p1 = p2 at hloop c2 f2
  obtain ⟨c3, f3⟩ := moveMotorPhysical_spec cfg gcode AXES.Y p2
  generalize moveMotorPhysical cfg gcode AXES.Y p2 = p3 at hloop c3 f3
  obtain ⟨c4, f4⟩ := moveMotorPhysical_spec cfg gcode AXES.X p3
  generalize moveMotorPhysical cfg gcode AXES.X p3 = p4 at hloop c4 f4
  dsimp only at c1 f1
  have f0 := setFeedRate_sameLogical cfg gcode NO_TASK s
  have g1 := sameLogical_trans _ _ _ f0 f1
  have g2 := sameLogical_trans _ _ _ g1 f2
  have g3 := sameLogical_trans _ _ _ g2 f3
  have g4 := sameLogical_trans _ _ _ g3 f4
  have hfin : sameLogical p4.1 (moveNoTask cfg gcode s)
      ∧ (moveNoTask cfg gcode s).currentValues = p4.1.currentValues := by
    unfold moveNoTask
    have h0 : NO_TASK = 0 := rfl
    rw [h0] at hloop ⊢
    unfold moveOrder
    rw [hloop]
    dsimp only
    split_ifs
    · exact ⟨(physicalPass_spec _ _).2, (physicalPass_spec _ _).1⟩
    · exact ⟨sameLogical_refl _, rfl⟩
  have hs0 : ∀ i, i ≠ AXES.F →
      (setFeedRate cfg gcode NO_TASK s).currentValues i = s.currentValues i :=
    fun i hi => setFeedRate_currentValues cfg gcode NO_TASK s i hi
  rw [targetValue_noTask] at c1 c2 c3 c4
  rw [g1.2.2.2.1, g1.2.2.2.2.1] at c2
  rw [g2.2.2.2.1, g2.2.2.2.2.1] at c3
  rw [g3.2.2.2.1, g3.2.2.2.2.1] at c4
  rw [f0.2.2.2.1, f0.2.2.2.2.1] at c1
  refine ⟨sameLogical_trans _ _ _ g4 hfin.1, ?_, ?_⟩
  · intro i hi
    rw [hfin.2, c4, c3, c2, c1]
    cases i
    · simp [upd, hs0]
    · simp [upd, hs0]
    · simp [upd, hs0]
    · simp [upd, hs0]
    · exact absurd rfl hi
  · rw [hfin.2, c4, c3, c2, c1]
    simp [upd]

theorem gcodeParameter_mask (gcode : Gcode) :
    (gcodeParameter gcode AXES.X).1 = PARAMETER_X_OFFSET
    ∧ (gcodeParameter gcode AXES.Y).1 = PARAMETER_Y_OFFSET
    ∧ (gcodeParameter gcode AXES.Z).1 = PARAMETER_Z_OFFSET
    ∧ (gcodeParameter gcode AXES.E).1 = PARAMETER_E_OFFSET :=
  ⟨rfl, rfl, rfl, rfl⟩

theorem backlashGcode_flags (e : Eeprom) (a b : BACKLASH_DIRECTION) :
    hasFlag (backlashGcode e a b).commandParameters (gcodeParameter (backlashGcode e a b) AXES.Z).1
        = false
    ∧ hasFlag (backlashGcode e a b).commandParameters
        (gcodeParameter (backlashGcode e a b) AXES.E).1 = false := by
  have hp : (backlashGcode e a b).commandParameters
      = PARAMETER_X_OFFSET ||| PARAMETER_Y_OFFSET ||| PARAMETER_F_OFFSET := rfl
  obtain ⟨-, -, hz, he⟩ := gcodeParameter_mask (backlashGcode e a b)
  rw [hp, hz, he]
  exact ⟨by decide, by decide⟩

theorem segmentGcode_flags (cfg : Config) (adjustHeight : Bool) (endValues valueChanges : AXES → ℚ)
    (n c : Nat) (s : Motors) :
    hasFlag (segmentGcode cfg adjustHeight endValues valueChanges n c s).commandParameters
        (gcodeParameter (segmentGcode cfg adjustHeight endValues valueChanges n c s) AXES.X).1 = true
    ∧ hasFlag (segmentGcode cfg adjustHeight endValues valueChanges n c s).commandParameters
        (gcodeParameter (segmentGcode cfg adjustHeight endValues valueChanges n c s) AXES.Y).1 = true
    ∧ hasFlag (segmentGcode cfg adjustHeight endValues valueChanges n c s).commandParameters
        (gcodeParameter (segmentGcode cfg adjustHeight endValues valueChanges n c s) AXES.E).1 = true
    ∧ ¬ hasFlag (segmentGcode cfg adjustHeight endValues valueChanges n c s).commandParameters
        PARAMETER_F_OFFSET = true := by
  have hp : (segmentGcode cfg adjustHeight endValues valueChanges n c s).commandParameters
      = PARAMETER_X_OFFSET ||| PARAMETER_Y_OFFSET ||| PARAMETER_Z_OFFSET ||| PARAMETER_E_OFFSET :=
    rfl
  obtain ⟨hx, hy, -, he⟩ :=
    gcodeParameter_mask (segmentGcode cfg adjustHeight endValues valueChanges n c s)
  rw [hp, hx, hy, he]
  exact ⟨by decide, by decide, by decide, by decide⟩

/-- Backlash compensation leaves every current value and every logical field as
it found them. -/
theorem compensateForBacklash_spec (cfg : Config) (a b : BACKLASH_DIRECTION) (s : Motors) :
    (compensateForBacklash cfg a b s).currentValues = s.currentValues
    ∧ sameLogical s (compensateForBacklash cfg a b s) := by
  obtain ⟨hl, hv, -⟩ := moveNoTask_spec cfg (backlashGcode s.eeprom a b)
    { s with
      globals :=
        { s.globals with
          motorsNumberOfRemainingSteps :=
            upd (upd s.globals.motorsNumberOfRemainingSteps AXES.X 0) AXES.Y 0 }
      mode := MODES.RELATIVE }
  unfold compensateForBacklash
  dsimp only at hl hv ⊢
  constructor
  · funext i
    cases i
    · simp [upd]
    · simp [upd]
    · have hZ := (backlashGcode_flags s.eeprom a b).1
      have := hv AXES.Z (by decide)
      unfold physTarget at this
      rw [hZ] at this
      simp [upd, this]
    · have hE := (backlashGcode_flags s.eeprom a b).2
      have := hv AXES.E (by decide)
      unfold physTarget at this
      rw [hE] at this
      simp [upd, this]
    · simp [upd]
  · obtain ⟨a1, a2, a3, -, a5, a6, a7, a8, a9, a10, a11, a12, a13, a14, a15, a16, a17⟩ := hl
    exact ⟨a1, a2, a3, rfl, a5, a6, a7, a8, a9, a10, a11, a12, a13, a14, a15, a16, a17⟩

theorem minimumOneCeil_pos (v : ℚ) : 1 ≤ minimumOneCeil v := by
  unfold minimumOneCeil
  exact le_max_left _ _

/-- The loop over the segments ends with the motors X, Y and E at the end values
and leaves the feed rate and the logical fields as it found them. -/
theorem segmentLoop_spec (cfg : Config) (adjustHeight : Bool) (endValues valueChanges : AXES → ℚ)
    (numberOfSegments : Nat) (remaining : Nat) :
    ∀ (segmentCounter : Nat) (s : Motors), segmentCounter + remaining = numberOfSegments →
      s.mode = MODES.ABSOLUTE → s.extruderMode = MODES.ABSOLUTE →
      sameLogical s
          (segmentLoop cfg adjustHeight endValues valueChanges numberOfSegments remaining
            segmentCounter s)
      ∧ (segmentLoop cfg adjustHeight endValues valueChanges numberOfSegments remaining
            segmentCounter s).currentValues AXES.X = endValues AXES.X
      ∧ (segmentLoop cfg adjustHeight endValues valueChanges numberOfSegments remaining
            segmentCounter s).currentValues AXES.Y = endValues AXES.Y
      ∧ (segmentLoop cfg adjustHeight endValues valueChanges numberOfSegments remaining
            segmentCounter s).currentValues AXES.E = endValues AXES.E
      ∧ (segmentLoop cfg adjustHeight endValues valueChanges numberOfSegments remaining
            segmentCounter s).currentValues AXES.F = s.currentValues AXES.F := by
  induction remaining with
  | zero =>
    intro c s hc hm he
    have hcn : c = numberOfSegments := by omega
    have hflags := segmentGcode_flags cfg adjustHeight endValues valueChanges numberOfSegments c s
    obtain ⟨hl, hv, hF⟩ := moveNoTask_spec cfg
      (segmentGcode cfg adjustHeight endValues valueChanges numberOfSegments c s) s
    rw [segmentLoop]
    refine ⟨hl, ?_, ?_, ?_, ?_⟩
    · rw [hv AXES.X (by decide), hm, he]
      unfold physTarget
      rw [if_pos hflags.1, if_neg (by simp)]
      show (segmentGcode cfg adjustHeight endValues valueChanges numberOfSegments c s).valueX = _
      unfold segmentGcode
      dsimp only
      rw [if_neg (by simp [hcn])]
    · rw [hv AXES.Y (by decide), hm, he]
      unfold physTarget
      rw [if_pos hflags.2.1, if_neg (by simp)]
      show (segmentGcode cfg adjustHeight endValues valueChanges numberOfSegments c s).valueY = _
      unfold segmentGcode
      dsimp only
      rw [if_neg (by simp [hcn])]
    · rw [hv AXES.E (by decide), hm, he]
      unfold physTarget
      rw [if_pos hflags.2.2.1, if_neg (by simp)]
      show (segmentGcode cfg adjustHeight endValues valueChanges numberOfSegments c s).valueE = _
      unfold segmentGcode
      dsimp only
      rw [if_neg (by simp [hcn])]
    · rw [hF]
      unfold setFeedRate
      dsimp only
      rw [if_neg hflags.2.2.2]
  | succ r ih =>
    intro c s hc hm he
    have hflags := segmentGcode_flags cfg adjustHeight endValues valueChanges numberOfSegments c s
    obtain ⟨hl, -, hF⟩ := moveNoTask_spec cfg
      (segmentGcode cfg adjustHeight endValues valueChanges numberOfSegments c s) s
    have hF2 : (moveNoTask cfg
        (segmentGcode cfg adjustHeight endValues valueChanges numberOfSegments c s)
        s).currentValues AXES.F = s.currentValues AXES.F := by
      rw [hF]
      unfold setFeedRate
      dsimp only
      rw [if_neg hflags.2.2.2]
    obtain ⟨il, iX, iY, iE, iF⟩ := ih (c + 1)
      (moveNoTask cfg (segmentGcode cfg adjustHeight endValues valueChanges numberOfSegments c s) s)
      (by omega) (hl.2.2.2.1.trans hm) (hl.2.2.2.2.1.trans he)
    rw [segmentLoop]
    exact ⟨sameLogical_trans _ _ _ hl il, iX, iY, iE, iF.trans hF2⟩

/-- Splitting up a movement ends with every current value at the value it had
when the function was called, and with the logical fields as it found them. -/
theorem splitUpMovement_spec (cfg : Config) (adjustHeight : Bool) (s : Motors) :
    (splitUpMovement cfg adjustHeight s).currentValues = s.currentValues
    ∧ sameLogical s (splitUpMovement cfg adjustHeight s) := by
  unfold splitUpMovement
  dsimp only
  generalize hn : minimumOneCeil
    (cfg.sqrt ((s.currentValues AXES.X - s.startValues AXES.X) ^ 2
      + (s.currentValues AXES.Y - s.startValues AXES.Y) ^ 2) / SEGMENT_LENGTH) = n
  have hn1 : 1 ≤ n := by rw [← hn]; exact minimumOneCeil_pos _
  generalize hc : (if adjustHeight = true then 1 else n) = c
  have hcn : c + (n - c) = n := by
    rw [← hc]
    split_ifs <;> omega
  generalize hs1 : ({ s with
      currentValues :=
        if adjustHeight = true then
          upd (List.foldl (fun acc i => upd acc i (s.startValues i)) s.currentValues motorList)
            AXES.Z
            (List.foldl (fun acc i => upd acc i (s.startValues i)) s.currentValues motorList AXES.Z
              + getHeightAdjustmentRequired cfg s (s.startValues AXES.X) (s.startValues AXES.Y))
        else List.foldl (fun acc i => upd acc i (s.startValues i)) s.currentValues motorList
      mode := MODES.ABSOLUTE
      extruderMode := MODES.ABSOLUTE } : Motors) = s1
  have hm1 : s1.mode = MODES.ABSOLUTE := by rw [← hs1]
  have he1 : s1.extruderMode = MODES.ABSOLUTE := by rw [← hs1]
  have hF1 : s1.currentValues AXES.F = s.currentValues AXES.F := by
    rw [← hs1]
    dsimp only
    unfold motorList
    split_ifs <;> simp [List.foldl, upd]
  have hl1 : s1.startValues = s.startValues ∧ s1.currentStateOfValues = s.currentStateOfValues
      ∧ s1.currentMotorDirections = s.currentMotorDirections ∧ s1.units = s.units
      ∧ s1.backRightVector = s.backRightVector ∧ s1.backLeftVector = s.backLeftVector
      ∧ s1.frontLeftVector = s.frontLeftVector ∧ s1.frontRightVector = s.frontRightVector
      ∧ s1.centerVector = s.centerVector ∧ s1.backPlane = s.backPlane
      ∧ s1.leftPlane = s.leftPlane ∧ s1.rightPlane = s.rightPlane ∧ s1.frontPlane = s.frontPlane
      ∧ s1.bedHeightOffset = s.bedHeightOffset ∧ s1.eeprom = s.eeprom := by
    rw [← hs1]
    exact ⟨rfl, rfl, rfl, rfl, rfl, rfl, rfl, rfl, rfl, rfl, rfl, rfl, rfl, rfl, rfl⟩
  obtain ⟨il, iX, iY, iE, iF⟩ := segmentLoop_spec cfg adjustHeight s.currentValues
    (fun i =>
      if cfg.sqrt ((s.currentValues AXES.X - s.startValues AXES.X) ^ 2
          + (s.currentValues AXES.Y - s.startValues AXES.Y) ^ 2) ≠ 0 then
        (s.currentValues i - s.startValues i)
          / cfg.sqrt ((s.currentValues AXES.X - s.startValues AXES.X) ^ 2
            + (s.currentValues AXES.Y - s.startValues AXES.Y) ^ 2)
      else 0)
    n (n - c) c s1 hcn hm1 he1
  constructor
  · funext i
    cases i
    · unfold upd
      rw [if_neg (by decide)]
      exact iX
    · unfold upd
      rw [if_neg (by decide)]
      exact iY
    · unfold upd
      rw [if_pos rfl]
    · unfold upd
      rw [if_neg (by decide)]
      exact iE
    · unfold upd
      rw [if_neg (by decide)]
      exact iF.trans hF1
  · obtain ⟨a1, a2, a3, -, -, a6, a7, a8, a9, a10, a11, a12, a13, a14, a15, a16, a17⟩ := il
    obtain ⟨b1, b2, b3, b6, b7, b8, b9, b10, b11, b12, b13, b14, b15, b16, b17⟩ := hl1
    exact ⟨a1.trans b1, a2.trans b2, a3.trans b3, rfl, rfl, a6.trans b6, a7.trans b7,
      a8.trans b8, a9.trans b9, a10.trans b10, a11.trans b11, a12.trans b12, a13.trans b13,
      a14.trans b14, a15.trans b15, a16.trans b16, a17.trans b17⟩

/-! ## Theorems: targets resolved by a pass with tasks -/

theorem bedLimits_le (z : ℚ) (i : AXES) : (bedLimits z i).1 ≤ (bedLimits z i).2 := by
  unfold bedLimits BED_LOW_MIN_X BED_LOW_MIN_Y BED_LOW_MAX_X BED_LOW_MAX_Y BED_MEDIUM_MIN_X
    BED_MEDIUM_MIN_Y BED_MEDIUM_MAX_X BED_MEDIUM_MAX_Y BED_HIGH_MIN_X BED_HIGH_MIN_Y
    BED_HIGH_MAX_X BED_HIGH_MAX_Y
  split_ifs <;> norm_num

theorem bedLimits_bounds (z : ℚ) (i : AXES) :
    -9 ≤ (bedLimits z i).1 ∧ (bedLimits z i).2 ≤ 106 := by
  unfold bedLimits BED_LOW_MIN_X BED_LOW_MIN_Y BED_LOW_MAX_X BED_LOW_MAX_Y BED_MEDIUM_MIN_X
    BED_MEDIUM_MIN_Y BED_MEDIUM_MAX_X BED_MEDIUM_MAX_Y BED_HIGH_MIN_X BED_HIGH_MIN_Y
    BED_HIGH_MAX_X BED_HIGH_MAX_Y
  split_ifs <;> norm_num

theorem getValueInRange_inside (v lo hi : ℚ) (h1 : lo ≤ v) (h2 : v ≤ hi) :
    getValueInRange v lo hi = v := by
  unfold getValueInRange
  rw [max_eq_right h1, min_eq_right h2]

theorem getValueInRange_below (v lo hi : ℚ) (h : lo ≤ hi) (h1 : v < lo) :
    getValueInRange v lo hi = lo := by
  unfold getValueInRange
  rw [max_eq_left (le_of_lt h1), min_eq_right h]

theorem getValueInRange_above (v lo hi : ℚ) (h : lo ≤ hi) (h2 : hi < v) :
    getValueInRange v lo hi = hi := by
  unfold getValueInRange
  rw [max_eq_right (le_of_lt (lt_of_le_of_lt h h2)), min_eq_left (le_of_lt h2)]

/-- The value `move` resolves for a motor is the resolved target of the
specification, with the band of the current Z value. -/
theorem resolveNewValue_eq (cfg : Config) (tasks : Nat) (s1 s : Motors) (i : AXES) (v : ℚ)
    (hi : i ≠ AXES.F) (hu : s1.units = s.units) (hm : s1.mode = s.mode)
    (he : s1.extruderMode = s.extruderMode)
    (hc : s1.currentValues i = s.currentValues i) :
    resolveNewValue cfg s1 tasks i v = resolvedTarget cfg tasks s i v (s1.currentValues AXES.Z) := by
  have hun : (if (isLinear i ∧ s1.mode = MODES.RELATIVE)
        ∨ (i = AXES.E ∧ s1.extruderMode = MODES.RELATIVE) then
      (if hasFlag tasks HANDLE_RECEIVED_COMMAND_TASK = true ∧ s1.units = UNITS.INCHES then
          v * cfg.INCHES_TO_MILLIMETERS_SCALAR else v) + s1.currentValues i
      else (if hasFlag tasks HANDLE_RECEIVED_COMMAND_TASK = true ∧ s1.units = UNITS.INCHES then
          v * cfg.INCHES_TO_MILLIMETERS_SCALAR else v))
      = unclampedTarget cfg tasks s i v := by
    rw [hu, hm, he, hc]
    unfold unclampedTarget
    cases i
    · simp [isLinear, add_comm]
    · simp [isLinear, add_comm]
    · simp [isLinear, add_comm]
    · simp [isLinear, add_comm]
    · exact absurd rfl hi
  unfold resolveNewValue resolvedTarget
  dsimp only
  rw [hun]

theorem backlashPass_spec (cfg : Config) (tasks : Nat) (l : MoveLocals) (s : Motors) :
    (backlashPass cfg tasks l s).currentValues = s.currentValues
    ∧ sameLogical s (backlashPass cfg tasks l s) := by
  unfold backlashPass
  split_ifs
  · exact compensateForBacklash_spec cfg _ _ s
  · exact ⟨rfl, sameLogical_refl _⟩

/-- After a pass with tasks in which no step count overflows, the current values
are those the loop left, and the modes and units are those before the call. -/
theorem move_task_spec (cfg : Config) (gcode : Gcode) (tasks : Nat) (s : Motors) (ht : tasks ≠ 0)
    (h : ¬ overflows cfg gcode tasks s) :
    (move cfg gcode tasks s).2.currentValues
        = (taskState cfg gcode tasks AXES.X
            (stateBefore cfg gcode tasks (setFeedRate cfg gcode tasks s) AXES.X)).currentValues
    ∧ (move cfg gcode tasks s).2.mode = s.mode
    ∧ (move cfg gcode tasks s).2.extruderMode = s.extruderMode
    ∧ (move cfg gcode tasks s).2.units = s.units := by
  have hok := moveLoop_task_ok cfg gcode tasks ht (setFeedRate cfg gcode tasks s) initialLocals
    (fun i hi ho => h ⟨i, hi, ho⟩)
  have hm : (taskState cfg gcode tasks AXES.X
      (stateBefore cfg gcode tasks (setFeedRate cfg gcode tasks s) AXES.X)).mode = s.mode := rfl
  have he : (taskState cfg gcode tasks AXES.X
      (stateBefore cfg gcode tasks (setFeedRate cfg gcode tasks s) AXES.X)).extruderMode
        = s.extruderMode := rfl
  have hu : (taskState cfg gcode tasks AXES.X
      (stateBefore cfg gcode tasks (setFeedRate cfg gcode tasks s) AXES.X)).units = s.units := rfl
  unfold move
  rw [hok]
  dsimp only
  rw [if_pos ht]
  generalize taskState cfg gcode tasks AXES.X
    (stateBefore cfg gcode tasks (setFeedRate cfg gcode tasks s) AXES.X) = s1 at hm he hu ⊢
  generalize taskLocals cfg gcode tasks AXES.X
    (stateBefore cfg gcode tasks (setFeedRate cfg gcode tasks s) AXES.X)
    (taskLocals cfg gcode tasks AXES.Y
      (stateBefore cfg gcode tasks (setFeedRate cfg gcode tasks s) AXES.Y)
      (taskLocals cfg gcode tasks AXES.Z
        (stateBefore cfg gcode tasks (setFeedRate cfg gcode tasks s) AXES.Z)
        (taskLocals cfg gcode tasks AXES.E (setFeedRate cfg gcode tasks s) initialLocals))) = l
  obtain ⟨b1, b2⟩ := backlashPass_spec cfg tasks l s1
  obtain ⟨c1, c2⟩ := splitUpMovement_spec cfg (hasFlag tasks BED_LEVELING_TASK)
    (backlashPass cfg tasks l s1)
  have g := sameLogical_trans _ _ _ b2 c2
  refine ⟨?_, ?_, ?_, ?_⟩
  · show (splitUpMovement cfg (hasFlag tasks BED_LEVELING_TASK)
      (backlashPass cfg tasks l s1)).currentValues = _
    rw [c1, b1]
  · show (splitUpMovement cfg (hasFlag tasks BED_LEVELING_TASK)
      (backlashPass cfg tasks l s1)).mode = _
    rw [g.2.2.2.1, hm]
  · show (splitUpMovement cfg (hasFlag tasks BED_LEVELING_TASK)
      (backlashPass cfg tasks l s1)).extruderMode = _
    rw [g.2.2.2.2.1, he]
  · show (splitUpMovement cfg (hasFlag tasks BED_LEVELING_TASK)
      (backlashPass cfg tasks l s1)).units = _
    rw [g.2.2.2.2.2.1, hu]

theorem taskState_currentValues_self (cfg : Config) (gcode : Gcode) (tasks : Nat) (i : AXES)
    (s : Motors) :
    (taskState cfg gcode tasks i s).currentValues i = targetValue cfg gcode tasks s i := by
  show upd s.currentValues i (targetValue cfg gcode tasks s i) i = _
  unfold upd
  rw [if_pos rfl]

theorem taskState_currentValues_other (cfg : Config) (gcode : Gcode) (tasks : Nat) (i j : AXES)
    (s : Motors) (h : j ≠ i) :
    (taskState cfg gcode tasks i s).currentValues j = s.currentValues j := by
  show upd s.currentValues i (targetValue cfg gcode tasks s i) j = _
  unfold upd
  rw [if_neg h]

theorem resolvedTarget_band_irrelevant (cfg : Config) (tasks : Nat) (s : Motors) (i : AXES)
    (v z z' : ℚ) (hx : i ≠ AXES.X) (hy : i ≠ AXES.Y) :
    resolvedTarget cfg tasks s i v z = resolvedTarget cfg tasks s i v z' := by
  unfold resolvedTarget
  rw [if_neg (fun h => h.2.elim hx hy), if_neg (fun h => h.2.elim hx hy)]

/-- The current values after the loop of a pass with tasks: every motor present
in the command is at its resolved target, with X and Y clamped to the band of
the resolved Z, and every other motor is where it was. -/
theorem taskState_currentValues (cfg : Config) (gcode : Gcode) (tasks : Nat) (s : Motors)
    (i : AXES) (hi : i ≠ AXES.F) :
    (taskState cfg gcode tasks AXES.X
        (stateBefore cfg gcode tasks (setFeedRate cfg gcode tasks s) AXES.X)).currentValues i
      = if hasFlag gcode.commandParameters (gcodeParameter gcode i).1 then
          resolvedTarget cfg tasks s i (gcodeParameter gcode i).2
            ((taskState cfg gcode tasks AXES.X
              (stateBefore cfg gcode tasks (setFeedRate cfg gcode tasks s)
                AXES.X)).currentValues AXES.Z)
        else s.currentValues i := by
  have hs0 : ∀ j, j ≠ AXES.F →
      (setFeedRate cfg gcode tasks s).currentValues j = s.currentValues j :=
    fun j hj => setFeedRate_currentValues cfg gcode tasks s j hj
  have hu' : (setFeedRate cfg gcode tasks s).units = s.units := rfl
  have hm' : (setFeedRate cfg gcode tasks s).mode = s.mode := rfl
  have he' : (setFeedRate cfg gcode tasks s).extruderMode = s.extruderMode := rfl
  show (taskState cfg gcode tasks AXES.X (taskState cfg gcode tasks AXES.Y
      (taskState cfg gcode tasks AXES.Z (taskState cfg gcode tasks AXES.E
        (setFeedRate cfg gcode tasks s))))).currentValues i
      = if hasFlag gcode.commandParameters (gcodeParameter gcode i).1 then
          resolvedTarget cfg tasks s i (gcodeParameter gcode i).2
            ((taskState cfg gcode tasks AXES.X (taskState cfg gcode tasks AXES.Y
              (taskState cfg gcode tasks AXES.Z (taskState cfg gcode tasks AXES.E
                (setFeedRate cfg gcode tasks s))))).currentValues AXES.Z)
        else s.currentValues i
  generalize setFeedRate cfg gcode tasks s = s' at hs0 hu' hm' he' ⊢
  have hE := resolveNewValue_eq cfg tasks s' s AXES.E (gcodeParameter gcode AXES.E).2
    (by decide) hu' hm' he' (hs0 AXES.E (by decide))
  have cE : ∀ j, j ≠ AXES.E → j ≠ AXES.F →
      (taskState cfg gcode tasks AXES.E s').currentValues j = s.currentValues j := by
    intro j h1 h2
    rw [taskState_currentValues_other _ _ _ _ _ _ h1, hs0 j h2]
  have hZ := resolveNewValue_eq cfg tasks (taskState cfg gcode tasks AXES.E s') s AXES.Z
    (gcodeParameter gcode AXES.Z).2 (by decide) hu' hm' he' (cE AXES.Z (by decide) (by decide))
  have uE : (taskState cfg gcode tasks AXES.E s').units = s.units := hu'
  have mE : (taskState cfg gcode tasks AXES.E s').mode = s.mode := hm'
  have eE : (taskState cfg gcode tasks AXES.E s').extruderMode = s.extruderMode := he'
  have vE : (taskState cfg gcode tasks AXES.E s').currentValues AXES.E
      = targetValue cfg gcode tasks s' AXES.E := taskState_currentValues_self _ _ _ _ _
  generalize taskState cfg gcode tasks AXES.E s' = sE at hE hZ cE uE mE eE vE ⊢
  have cZ : ∀ j, j ≠ AXES.Z → j ≠ AXES.E → j ≠ AXES.F →
      (taskState cfg gcode tasks AXES.Z sE).currentValues j = s.currentValues j := by
    intro j h0 h1 h2
    rw [taskState_currentValues_other _ _ _ _ _ _ h0, cE j h1 h2]
  have vZ : (taskState cfg gcode tasks AXES.Z sE).currentValues AXES.Z
      = targetValue cfg gcode tasks sE AXES.Z := taskState_currentValues_self _ _ _ _ _
  have vEZ : (taskState cfg gcode tasks AXES.Z sE).currentValues AXES.E
      = targetValue cfg gcode tasks s' AXES.E := by
    rw [taskState_currentValues_other _ _ _ _ _ _ (by decide), vE]
  have hY := resolveNewValue_eq cfg tasks (taskState cfg gcode tasks AXES.Z sE) s AXES.Y
    (gcodeParameter gcode AXES.Y).2 (by decide) uE mE eE (cZ AXES.Y (by decide) (by decide) (by decide))
  have uZ : (taskState cfg gcode tasks AXES.Z sE).units = s.units := uE
  have mZ : (taskState cfg gcode tasks AXES.Z sE).mode = s.mode := mE
  have eZ : (taskState cfg gcode tasks AXES.Z sE).extruderMode = s.extruderMode := eE
  generalize taskState cfg gcode tasks AXES.Z sE = sZ at hY cZ vZ vEZ uZ mZ eZ ⊢
  have vY : (taskState cfg gcode tasks AXES.Y sZ).currentValues AXES.Y
      = targetValue cfg gcode tasks sZ AXES.Y := taskState_currentValues_self _ _ _ _ _
  have oY : ∀ j, j ≠ AXES.Y →
      (taskState cfg gcode tasks AXES.Y sZ).currentValues j = sZ.currentValues j :=
    fun j h => taskState_currentValues_other _ _ _ _ _ _ h
  have hX := resolveNewValue_eq cfg tasks (taskState cfg gcode tasks AXES.Y sZ) s AXES.X
    (gcodeParameter gcode AXES.X).2 (by decide) uZ mZ eZ
    (by rw [oY AXES.X (by decide)]; exact cZ AXES.X (by decide) (by decide) (by decide))
  generalize taskState cfg gcode tasks AXES.Y sZ = sY at hX vY oY ⊢
  have vX : (taskState cfg gcode tasks AXES.X sY).currentValues AXES.X
      = targetValue cfg gcode tasks sY AXES.X := taskState_currentValues_self _ _ _ _ _
  have oX : ∀ j, j ≠ AXES.X →
      (taskState cfg gcode tasks AXES.X sY).currentValues j = sY.currentValues j :=
    fun j h => taskState_currentValues_other _ _ _ _ _ _ h
  generalize taskState cfg gcode tasks AXES.X sY = sX at vX oX ⊢
  have zX : sY.currentValues AXES.Z = sX.currentValues AXES.Z := (oX AXES.Z (by decide)).symm
  have zY : sZ.currentValues AXES.Z = sX.currentValues AXES.Z := by
    rw [← zX, oY AXES.Z (by decide)]
  cases i
  · rw [vX]
    unfold targetValue
    rw [hX, zX, oY AXES.X (by decide), cZ AXES.X (by decide) (by decide) (by decide)]
  · rw [oX AXES.Y (by decide), vY]
    unfold targetValue
    rw [hY, zY, cZ AXES.Y (by decide) (by decide) (by decide)]
  · have key : ∀ z, targetValue cfg gcode tasks sE AXES.Z
        = if hasFlag gcode.commandParameters (gcodeParameter gcode AXES.Z).1 then
            resolvedTarget cfg tasks s AXES.Z (gcodeParameter gcode AXES.Z).2 z
          else s.currentValues AXES.Z := by
      intro z
      unfold targetValue
      rw [hZ, cE AXES.Z (by decide) (by decide),
        resolvedTarget_band_irrelevant cfg tasks s AXES.Z _ _ z (by decide) (by decide)]
    rw [oX AXES.Z (by decide), oY AXES.Z (by decide), vZ]
    exact key _
  · rw [oX AXES.E (by decide), oY AXES.E (by decide), vEZ]
    unfold targetValue
    rw [hE, hs0 AXES.E (by decide),
      resolvedTarget_band_irrelevant cfg tasks s AXES.E _ _ (sX.currentValues AXES.Z)
        (by decide) (by decide)]
  · exact absurd rfl hi

theorem move_task_currentValues (cfg : Config) (gcode : Gcode) (tasks : Nat) (s : Motors)
    (ht : tasks ≠ 0) (h : ¬ overflows cfg gcode tasks s) (i : AXES) (hi : i ≠ AXES.F) :
    (move cfg gcode tasks s).2.currentValues i
      = if hasFlag gcode.commandParameters (gcodeParameter gcode i).1 then
          resolvedTarget cfg tasks s i (gcodeParameter gcode i).2
            ((move cfg gcode tasks s).2.currentValues AXES.Z)
        else s.currentValues i := by
  rw [(move_task_spec cfg gcode tasks s ht h).1]
  exact taskState_currentValues cfg gcode tasks s i hi

/-- No step count overflows when every requested motor's count is at most 2^32, the
value with which the source compares it. -/
theorem not_overflows_of_float_bound (cfg : Config) (gcode : Gcode) (tasks : Nat) (s : Motors)
    (h : ∀ i, i ∈ moveOrder →
      hasFlag gcode.commandParameters (gcodeParameter gcode i).1 = true →
      totalNumberOfSteps (stateBefore cfg gcode tasks (setFeedRate cfg gcode tasks s) i) i
        (resolveNewValue cfg (stateBefore cfg gcode tasks (setFeedRate cfg gcode tasks s) i)
          tasks i (gcodeParameter gcode i).2) ≤ UINT32_MAX_AS_FLOAT) :
    ¬ overflows cfg gcode tasks s := by
  rintro ⟨i, hi, hp, -, -, hgt⟩
  exact absurd (h i hi hp) (not_le.mpr hgt)

theorem not_overflows_of_bound (cfg : Config) (gcode : Gcode) (tasks : Nat) (s : Motors)
    (h : ∀ i, i ∈ moveOrder →
      hasFlag gcode.commandParameters (gcodeParameter gcode i).1 = true →
      totalNumberOfSteps (stateBefore cfg gcode tasks (setFeedRate cfg gcode tasks s) i) i
        (resolveNewValue cfg (stateBefore cfg gcode tasks (setFeedRate cfg gcode tasks s) i)
          tasks i (gcodeParameter gcode i).2) ≤ UINT32_MAX) :
    ¬ overflows cfg gcode tasks s := by
  apply not_overflows_of_float_bound
  intro i hi hp
  have h2 : ((UINT32_MAX : Nat) : ℚ) ≤ UINT32_MAX_AS_FLOAT := by
    unfold UINT32_MAX UINT32_MAX_AS_FLOAT
    norm_num
  exact le_trans (h i hi hp) h2

theorem stateBefore_currentValues_self (cfg : Config) (gcode : Gcode) (tasks : Nat) (s : Motors)
    (i : AXES) (hi : i ∈ moveOrder) :
    (stateBefore cfg gcode tasks (setFeedRate cfg gcode tasks s) i).currentValues i
      = s.currentValues i := by
  have hs0 := setFeedRate_currentValues cfg gcode tasks s
  unfold moveOrder at hi
  simp only [List.mem_cons, List.mem_singleton, List.not_mem_nil, or_false] at hi
  rcases hi with rfl | rfl | rfl | rfl
  · exact hs0 AXES.E (by decide)
  · show (taskState cfg gcode tasks AXES.E _).currentValues AXES.Z = _
    rw [taskState_currentValues_other _ _ _ _ _ _ (by decide)]
    exact hs0 AXES.Z (by decide)
  · show (taskState cfg gcode tasks AXES.Z (taskState cfg gcode tasks AXES.E _)).currentValues
      AXES.Y = _
    rw [taskState_currentValues_other _ _ _ _ _ _ (by decide),
      taskState_currentValues_other _ _ _ _ _ _ (by decide)]
    exact hs0 AXES.Y (by decide)
  · show (taskState cfg gcode tasks AXES.Y (taskState cfg gcode tasks AXES.Z
      (taskState cfg gcode tasks AXES.E _))).currentValues AXES.X = _
    rw [taskState_currentValues_other _ _ _ _ _ _ (by decide),
      taskState_currentValues_other _ _ _ _ _ _ (by decide),
      taskState_currentValues_other _ _ _ _ _ _ (by decide)]
    exact hs0 AXES.X (by decide)

theorem stateBefore_frame (cfg : Config) (gcode : Gcode) (tasks : Nat) (s : Motors) (i : AXES) :
    (stateBefore cfg gcode tasks (setFeedRate cfg gcode tasks s) i).directionPin = s.directionPin
    ∧ (stateBefore cfg gcode tasks (setFeedRate cfg gcode tasks s) i).eeprom = s.eeprom
    ∧ (stateBefore cfg gcode tasks (setFeedRate cfg gcode tasks s) i).globals = s.globals
    ∧ (stateBefore cfg gcode tasks (setFeedRate cfg gcode tasks s) i).units = s.units
    ∧ (stateBefore cfg gcode tasks (setFeedRate cfg gcode tasks s) i).mode = s.mode
    ∧ (stateBefore cfg gcode tasks (setFeedRate cfg gcode tasks s) i).extruderMode
        = s.extruderMode := by
  cases i <;> exact ⟨rfl, rfl, rfl, rfl, rfl, rfl⟩

theorem totalNumberOfSteps_stateBefore (cfg : Config) (gcode : Gcode) (tasks : Nat) (s : Motors)
    (i : AXES) (hi : i ∈ moveOrder) (v : ℚ) :
    totalNumberOfSteps (stateBefore cfg gcode tasks (setFeedRate cfg gcode tasks s) i) i v
      = totalNumberOfSteps s i v := by
  obtain ⟨h1, h2, h3, -⟩ := stateBefore_frame cfg gcode tasks s i
  unfold totalNumberOfSteps
  rw [stateBefore_currentValues_self cfg gcode tasks s i hi, h1, h2, h3]

/-- No step count overflows when, for every motor present in the command, the
step count from the state before the call to the resolved target is at most
`UINT32_MAX`, whatever Z value selects the band. -/
theorem not_overflows_of_steps_le (cfg : Config) (gcode : Gcode) (tasks : Nat) (s : Motors)
    (h : ∀ i, i ∈ moveOrder →
      hasFlag gcode.commandParameters (gcodeParameter gcode i).1 = true →
      ∀ z, totalNumberOfSteps s i (resolvedTarget cfg tasks s i (gcodeParameter gcode i).2 z)
        ≤ UINT32_MAX) :
    ¬ overflows cfg gcode tasks s := by
  apply not_overflows_of_bound
  intro i hi hp
  obtain ⟨-, -, -, h4, h5, h6⟩ := stateBefore_frame cfg gcode tasks s i
  have hF : i ≠ AXES.F := by
    intro hF
    rw [hF] at hi
    exact absurd hi (by decide)
  rw [totalNumberOfSteps_stateBefore cfg gcode tasks s i hi,
    resolveNewValue_eq cfg tasks _ s i _ hF h4 h5 h6
      (stateBefore_currentValues_self cfg gcode tasks s i hi)]
  exact h i hi hp _

theorem totalNumberOfSteps_at_rest (s : Motors) (i : AXES) (v : ℚ)
    (hc : s.currentValues i = 0) (he : stepsPerMmOf s.eeprom i = 100)
    (hr : s.globals.motorsNumberOfRemainingSteps i = 0) :
    totalNumberOfSteps s i v = |v| * 800 := by
  unfold totalNumberOfSteps MICROSTEPS_PER_STEP
  dsimp only
  rw [hc, he, hr]
  split_ifs <;> simp <;> ring

theorem clampGcode_no_overflow :
    ¬ overflows exampleConfig clampGcode HANDLE_RECEIVED_COMMAND_TASK exampleMotors := by
  apply not_overflows_of_steps_le
  intro i hi hp z
  unfold moveOrder at hi
  simp only [List.mem_cons, List.mem_singleton, List.not_mem_nil, or_false] at hi
  rcases hi with rfl | rfl | rfl | rfl
  · exact absurd hp (by decide)
  · exact absurd hp (by decide)
  · exact absurd hp (by decide)
  · rw [totalNumberOfSteps_at_rest exampleMotors AXES.X _ rfl rfl rfl]
    have hb : |resolvedTarget exampleConfig HANDLE_RECEIVED_COMMAND_TASK exampleMotors AXES.X
        (gcodeParameter clampGcode AXES.X).2 z| ≤ 1000 := by
      unfold resolvedTarget
      rw [if_pos ⟨by decide, Or.inl rfl⟩]
      have hu : unclampedTarget exampleConfig HANDLE_RECEIVED_COMMAND_TASK exampleMotors AXES.X
          (gcodeParameter clampGcode AXES.X).2 = 1000 := by
        unfold unclampedTarget
        dsimp only
        rw [if_neg (by decide : ¬ exampleMotors.mode = MODES.RELATIVE),
          if_neg (fun hc => absurd hc.2 (by decide))]
        rfl
      rw [hu]
      obtain ⟨hlo, hhi⟩ := bedLimits_bounds z AXES.X
      have hle := bedLimits_le z AXES.X
      unfold getValueInRange
      rw [abs_le]
      constructor
      · exact le_trans (by norm_num) (le_trans hlo (le_min hle (le_max_left _ _)))
      · exact le_trans (min_le_left _ _) (le_trans hhi (by norm_num))
    unfold UINT32_MAX
    have h8 : |resolvedTarget exampleConfig HANDLE_RECEIVED_COMMAND_TASK exampleMotors AXES.X
        (gcodeParameter clampGcode AXES.X).2 z| * 800 ≤ 1000 * 800 :=
      mul_le_mul_of_nonneg_right hb (by norm_num)
    exact le_trans h8 (by norm_num)

theorem resolvedTarget_absolute (cfg : Config) (tasks : Nat) (s : Motors) (i : AXES) (v z : ℚ)
    (hr : hasFlag tasks HANDLE_RECEIVED_COMMAND_TASK = false) (hi : i ≠ AXES.E)
    (hm : s.mode = MODES.ABSOLUTE) :
    resolvedTarget cfg tasks s i v z = v := by
  unfold resolvedTarget
  rw [hr, if_neg (fun hc => absurd hc.1 (by decide))]
  unfold unclampedTarget
  rw [hr, hm]
  cases i
  · dsimp only
    rw [if_neg (by decide), if_neg (fun hc => absurd hc.1 (by decide))]
  · dsimp only
    rw [if_neg (by decide), if_neg (fun hc => absurd hc.1 (by decide))]
  · dsimp only
    rw [if_neg (by decide), if_neg (fun hc => absurd hc.1 (by decide))]
  · exact absurd rfl hi
  · dsimp only
    rw [if_neg (fun hc => absurd hc.1 (by decide))]

theorem levelGcode_no_overflow :
    ¬ overflows exampleConfig levelGcode BED_LEVELING_TASK exampleMotors := by
  apply not_overflows_of_steps_le
  intro i hi hp z
  unfold moveOrder at hi
  simp only [List.mem_cons, List.mem_singleton, List.not_mem_nil, or_false] at hi
  rcases hi with rfl | rfl | rfl | rfl
  · exact absurd hp (by decide)
  · rw [totalNumberOfSteps_at_rest exampleMotors AXES.Z _ rfl rfl rfl,
      resolvedTarget_absolute _ _ _ _ _ _ (by decide) (by decide) rfl]
    have hv : (gcodeParameter levelGcode AXES.Z).2 = 2 := rfl
    rw [hv]
    unfold UINT32_MAX
    norm_num
  · exact absurd hp (by decide)
  · rw [totalNumberOfSteps_at_rest exampleMotors AXES.X _ rfl rfl rfl,
      resolvedTarget_absolute _ _ _ _ _ _ (by decide) (by decide) rfl]
    have hv : (gcodeParameter levelGcode AXES.X).2 = 10 := rfl
    rw [hv]
    unfold UINT32_MAX
    norm_num

theorem heightGcode_no_overflow :
    ¬ overflows exampleConfig (heightGcode exampleConfig 5) BACKLASH_TASK
      { relativeMotors with mode := MODES.ABSOLUTE } := by
  apply not_overflows_of_steps_le
  intro i hi hp z
  unfold moveOrder at hi
  simp only [List.mem_cons, List.mem_singleton, List.not_mem_nil, or_false] at hi
  rcases hi with rfl | rfl | rfl | rfl
  · exact absurd hp (by decide)
  · rw [totalNumberOfSteps_at_rest { relativeMotors with mode := MODES.ABSOLUTE } AXES.Z _
        rfl rfl rfl,
      resolvedTarget_absolute _ _ _ _ _ _ (by decide) (by decide) rfl]
    have hv : (gcodeParameter (heightGcode exampleConfig 5) AXES.Z).2 = 5 := rfl
    rw [hv]
    unfold UINT32_MAX
    norm_num
  · exact absurd hp (by decide)
  · exact absurd hp (by decide)

/-- C8: in a received-command move in which no step count overflows, `move`
returns true, and for X and for Y, when present in the command, the target
resolved before clamping is stored unmodified if it lies inside or on a bound of
the interval of the band selected by the Z value, and is replaced by exactly the
bound it lies beyond otherwise. -/
theorem move_clamps_to_band_bounds (cfg : Config) (gcode : Gcode) (tasks : Nat) (s : Motors)
    (i : AXES) (hr : hasFlag tasks HANDLE_RECEIVED_COMMAND_TASK = true)
    (hxy : i = AXES.X ∨ i = AXES.Y)
    (hp : hasFlag gcode.commandParameters (gcodeParameter gcode i).1 = true)
    (h : ¬ overflows cfg gcode tasks s) :
    (move cfg gcode tasks s).1 = true
    ∧ ((bedLimits ((move cfg gcode tasks s).2.currentValues AXES.Z) i).1
          ≤ unclampedTarget cfg tasks s i (gcodeParameter gcode i).2
        ∧ unclampedTarget cfg tasks s i (gcodeParameter gcode i).2
          ≤ (bedLimits ((move cfg gcode tasks s).2.currentValues AXES.Z) i).2 →
        (move cfg gcode tasks s).2.currentValues i
          = unclampedTarget cfg tasks s i (gcodeParameter gcode i).2)
    ∧ (unclampedTarget cfg tasks s i (gcodeParameter gcode i).2
          < (bedLimits ((move cfg gcode tasks s).2.currentValues AXES.Z) i).1 →
        (move cfg gcode tasks s).2.currentValues i
          = (bedLimits ((move cfg gcode tasks s).2.currentValues AXES.Z) i).1)
    ∧ ((bedLimits ((move cfg gcode tasks s).2.currentValues AXES.Z) i).2
          < unclampedTarget cfg tasks s i (gcodeParameter gcode i).2 →
        (move cfg gcode tasks s).2.currentValues i
          = (bedLimits ((move cfg gcode tasks s).2.currentValues AXES.Z) i).2) := by
  have ht : tasks ≠ 0 := by
    intro h0
    rw [h0, hasFlag_zero] at hr
    exact absurd hr (by decide)
  have hi : i ≠ AXES.F := by
    rcases hxy with hx | hy
    · rw [hx]; decide
    · rw [hy]; decide
  have hv := move_task_currentValues cfg gcode tasks s ht h i hi
  rw [if_pos hp] at hv
  unfold resolvedTarget at hv
  rw [if_pos ⟨hr, hxy⟩] at hv
  refine ⟨move_no_overflow cfg gcode tasks s ht h, ?_, ?_, ?_⟩
  · intro hin
    rw [hv]
    exact getValueInRange_inside _ _ _ hin.1 hin.2
  · intro hlo
    rw [hv]
    exact getValueInRange_below _ _ _ (bedLimits_le _ _) hlo
  · intro hhi
    rw [hv]
    exact getValueInRange_above _ _ _ (bedLimits_le _ _) hhi

theorem move_clamps_to_band_bounds_witness :
    hasFlag HANDLE_RECEIVED_COMMAND_TASK HANDLE_RECEIVED_COMMAND_TASK = true
    ∧ hasFlag clampGcode.commandParameters (gcodeParameter clampGcode AXES.X).1 = true
    ∧ ¬ overflows exampleConfig clampGcode HANDLE_RECEIVED_COMMAND_TASK exampleMotors
    ∧ (move exampleConfig clampGcode HANDLE_RECEIVED_COMMAND_TASK exampleMotors).1 = true
    ∧ unclampedTarget exampleConfig HANDLE_RECEIVED_COMMAND_TASK exampleMotors AXES.X
        (gcodeParameter clampGcode AXES.X).2 = 1000
    ∧ (move exampleConfig clampGcode HANDLE_RECEIVED_COMMAND_TASK exampleMotors).2.currentValues
        AXES.X = 106 := by
  have hT := move_clamps_to_band_bounds exampleConfig clampGcode HANDLE_RECEIVED_COMMAND_TASK
    exampleMotors AXES.X (by decide) (Or.inl rfl) (by decide) clampGcode_no_overflow
  have hz : (move exampleConfig clampGcode HANDLE_RECEIVED_COMMAND_TASK
      exampleMotors).2.currentValues AXES.Z = 0 := by
    rw [move_task_currentValues exampleConfig clampGcode HANDLE_RECEIVED_COMMAND_TASK
      exampleMotors (by decide) clampGcode_no_overflow AXES.Z (by decide), if_neg (by decide)]
    rfl
  have hu : unclampedTarget exampleConfig HANDLE_RECEIVED_COMMAND_TASK exampleMotors AXES.X
      (gcodeParameter clampGcode AXES.X).2 = 1000 := by
    unfold unclampedTarget
    dsimp only
    rw [if_neg (by decide : ¬ exampleMotors.mode = MODES.RELATIVE),
      if_neg (fun hc => absurd hc.2 (by decide))]
    rfl
  have hb : (bedLimits 0 AXES.X).2 = 106 := by
    unfold bedLimits BED_LOW_MAX_Z BED_LOW_MAX_X
    rw [if_pos (by norm_num)]
    show (if AXES.X = AXES.X then (106 : ℚ) else BED_LOW_MAX_Y) = 106
    exact if_pos rfl
  rw [hz, hu, hb] at hT
  exact ⟨by decide, by decide, clampGcode_no_overflow, hT.1, hu, hT.2.2.2 (by norm_num)⟩

/-- C9: after a move with nonzero task flags in which no step count overflows,
`move` has returned true, every motor present in the command has its resolved
target as current value, and every motor absent from the command has kept its
current value; the task flags, bed leveling included, are arbitrary. -/
theorem move_reaches_resolved_targets (cfg : Config) (gcode : Gcode) (tasks : Nat) (s : Motors)
    (ht : tasks ≠ 0) (h : ¬ overflows cfg gcode tasks s) (i : AXES) (hi : i ≠ AXES.F) :
    (move cfg gcode tasks s).1 = true
    ∧ (hasFlag gcode.commandParameters (gcodeParameter gcode i).1 = true →
        (move cfg gcode tasks s).2.currentValues i
          = resolvedTarget cfg tasks s i (gcodeParameter gcode i).2
              ((move cfg gcode tasks s).2.currentValues AXES.Z))
    ∧ (hasFlag gcode.commandParameters (gcodeParameter gcode i).1 = false →
        (move cfg gcode tasks s).2.currentValues i = s.currentValues i) := by
  have hv := move_task_currentValues cfg gcode tasks s ht h i hi
  refine ⟨move_no_overflow cfg gcode tasks s ht h, ?_, ?_⟩
  · intro hp
    rw [hv, if_pos hp]
  · intro hp
    rw [hv, if_neg (by rw [hp]; decide)]

theorem move_reaches_resolved_targets_witness :
    BED_LEVELING_TASK ≠ 0
    ∧ ¬ overflows exampleConfig levelGcode BED_LEVELING_TASK exampleMotors
    ∧ (move exampleConfig levelGcode BED_LEVELING_TASK exampleMotors).1 = true
    ∧ (move exampleConfig levelGcode BED_LEVELING_TASK exampleMotors).2.currentValues AXES.Z = 2
    ∧ (move exampleConfig levelGcode BED_LEVELING_TASK exampleMotors).2.currentValues AXES.Y
        = exampleMotors.currentValues AXES.Y := by
  have hZ := move_reaches_resolved_targets exampleConfig levelGcode BED_LEVELING_TASK
    exampleMotors (by decide) levelGcode_no_overflow AXES.Z (by decide)
  have hY := move_reaches_resolved_targets exampleConfig levelGcode BED_LEVELING_TASK
    exampleMotors (by decide) levelGcode_no_overflow AXES.Y (by decide)
  refine ⟨by decide, levelGcode_no_overflow, hZ.1, ?_, hY.2.2 (by decide)⟩
  rw [hZ.2.1 (by decide), resolvedTarget_absolute _ _ _ _ _ _ (by decide) (by decide) rfl]
  rfl

theorem heightGcode_flags (cfg : Config) (height : ℚ) :
    hasFlag (heightGcode cfg height).commandParameters
        (gcodeParameter (heightGcode cfg height) AXES.X).1 = false
    ∧ hasFlag (heightGcode cfg height).commandParameters
        (gcodeParameter (heightGcode cfg height) AXES.Y).1 = false
    ∧ hasFlag (heightGcode cfg height).commandParameters
        (gcodeParameter (heightGcode cfg height) AXES.Z).1 = true
    ∧ hasFlag (heightGcode cfg height).commandParameters
        (gcodeParameter (heightGcode cfg height) AXES.E).1 = false := by
  have hp : (heightGcode cfg height).commandParameters
      = PARAMETER_Z_OFFSET ||| PARAMETER_F_OFFSET := rfl
  obtain ⟨hx, hy, hz, he⟩ := gcodeParameter_mask (heightGcode cfg height)
  rw [hp, hx, hy, hz, he]
  exact ⟨by decide, by decide, by decide, by decide⟩

/-- C10: when the Z move does not overflow, `moveToHeight` leaves the mode and the
stored feed rate as they were before the call, leaves the current X, Y and E
values unchanged, and leaves the current Z value equal to the height, whatever
the mode of the caller. -/
theorem moveToHeight_frame (cfg : Config) (height : ℚ) (s : Motors)
    (h : ¬ overflows cfg (heightGcode cfg height) BACKLASH_TASK { s with mode := MODES.ABSOLUTE }) :
    (moveToHeight cfg height s).mode = s.mode
    ∧ (moveToHeight cfg height s).currentValues AXES.F = s.currentValues AXES.F
    ∧ (moveToHeight cfg height s).currentValues AXES.X = s.currentValues AXES.X
    ∧ (moveToHeight cfg height s).currentValues AXES.Y = s.currentValues AXES.Y
    ∧ (moveToHeight cfg height s).currentValues AXES.E = s.currentValues AXES.E
    ∧ (moveToHeight cfg height s).currentValues AXES.Z = height := by
  have ht : BACKLASH_TASK ≠ 0 := by decide
  have hv := move_task_currentValues cfg (heightGcode cfg height) BACKLASH_TASK
    { s with mode := MODES.ABSOLUTE } ht h
  have hX := hv AXES.X (by decide)
  have hY := hv AXES.Y (by decide)
  have hE := hv AXES.E (by decide)
  have hZ := hv AXES.Z (by decide)
  obtain ⟨fX, fY, fZ, fE⟩ := heightGcode_flags cfg height
  rw [fX, if_neg (by decide)] at hX
  rw [fY, if_neg (by decide)] at hY
  rw [fE, if_neg (by decide)] at hE
  rw [fZ, if_pos rfl] at hZ
  have hres : ∀ z, resolvedTarget cfg BACKLASH_TASK { s with mode := MODES.ABSOLUTE } AXES.Z
      height z = height := by
    intro z
    have hb : hasFlag BACKLASH_TASK HANDLE_RECEIVED_COMMAND_TASK = false := by decide
    unfold resolvedTarget
    rw [hb, if_neg (fun hc => absurd hc.1 (by decide))]
    unfold unclampedTarget
    dsimp only
    rw [hb, if_neg (by decide : ¬ MODES.ABSOLUTE = MODES.RELATIVE),
      if_neg (fun hc => absurd hc.1 (by decide))]
  have hcv : (moveToHeight cfg height s).currentValues
      = upd (move cfg (heightGcode cfg height) BACKLASH_TASK
          { s with mode := MODES.ABSOLUTE }).2.currentValues AXES.F (s.currentValues AXES.F) := rfl
  rw [hcv]
  unfold upd
  refine ⟨rfl, ?_, ?_, ?_, ?_, ?_⟩
  · rw [if_pos rfl]
  · rw [if_neg (by decide)]
    exact hX
  · rw [if_neg (by decide)]
    exact hY
  · rw [if_neg (by decide)]
    exact hE
  · rw [if_neg (by decide), hZ]
    exact hres _

theorem moveToHeight_frame_witness :
    ¬ overflows exampleConfig (heightGcode exampleConfig 5) BACKLASH_TASK
        { relativeMotors with mode := MODES.ABSOLUTE }
    ∧ relativeMotors.mode = MODES.RELATIVE
    ∧ (moveToHeight exampleConfig 5 relativeMotors).mode = relativeMotors.mode
    ∧ (moveToHeight exampleConfig 5 relativeMotors).currentValues AXES.F
        = relativeMotors.currentValues AXES.F
    ∧ (moveToHeight exampleConfig 5 relativeMotors).currentValues AXES.X
        = relativeMotors.currentValues AXES.X
    ∧ (moveToHeight exampleConfig 5 relativeMotors).currentValues AXES.Y
        = relativeMotors.currentValues AXES.Y
    ∧ (moveToHeight exampleConfig 5 relativeMotors).currentValues AXES.E
        = relativeMotors.currentValues AXES.E
    ∧ (moveToHeight exampleConfig 5 relativeMotors).currentValues AXES.Z = 5 :=
  ⟨heightGcode_no_overflow, rfl,
    moveToHeight_frame exampleConfig 5 relativeMotors heightGcode_no_overflow⟩

/-! ## Theorems: the carry-over of the physical pass -/

theorem motorsStepAction_remaining (motor : AXES) (g : Globals) :
    (motorsStepAction motor g).motorsNumberOfRemainingSteps = g.motorsNumberOfRemainingSteps := by
  unfold motorsStepAction
  dsimp only
  split_ifs <;> rfl

theorem stepLoop_remaining (l : List AXES) (g : Globals) :
    (l.foldl (fun acc i => if acc.motorsIsMoving i then motorsStepAction i acc else acc)
      g).motorsNumberOfRemainingSteps = g.motorsNumberOfRemainingSteps := by
  induction l generalizing g with
  | nil => rfl
  | cons i rest ih =>
    rw [List.foldl_cons, ih]
    split_ifs
    · exact motorsStepAction_remaining i g
    · rfl

theorem updateMotorsStepTimer_remaining (g : Globals) :
    (updateMotorsStepTimer g).motorsNumberOfRemainingSteps = g.motorsNumberOfRemainingSteps := by
  unfold updateMotorsStepTimer
  dsimp only
  rw [stepLoop_remaining]

theorem stopMotorsStepTimer_remaining (g : Globals) :
    (stopMotorsStepTimer g).motorsNumberOfRemainingSteps = g.motorsNumberOfRemainingSteps := by
  unfold stopMotorsStepTimer
  rw [updateMotorsStepTimer_remaining]

theorem waitForMotors_remaining (k : Nat) (s : Motors) :
    (waitForMotors k s).globals.motorsNumberOfRemainingSteps
      = s.globals.motorsNumberOfRemainingSteps := by
  induction k generalizing s with
  | zero => rfl
  | succ k ih =>
    rw [waitForMotors]
    split_ifs
    · rw [ih]
      exact updateMotorsStepTimer_remaining s.globals
    · rfl

theorem delayLoop_remaining (c : ℚ) (l : List AXES) (g : Globals) :
    (l.foldl (fun acc i => if acc.motorsIsMoving i then setMotorDelayAndSkip i c acc else acc)
      g).motorsNumberOfRemainingSteps = g.motorsNumberOfRemainingSteps := by
  induction l generalizing g with
  | nil => rfl
  | cons i rest ih =>
    rw [List.foldl_cons, ih]
    split_ifs <;> rfl

theorem physicalPass_remaining (l : MoveLocals) (s : Motors) :
    (physicalPass l s).globals.motorsNumberOfRemainingSteps
      = s.globals.motorsNumberOfRemainingSteps := by
  unfold physicalPass
  dsimp only
  rw [stopMotorsStepTimer_remaining, waitForMotors_remaining]
  exact delayLoop_remaining _ _ _

theorem resolveNewValue_noTask (cfg : Config) (s : Motors) (i : AXES) (v : ℚ) :
    resolveNewValue cfg s NO_TASK i v
      = if (isLinear i ∧ s.mode = MODES.RELATIVE) ∨ (i = AXES.E ∧ s.extruderMode = MODES.RELATIVE)
        then v + s.currentValues i else v := by
  unfold resolveNewValue NO_TASK
  simp only [hasFlag_zero, Bool.false_eq_true, false_and, if_false]

theorem toUInt32_of_fits (q : ℚ) (h1 : 1 ≤ q) (h2 : q < 4294967296) :
    (toUInt32 q : ℚ) ≤ q ∧ q < (toUInt32 q : ℚ) + 1 := by
  have hf0 : 0 ≤ ⌊q⌋ := Int.floor_nonneg.mpr (le_trans (by norm_num) h1)
  have hf1 : ⌊q⌋ < 4294967296 := by
    rw [Int.floor_lt]
    exact_mod_cast h2
  have hn : (Int.toNat ⌊q⌋) % 4294967296 = Int.toNat ⌊q⌋ := by
    apply Nat.mod_eq_of_lt
    omega
  have hc : ((Int.toNat ⌊q⌋ : Nat) : ℚ) = ((⌊q⌋ : ℤ) : ℚ) := by
    have : ((Int.toNat ⌊q⌋ : Nat) : ℤ) = ⌊q⌋ := Int.toNat_of_nonneg hf0
    exact_mod_cast this
  unfold toUInt32
  rw [hn, hc]
  exact ⟨Int.floor_le q, Int.lt_floor_add_one q⟩

theorem remainingAfter_range (total : ℚ) (h1 : -1 < total) (h2 : total < 4294967296) :
    -1 ≤ remainingAfter total ∧ remainingAfter total < 1 := by
  unfold remainingAfter
  split_ifs with h
  · obtain ⟨a, b⟩ := toUInt32_of_fits total h h2
    constructor <;> linarith
  · constructor <;> linarith

theorem totalNumberOfSteps_gt (s : Motors) (i : AXES) (v : ℚ)
    (hs : 0 < stepsPerMmOf s.eeprom i)
    (hr : -1 ≤ s.globals.motorsNumberOfRemainingSteps i
      ∧ s.globals.motorsNumberOfRemainingSteps i < 1)
    (hd : |v - s.currentValues i| ≠ 0) :
    -1 < totalNumberOfSteps s i v := by
  unfold totalNumberOfSteps
  dsimp only
  have hpos : 0 < |v - s.currentValues i| := lt_of_le_of_ne (abs_nonneg _) (Ne.symm hd)
  have h8 : (0 : ℚ) < (MICROSTEPS_PER_STEP : ℚ) := by
    unfold MICROSTEPS_PER_STEP
    norm_num
  have hm : 0 < |v - s.currentValues i| * stepsPerMmOf s.eeprom i * (MICROSTEPS_PER_STEP : ℚ) :=
    mul_pos (mul_pos hpos hs) h8
  split_ifs <;> linarith [hr.1, hr.2]

theorem moveMotorPhysical_remaining (cfg : Config) (gcode : Gcode) (i : AXES)
    (sl : Motors × MoveLocals) :
    (moveMotorPhysical cfg gcode i sl).1.globals.motorsNumberOfRemainingSteps
      = if hasFlag gcode.commandParameters (gcodeParameter gcode i).1
            ∧ |resolveNewValue cfg sl.1 NO_TASK i (gcodeParameter gcode i).2
                - sl.1.currentValues i| ≠ 0 then
          upd sl.1.globals.motorsNumberOfRemainingSteps i
            (remainingAfter
              (totalNumberOfSteps sl.1 i (resolveNewValue cfg sl.1 NO_TASK i (gcodeParameter gcode i).2)))
        else sl.1.globals.motorsNumberOfRemainingSteps := by
  unfold moveMotorPhysical remainingAfter
  dsimp only
  split_ifs <;> rfl

theorem physicalSteps_congr (cfg : Config) (gcode : Gcode) (s r : Motors) (i : AXES)
    (h1 : r.currentValues i = s.currentValues i) (h2 : r.directionPin i = s.directionPin i)
    (h3 : r.globals.motorsNumberOfRemainingSteps i = s.globals.motorsNumberOfRemainingSteps i)
    (h4 : r.eeprom = s.eeprom) (h5 : r.mode = s.mode) (h6 : r.extruderMode = s.extruderMode) :
    physicalSteps cfg gcode r i = physicalSteps cfg gcode s i := by
  unfold physicalSteps
  rw [resolveNewValue_noTask, resolveNewValue_noTask]
  unfold totalNumberOfSteps
  dsimp only
  rw [h1, h2, h3, h4, h5, h6]

theorem moveMotorPhysical_other (cfg : Config) (gcode : Gcode) (i j : AXES)
    (sl : Motors × MoveLocals) (h : j ≠ i) :
    (moveMotorPhysical cfg gcode i sl).1.currentValues j = sl.1.currentValues j
    ∧ (moveMotorPhysical cfg gcode i sl).1.directionPin j = sl.1.directionPin j
    ∧ (moveMotorPhysical cfg gcode i sl).1.globals.motorsNumberOfRemainingSteps j
        = sl.1.globals.motorsNumberOfRemainingSteps j
    ∧ (moveMotorPhysical cfg gcode i sl).1.eeprom = sl.1.eeprom
    ∧ (moveMotorPhysical cfg gcode i sl).1.mode = sl.1.mode
    ∧ (moveMotorPhysical cfg gcode i sl).1.extruderMode = sl.1.extruderMode := by
  have hu : ∀ (α : Type) (a : AXES → α) (v : α), upd a i v j = a j := by
    intro α a v
    unfold upd
    rw [if_neg h]
  unfold moveMotorPhysical
  dsimp only
  split_ifs
  · exact ⟨hu _ _ _, hu _ _ _, hu _ _ _, rfl, rfl, rfl⟩
  · exact ⟨hu _ _ _, hu _ _ _, hu _ _ _, rfl, rfl, rfl⟩
  · exact ⟨rfl, rfl, rfl, rfl, rfl, rfl⟩

theorem moveMotorPhysical_range (cfg : Config) (gcode : Gcode) (i : AXES)
    (sl : Motors × MoveLocals) (hr : remainingInRange sl.1.globals)
    (hs : 0 < stepsPerMmOf sl.1.eeprom i)
    (hfit : physicalSteps cfg gcode sl.1 i < 4294967296) :
    remainingInRange (moveMotorPhysical cfg gcode i sl).1.globals := by
  intro j
  rw [moveMotorPhysical_remaining]
  split_ifs with hc
  · unfold upd
    split_ifs with hj
    · exact remainingAfter_range _
        (totalNumberOfSteps_gt sl.1 i _ hs (hr i) hc.2) hfit
    · exact hr j
  · exact hr j

theorem physicalLoop_range (cfg : Config) (gcode : Gcode) (order : List AXES)
    (hnd : order.Nodup) (sl : Motors × MoveLocals) (hr : remainingInRange sl.1.globals)
    (h : ∀ i, i ∈ order →
      0 < stepsPerMmOf sl.1.eeprom i ∧ physicalSteps cfg gcode sl.1 i < 4294967296) :
    remainingInRange
      (order.foldl (fun acc i => moveMotorPhysical cfg gcode i acc) sl).1.globals := by
  induction order generalizing sl with
  | nil => exact hr
  | cons i rest ih =>
    rw [List.foldl_cons]
    rw [List.nodup_cons] at hnd
    apply ih hnd.2
    · exact moveMotorPhysical_range cfg gcode i sl hr (h i (List.mem_cons_self _ _)).1
        (h i (List.mem_cons_self _ _)).2
    · intro j hj
      have hji : j ≠ i := by
        intro e
        rw [e] at hj
        exact hnd.1 hj
      obtain ⟨o1, o2, o3, o4, o5, o6⟩ := moveMotorPhysical_other cfg gcode i j sl hji
      rw [o4, physicalSteps_congr cfg gcode sl.1 _ j o1 o2 o3 o4 o5 o6]
      exact h j (List.mem_cons_of_mem _ hj)

theorem physicalLoop_other (cfg : Config) (gcode : Gcode) (order : List AXES) (j : AXES)
    (hj : j ∉ order) (sl : Motors × MoveLocals) :
    (order.foldl (fun acc i => moveMotorPhysical cfg gcode i acc) sl).1.currentValues j
        = sl.1.currentValues j
    ∧ (order.foldl (fun acc i => moveMotorPhysical cfg gcode i acc) sl).1.directionPin j
        = sl.1.directionPin j
    ∧ (order.foldl (fun acc i => moveMotorPhysical cfg gcode i acc)
          sl).1.globals.motorsNumberOfRemainingSteps j
        = sl.1.globals.motorsNumberOfRemainingSteps j
    ∧ (order.foldl (fun acc i => moveMotorPhysical cfg gcode i acc) sl).1.eeprom = sl.1.eeprom
    ∧ (order.foldl (fun acc i => moveMotorPhysical cfg gcode i acc) sl).1.mode = sl.1.mode
    ∧ (order.foldl (fun acc i => moveMotorPhysical cfg gcode i acc) sl).1.extruderMode
        = sl.1.extruderMode := by
  induction order generalizing sl with
  | nil => exact ⟨rfl, rfl, rfl, rfl, rfl, rfl⟩
  | cons i rest ih =>
    rw [List.foldl_cons]
    rw [List.mem_cons, not_or] at hj
    obtain ⟨a1, a2, a3, a4, a5, a6⟩ := ih hj.2 (moveMotorPhysical cfg gcode i sl)
    obtain ⟨b1, b2, b3, b4, b5, b6⟩ := moveMotorPhysical_other cfg gcode i j sl hj.1
    exact ⟨a1.trans b1, a2.trans b2, a3.trans b3, a4.trans b4, a5.trans b5, a6.trans b6⟩

theorem physicalMoves_congr (cfg : Config) (gcode : Gcode) (s r : Motors) (i : AXES)
    (h1 : r.currentValues i = s.currentValues i) (h5 : r.mode = s.mode)
    (h6 : r.extruderMode = s.extruderMode) :
    physicalMoves cfg gcode r i ↔ physicalMoves cfg gcode s i := by
  unfold physicalMoves
  rw [resolveNewValue_noTask, resolveNewValue_noTask, h1, h5, h6]

theorem physicalLoop_remaining_at (cfg : Config) (gcode : Gcode) (order : List AXES)
    (hnd : order.Nodup) (i : AXES) (hi : i ∈ order) (sl : Motors × MoveLocals) :
    (physicalMoves cfg gcode sl.1 i →
      (order.foldl (fun acc j => moveMotorPhysical cfg gcode j acc)
          sl).1.globals.motorsNumberOfRemainingSteps i
        = remainingAfter (physicalSteps cfg gcode sl.1 i))
    ∧ (¬ physicalMoves cfg gcode sl.1 i →
      (order.foldl (fun acc j => moveMotorPhysical cfg gcode j acc)
          sl).1.globals.motorsNumberOfRemainingSteps i
        = sl.1.globals.motorsNumberOfRemainingSteps i) := by
  induction order generalizing sl with
  | nil => exact absurd hi (List.not_mem_nil _)
  | cons j rest ih =>
    rw [List.foldl_cons]
    rw [List.nodup_cons] at hnd
    by_cases hji : i = j
    · subst hji
      obtain ⟨-, -, a3, -⟩ :=
        physicalLoop_other cfg gcode rest i hnd.1 (moveMotorPhysical cfg gcode i sl)
      rw [a3, moveMotorPhysical_remaining]
      constructor
      · intro hm
        have hm2 := hm
        unfold physicalMoves at hm2
        rw [if_pos hm2]
        unfold upd physicalSteps
        rw [if_pos rfl]
      · intro hm
        have hm2 := hm
        unfold physicalMoves at hm2
        rw [if_neg hm2]
    · have hir : i ∈ rest := by
        rcases List.mem_cons.mp hi with e | e
        · exact absurd e hji
        · exact e
      obtain ⟨o1, o2, o3, o4, o5, o6⟩ := moveMotorPhysical_other cfg gcode j i sl hji
      obtain ⟨p1, p2⟩ := ih hnd.2 hir (moveMotorPhysical cfg gcode j sl)
      rw [physicalMoves_congr cfg gcode sl.1 _ i o1 o5 o6,
        physicalSteps_congr cfg gcode sl.1 _ i o1 o2 o3 o4 o5 o6] at p1
      rw [physicalMoves_congr cfg gcode sl.1 _ i o1 o5 o6, o3] at p2
      exact ⟨p1, p2⟩

/-- The carry-over after `move` without tasks is the one the loop over the motors
leaves: the physical pass after the loop does not write it. -/
theorem move_physical_remaining (cfg : Config) (gcode : Gcode) (s : Motors) :
    (move cfg gcode 0 s).2.globals.motorsNumberOfRemainingSteps
      = (moveOrder.foldl (fun acc i => moveMotorPhysical cfg gcode i acc)
          (setFeedRate cfg gcode 0 s, initialLocals)).1.globals.motorsNumberOfRemainingSteps := by
  unfold move
  rw [moveLoop_physical]
  dsimp only
  rw [if_neg (by simp)]
  split_ifs
  · exact physicalPass_remaining _ _
  · rfl

theorem move_physical_range (cfg : Config) (gcode : Gcode) (s : Motors)
    (hr : remainingInRange s.globals)
    (h : ∀ i, i ∈ moveOrder →
      0 < stepsPerMmOf s.eeprom i ∧ physicalSteps cfg gcode s i < 4294967296) :
    remainingInRange (move cfg gcode 0 s).2.globals := by
  have hl := physicalLoop_range cfg gcode moveOrder (by decide)
    (setFeedRate cfg gcode 0 s, initialLocals) hr (by
      intro i hi
      have hF : i ≠ AXES.F := by
        intro e
        rw [e] at hi
        exact absurd hi (by decide)
      have hc := setFeedRate_currentValues cfg gcode 0 s i hF
      have := physicalSteps_congr cfg gcode s (setFeedRate cfg gcode 0 s) i hc rfl rfl rfl rfl rfl
      rw [this]
      exact h i hi)
  intro i
  rw [move_physical_remaining]
  exact hl i

theorem move_physical_remaining_at (cfg : Config) (gcode : Gcode) (s : Motors) (i : AXES)
    (hi : i ∈ moveOrder) :
    (physicalMoves cfg gcode s i →
      (move cfg gcode 0 s).2.globals.motorsNumberOfRemainingSteps i
        = remainingAfter (physicalSteps cfg gcode s i))
    ∧ (¬ physicalMoves cfg gcode s i →
      (move cfg gcode 0 s).2.globals.motorsNumberOfRemainingSteps i
        = s.globals.motorsNumberOfRemainingSteps i) := by
  have hF : i ≠ AXES.F := by
    intro e
    rw [e] at hi
    exact absurd hi (by decide)
  have hc := setFeedRate_currentValues cfg gcode 0 s i hF
  obtain ⟨p1, p2⟩ := physicalLoop_remaining_at cfg gcode moveOrder (by decide) i hi
    (setFeedRate cfg gcode 0 s, initialLocals)
  rw [physicalMoves_congr cfg gcode s (setFeedRate cfg gcode 0 s) i hc rfl rfl,
    physicalSteps_congr cfg gcode s (setFeedRate cfg gcode 0 s) i hc rfl rfl rfl rfl rfl] at p1
  rw [physicalMoves_congr cfg gcode s (setFeedRate cfg gcode 0 s) i hc rfl rfl] at p2
  rw [move_physical_remaining]
  exact ⟨p1, p2⟩

/-! ## Theorems: validity flags after a pass with tasks -/

theorem move_task_eq (cfg : Config) (gcode : Gcode) (tasks : Nat) (s : Motors) (ht : tasks ≠ 0)
    (h : ¬ overflows cfg gcode tasks s) :
    (move cfg gcode tasks s).2
      = restoreValidity (loopLocals cfg gcode tasks s) (beforeRestore cfg gcode tasks s) := by
  have hok := moveLoop_task_ok cfg gcode tasks ht (setFeedRate cfg gcode tasks s) initialLocals
    (fun i hi ho => h ⟨i, hi, ho⟩)
  unfold move
  rw [hok]
  dsimp only
  rw [if_pos ht]
  rfl

theorem taskState_validity_self (cfg : Config) (gcode : Gcode) (tasks : Nat) (i : AXES)
    (s : Motors) (hi : isLinear i = true) :
    (taskState cfg gcode tasks i s).currentStateOfValues i
      = if hasFlag gcode.commandParameters (gcodeParameter gcode i).1
            ∧ |resolveNewValue cfg s tasks i (gcodeParameter gcode i).2 - s.currentValues i| ≠ 0
            ∧ totalNumberOfSteps s i (resolveNewValue cfg s tasks i (gcodeParameter gcode i).2) ≥ 1
          then INVALID else s.currentStateOfValues i := by
  unfold taskState
  dsimp only
  by_cases hc : hasFlag gcode.commandParameters (gcodeParameter gcode i).1
      ∧ |resolveNewValue cfg s tasks i (gcodeParameter gcode i).2 - s.currentValues i| ≠ 0
      ∧ totalNumberOfSteps s i (resolveNewValue cfg s tasks i (gcodeParameter gcode i).2) ≥ 1
  · rw [if_pos hc, if_pos ⟨hc.1, hc.2.1, hc.2.2, hi⟩]
    unfold upd
    rw [if_pos rfl]
  · rw [if_neg hc, if_neg (fun h4 => hc ⟨h4.1, h4.2.1, h4.2.2.1⟩)]

theorem taskState_validity_other (cfg : Config) (gcode : Gcode) (tasks : Nat) (i j : AXES)
    (s : Motors) (h : j ≠ i) :
    (taskState cfg gcode tasks i s).currentStateOfValues j = s.currentStateOfValues j := by
  unfold taskState
  dsimp only
  split_ifs
  · unfold upd
    rw [if_neg h]
  · rfl

theorem loopState_validity (cfg : Config) (gcode : Gcode) (tasks : Nat) (s : Motors) (i : AXES)
    (hi : isLinear i = true) :
    ((stateBefore cfg gcode tasks (setFeedRate cfg gcode tasks s) i).currentStateOfValues i
        = s.currentStateOfValues i)
    ∧ ((loopState cfg gcode tasks s).currentStateOfValues i
        = (taskState cfg gcode tasks i
            (stateBefore cfg gcode tasks (setFeedRate cfg gcode tasks s) i)).currentStateOfValues
              i) := by
  have h0 : (setFeedRate cfg gcode tasks s).currentStateOfValues = s.currentStateOfValues := rfl
  cases i
  · refine ⟨?_, rfl⟩
    show (taskState cfg gcode tasks AXES.Y (taskState cfg gcode tasks AXES.Z
      (taskState cfg gcode tasks AXES.E _))).currentStateOfValues AXES.X = _
    rw [taskState_validity_other _ _ _ _ _ _ (by decide),
      taskState_validity_other _ _ _ _ _ _ (by decide),
      taskState_validity_other _ _ _ _ _ _ (by decide), h0]
  · constructor
    · show (taskState cfg gcode tasks AXES.Z
        (taskState cfg gcode tasks AXES.E _)).currentStateOfValues AXES.Y = _
      rw [taskState_validity_other _ _ _ _ _ _ (by decide),
        taskState_validity_other _ _ _ _ _ _ (by decide), h0]
    · show (taskState cfg gcode tasks AXES.X _).currentStateOfValues AXES.Y = _
      rw [taskState_validity_other _ _ _ _ _ _ (by decide)]
      rfl
  · constructor
    · show (taskState cfg gcode tasks AXES.E _).currentStateOfValues AXES.Z = _
      rw [taskState_validity_other _ _ _ _ _ _ (by decide), h0]
    · show (taskState cfg gcode tasks AXES.X (taskState cfg gcode tasks AXES.Y
        _)).currentStateOfValues AXES.Z = _
      rw [taskState_validity_other _ _ _ _ _ _ (by decide),
        taskState_validity_other _ _ _ _ _ _ (by decide)]
      rfl
  · exact absurd hi (by decide)
  · exact absurd hi (by decide)

theorem loopState_validity_eq (cfg : Config) (gcode : Gcode) (tasks : Nat) (s : Motors)
    (i : AXES) (hi : isLinear i = true) :
    (stepsAtLeastOne cfg gcode tasks s i →
      (loopState cfg gcode tasks s).currentStateOfValues i = INVALID)
    ∧ (¬ stepsAtLeastOne cfg gcode tasks s i →
      (loopState cfg gcode tasks s).currentStateOfValues i = s.currentStateOfValues i) := by
  obtain ⟨h1, h2⟩ := loopState_validity cfg gcode tasks s i hi
  rw [h2, taskState_validity_self _ _ _ _ _ hi, h1]
  constructor
  · intro hc
    unfold stepsAtLeastOne at hc
    rw [if_pos hc]
  · intro hc
    unfold stepsAtLeastOne at hc
    rw [if_neg hc]

theorem loopLocals_validValues (cfg : Config) (gcode : Gcode) (tasks : Nat) (s : Motors)
    (i : AXES) (hi : isLinear i = true) :
    (loopLocals cfg gcode tasks s).validValues i = s.currentStateOfValues i := by
  have hu : ∀ (a : AXES → Bool) (j k : AXES) (v : Bool), k ≠ j → upd a j v k = a k := by
    intro a j k v h
    unfold upd
    rw [if_neg h]
  have hs : ∀ (a : AXES → Bool) (j : AXES) (v : Bool), upd a j v j = v := by
    intro a j v
    unfold upd
    rw [if_pos rfl]
  cases i
  · unfold loopLocals taskLocals
    dsimp only
    unfold taskValidValues
    rw [if_pos (by decide), hs]
    exact (loopState_validity cfg gcode tasks s AXES.X (by decide)).1
  · unfold loopLocals taskLocals
    dsimp only
    unfold taskValidValues
    rw [if_pos (by decide), if_pos (by decide), hu _ _ _ _ (by decide), hs]
    exact (loopState_validity cfg gcode tasks s AXES.Y (by decide)).1
  · unfold loopLocals taskLocals
    dsimp only
    unfold taskValidValues
    rw [if_pos (by decide), if_pos (by decide), if_pos (by decide), hu _ _ _ _ (by decide),
      hu _ _ _ _ (by decide), hs]
    exact (loopState_validity cfg gcode tasks s AXES.Z (by decide)).1
  · exact absurd hi (by decide)
  · exact absurd hi (by decide)

theorem beforeRestore_validity (cfg : Config) (gcode : Gcode) (tasks : Nat) (s : Motors) :
    (beforeRestore cfg gcode tasks s).currentStateOfValues
      = (loopState cfg gcode tasks s).currentStateOfValues := by
  obtain ⟨-, b2⟩ := backlashPass_spec cfg tasks (loopLocals cfg gcode tasks s)
    (loopState cfg gcode tasks s)
  obtain ⟨-, c2⟩ := splitUpMovement_spec cfg (hasFlag tasks BED_LEVELING_TASK)
    (backlashPass cfg tasks (loopLocals cfg gcode tasks s) (loopState cfg gcode tasks s))
  have g := sameLogical_trans _ _ _ b2 c2
  show (splitUpMovement cfg (hasFlag tasks BED_LEVELING_TASK)
    (backlashPass cfg tasks (loopLocals cfg gcode tasks s)
      (loopState cfg gcode tasks s))).currentStateOfValues = _
  exact g.2.1

theorem restoreValidity_at (l : MoveLocals) (s : Motors) (i : AXES) (hi : isLinear i = true) :
    (restoreValidity l s).currentStateOfValues i
      = if s.emergencyStopOccured then s.currentStateOfValues i else l.validValues i := by
  unfold restoreValidity
  dsimp only
  cases hs : s.emergencyStopOccured
  · rw [if_pos (by simp), if_neg (by simp)]
    simp only [List.foldl]
    unfold upd
    cases i
    · rw [if_neg (by decide), if_neg (by decide), if_pos rfl]
    · rw [if_neg (by decide), if_pos rfl]
    · rw [if_pos rfl]
    · exact absurd hi (by decide)
    · exact absurd hi (by decide)
  · rw [if_neg (by simp), if_pos rfl]

theorem move_task_stop (cfg : Config) (gcode : Gcode) (tasks : Nat) (s : Motors) (ht : tasks ≠ 0)
    (h : ¬ overflows cfg gcode tasks s) :
    (move cfg gcode tasks s).2.emergencyStopOccured
      = (beforeRestore cfg gcode tasks s).emergencyStopOccured := by
  rw [move_task_eq cfg gcode tasks s ht h]
  rfl

/-- The validity flags after a pass with tasks of `move` that returns `true`. -/
theorem move_task_validity (cfg : Config) (gcode : Gcode) (tasks : Nat) (s : Motors)
    (ht : tasks ≠ 0) (h : ¬ overflows cfg gcode tasks s) (i : AXES) (hi : isLinear i = true) :
    ((move cfg gcode tasks s).2.emergencyStopOccured = false →
      (move cfg gcode tasks s).2.currentStateOfValues i = s.currentStateOfValues i)
    ∧ ((move cfg gcode tasks s).2.emergencyStopOccured = true →
      (stepsAtLeastOne cfg gcode tasks s i →
        (move cfg gcode tasks s).2.currentStateOfValues i = INVALID)
      ∧ (¬ stepsAtLeastOne cfg gcode tasks s i →
        (move cfg gcode tasks s).2.currentStateOfValues i = s.currentStateOfValues i)) := by
  rw [move_task_stop cfg gcode tasks s ht h, move_task_eq cfg gcode tasks s ht h,
    restoreValidity_at _ _ i hi, beforeRestore_validity, loopLocals_validValues _ _ _ _ i hi]
  constructor
  · intro he
    rw [he, if_neg (by simp)]
  · intro he
    rw [he, if_pos rfl]
    exact loopState_validity_eq cfg gcode tasks s i hi

/-! ## Theorems: the emergency stop in a physical move -/

theorem stepLoop_idle (l : List AXES) (g : Globals) (h : ∀ i, g.motorsIsMoving i = false) :
    l.foldl (fun acc i => if acc.motorsIsMoving i then motorsStepAction i acc else acc) g = g := by
  induction l with
  | nil => rfl
  | cons i rest ih =>
    rw [List.foldl_cons, if_neg (by rw [h i]; decide)]
    exact ih

theorem stopMotorsStepTimer_idle (g : Globals) (i : AXES) :
    (stopMotorsStepTimer g).motorsIsMoving i = false := by
  unfold stopMotorsStepTimer updateMotorsStepTimer
  dsimp only
  rw [stepLoop_idle _ _ (fun _ => rfl)]

theorem physicalPass_idle (l : MoveLocals) (s : Motors) (i : AXES) :
    (physicalPass l s).globals.motorsIsMoving i = false := by
  unfold physicalPass
  exact stopMotorsStepTimer_idle _ i

theorem moveMotorPhysical_stop (cfg : Config) (gcode : Gcode) (i : AXES)
    (sl : Motors × MoveLocals) :
    (moveMotorPhysical cfg gcode i sl).1.emergencyStopOccured = sl.1.emergencyStopOccured
    ∧ (moveMotorPhysical cfg gcode i sl).1.ticksToStop = sl.1.ticksToStop := by
  unfold moveMotorPhysical
  dsimp only
  split_ifs <;> exact ⟨rfl, rfl⟩

theorem physicalLoop_stop (cfg : Config) (gcode : Gcode) (order : List AXES)
    (sl : Motors × MoveLocals) :
    (order.foldl (fun acc i => moveMotorPhysical cfg gcode i acc) sl).1.emergencyStopOccured
        = sl.1.emergencyStopOccured
    ∧ (order.foldl (fun acc i => moveMotorPhysical cfg gcode i acc) sl).1.ticksToStop
        = sl.1.ticksToStop := by
  induction order generalizing sl with
  | nil => exact ⟨rfl, rfl⟩
  | cons i rest ih =>
    rw [List.foldl_cons]
    obtain ⟨a, b⟩ := ih (moveMotorPhysical cfg gcode i sl)
    obtain ⟨c, d⟩ := moveMotorPhysical_stop cfg gcode i sl
    exact ⟨a.trans c, b.trans d⟩

theorem physicalLoopState_stop (cfg : Config) (gcode : Gcode) (s : Motors) :
    (physicalLoopState cfg gcode s).1.emergencyStopOccured = s.emergencyStopOccured
    ∧ (physicalLoopState cfg gcode s).1.ticksToStop = s.ticksToStop :=
  physicalLoop_stop cfg gcode moveOrder (setFeedRate cfg gcode NO_TASK s, initialLocals)

theorem moveNoTask_eq (cfg : Config) (gcode : Gcode) (s : Motors) :
    moveNoTask cfg gcode s
      = if s.emergencyStopOccured then (physicalLoopState cfg gcode s).1
        else physicalPass (physicalLoopState cfg gcode s).2 (physicalLoopState cfg gcode s).1 := by
  unfold moveNoTask
  rw [NO_TASK, moveLoop_physical]
  dsimp only
  have h := (physicalLoopState_stop cfg gcode s).1
  unfold physicalLoopState at h ⊢
  rw [NO_TASK] at h
  rw [h]
  cases s.emergencyStopOccured <;> rfl

theorem move_physical_eq (cfg : Config) (gcode : Gcode) (s : Motors) :
    (move cfg gcode 0 s).2 = moveNoTask cfg gcode s := by
  unfold move moveNoTask
  rw [NO_TASK, moveLoop_physical]
  dsimp only
  rw [if_neg (by simp)]
  split_ifs <;> rfl

theorem moveNoTask_idle (cfg : Config) (gcode : Gcode) (s : Motors)
    (h : s.emergencyStopOccured = false) (i : AXES) :
    (moveNoTask cfg gcode s).globals.motorsIsMoving i = false := by
  rw [moveNoTask_eq, h, if_neg (by decide)]
  exact physicalPass_idle _ _ i

theorem delayLoop_moving (c : ℚ) (l : List AXES) (g : Globals) :
    (l.foldl (fun acc i => if acc.motorsIsMoving i then setMotorDelayAndSkip i c acc else acc)
      g).motorsIsMoving = g.motorsIsMoving := by
  induction l generalizing g with
  | nil => rfl
  | cons i rest ih =>
    rw [List.foldl_cons, ih]
    split_ifs <;> rfl

theorem waitForMotors_zero (s : Motors) :
    (waitForMotors 0 s).emergencyStopOccured
      = (s.emergencyStopOccured || areMotorsMoving s.globals) := by
  rw [waitForMotors]

theorem waitForMotors_stopped (k : Nat) (s : Motors) (h : s.emergencyStopOccured = true) :
    (waitForMotors k s).emergencyStopOccured = true := by
  cases k with
  | zero => rw [waitForMotors_zero, h, Bool.true_or]
  | succ k =>
    rw [waitForMotors, h, if_neg (by simp)]

theorem physicalPass_zero (l : MoveLocals) (s : Motors) (h : s.ticksToStop = 0) :
    (physicalPass l s).emergencyStopOccured
      = (s.emergencyStopOccured || areMotorsMoving s.globals) := by
  unfold physicalPass
  dsimp only
  rw [h, waitForMotors_zero]
  unfold areMotorsMoving
  dsimp only
  rw [delayLoop_moving]

theorem moveMotorPhysical_moving_other (cfg : Config) (gcode : Gcode) (i j : AXES)
    (sl : Motors × MoveLocals) (h : j ≠ i) :
    (moveMotorPhysical cfg gcode i sl).1.globals.motorsIsMoving j
      = sl.1.globals.motorsIsMoving j := by
  have hu : ∀ (a : AXES → Bool) (v : Bool), upd a i v j = a j := by
    intro a v
    unfold upd
    rw [if_neg h]
  unfold moveMotorPhysical
  dsimp only
  split_ifs
  · exact hu _ _
  · rfl
  · rfl

theorem moveMotorPhysical_moving_self (cfg : Config) (gcode : Gcode) (i : AXES)
    (sl : Motors × MoveLocals) (hm : physicalMoves cfg gcode sl.1 i)
    (h1 : physicalSteps cfg gcode sl.1 i ≥ 1) :
    (moveMotorPhysical cfg gcode i sl).1.globals.motorsIsMoving i = true := by
  unfold physicalMoves at hm
  unfold physicalSteps at h1
  unfold moveMotorPhysical
  dsimp only
  rw [if_pos hm, if_pos h1]
  show upd sl.1.globals.motorsIsMoving i true i = true
  unfold upd
  rw [if_pos rfl]

theorem physicalLoop_moving_other (cfg : Config) (gcode : Gcode) (order : List AXES) (j : AXES)
    (hj : j ∉ order) (sl : Motors × MoveLocals) :
    (order.foldl (fun acc i => moveMotorPhysical cfg gcode i acc) sl).1.globals.motorsIsMoving j
      = sl.1.globals.motorsIsMoving j := by
  induction order generalizing sl with
  | nil => rfl
  | cons i rest ih =>
    rw [List.foldl_cons]
    rw [List.mem_cons, not_or] at hj
    rw [ih hj.2, moveMotorPhysical_moving_other cfg gcode i j sl hj.1]

theorem physicalLoop_moving_at (cfg : Config) (gcode : Gcode) (order : List AXES)
    (hnd : order.Nodup) (i : AXES) (hi : i ∈ order) (sl : Motors × MoveLocals)
    (hm : physicalMoves cfg gcode sl.1 i) (h1 : physicalSteps cfg gcode sl.1 i ≥ 1) :
    (order.foldl (fun acc j => moveMotorPhysical cfg gcode j acc) sl).1.globals.motorsIsMoving i
      = true := by
  induction order generalizing sl with
  | nil => exact absurd hi (List.not_mem_nil _)
  | cons j rest ih =>
    rw [List.foldl_cons]
    rw [List.nodup_cons] at hnd
    by_cases hji : i = j
    · subst hji
      rw [physicalLoop_moving_other cfg gcode rest i hnd.1]
      exact moveMotorPhysical_moving_self cfg gcode i sl hm h1
    · have hir : i ∈ rest := by
        rcases List.mem_cons.mp hi with e | e
        · exact absurd e hji
        · exact e
      obtain ⟨o1, o2, o3, o4, o5, o6⟩ := moveMotorPhysical_other cfg gcode j i sl hji
      apply ih hnd.2 hir
      · rw [physicalMoves_congr cfg gcode sl.1 _ i o1 o5 o6]
        exact hm
      · rw [physicalSteps_congr cfg gcode sl.1 _ i o1 o2 o3 o4 o5 o6]
        exact h1

theorem physicalLoopState_moving (cfg : Config) (gcode : Gcode) (s : Motors) (i : AXES)
    (hi : i ∈ moveOrder) (hm : physicalMoves cfg gcode s i)
    (h1 : physicalSteps cfg gcode s i ≥ 1) :
    (physicalLoopState cfg gcode s).1.globals.motorsIsMoving i = true := by
  have hF : i ≠ AXES.F := by
    intro e
    rw [e] at hi
    exact absurd hi (by decide)
  have hc := setFeedRate_currentValues cfg gcode NO_TASK s i hF
  apply physicalLoop_moving_at cfg gcode moveOrder (by decide) i hi
  · rw [physicalMoves_congr cfg gcode s (setFeedRate cfg gcode NO_TASK s) i hc rfl rfl]
    exact hm
  · rw [physicalSteps_congr cfg gcode s (setFeedRate cfg gcode NO_TASK s) i hc rfl rfl rfl rfl
      rfl]
    exact h1

theorem areMotorsMoving_of (g : Globals) (i : AXES) (hi : i ∈ moveOrder)
    (h : g.motorsIsMoving i = true) : areMotorsMoving g = true := by
  unfold areMotorsMoving
  rw [List.any_eq_true]
  refine ⟨i, ?_, h⟩
  unfold moveOrder at hi
  unfold motorList
  simp only [List.mem_cons, List.mem_singleton, List.not_mem_nil, or_false] at hi ⊢
  tauto

/-- A physical move that finds the time to the emergency stop used up, and in
which some motor has to make a step, ends with the emergency stop raised. -/
theorem moveNoTask_raises_stop (cfg : Config) (gcode : Gcode) (s : Motors) (i : AXES)
    (hi : i ∈ moveOrder) (h0 : s.ticksToStop = 0) (hm : physicalMoves cfg gcode s i)
    (h1 : physicalSteps cfg gcode s i ≥ 1) :
    (moveNoTask cfg gcode s).emergencyStopOccured = true := by
  rw [moveNoTask_eq]
  cases hs : s.emergencyStopOccured
  · rw [if_neg (by decide), physicalPass_zero _ _
      ((physicalLoopState_stop cfg gcode s).2.trans h0),
      areMotorsMoving_of _ i hi (physicalLoopState_moving cfg gcode s i hi hm h1)]
    simp
  · rw [if_pos rfl, (physicalLoopState_stop cfg gcode s).1, hs]

/-- A physical move that starts with the emergency stop raised sets the moving
flag of every motor that has to make a step and returns without clearing it. -/
theorem moveNoTask_stopped_moving (cfg : Config) (gcode : Gcode) (s : Motors) (i : AXES)
    (hi : i ∈ moveOrder) (hs : s.emergencyStopOccured = true)
    (hm : physicalMoves cfg gcode s i) (h1 : physicalSteps cfg gcode s i ≥ 1) :
    (moveNoTask cfg gcode s).emergencyStopOccured = true
    ∧ (moveNoTask cfg gcode s).globals.motorsIsMoving i = true := by
  rw [moveNoTask_eq, hs, if_pos rfl]
  exact ⟨(physicalLoopState_stop cfg gcode s).1.trans hs,
    physicalLoopState_moving cfg gcode s i hi hm h1⟩

theorem segmentGcode_last (cfg : Config) (endValues valueChanges : AXES → ℚ) (n : Nat)
    (s : Motors) : segmentGcode cfg false endValues valueChanges n n s = endGcode endValues := by
  unfold segmentGcode endGcode
  simp

/-- Without height adjustment `Motors::splitUpMovement` makes one move, to the end
values. -/
theorem splitUpMovement_single (cfg : Config) (s : Motors) :
    splitUpMovement cfg false s
      = { moveNoTask cfg (endGcode s.currentValues) (segmentStart s) with
          currentValues :=
            upd (moveNoTask cfg (endGcode s.currentValues) (segmentStart s)).currentValues AXES.Z
              (s.currentValues AXES.Z)
          mode := s.mode
          extruderMode := s.extruderMode } := by
  unfold splitUpMovement
  dsimp only
  rw [if_neg (by decide), Nat.sub_self, segmentLoop, segmentGcode_last]
  rfl

/-! ## Theorems: the emergency stop in a pass with tasks -/

theorem loopState_frame (cfg : Config) (gcode : Gcode) (tasks : Nat) (s : Motors) :
    (loopState cfg gcode tasks s).directionPin = s.directionPin
    ∧ (loopState cfg gcode tasks s).globals = s.globals
    ∧ (loopState cfg gcode tasks s).eeprom = s.eeprom
    ∧ (loopState cfg gcode tasks s).emergencyStopOccured = s.emergencyStopOccured
    ∧ (loopState cfg gcode tasks s).ticksToStop = s.ticksToStop
    ∧ (loopState cfg gcode tasks s).mode = s.mode
    ∧ (loopState cfg gcode tasks s).extruderMode = s.extruderMode :=
  ⟨rfl, rfl, rfl, rfl, rfl, rfl, rfl⟩

theorem taskState_startValues_self (cfg : Config) (gcode : Gcode) (tasks : Nat) (i : AXES)
    (s : Motors) : (taskState cfg gcode tasks i s).startValues i = s.currentValues i := by
  show upd s.startValues i (s.currentValues i) i = _
  unfold upd
  rw [if_pos rfl]

theorem taskState_startValues_other (cfg : Config) (gcode : Gcode) (tasks : Nat) (i j : AXES)
    (s : Motors) (h : j ≠ i) :
    (taskState cfg gcode tasks i s).startValues j = s.startValues j := by
  show upd s.startValues i (s.currentValues i) j = _
  unfold upd
  rw [if_neg h]

/-- After the loop of a pass with tasks the start value of every motor is its
current value before the call, and its current value is the target the loop
resolved for it. -/
theorem loopState_values (cfg : Config) (gcode : Gcode) (tasks : Nat) (s : Motors) (i : AXES)
    (hi : i ∈ moveOrder) :
    (loopState cfg gcode tasks s).startValues i = s.currentValues i
    ∧ (loopState cfg gcode tasks s).currentValues i
        = targetValue cfg gcode tasks
            (stateBefore cfg gcode tasks (setFeedRate cfg gcode tasks s) i) i := by
  have hself := stateBefore_currentValues_self cfg gcode tasks s
  unfold moveOrder at hi
  simp only [List.mem_cons, List.mem_singleton, List.not_mem_nil, or_false] at hi
  rcases hi with rfl | rfl | rfl | rfl
  · constructor
    · show (taskState cfg gcode tasks AXES.X (taskState cfg gcode tasks AXES.Y
        (taskState cfg gcode tasks AXES.Z (taskState cfg gcode tasks AXES.E _)))).startValues
          AXES.E = _
      rw [taskState_startValues_other _ _ _ _ _ _ (by decide),
        taskState_startValues_other _ _ _ _ _ _ (by decide),
        taskState_startValues_other _ _ _ _ _ _ (by decide), taskState_startValues_self]
      exact hself AXES.E (by decide)
    · show (taskState cfg gcode tasks AXES.X (taskState cfg gcode tasks AXES.Y
        (taskState cfg gcode tasks AXES.Z (taskState cfg gcode tasks AXES.E _)))).currentValues
          AXES.E = _
      rw [taskState_currentValues_other _ _ _ _ _ _ (by decide),
        taskState_currentValues_other _ _ _ _ _ _ (by decide),
        taskState_currentValues_other _ _ _ _ _ _ (by decide), taskState_currentValues_self]
      rfl
  · constructor
    · show (taskState cfg gcode tasks AXES.X (taskState cfg gcode tasks AXES.Y
        (taskState cfg gcode tasks AXES.Z _))).startValues AXES.Z = _
      rw [taskState_startValues_other _ _ _ _ _ _ (by decide),
        taskState_startValues_other _ _ _ _ _ _ (by decide), taskState_startValues_self]
      exact hself AXES.Z (by decide)
    · show (taskState cfg gcode tasks AXES.X (taskState cfg gcode tasks AXES.Y
        (taskState cfg gcode tasks AXES.Z _))).currentValues AXES.Z = _
      rw [taskState_currentValues_other _ _ _ _ _ _ (by decide),
        taskState_currentValues_other _ _ _ _ _ _ (by decide), taskState_currentValues_self]
      rfl
  · constructor
    · show (taskState cfg gcode tasks AXES.X (taskState cfg gcode tasks AXES.Y _)).startValues
        AXES.Y = _
      rw [taskState_startValues_other _ _ _ _ _ _ (by decide), taskState_startValues_self]
      exact hself AXES.Y (by decide)
    · show (taskState cfg gcode tasks AXES.X (taskState cfg gcode tasks AXES.Y _)).currentValues
        AXES.Y = _
      rw [taskState_currentValues_other _ _ _ _ _ _ (by decide), taskState_currentValues_self]
      rfl
  · constructor
    · show (taskState cfg gcode tasks AXES.X _).startValues AXES.X = _
      rw [taskState_startValues_self]
      exact hself AXES.X (by decide)
    · show (taskState cfg gcode tasks AXES.X _).currentValues AXES.X = _
      rw [taskState_currentValues_self]

theorem physicalLoop_pin_at (cfg : Config) (gcode : Gcode) (order : List AXES) (i : AXES)
    (sl : Motors × MoveLocals) (hm : ¬ physicalMoves cfg gcode sl.1 i) :
    (order.foldl (fun acc j => moveMotorPhysical cfg gcode j acc) sl).1.directionPin i
        = sl.1.directionPin i
    ∧ (order.foldl (fun acc j => moveMotorPhysical cfg gcode j acc)
          sl).1.globals.motorsNumberOfRemainingSteps i
        = sl.1.globals.motorsNumberOfRemainingSteps i := by
  induction order generalizing sl with
  | nil => exact ⟨rfl, rfl⟩
  | cons j rest ih =>
    rw [List.foldl_cons]
    by_cases hji : i = j
    · subst hji
      have he : moveMotorPhysical cfg gcode i sl = sl := by
        unfold physicalMoves at hm
        unfold moveMotorPhysical
        dsimp only
        rw [if_neg hm]
      rw [he]
      exact ih sl hm
    · obtain ⟨o1, o2, o3, -, o5, o6⟩ := moveMotorPhysical_other cfg gcode j i sl hji
      obtain ⟨p1, p2⟩ := ih (moveMotorPhysical cfg gcode j sl)
        (by rw [physicalMoves_congr cfg gcode sl.1 _ i o1 o5 o6]; exact hm)
      exact ⟨p1.trans o2, p2.trans o3⟩

theorem waitForMotors_frame (k : Nat) (s : Motors) :
    (waitForMotors k s).directionPin = s.directionPin
    ∧ (waitForMotors k s).ticksToStop ≤ k := by
  induction k generalizing s with
  | zero => exact ⟨rfl, Nat.zero_le _⟩
  | succ k ih =>
    rw [waitForMotors]
    split_ifs
    · obtain ⟨a, b⟩ := ih { s with globals := updateMotorsStepTimer s.globals }
      exact ⟨a, Nat.le_succ_of_le b⟩
    · exact ⟨rfl, le_refl _⟩

theorem physicalPass_frame (l : MoveLocals) (s : Motors) :
    (physicalPass l s).directionPin = s.directionPin
    ∧ (physicalPass l s).ticksToStop ≤ s.ticksToStop := by
  unfold physicalPass
  dsimp only
  obtain ⟨a, b⟩ := waitForMotors_frame s.ticksToStop
    { s with
      globals :=
        motorList.foldl
          (fun acc i =>
            if acc.motorsIsMoving i then setMotorDelayAndSkip i l.movementsHighestNumberOfCycles acc
            else acc)
          s.globals }
  exact ⟨a, b⟩

/-- A physical move leaves the direction pin and the carry-over of a motor that
does not move as they were, and never adds to the time left before the emergency
stop. -/
theorem moveNoTask_frame (cfg : Config) (gcode : Gcode) (s : Motors) :
    (moveNoTask cfg gcode s).ticksToStop ≤ s.ticksToStop
    ∧ ∀ i, i ≠ AXES.F → ¬ physicalMoves cfg gcode s i →
      (moveNoTask cfg gcode s).directionPin i = s.directionPin i
      ∧ (moveNoTask cfg gcode s).globals.motorsNumberOfRemainingSteps i
          = s.globals.motorsNumberOfRemainingSteps i := by
  have hl : ∀ i, i ≠ AXES.F → ¬ physicalMoves cfg gcode s i →
      (physicalLoopState cfg gcode s).1.directionPin i = s.directionPin i
      ∧ (physicalLoopState cfg gcode s).1.globals.motorsNumberOfRemainingSteps i
          = s.globals.motorsNumberOfRemainingSteps i := by
    intro i hF hm
    have hc := setFeedRate_currentValues cfg gcode NO_TASK s i hF
    exact physicalLoop_pin_at cfg gcode moveOrder i (setFeedRate cfg gcode NO_TASK s, initialLocals)
      (by rw [physicalMoves_congr cfg gcode s (setFeedRate cfg gcode NO_TASK s) i hc rfl rfl]
          exact hm)
  rw [moveNoTask_eq]
  split_ifs
  · exact ⟨le_of_eq (physicalLoopState_stop cfg gcode s).2, hl⟩
  · obtain ⟨a, b⟩ := physicalPass_frame (physicalLoopState cfg gcode s).2
      (physicalLoopState cfg gcode s).1
    refine ⟨le_trans b (le_of_eq (physicalLoopState_stop cfg gcode s).2), ?_⟩
    intro i hF hm
    rw [a, physicalPass_remaining]
    exact hl i hF hm

theorem compensateForBacklash_eq (cfg : Config) (a b : BACKLASH_DIRECTION) (s : Motors) :
    compensateForBacklash cfg a b s
      = { moveNoTask cfg (backlashGcode s.eeprom a b) (backlashStart s) with
          currentValues :=
            upd (upd (upd (moveNoTask cfg (backlashGcode s.eeprom a b)
              (backlashStart s)).currentValues AXES.X (s.currentValues AXES.X)) AXES.Y
              (s.currentValues AXES.Y)) AXES.F (s.currentValues AXES.F)
          mode := s.mode
          globals :=
            { (moveNoTask cfg (backlashGcode s.eeprom a b) (backlashStart s)).globals with
              motorsNumberOfRemainingSteps :=
                upd (upd (moveNoTask cfg (backlashGcode s.eeprom a b)
                  (backlashStart s)).globals.motorsNumberOfRemainingSteps AXES.X
                  (s.globals.motorsNumberOfRemainingSteps AXES.X)) AXES.Y
                  (s.globals.motorsNumberOfRemainingSteps AXES.Y) }
          directionPin :=
            upd (upd (moveNoTask cfg (backlashGcode s.eeprom a b) (backlashStart s)).directionPin
              AXES.X (s.directionPin AXES.X)) AXES.Y (s.directionPin AXES.Y) } := rfl

/-- Backlash compensation leaves the direction pin and the carry-over of every
motor as they were and never adds to the time left before the emergency stop. -/
theorem compensateForBacklash_frame (cfg : Config) (a b : BACKLASH_DIRECTION) (s : Motors) :
    (compensateForBacklash cfg a b s).ticksToStop ≤ s.ticksToStop
    ∧ (compensateForBacklash cfg a b s).emergencyStopOccured
        = (moveNoTask cfg (backlashGcode s.eeprom a b) (backlashStart s)).emergencyStopOccured
    ∧ ∀ i, i ≠ AXES.F →
      (compensateForBacklash cfg a b s).directionPin i = s.directionPin i
      ∧ (compensateForBacklash cfg a b s).globals.motorsNumberOfRemainingSteps i
          = s.globals.motorsNumberOfRemainingSteps i := by
  obtain ⟨hz, he⟩ := backlashGcode_flags s.eeprom a b
  obtain ⟨ht, hf⟩ := moveNoTask_frame cfg (backlashGcode s.eeprom a b) (backlashStart s)
  rw [compensateForBacklash_eq]
  refine ⟨ht, rfl, ?_⟩
  intro i hF
  have hu : ∀ (α : Type) (f : AXES → α) (j k : AXES) (v : α), k ≠ j → upd f j v k = f k := by
    intro α f j k v h
    unfold upd
    rw [if_neg h]
  have hs : ∀ (α : Type) (f : AXES → α) (j : AXES) (v : α), upd f j v j = v := by
    intro α f j v
    unfold upd
    rw [if_pos rfl]
  dsimp only
  cases i
  · rw [hu _ _ _ _ _ (by decide), hs, hu _ _ _ _ _ (by decide), hs]
    exact ⟨rfl, rfl⟩
  · rw [hs, hs]
    exact ⟨rfl, rfl⟩
  · obtain ⟨p, r⟩ := hf AXES.Z (by decide) (fun hm => by
      unfold physicalMoves at hm
      rw [hz] at hm
      exact absurd hm.1 (by decide))
    rw [hu _ _ _ _ _ (by decide), hu _ _ _ _ _ (by decide), hu _ _ _ _ _ (by decide),
      hu _ _ _ _ _ (by decide), p, r]
    refine ⟨rfl, ?_⟩
    show upd (upd s.globals.motorsNumberOfRemainingSteps AXES.X 0) AXES.Y 0 AXES.Z = _
    rw [hu _ _ _ _ _ (by decide), hu _ _ _ _ _ (by decide)]
  · obtain ⟨p, r⟩ := hf AXES.E (by decide) (fun hm => by
      unfold physicalMoves at hm
      rw [he] at hm
      exact absurd hm.1 (by decide))
    rw [hu _ _ _ _ _ (by decide), hu _ _ _ _ _ (by decide), hu _ _ _ _ _ (by decide),
      hu _ _ _ _ _ (by decide), p, r]
    refine ⟨rfl, ?_⟩
    show upd (upd s.globals.motorsNumberOfRemainingSteps AXES.X 0) AXES.Y 0 AXES.E = _
    rw [hu _ _ _ _ _ (by decide), hu _ _ _ _ _ (by decide)]
  · exact absurd rfl hF

theorem backlashPass_frame (cfg : Config) (tasks : Nat) (l : MoveLocals) (s : Motors) :
    (backlashPass cfg tasks l s).ticksToStop ≤ s.ticksToStop
    ∧ ∀ i, i ≠ AXES.F →
      (backlashPass cfg tasks l s).directionPin i = s.directionPin i
      ∧ (backlashPass cfg tasks l s).globals.motorsNumberOfRemainingSteps i
          = s.globals.motorsNumberOfRemainingSteps i := by
  unfold backlashPass
  split_ifs
  · obtain ⟨a, -, c⟩ := compensateForBacklash_frame cfg (l.backlashDirections AXES.X)
      (l.backlashDirections AXES.Y) s
    exact ⟨a, c⟩
  · exact ⟨le_refl _, fun _ _ => ⟨rfl, rfl⟩⟩

theorem totalNumberOfSteps_congr (s r : Motors) (i : AXES) (v : ℚ)
    (h1 : r.currentValues i = s.currentValues i) (h2 : r.directionPin i = s.directionPin i)
    (h3 : r.globals.motorsNumberOfRemainingSteps i = s.globals.motorsNumberOfRemainingSteps i)
    (h4 : r.eeprom = s.eeprom) :
    totalNumberOfSteps r i v = totalNumberOfSteps s i v := by
  unfold totalNumberOfSteps
  dsimp only
  rw [h1, h2, h3, h4]

theorem segmentStart_currentValues (s : Motors) (i : AXES) (hi : i ∈ moveOrder) :
    (segmentStart s).currentValues i = s.startValues i := by
  unfold segmentStart motorList
  dsimp only
  simp only [List.foldl]
  unfold moveOrder at hi
  simp only [List.mem_cons, List.mem_singleton, List.not_mem_nil, or_false] at hi
  unfold upd
  rcases hi with rfl | rfl | rfl | rfl
  · rw [if_pos rfl]
  · rw [if_neg (by decide), if_pos rfl]
  · rw [if_neg (by decide), if_neg (by decide), if_pos rfl]
  · rw [if_neg (by decide), if_neg (by decide), if_neg (by decide), if_pos rfl]

theorem endGcode_value (endValues : AXES → ℚ) (i : AXES) (hi : i ∈ moveOrder) :
    hasFlag (endGcode endValues).commandParameters (gcodeParameter (endGcode endValues) i).1 = true
    ∧ (gcodeParameter (endGcode endValues) i).2 = endValues i := by
  have hp : (endGcode endValues).commandParameters
      = PARAMETER_X_OFFSET ||| PARAMETER_Y_OFFSET ||| PARAMETER_Z_OFFSET ||| PARAMETER_E_OFFSET :=
    rfl
  obtain ⟨hx, hy, hz, he⟩ := gcodeParameter_mask (endGcode endValues)
  unfold moveOrder at hi
  simp only [List.mem_cons, List.mem_singleton, List.not_mem_nil, or_false] at hi
  rcases hi with rfl | rfl | rfl | rfl
  · rw [hp, he]
    exact ⟨by decide, rfl⟩
  · rw [hp, hz]
    exact ⟨by decide, rfl⟩
  · rw [hp, hy]
    exact ⟨by decide, rfl⟩
  · rw [hp, hx]
    exact ⟨by decide, rfl⟩

/-- In a pass with tasks without bed leveling, the move that `splitUpMovement`
makes computes, for every requested motor, the step count that the loop of the
pass computed. -/
theorem segment_steps_eq (cfg : Config) (gcode : Gcode) (tasks : Nat) (s : Motors) (i : AXES)
    (hi : i ∈ moveOrder)
    (hp : hasFlag gcode.commandParameters (gcodeParameter gcode i).1 = true) :
    resolveNewValue cfg (segmentStart (afterBacklash cfg gcode tasks s)) NO_TASK i
        (gcodeParameter (endGcode (afterBacklash cfg gcode tasks s).currentValues) i).2
      = resolveNewValue cfg (stateBefore cfg gcode tasks (setFeedRate cfg gcode tasks s) i)
          tasks i (gcodeParameter gcode i).2
    ∧ (segmentStart (afterBacklash cfg gcode tasks s)).currentValues i
      = (stateBefore cfg gcode tasks (setFeedRate cfg gcode tasks s) i).currentValues i
    ∧ physicalSteps cfg (endGcode (afterBacklash cfg gcode tasks s).currentValues)
        (segmentStart (afterBacklash cfg gcode tasks s)) i
      = totalNumberOfSteps (stateBefore cfg gcode tasks (setFeedRate cfg gcode tasks s) i) i
          (resolveNewValue cfg (stateBefore cfg gcode tasks (setFeedRate cfg gcode tasks s) i)
            tasks i (gcodeParameter gcode i).2) := by
  have hF : i ≠ AXES.F := by
    intro e
    rw [e] at hi
    exact absurd hi (by decide)
  obtain ⟨bv, bl⟩ := backlashPass_spec cfg tasks (loopLocals cfg gcode tasks s)
    (loopState cfg gcode tasks s)
  obtain ⟨-, bf⟩ := backlashPass_frame cfg tasks (loopLocals cfg gcode tasks s)
    (loopState cfg gcode tasks s)
  obtain ⟨bp, br⟩ := bf i hF
  obtain ⟨lp, lg, le, -⟩ := loopState_frame cfg gcode tasks s
  obtain ⟨ls, lc⟩ := loopState_values cfg gcode tasks s i hi
  obtain ⟨-, -, -, -, m5, m6⟩ := sameLogical_refl s
  have hcur : (segmentStart (afterBacklash cfg gcode tasks s)).currentValues i
      = (stateBefore cfg gcode tasks (setFeedRate cfg gcode tasks s) i).currentValues i := by
    rw [segmentStart_currentValues _ i hi, stateBefore_currentValues_self cfg gcode tasks s i hi]
    unfold afterBacklash
    rw [bl.1, ls]
  have hres : resolveNewValue cfg (segmentStart (afterBacklash cfg gcode tasks s)) NO_TASK i
      (gcodeParameter (endGcode (afterBacklash cfg gcode tasks s).currentValues) i).2
      = resolveNewValue cfg (stateBefore cfg gcode tasks (setFeedRate cfg gcode tasks s) i)
          tasks i (gcodeParameter gcode i).2 := by
    have hm1 : (segmentStart (afterBacklash cfg gcode tasks s)).mode = MODES.ABSOLUTE := rfl
    have hm2 : (segmentStart (afterBacklash cfg gcode tasks s)).extruderMode = MODES.ABSOLUTE :=
      rfl
    rw [resolveNewValue_noTask, hm1, hm2, if_neg (by
      intro h
      rcases h with ⟨-, h⟩ | ⟨-, h⟩
      · exact absurd h (by decide)
      · exact absurd h (by decide)), (endGcode_value _ i hi).2]
    unfold afterBacklash
    rw [bv, lc]
    unfold targetValue
    rw [if_pos hp]
  refine ⟨hres, hcur, ?_⟩
  unfold physicalSteps
  rw [hres]
  apply totalNumberOfSteps_congr
  · exact hcur
  · show (afterBacklash cfg gcode tasks s).directionPin i = _
    unfold afterBacklash
    rw [bp, lp]
    exact ((stateBefore_frame cfg gcode tasks s i).1 ▸ rfl)
  · show (afterBacklash cfg gcode tasks s).globals.motorsNumberOfRemainingSteps i = _
    unfold afterBacklash
    rw [br, lg, (stateBefore_frame cfg gcode tasks s i).2.2.1]
  · show (afterBacklash cfg gcode tasks s).eeprom = _
    unfold afterBacklash
    rw [bl.2.2.2.2.2.2.2.2.2.2.2.2.2.2.2.2, le, (stateBefore_frame cfg gcode tasks s i).2.1]

theorem move_task_single (cfg : Config) (gcode : Gcode) (tasks : Nat) (s : Motors)
    (ht : tasks ≠ 0) (hb : hasFlag tasks BED_LEVELING_TASK = false)
    (h : ¬ overflows cfg gcode tasks s) :
    (move cfg gcode tasks s).2.emergencyStopOccured
        = (segmentMove cfg gcode tasks s).emergencyStopOccured
    ∧ (move cfg gcode tasks s).2.globals = (segmentMove cfg gcode tasks s).globals
    ∧ (move cfg gcode tasks s).2.ticksToStop = (segmentMove cfg gcode tasks s).ticksToStop
    ∧ (move cfg gcode tasks s).2.directionPin = (segmentMove cfg gcode tasks s).directionPin := by
  rw [move_task_eq cfg gcode tasks s ht h]
  unfold beforeRestore
  rw [hb]
  show (splitUpMovement cfg false (afterBacklash cfg gcode tasks s)).emergencyStopOccured = _
    ∧ (splitUpMovement cfg false (afterBacklash cfg gcode tasks s)).globals = _
    ∧ (splitUpMovement cfg false (afterBacklash cfg gcode tasks s)).ticksToStop = _
    ∧ (splitUpMovement cfg false (afterBacklash cfg gcode tasks s)).directionPin = _
  rw [splitUpMovement_single]
  exact ⟨rfl, rfl, rfl, rfl⟩

theorem segmentMove_moves (cfg : Config) (gcode : Gcode) (tasks : Nat) (s : Motors) (i : AXES)
    (hi : i ∈ moveOrder) (h1 : stepsAtLeastOne cfg gcode tasks s i) :
    physicalMoves cfg (endGcode (afterBacklash cfg gcode tasks s).currentValues)
        (segmentStart (afterBacklash cfg gcode tasks s)) i
    ∧ physicalSteps cfg (endGcode (afterBacklash cfg gcode tasks s).currentValues)
        (segmentStart (afterBacklash cfg gcode tasks s)) i ≥ 1 := by
  obtain ⟨hp, hd, hs⟩ := h1
  obtain ⟨e1, e2, e3⟩ := segment_steps_eq cfg gcode tasks s i hi hp
  constructor
  · unfold physicalMoves
    rw [e1, e2]
    exact ⟨(endGcode_value _ i hi).1, hd⟩
  · rw [e3]
    exact hs

/-- In a pass with tasks without bed leveling that finds the time to the emergency
stop used up, and in which some motor has to make a step, the emergency stop is
raised. -/
theorem move_task_raises_stop (cfg : Config) (gcode : Gcode) (tasks : Nat) (s : Motors)
    (ht : tasks ≠ 0) (hb : hasFlag tasks BED_LEVELING_TASK = false)
    (h : ¬ overflows cfg gcode tasks s) (h0 : s.ticksToStop = 0) (i : AXES) (hi : i ∈ moveOrder)
    (h1 : stepsAtLeastOne cfg gcode tasks s i) :
    (move cfg gcode tasks s).2.emergencyStopOccured = true := by
  rw [(move_task_single cfg gcode tasks s ht hb h).1]
  obtain ⟨hm, hs⟩ := segmentMove_moves cfg gcode tasks s i hi h1
  have hfuel : (segmentStart (afterBacklash cfg gcode tasks s)).ticksToStop = 0 := by
    have := (backlashPass_frame cfg tasks (loopLocals cfg gcode tasks s)
      (loopState cfg gcode tasks s)).1
    have h2 : (loopState cfg gcode tasks s).ticksToStop = 0 := h0
    rw [h2] at this
    exact Nat.le_zero.mp this
  exact moveNoTask_raises_stop cfg _ _ i hi hfuel hm hs

/-- In a pass with tasks without bed leveling in which the emergency stop is
raised during the backlash compensation, the move that follows sets the moving
flag of every motor that has to make a step, and `move` returns with it set. -/
theorem move_task_stale_moving (cfg : Config) (gcode : Gcode) (tasks : Nat) (s : Motors)
    (ht : tasks ≠ 0) (hb : hasFlag tasks BED_LEVELING_TASK = false)
    (h : ¬ overflows cfg gcode tasks s)
    (hs : (afterBacklash cfg gcode tasks s).emergencyStopOccured = true) (i : AXES)
    (hi : i ∈ moveOrder) (h1 : stepsAtLeastOne cfg gcode tasks s i) :
    (move cfg gcode tasks s).2.emergencyStopOccured = true
    ∧ (move cfg gcode tasks s).2.globals.motorsIsMoving i = true := by
  obtain ⟨e1, e2, -⟩ := move_task_single cfg gcode tasks s ht hb h
  rw [e1, e2]
  obtain ⟨hm, hst⟩ := segmentMove_moves cfg gcode tasks s i hi h1
  exact moveNoTask_stopped_moving cfg _ _ i hi hs hm hst

theorem backlashGcode_valueX (e : Eeprom) (a b : BACKLASH_DIRECTION)
    (hx : a ≠ BACKLASH_DIRECTION.NONE) :
    |(backlashGcode e a b).valueX| = |e.BACKLASH_X| := by
  have hv : (backlashGcode e a b).valueX
      = if a ≠ BACKLASH_DIRECTION.NONE then
          (if a = BACKLASH_DIRECTION.NEGATIVE then e.BACKLASH_X * -1 else e.BACKLASH_X)
        else 0 := rfl
  rw [hv, if_pos hx]
  split_ifs
  · rw [mul_neg, mul_one, abs_neg]
  · rfl

theorem backlashStart_moves (cfg : Config) (gcode : Gcode) (s : Motors)
    (hp : hasFlag gcode.commandParameters PARAMETER_X_OFFSET = true)
    (hst : |gcode.valueX| * s.eeprom.X_MOTOR_STEPS_PER_MM * 8 ≥ 1) :
    physicalMoves cfg gcode (backlashStart s) AXES.X
    ∧ physicalSteps cfg gcode (backlashStart s) AXES.X ≥ 1 := by
  have hm : (backlashStart s).mode = MODES.RELATIVE := rfl
  have hg : (gcodeParameter gcode AXES.X).2 = gcode.valueX := rfl
  have hg1 : (gcodeParameter gcode AXES.X).1 = PARAMETER_X_OFFSET := rfl
  have hres : resolveNewValue cfg (backlashStart s) NO_TASK AXES.X (gcodeParameter gcode AXES.X).2
      - (backlashStart s).currentValues AXES.X = gcode.valueX := by
    rw [resolveNewValue_noTask, hm, if_pos (Or.inl ⟨by decide, rfl⟩), hg]
    ring
  have h8 : ((MICROSTEPS_PER_STEP : Nat) : ℚ) = 8 := by
    unfold MICROSTEPS_PER_STEP
    norm_num
  have hpos : 0 < |gcode.valueX| := by
    by_contra hn
    have hz : |gcode.valueX| = 0 := le_antisymm (not_lt.mp hn) (abs_nonneg _)
    rw [hz] at hst
    norm_num at hst
  constructor
  · unfold physicalMoves
    rw [hres, hg1]
    exact ⟨hp, ne_of_gt hpos⟩
  · unfold physicalSteps totalNumberOfSteps
    dsimp only
    rw [hres, h8]
    have hr : (backlashStart s).globals.motorsNumberOfRemainingSteps AXES.X = 0 := rfl
    have he : stepsPerMmOf (backlashStart s).eeprom AXES.X = s.eeprom.X_MOTOR_STEPS_PER_MM := rfl
    rw [hr, he]
    split_ifs
    · rw [neg_zero, add_zero]
      exact hst
    · rw [add_zero]
      exact hst

theorem backlash_raises_stop (cfg : Config) (tasks : Nat) (l : MoveLocals) (s : Motors)
    (hk : hasFlag tasks BACKLASH_TASK = true)
    (hx : l.backlashDirections AXES.X ≠ BACKLASH_DIRECTION.NONE) (h0 : s.ticksToStop = 0)
    (hst : |s.eeprom.BACKLASH_X| * s.eeprom.X_MOTOR_STEPS_PER_MM * 8 ≥ 1) :
    (backlashPass cfg tasks l s).emergencyStopOccured = true := by
  unfold backlashPass
  rw [if_pos ⟨hk, Or.inl hx⟩, (compensateForBacklash_frame cfg _ _ s).2.1]
  have hp : hasFlag (backlashGcode s.eeprom (l.backlashDirections AXES.X)
      (l.backlashDirections AXES.Y)).commandParameters PARAMETER_X_OFFSET = true := by
    have hp : (backlashGcode s.eeprom (l.backlashDirections AXES.X)
        (l.backlashDirections AXES.Y)).commandParameters
        = PARAMETER_X_OFFSET ||| PARAMETER_Y_OFFSET ||| PARAMETER_F_OFFSET := rfl
    rw [hp]
    decide
  obtain ⟨m1, m2⟩ := backlashStart_moves cfg (backlashGcode s.eeprom
    (l.backlashDirections AXES.X) (l.backlashDirections AXES.Y)) s hp
    (by rw [backlashGcode_valueX _ _ _ hx]; exact hst)
  exact moveNoTask_raises_stop cfg _ _ AXES.X (by decide) h0 m1 m2

theorem loopLocals_backlash_X (cfg : Config) (gcode : Gcode) (tasks : Nat) (s : Motors)
    (h1 : stepsAtLeastOne cfg gcode tasks s AXES.X)
    (hd : s.currentMotorDirections AXES.X
      ≠ directionLevel AXES.X
          (decide (resolveNewValue cfg
              (stateBefore cfg gcode tasks (setFeedRate cfg gcode tasks s) AXES.X) tasks AXES.X
              (gcodeParameter gcode AXES.X).2
            < (stateBefore cfg gcode tasks (setFeedRate cfg gcode tasks s)
                AXES.X).currentValues AXES.X))) :
    (loopLocals cfg gcode tasks s).backlashDirections AXES.X ≠ BACKLASH_DIRECTION.NONE := by
  obtain ⟨hp, hdist, hs⟩ := h1
  unfold loopLocals
  rw [taskLocals]
  dsimp only
  rw [if_pos ⟨hp, hdist, hs, Or.inl rfl, hd⟩]
  unfold upd
  rw [if_pos rfl]
  split_ifs <;> decide

theorem stateBefore_target (cfg : Config) (gcode : Gcode) (tasks : Nat) (s : Motors) (i : AXES)
    (hi : i ∈ moveOrder) (v : ℚ) :
    resolveNewValue cfg (stateBefore cfg gcode tasks (setFeedRate cfg gcode tasks s) i) tasks i v
      = resolvedTarget cfg tasks s i v
          ((stateBefore cfg gcode tasks (setFeedRate cfg gcode tasks s) i).currentValues
            AXES.Z) := by
  obtain ⟨-, -, -, h4, h5, h6⟩ := stateBefore_frame cfg gcode tasks s i
  have hF : i ≠ AXES.F := by
    intro hF
    rw [hF] at hi
    exact absurd hi (by decide)
  exact resolveNewValue_eq cfg tasks _ s i _ hF h4 h5 h6
    (stateBefore_currentValues_self cfg gcode tasks s i hi)

theorem stepsAtLeastOne_intro (cfg : Config) (gcode : Gcode) (tasks : Nat) (s : Motors)
    (i : AXES) (hi : i ∈ moveOrder)
    (hp : hasFlag gcode.commandParameters (gcodeParameter gcode i).1 = true) (t : ℚ)
    (ht : ∀ z, resolvedTarget cfg tasks s i (gcodeParameter gcode i).2 z = t)
    (hd : t ≠ s.currentValues i) (h1 : totalNumberOfSteps s i t ≥ 1) :
    stepsAtLeastOne cfg gcode tasks s i := by
  unfold stepsAtLeastOne
  rw [stateBefore_target cfg gcode tasks s i hi, ht,
    stateBefore_currentValues_self cfg gcode tasks s i hi,
    totalNumberOfSteps_stateBefore cfg gcode tasks s i hi]
  exact ⟨hp, fun h0 => hd (sub_eq_zero.mp (abs_eq_zero.mp h0)), h1⟩

theorem leftGcode_target (tasks : Nat) (s : Motors)
    (hr : hasFlag tasks HANDLE_RECEIVED_COMMAND_TASK = false) (hm : s.mode = MODES.ABSOLUTE)
    (z : ℚ) :
    resolvedTarget exampleConfig tasks s AXES.X (gcodeParameter leftGcode AXES.X).2 z = -1 := by
  rw [resolvedTarget_absolute _ _ _ _ _ _ hr (by decide) hm]
  rfl

theorem leftGcode_steps :
    stepsAtLeastOne exampleConfig leftGcode BACKLASH_TASK stopPendingMotors AXES.X := by
  apply stepsAtLeastOne_intro exampleConfig leftGcode BACKLASH_TASK stopPendingMotors AXES.X
    (by decide) (by decide) (-1) (leftGcode_target _ _ (by decide) rfl)
  · have hc : stopPendingMotors.currentValues AXES.X = 0 := rfl
    rw [hc]
    norm_num
  · rw [totalNumberOfSteps_at_rest stopPendingMotors AXES.X _ rfl rfl rfl]
    norm_num

theorem leftGcode_no_overflow :
    ¬ overflows exampleConfig leftGcode BACKLASH_TASK stopPendingMotors := by
  apply not_overflows_of_steps_le
  intro i hi hp z
  unfold moveOrder at hi
  simp only [List.mem_cons, List.mem_singleton, List.not_mem_nil, or_false] at hi
  rcases hi with rfl | rfl | rfl | rfl
  · exact absurd hp (by decide)
  · exact absurd hp (by decide)
  · exact absurd hp (by decide)
  · rw [totalNumberOfSteps_at_rest stopPendingMotors AXES.X _ rfl rfl rfl,
      leftGcode_target _ _ (by decide) rfl]
    unfold UINT32_MAX
    norm_num

theorem leftGcode_backlash :
    (afterBacklash exampleConfig leftGcode BACKLASH_TASK stopPendingMotors).emergencyStopOccured
      = true := by
  unfold afterBacklash
  apply backlash_raises_stop exampleConfig BACKLASH_TASK _ _ (by decide)
  · apply loopLocals_backlash_X exampleConfig leftGcode BACKLASH_TASK stopPendingMotors
      leftGcode_steps
    rw [stateBefore_target exampleConfig leftGcode BACKLASH_TASK stopPendingMotors AXES.X
        (by decide),
      leftGcode_target _ _ (by decide) rfl,
      stateBefore_currentValues_self exampleConfig leftGcode BACKLASH_TASK stopPendingMotors
        AXES.X (by decide)]
    have hc : stopPendingMotors.currentValues AXES.X = 0 := rfl
    rw [hc, decide_eq_true (by norm_num : (-1 : ℚ) < 0)]
    decide
  · rfl
  · have he : (loopState exampleConfig leftGcode BACKLASH_TASK stopPendingMotors).eeprom
        = exampleEeprom := rfl
    rw [he]
    have hb : exampleEeprom.BACKLASH_X = 3 / 10 := rfl
    have hs : exampleEeprom.X_MOTOR_STEPS_PER_MM = 100 := rfl
    rw [hb, hs]
    norm_num [abs_of_pos]

/-- C13 (as stated, refuted): the emergency stop is raised while the backlash
compensation of a move of X with the backlash task waits for the motor; the move
to the target that follows sets the moving flag of X and skips the physical pass,
and `move` returns `true` with the emergency stop raised and the flag of X set. -/
theorem stop_in_task_move_leaves_moving_flag :
    stopPendingMotors.emergencyStopOccured = false
    ∧ (move exampleConfig leftGcode BACKLASH_TASK stopPendingMotors).1 = true
    ∧ (move exampleConfig leftGcode BACKLASH_TASK stopPendingMotors).2.emergencyStopOccured = true
    ∧ (move exampleConfig leftGcode BACKLASH_TASK stopPendingMotors).2.globals.motorsIsMoving
        AXES.X = true := by
  obtain ⟨a, b⟩ := move_task_stale_moving exampleConfig leftGcode BACKLASH_TASK stopPendingMotors
    (by decide) (by decide) leftGcode_no_overflow leftGcode_backlash AXES.X (by decide)
    leftGcode_steps
  exact ⟨rfl, move_no_overflow exampleConfig leftGcode BACKLASH_TASK stopPendingMotors
    (by decide) leftGcode_no_overflow, a, b⟩

/-- C13 (amended): a move without tasks that is called with no emergency stop
pending returns `true` with the moving flag of every motor false, also when the
emergency stop is raised while it waits for the motors. -/
theorem physical_move_returns_idle (cfg : Config) (gcode : Gcode) (s : Motors)
    (hs : s.emergencyStopOccured = false) (i : AXES) :
    (move cfg gcode 0 s).1 = true
    ∧ (move cfg gcode 0 s).2.globals.motorsIsMoving i = false := by
  refine ⟨move_physical_true cfg gcode s, ?_⟩
  rw [move_physical_eq]
  exact moveNoTask_idle cfg gcode s hs i

theorem physical_move_returns_idle_witness :
    stopPendingMotors.emergencyStopOccured = false
    ∧ (move exampleConfig leftGcode 0 stopPendingMotors).2.emergencyStopOccured = true
    ∧ (move exampleConfig leftGcode 0 stopPendingMotors).1 = true
    ∧ (move exampleConfig leftGcode 0 stopPendingMotors).2.globals.motorsIsMoving AXES.X
        = false := by
  refine ⟨rfl, ?_, physical_move_returns_idle exampleConfig leftGcode stopPendingMotors rfl AXES.X⟩
  rw [move_physical_eq]
  apply moveNoTask_raises_stop exampleConfig leftGcode stopPendingMotors AXES.X (by decide) rfl
  · unfold physicalMoves
    refine ⟨by decide, ?_⟩
    rw [resolveNewValue_noTask, if_neg (by
      intro h
      rcases h with ⟨-, h⟩ | ⟨h, -⟩
      · exact absurd h (by decide)
      · exact absurd h (by decide))]
    have hc : stopPendingMotors.currentValues AXES.X = 0 := rfl
    have hv : (gcodeParameter leftGcode AXES.X).2 = -1 := rfl
    rw [hc, hv]
    norm_num
  · unfold physicalSteps
    rw [resolveNewValue_noTask, if_neg (by
      intro h
      rcases h with ⟨-, h⟩ | ⟨h, -⟩
      · exact absurd h (by decide)
      · exact absurd h (by decide)),
      totalNumberOfSteps_at_rest stopPendingMotors AXES.X _ rfl rfl rfl]
    have hv : (gcodeParameter leftGcode AXES.X).2 = -1 := rfl
    rw [hv]
    norm_num

theorem no_overflow_of_true (cfg : Config) (gcode : Gcode) (tasks : Nat) (s : Motors)
    (ht : tasks ≠ 0) (hret : (move cfg gcode tasks s).1 = true) :
    ¬ overflows cfg gcode tasks s := by
  intro ho
  have := (move_false_iff cfg gcode tasks s).mpr ⟨ht, ho⟩
  rw [this] at hret
  exact absurd hret (by decide)

/-- C12: after a move with nonzero task flags that returns `true`, a linear axis
(X, Y or Z) has the validity flag it had before the call when the emergency stop
flag is clear on return; when the flag is set on return no validity flag is
restored: the axis is invalid when the step count the pass computed for it is at
least one, and has the flag it had before the call otherwise. -/
theorem move_validity_restored_only_without_stop (cfg : Config) (gcode : Gcode) (tasks : Nat)
    (s : Motors) (ht : tasks ≠ 0) (hret : (move cfg gcode tasks s).1 = true) (i : AXES)
    (hi : isLinear i = true) :
    ((move cfg gcode tasks s).2.emergencyStopOccured = false →
      (move cfg gcode tasks s).2.currentStateOfValues i = s.currentStateOfValues i)
    ∧ ((move cfg gcode tasks s).2.emergencyStopOccured = true →
      (stepsAtLeastOne cfg gcode tasks s i →
        (move cfg gcode tasks s).2.currentStateOfValues i = INVALID)
      ∧ (¬ stepsAtLeastOne cfg gcode tasks s i →
        (move cfg gcode tasks s).2.currentStateOfValues i = s.currentStateOfValues i)) :=
  move_task_validity cfg gcode tasks s ht (no_overflow_of_true cfg gcode tasks s ht hret) i hi

theorem move_validity_restored_only_without_stop_witness :
    BACKLASH_TASK ≠ 0
    ∧ (move exampleConfig leftGcode BACKLASH_TASK stopPendingMotors).1 = true
    ∧ (move exampleConfig leftGcode BACKLASH_TASK stopPendingMotors).2.emergencyStopOccured = true
    ∧ stopPendingMotors.currentStateOfValues AXES.X = VALID
    ∧ (move exampleConfig leftGcode BACKLASH_TASK stopPendingMotors).2.currentStateOfValues AXES.X
        = INVALID := by
  have hret := move_no_overflow exampleConfig leftGcode BACKLASH_TASK stopPendingMotors
    (by decide) leftGcode_no_overflow
  have hstop := move_task_raises_stop exampleConfig leftGcode BACKLASH_TASK stopPendingMotors
    (by decide) (by decide) leftGcode_no_overflow rfl AXES.X (by decide) leftGcode_steps
  exact ⟨by decide, hret, hstop, rfl,
    ((move_validity_restored_only_without_stop exampleConfig leftGcode BACKLASH_TASK
      stopPendingMotors (by decide) hret AXES.X (by decide)).2 hstop).1 leftGcode_steps⟩

/-! ## Theorems: step count and duration of a physical move -/

theorem moveMotorPhysical_noop (cfg : Config) (gcode : Gcode) (i : AXES)
    (sl : Motors × MoveLocals) (h : ¬ physicalMoves cfg gcode sl.1 i) :
    moveMotorPhysical cfg gcode i sl = sl := by
  unfold physicalMoves at h
  unfold moveMotorPhysical
  dsimp only
  rw [if_neg h]

theorem physicalLoop_noop (cfg : Config) (gcode : Gcode) (order : List AXES)
    (sl : Motors × MoveLocals) (h : ∀ j, j ∈ order → ¬ physicalMoves cfg gcode sl.1 j) :
    order.foldl (fun acc j => moveMotorPhysical cfg gcode j acc) sl = sl := by
  induction order with
  | nil => rfl
  | cons j rest ih =>
    rw [List.foldl_cons, moveMotorPhysical_noop cfg gcode j sl (h j (List.mem_cons_self _ _))]
    exact ih (fun k hk => h k (List.mem_cons_of_mem _ hk))

/-- When one motor only has to move, the loop of a physical pass is the iteration
for that motor. -/
theorem physicalLoop_single (cfg : Config) (gcode : Gcode) (order : List AXES)
    (hnd : order.Nodup) (i : AXES) (hi : i ∈ order) (sl : Motors × MoveLocals)
    (h : ∀ j, j ∈ order → j ≠ i → ¬ physicalMoves cfg gcode sl.1 j) :
    order.foldl (fun acc j => moveMotorPhysical cfg gcode j acc) sl
      = moveMotorPhysical cfg gcode i sl := by
  induction order with
  | nil => exact absurd hi (List.not_mem_nil _)
  | cons j rest ih =>
    rw [List.foldl_cons]
    rw [List.nodup_cons] at hnd
    by_cases hji : i = j
    · subst hji
      apply physicalLoop_noop
      intro k hk
      have hki : k ≠ i := by
        intro e
        rw [e] at hk
        exact hnd.1 hk
      obtain ⟨o1, -, -, -, o5, o6⟩ := moveMotorPhysical_other cfg gcode i k sl hki
      rw [physicalMoves_congr cfg gcode sl.1 _ k o1 o5 o6]
      exact h k (List.mem_cons_of_mem _ hk) hki
    · have hir : i ∈ rest := by
        rcases List.mem_cons.mp hi with e | e
        · exact absurd e hji
        · exact e
      rw [moveMotorPhysical_noop cfg gcode j sl
        (h j (List.mem_cons_self _ _) (fun e => hji e.symm))]
      exact ih hnd.2 hir (fun k hk => h k (List.mem_cons_of_mem _ hk))

theorem toUInt32_floor (q : ℚ) (h1 : 1 ≤ q) (h2 : q < 4294967296) :
    toUInt32 q = Int.toNat ⌊q⌋ := by
  have hf0 : 0 ≤ ⌊q⌋ := Int.floor_nonneg.mpr (le_trans (by norm_num) h1)
  have hf1 : ⌊q⌋ < 4294967296 := by
    rw [Int.floor_lt]
    exact_mod_cast h2
  unfold toUInt32
  apply Nat.mod_eq_of_lt
  omega

theorem moveMotorPhysical_programs (cfg : Config) (gcode : Gcode) (i : AXES)
    (sl : Motors × MoveLocals) (hm : physicalMoves cfg gcode sl.1 i)
    (h1 : physicalSteps cfg gcode sl.1 i ≥ 1) :
    (moveMotorPhysical cfg gcode i sl).1.globals.motorsNumberOfSteps i
        = toUInt32 (physicalSteps cfg gcode sl.1 i)
    ∧ (moveMotorPhysical cfg gcode i sl).2.movementsHighestNumberOfCycles
        = max (max ((toUInt32 (physicalSteps cfg gcode sl.1 i) : ℚ) / stepsPerMmOf sl.1.eeprom i
              / 8
              / getValueInRange
                  (min (sl.1.currentValues AXES.F)
                    (feedRateSettings cfg sl.1.eeprom i
                      (decide (resolveNewValue cfg sl.1 NO_TASK i (gcodeParameter gcode i).2
                        < sl.1.currentValues i))).1)
                  (feedRateSettings cfg sl.1.eeprom i
                    (decide (resolveNewValue cfg sl.1 NO_TASK i (gcodeParameter gcode i).2
                      < sl.1.currentValues i))).2.2
                  (feedRateSettings cfg sl.1.eeprom i
                    (decide (resolveNewValue cfg sl.1 NO_TASK i (gcodeParameter gcode i).2
                      < sl.1.currentValues i))).2.1
              * 60 * cfg.cpuHz)
            ((toUInt32 (physicalSteps cfg gcode sl.1 i) : ℚ) * 1024))
          sl.2.movementsHighestNumberOfCycles := by
  have hu : ∀ (f : AXES → Nat) (v : Nat), upd f i v i = v := by
    intro f v
    unfold upd
    rw [if_pos rfl]
  have h8 : ((MICROSTEPS_PER_STEP : Nat) : ℚ) = 8 := by
    unfold MICROSTEPS_PER_STEP
    norm_num
  have hT : ((MOTORS_STEP_TIMER_PERIOD : Nat) : ℚ) = 1024 := by
    unfold MOTORS_STEP_TIMER_PERIOD
    norm_num
  unfold physicalMoves at hm
  unfold physicalSteps at h1 ⊢
  unfold moveMotorPhysical
  dsimp only
  rw [if_pos hm, if_pos h1, if_pos h1]
  dsimp only
  unfold getMovementsNumberOfCycles
  dsimp only
  rw [hu, h8, hT]
  exact ⟨rfl, rfl⟩

theorem physicalSteps_no_carry (cfg : Config) (gcode : Gcode) (s : Motors) (i : AXES)
    (hrem : s.globals.motorsNumberOfRemainingSteps i = 0) :
    physicalSteps cfg gcode s i
      = physicalDistance cfg gcode s i * stepsPerMmOf s.eeprom i * 8 := by
  have h8 : ((MICROSTEPS_PER_STEP : Nat) : ℚ) = 8 := by
    unfold MICROSTEPS_PER_STEP
    norm_num
  unfold physicalSteps physicalDistance totalNumberOfSteps
  dsimp only
  rw [hrem, h8]
  split_ifs
  · rw [neg_zero, add_zero]
  · rw [add_zero]

/-- The step count and the number of cycles that the loop of a physical pass
programs when one motor only has to move and its carry-over is zero. -/
theorem single_axis_physical (cfg : Config) (gcode : Gcode) (s : Motors) (i : AXES)
    (hi : i ∈ moveOrder) (hm : physicalMoves cfg gcode s i)
    (hone : ∀ j, j ∈ moveOrder → j ≠ i → ¬ physicalMoves cfg gcode s j)
    (hrem : s.globals.motorsNumberOfRemainingSteps i = 0)
    (h1 : 1 ≤ physicalDistance cfg gcode s i * stepsPerMmOf s.eeprom i * 8)
    (h2 : physicalDistance cfg gcode s i * stepsPerMmOf s.eeprom i * 8 < 4294967296) :
    (physicalLoopState cfg gcode s).1.globals.motorsNumberOfSteps i
        = Int.toNat ⌊physicalDistance cfg gcode s i * stepsPerMmOf s.eeprom i * 8⌋
    ∧ (physicalLoopState cfg gcode s).2.movementsHighestNumberOfCycles
        = max
            (((Int.toNat ⌊physicalDistance cfg gcode s i * stepsPerMmOf s.eeprom i * 8⌋ : Nat) : ℚ)
              / stepsPerMmOf s.eeprom i / 8 / motorFeedRate cfg gcode s i * 60 * cfg.cpuHz)
            (((Int.toNat ⌊physicalDistance cfg gcode s i * stepsPerMmOf s.eeprom i * 8⌋ : Nat) : ℚ)
              * 1024) := by
  have hF : ∀ j, j ∈ moveOrder → j ≠ AXES.F := by
    intro j hj e
    rw [e] at hj
    exact absurd hj (by decide)
  have hcv := setFeedRate_currentValues cfg gcode NO_TASK s
  have hee : (setFeedRate cfg gcode NO_TASK s).eeprom = s.eeprom := rfl
  have hmo : (setFeedRate cfg gcode NO_TASK s).mode = s.mode := rfl
  have hex : (setFeedRate cfg gcode NO_TASK s).extruderMode = s.extruderMode := rfl
  have hgl : (setFeedRate cfg gcode NO_TASK s).globals = s.globals := rfl
  have hdp : (setFeedRate cfg gcode NO_TASK s).directionPin = s.directionPin := rfl
  have hmv : ∀ j, j ∈ moveOrder →
      (physicalMoves cfg gcode (setFeedRate cfg gcode NO_TASK s) j ↔ physicalMoves cfg gcode s j) :=
    fun j hj => physicalMoves_congr cfg gcode s _ j (hcv j (hF j hj)) hmo hex
  have hst : physicalSteps cfg gcode (setFeedRate cfg gcode NO_TASK s) i
      = physicalDistance cfg gcode s i * stepsPerMmOf s.eeprom i * 8 := by
    rw [physicalSteps_congr cfg gcode s _ i (hcv i (hF i hi)) (by rw [hdp]) (by rw [hgl])
      hee hmo hex, physicalSteps_no_carry cfg gcode s i hrem]
  have hres : resolveNewValue cfg (setFeedRate cfg gcode NO_TASK s) NO_TASK i
      (gcodeParameter gcode i).2 = resolveNewValue cfg s NO_TASK i (gcodeParameter gcode i).2 := by
    rw [resolveNewValue_noTask, resolveNewValue_noTask, hcv i (hF i hi), hmo, hex]
  have hloop : physicalLoopState cfg gcode s
      = moveMotorPhysical cfg gcode i (setFeedRate cfg gcode NO_TASK s, initialLocals) := by
    unfold physicalLoopState
    exact physicalLoop_single cfg gcode moveOrder (by decide) i hi _
      (fun j hj hji => (hmv j hj).not.mpr (hone j hj hji))
  obtain ⟨p1, p2⟩ := moveMotorPhysical_programs cfg gcode i
    (setFeedRate cfg gcode NO_TASK s, initialLocals) ((hmv i hi).mpr hm)
    (by rw [hst]; exact h1)
  rw [hloop, p1, p2]
  dsimp only
  rw [hst, toUInt32_floor _ h1 h2, hres, hcv i (hF i hi), hee]
  refine ⟨rfl, ?_⟩
  unfold motorFeedRate initialLocals
  dsimp only
  apply max_eq_left
  apply le_max_of_le_right
  positivity

theorem fifty_target (c : ℚ) :
    resolveNewValue (clockConfig c) fineMotors NO_TASK AXES.X
      (gcodeParameter fiftyGcode AXES.X).2 = 50 := by
  rw [resolveNewValue_noTask]
  have hm : fineMotors.mode = MODES.ABSOLUTE := rfl
  rw [if_neg]
  · rfl
  · rw [hm]
    decide

theorem fifty_distance (c : ℚ) :
    physicalDistance (clockConfig c) fiftyGcode fineMotors AXES.X = 50 := by
  unfold physicalDistance
  rw [fifty_target]
  have hc : fineMotors.currentValues AXES.X = 0 := rfl
  rw [hc]
  norm_num

theorem fifty_feedRate (c : ℚ) :
    motorFeedRate (clockConfig c) fiftyGcode fineMotors AXES.X = 1500 := by
  have hF : (setFeedRate (clockConfig c) fiftyGcode NO_TASK fineMotors).currentValues AXES.F
      = 1500 := by
    unfold setFeedRate
    dsimp only
    rw [if_pos (by decide), if_neg (by decide)]
    unfold upd
    rw [if_pos rfl]
    rfl
  have h1 : ∀ b, (feedRateSettings (clockConfig c) fineMotors.eeprom AXES.X b).1 = 1500 :=
    fun _ => rfl
  have h2 : ∀ b, (feedRateSettings (clockConfig c) fineMotors.eeprom AXES.X b).2.1 = 4800 :=
    fun _ => rfl
  have h3 : ∀ b, (feedRateSettings (clockConfig c) fineMotors.eeprom AXES.X b).2.2 = 120 :=
    fun _ => rfl
  unfold motorFeedRate
  rw [hF, h1, h2, h3, min_self]
  exact getValueInRange_inside _ _ _ (by norm_num) (by norm_num)

theorem fifty_moves (c : ℚ) : physicalMoves (clockConfig c) fiftyGcode fineMotors AXES.X := by
  have hd := fifty_distance c
  unfold physicalDistance at hd
  unfold physicalMoves
  rw [hd]
  exact ⟨by decide, by norm_num⟩

theorem fifty_others (c : ℚ) (j : AXES) (hj : j ∈ moveOrder) (hne : j ≠ AXES.X) :
    ¬ physicalMoves (clockConfig c) fiftyGcode fineMotors j := by
  unfold moveOrder at hj
  simp only [List.mem_cons, List.mem_singleton, List.not_mem_nil, or_false] at hj
  intro h
  rcases hj with rfl | rfl | rfl | rfl
  · exact absurd h.1 (by decide)
  · exact absurd h.1 (by decide)
  · exact absurd h.1 (by decide)
  · exact hne rfl

theorem fifty_steps (c : ℚ) :
    physicalDistance (clockConfig c) fiftyGcode fineMotors AXES.X
      * stepsPerMmOf fineMotors.eeprom AXES.X * 8 = 80000 := by
  have hs : stepsPerMmOf fineMotors.eeprom AXES.X = 200 := rfl
  rw [fifty_distance, hs]
  norm_num

theorem floor_eighty : Int.toNat ⌊(80000 : ℚ)⌋ = 80000 := by
  have h : ⌊(80000 : ℚ)⌋ = 80000 := by
    rw [Int.floor_eq_iff]
    norm_num
  rw [h]
  rfl

/-- The loop of the physical pass for X from 0 to 50 mm at 200 steps/mm and
1500 mm/min with a CPU clock of `c` Hz. -/
theorem fifty_programs (c : ℚ) :
    (physicalLoopState (clockConfig c) fiftyGcode fineMotors).1.globals.motorsNumberOfSteps AXES.X
        = 80000
    ∧ (physicalLoopState (clockConfig c) fiftyGcode fineMotors).2.movementsHighestNumberOfCycles
        = max (2 * c) 81920000 := by
  have h := single_axis_physical (clockConfig c) fiftyGcode fineMotors AXES.X (by decide)
    (fifty_moves c) (fifty_others c) rfl
    (by rw [fifty_steps]; norm_num) (by rw [fifty_steps]; norm_num)
  have hs : stepsPerMmOf fineMotors.eeprom AXES.X = 200 := rfl
  have hc : (clockConfig c).cpuHz = c := rfl
  rw [fifty_steps, fifty_feedRate, floor_eighty, hs, hc] at h
  refine ⟨h.1, ?_⟩
  rw [h.2]
  norm_num

/-- C20 (as stated, refuted): with a CPU clock of 32 MHz, a physical move of X
from 0 to 50 mm at 200 steps/mm and 1500 mm/min programs 80000 steps and a
duration of 81,920,000 cycles, one timer period of 1024 cycles per step, which is
more than the 64,000,000 cycles that two seconds take. -/
theorem fifty_mm_move_takes_longer_than_two_seconds :
    (clockConfig 32000000).cpuHz = 32000000
    ∧ (physicalLoopState (clockConfig 32000000) fiftyGcode fineMotors).1.globals.motorsNumberOfSteps
        AXES.X = 80000
    ∧ (physicalLoopState (clockConfig 32000000) fiftyGcode
        fineMotors).2.movementsHighestNumberOfCycles = 81920000
    ∧ (physicalLoopState (clockConfig 32000000) fiftyGcode
        fineMotors).2.movementsHighestNumberOfCycles ≠ 2 * (clockConfig 32000000).cpuHz := by
  obtain ⟨h1, h2⟩ := fifty_programs 32000000
  have hc : (clockConfig 32000000).cpuHz = 32000000 := rfl
  have h3 : max (2 * (32000000 : ℚ)) 81920000 = 81920000 := by norm_num
  rw [h3] at h2
  refine ⟨hc, h1, h2, ?_⟩
  rw [h2, hc]
  norm_num

/-- C20 (amended): in a physical pass in which motor `i` only has to move, over
a distance of `d` mm with `s` steps/mm, zero carry-over and effective feed rate
`F` mm/min, where `1 ≤ d * s * 8 < 2^32`, the loop programs `n = floor (d * s * 8)`
steps and a duration of `max (n / s / 8 / F * 60 * cpuHz) (n * 1024)` CPU cycles. -/
theorem physical_move_steps_and_duration (cfg : Config) (gcode : Gcode) (s : Motors)
    (i : AXES) (hi : i ∈ moveOrder) (hm : physicalMoves cfg gcode s i)
    (hone : ∀ j, j ∈ moveOrder → j ≠ i → ¬ physicalMoves cfg gcode s j)
    (hrem : s.globals.motorsNumberOfRemainingSteps i = 0)
    (h1 : 1 ≤ physicalDistance cfg gcode s i * stepsPerMmOf s.eeprom i * 8)
    (h2 : physicalDistance cfg gcode s i * stepsPerMmOf s.eeprom i * 8 < 4294967296) :
    (physicalLoopState cfg gcode s).1.globals.motorsNumberOfSteps i
        = Int.toNat ⌊physicalDistance cfg gcode s i * stepsPerMmOf s.eeprom i * 8⌋
    ∧ (physicalLoopState cfg gcode s).2.movementsHighestNumberOfCycles
        = max
            (((Int.toNat ⌊physicalDistance cfg gcode s i * stepsPerMmOf s.eeprom i * 8⌋ : Nat) : ℚ)
              / stepsPerMmOf s.eeprom i / 8 / motorFeedRate cfg gcode s i * 60 * cfg.cpuHz)
            (((Int.toNat ⌊physicalDistance cfg gcode s i * stepsPerMmOf s.eeprom i * 8⌋ : Nat) : ℚ)
              * 1024) :=
  single_axis_physical cfg gcode s i hi hm hone hrem h1 h2

theorem physical_move_steps_and_duration_witness :
    physicalDistance (clockConfig 48000000) fiftyGcode fineMotors AXES.X = 50
    ∧ stepsPerMmOf fineMotors.eeprom AXES.X = 200
    ∧ motorFeedRate (clockConfig 48000000) fiftyGcode fineMotors AXES.X = 1500
    ∧ (physicalLoopState (clockConfig 48000000) fiftyGcode fineMotors).1.globals.motorsNumberOfSteps
        AXES.X = 80000
    ∧ (physicalLoopState (clockConfig 48000000) fiftyGcode
        fineMotors).2.movementsHighestNumberOfCycles = 2 * (clockConfig 48000000).cpuHz := by
  have h := physical_move_steps_and_duration (clockConfig 48000000) fiftyGcode fineMotors AXES.X
    (by decide) (fifty_moves 48000000) (fifty_others 48000000) rfl
    (by rw [fifty_steps]; norm_num) (by rw [fifty_steps]; norm_num)
  have hs : stepsPerMmOf fineMotors.eeprom AXES.X = 200 := rfl
  have hc : (clockConfig 48000000).cpuHz = 48000000 := rfl
  rw [fifty_steps, fifty_feedRate, floor_eighty, hs, hc] at h
  refine ⟨fifty_distance _, hs, fifty_feedRate _, h.1, ?_⟩
  rw [h.2, hc]
  norm_num

/-! ## Theorems: the carry-over in the sensing procedures -/

theorem elapse_remaining (n : Nat) (s : Motors) :
    (elapse n s).globals.motorsNumberOfRemainingSteps
      = s.globals.motorsNumberOfRemainingSteps := by
  induction n generalizing s with
  | zero => rfl
  | succ n ih =>
    rw [elapse]
    split_ifs
    · rw [ih]
      exact updateMotorsStepTimer_remaining _
    · rw [ih]
      exact updateMotorsStepTimer_remaining _

theorem homingLoop_remaining (i : AXES) (jerk : Nat) (rs : List Reading) (firstRun : Bool)
    (lastValue : Int) (counter : Nat) (q : Motors × Accelerometer) :
    (homingLoop i jerk rs firstRun lastValue counter q).1.globals.motorsNumberOfRemainingSteps
      = q.1.globals.motorsNumberOfRemainingSteps := by
  induction rs generalizing firstRun lastValue counter q with
  | nil =>
    rw [homingLoop]
    split_ifs <;> rfl
  | cons r rs ih =>
    rw [homingLoop]
    dsimp only
    split_ifs <;>
      first
      | rfl
      | exact elapse_remaining _ _
      | (rw [ih]; exact elapse_remaining _ _)

theorem z0Loop_remaining (sc : SensorConfig) (stillValue : Int) (rs : List Reading)
    (counter : Nat) (q : Motors × Accelerometer) :
    (z0Loop sc stillValue rs counter q).1.globals.motorsNumberOfRemainingSteps
      = q.1.globals.motorsNumberOfRemainingSteps := by
  induction rs generalizing counter q with
  | nil =>
    rw [z0Loop]
    split_ifs <;> rfl
  | cons r rs ih =>
    rw [z0Loop]
    dsimp only
    split_ifs <;>
      first
      | rfl
      | exact elapse_remaining _ _
      | (rw [ih]; exact elapse_remaining _ _)

/-- The carry-over after a homing stroke of motor `i`: zero for `i`, unchanged for
the other motors. -/
theorem homingStroke_remaining (cfg : Config) (sc : SensorConfig) (i : AXES) (p : Printer) :
    (homingStroke cfg sc i p).motors.globals.motorsNumberOfRemainingSteps
      = upd p.motors.globals.motorsNumberOfRemainingSteps i 0 := by
  unfold homingStroke
  dsimp only
  rw [stopMotorsStepTimer_remaining, homingLoop_remaining]
  rfl

/-- The carry-over after a descent of the Z-touch: zero for Z, unchanged for the
other motors. -/
theorem z0Descent_remaining (cfg : Config) (sc : SensorConfig) (session : List Reading)
    (q : Motors × Accelerometer) :
    (z0Descent cfg sc session q).1.globals.motorsNumberOfRemainingSteps
      = upd q.1.globals.motorsNumberOfRemainingSteps AXES.Z 0 := by
  unfold z0Descent
  dsimp only
  cases session with
  | nil => rfl
  | cons r0 rs =>
    dsimp only
    split_ifs
    · dsimp only
      rw [stopMotorsStepTimer_remaining, z0Loop_remaining]
      rfl
    · rfl

theorem remainingInRange_upd_zero (g : Globals) (f : AXES → ℚ) (i : AXES)
    (h : remainingInRange g) (hf : f = upd g.motorsNumberOfRemainingSteps i 0) (j : AXES) :
    -1 ≤ f j ∧ f j < 1 := by
  rw [hf]
  unfold upd
  split_ifs
  · constructor <;> norm_num
  · exact h j

theorem farGcode_steps :
    physicalMoves exampleConfig farGcode exampleMotors AXES.X
    ∧ physicalSteps exampleConfig farGcode exampleMotors AXES.X = 8000000000000 := by
  have ht : resolveNewValue exampleConfig exampleMotors NO_TASK AXES.X
      (gcodeParameter farGcode AXES.X).2 = 10000000000 := by
    rw [resolveNewValue_noTask, if_neg]
    · rfl
    · have hm : exampleMotors.mode = MODES.ABSOLUTE := rfl
      rw [hm]
      decide
  have hc : exampleMotors.currentValues AXES.X = 0 := rfl
  constructor
  · unfold physicalMoves
    rw [ht, hc]
    exact ⟨by decide, by norm_num⟩
  · unfold physicalSteps
    rw [ht, totalNumberOfSteps_at_rest exampleMotors AXES.X _ rfl rfl rfl]
    norm_num

/-- C11 (as stated, refuted): a physical pass that moves X from 0 to 10^10 mm at
100 steps/mm computes 8 * 10^12 steps, which does not fit `uint32_t`; the
carry-over of X it leaves is at least one. -/
theorem far_move_leaves_carry_over_of_a_step :
    remainingInRange exampleMotors.globals
    ∧ 0 < stepsPerMmOf exampleMotors.eeprom AXES.X
    ∧ 1 ≤ (move exampleConfig farGcode 0 exampleMotors).2.globals.motorsNumberOfRemainingSteps
        AXES.X := by
  obtain ⟨hm, hs⟩ := farGcode_steps
  refine ⟨?_, ?_, ?_⟩
  · intro i
    have h0 : exampleMotors.globals.motorsNumberOfRemainingSteps i = 0 := rfl
    rw [h0]
    constructor <;> norm_num
  · have h1 : stepsPerMmOf exampleMotors.eeprom AXES.X = 100 := rfl
    rw [h1]
    norm_num
  · rw [(move_physical_remaining_at exampleConfig farGcode exampleMotors AXES.X (by decide)).1 hm,
      hs]
    unfold remainingAfter
    rw [if_pos (by norm_num)]
    have hlt : toUInt32 (8000000000000 : ℚ) < 4294967296 := by
      unfold toUInt32
      exact Nat.mod_lt _ (by norm_num)
    have hq : ((toUInt32 (8000000000000 : ℚ) : Nat) : ℚ) < 4294967296 := by
      exact_mod_cast hlt
    linarith

/-- C11 (amended): the carry-over of every motor is 0 initially, and each operation
that writes it leaves the carry-over of every motor in `[-1, 1)` when it was there
before: the physical pass of `move` when the steps/mm are positive and the step
count of every motor is below `2^32`, the backlash compensation, which leaves the
carry-over of every motor as it was, a homing stroke and a descent of the Z-touch,
which clear the carry-over of their motor. -/
theorem carry_over_stays_in_range (cfg : Config) (sc : SensorConfig) (gcode : Gcode)
    (s : Motors) (a b : BACKLASH_DIRECTION) (motor : AXES) (p : Printer)
    (session : List Reading) (q : Motors × Accelerometer)
    (hs : remainingInRange s.globals) (hp : remainingInRange p.motors.globals)
    (hq : remainingInRange q.1.globals)
    (h : ∀ i, i ∈ moveOrder →
      0 < stepsPerMmOf s.eeprom i ∧ physicalSteps cfg gcode s i < 4294967296) :
    (∀ i, initialRemainingSteps i = 0)
    ∧ remainingInRange (move cfg gcode 0 s).2.globals
    ∧ (∀ i, i ≠ AXES.F →
        (compensateForBacklash cfg a b s).globals.motorsNumberOfRemainingSteps i
          = s.globals.motorsNumberOfRemainingSteps i)
    ∧ remainingInRange (homingStroke cfg sc motor p).motors.globals
    ∧ (homingStroke cfg sc motor p).motors.globals.motorsNumberOfRemainingSteps motor = 0
    ∧ remainingInRange (z0Descent cfg sc session q).1.globals
    ∧ (z0Descent cfg sc session q).1.globals.motorsNumberOfRemainingSteps AXES.Z = 0 := by
  have hu : ∀ (f : AXES → ℚ) (j : AXES), upd f j 0 j = 0 := by
    intro f j
    unfold upd
    rw [if_pos rfl]
  refine ⟨fun _ => rfl, move_physical_range cfg gcode s hs h,
    fun i hi => ((compensateForBacklash_frame cfg a b s).2.2 i hi).2, ?_, ?_, ?_, ?_⟩
  · exact remainingInRange_upd_zero p.motors.globals _ motor hp
      (homingStroke_remaining cfg sc motor p)
  · rw [homingStroke_remaining, hu]
  · exact remainingInRange_upd_zero q.1.globals _ AXES.Z hq
      (z0Descent_remaining cfg sc session q)
  · rw [z0Descent_remaining, hu]

theorem exampleMotors_inRange : remainingInRange exampleMotors.globals := by
  intro i
  have h0 : exampleMotors.globals.motorsNumberOfRemainingSteps i = 0 := rfl
  rw [h0]
  constructor <;> norm_num

theorem carry_over_stays_in_range_witness :
    remainingInRange (move exampleConfig leftGcode 0 exampleMotors).2.globals
    ∧ (homingStroke exampleConfig exampleSensorConfig AXES.Y
        examplePrinter).motors.globals.motorsNumberOfRemainingSteps AXES.Y = 0
    ∧ (z0Descent exampleConfig exampleSensorConfig []
        (exampleMotors, exampleAccelerometer)).1.globals.motorsNumberOfRemainingSteps AXES.Z
        = 0 := by
  have h := carry_over_stays_in_range exampleConfig exampleSensorConfig leftGcode exampleMotors
    BACKLASH_DIRECTION.NONE BACKLASH_DIRECTION.NONE AXES.Y examplePrinter []
    (exampleMotors, exampleAccelerometer) exampleMotors_inRange exampleMotors_inRange
    exampleMotors_inRange (by
      intro i hi
      have hs : stepsPerMmOf exampleMotors.eeprom i = 100 := by
        cases i <;> rfl
      have hc : exampleMotors.currentValues i = 0 := by
        unfold moveOrder at hi
        simp only [List.mem_cons, List.mem_singleton, List.not_mem_nil, or_false] at hi
        rcases hi with rfl | rfl | rfl | rfl <;> rfl
      refine ⟨by rw [hs]; norm_num, ?_⟩
      unfold physicalSteps
      rw [totalNumberOfSteps_at_rest exampleMotors i _ hc hs rfl, resolveNewValue_noTask,
        if_neg (by
          have hm : exampleMotors.mode = MODES.ABSOLUTE := rfl
          have he : exampleMotors.extruderMode = MODES.ABSOLUTE := rfl
          rw [hm, he]
          rintro (⟨-, e⟩ | ⟨-, e⟩) <;> exact absurd e (by decide))]
      have hv : |(gcodeParameter leftGcode i).2| ≤ 1 := by
        unfold moveOrder at hi
        simp only [List.mem_cons, List.mem_singleton, List.not_mem_nil, or_false] at hi
        rcases hi with rfl | rfl | rfl | rfl <;> simp [gcodeParameter, leftGcode]
      linarith)
  exact ⟨h.2.1, h.2.2.2.2.1, h.2.2.2.2.2.2⟩

/-! ## Theorems: validity flags after XY homing -/

theorem elapse_flags (n : Nat) (s : Motors) :
    (elapse n s).currentStateOfValues = s.currentStateOfValues := by
  induction n generalizing s with
  | zero => rfl
  | succ n ih =>
    rw [elapse]
    split_ifs <;> rw [ih]

theorem homingLoop_flags (i : AXES) (jerk : Nat) (rs : List Reading) (firstRun : Bool)
    (lastValue : Int) (counter : Nat) (q : Motors × Accelerometer) :
    (homingLoop i jerk rs firstRun lastValue counter q).1.currentStateOfValues
      = q.1.currentStateOfValues := by
  induction rs generalizing firstRun lastValue counter q with
  | nil =>
    rw [homingLoop]
    split_ifs <;> rfl
  | cons r rs ih =>
    rw [homingLoop]
    dsimp only
    split_ifs <;>
      first
      | rfl
      | exact elapse_flags _ _
      | (rw [ih]; exact elapse_flags _ _)

theorem homingStroke_flags (cfg : Config) (sc : SensorConfig) (i : AXES) (p : Printer) :
    (homingStroke cfg sc i p).motors.currentStateOfValues = p.motors.currentStateOfValues := by
  unfold homingStroke
  dsimp only
  rw [homingLoop_flags]
  rfl

theorem homeXY_eq (cfg : Config) (sc : SensorConfig) (adjustHeight : Bool) (p : Printer) :
    homeXY cfg sc adjustHeight p
      = if strokeFailed (homingStroke cfg sc AXES.Y (homingStart p)) then
          ((homingStroke cfg sc AXES.Y (homingStart p)).accelerometer.isWorking,
            homingStroke cfg sc AXES.Y (homingStart p))
        else if strokeFailed
            (homingStroke cfg sc AXES.X (homingStroke cfg sc AXES.Y (homingStart p))) then
          ((homingStroke cfg sc AXES.X
              (homingStroke cfg sc AXES.Y (homingStart p))).accelerometer.isWorking,
            homingStroke cfg sc AXES.X (homingStroke cfg sc AXES.Y (homingStart p)))
        else
          (true,
            { homingStroke cfg sc AXES.X (homingStroke cfg sc AXES.Y (homingStart p)) with
              motors :=
                centerAfterHoming cfg adjustHeight
                  (homingStroke cfg sc AXES.X
                    (homingStroke cfg sc AXES.Y (homingStart p))).motors }) := rfl

/-- The validity flag of a linear axis after a pass with tasks of `move`: the one
before the call or invalid, and the one before the call when the step count of the
axis is below one. -/
theorem move_flag (cfg : Config) (gcode : Gcode) (tasks : Nat) (s : Motors) (ht : tasks ≠ 0)
    (i : AXES) (hi : isLinear i = true) :
    ((move cfg gcode tasks s).2.currentStateOfValues i = s.currentStateOfValues i
      ∨ (move cfg gcode tasks s).2.currentStateOfValues i = INVALID)
    ∧ (¬ stepsAtLeastOne cfg gcode tasks s i →
      (move cfg gcode tasks s).2.currentStateOfValues i = s.currentStateOfValues i) := by
  by_cases ho : overflows cfg gcode tasks s
  · have h2 := (move_overflow cfg gcode tasks s ht ho).2
    have hf : (move cfg gcode tasks s).2.currentStateOfValues = s.currentStateOfValues := by
      rw [h2, setFeedRate_frame]
    rw [hf]
    exact ⟨Or.inl rfl, fun _ => rfl⟩
  · obtain ⟨v1, v2⟩ := move_task_validity cfg gcode tasks s ht ho i hi
    cases hs : (move cfg gcode tasks s).2.emergencyStopOccured with
    | false => exact ⟨Or.inl (v1 hs), fun _ => v1 hs⟩
    | true =>
      refine ⟨?_, fun hn => (v2 hs).2 hn⟩
      by_cases h1 : stepsAtLeastOne cfg gcode tasks s i
      · exact Or.inr ((v2 hs).1 h1)
      · exact Or.inl ((v2 hs).2 h1)

theorem move_mode (cfg : Config) (gcode : Gcode) (tasks : Nat) (s : Motors) (ht : tasks ≠ 0) :
    (move cfg gcode tasks s).2.mode = s.mode := by
  by_cases ho : overflows cfg gcode tasks s
  · rw [(move_overflow cfg gcode tasks s ht ho).2, setFeedRate_frame]
  · exact (move_task_spec cfg gcode tasks s ht ho).2.1

theorem move_flag_invalid (cfg : Config) (gcode : Gcode) (tasks : Nat) (s : Motors)
    (ht : tasks ≠ 0) (i : AXES) (hi : isLinear i = true)
    (h : s.currentStateOfValues i = INVALID) :
    (move cfg gcode tasks s).2.currentStateOfValues i = INVALID := by
  rcases (move_flag cfg gcode tasks s ht i hi).1 with e | e
  · rw [e, h]
  · exact e

/-- A relative move by zero of a linear axis has no step to make. -/
theorem no_steps_of_relative_zero (cfg : Config) (gcode : Gcode) (s : Motors) (i : AXES)
    (hi : i ∈ moveOrder) (hl : isLinear i = true) (hm : s.mode = MODES.RELATIVE)
    (hv : (gcodeParameter gcode i).2 = 0) :
    ¬ stepsAtLeastOne cfg gcode BACKLASH_TASK s i := by
  rintro ⟨-, hd, -⟩
  apply hd
  have hF : i ≠ AXES.F := by
    intro e
    rw [e] at hl
    exact absurd hl (by decide)
  have hE : i ≠ AXES.E := by
    intro e
    rw [e] at hl
    exact absurd hl (by decide)
  rw [stateBefore_target cfg gcode BACKLASH_TASK s i hi,
    stateBefore_currentValues_self cfg gcode BACKLASH_TASK s i hi, hv]
  unfold resolvedTarget
  rw [if_neg (fun hc => absurd hc.1 (by decide))]
  unfold unclampedTarget
  rw [if_neg (fun hc => absurd hc.1 (by decide)), hm]
  cases i
  · dsimp only
    rw [if_pos rfl, add_zero, sub_self, abs_zero]
  · dsimp only
    rw [if_pos rfl, add_zero, sub_self, abs_zero]
  · dsimp only
    rw [if_pos rfl, add_zero, sub_self, abs_zero]
  · exact absurd rfl hE
  · exact absurd rfl hF

theorem no_steps_of_absent (cfg : Config) (gcode : Gcode) (tasks : Nat) (s : Motors) (i : AXES)
    (hp : hasFlag gcode.commandParameters (gcodeParameter gcode i).1 = false) :
    ¬ stepsAtLeastOne cfg gcode tasks s i := by
  rintro ⟨h, -, -⟩
  rw [hp] at h
  exact absurd h (by decide)

/-- The validity flags after the two moves to the centre. -/
theorem centerMoves_flags (cfg : Config) (adjustHeight : Bool) (s : Motors)
    (hx : s.currentStateOfValues AXES.X = INVALID) (hy : s.currentStateOfValues AXES.Y = INVALID) :
    (centerMoves cfg adjustHeight s).currentStateOfValues AXES.X = INVALID
    ∧ (centerMoves cfg adjustHeight s).currentStateOfValues AXES.Y = INVALID
    ∧ (adjustHeight = false →
        (centerMoves cfg adjustHeight s).currentStateOfValues AXES.Z = s.currentStateOfValues AXES.Z)
    ∧ (adjustHeight = true →
        (centerMoves cfg adjustHeight s).currentStateOfValues AXES.Z = INVALID) := by
  have ht : BACKLASH_TASK ≠ 0 := by decide
  have hu : ∀ (f : AXES → Bool) (j k : AXES) (v : Bool), k ≠ j → upd f j v k = f k := by
    intro f j k v h
    unfold upd
    rw [if_neg h]
  have hs : ∀ (f : AXES → Bool) (j : AXES) (v : Bool), upd f j v j = v := by
    intro f j v
    unfold upd
    rw [if_pos rfl]
  cases adjustHeight with
  | false =>
    have e : centerMoves cfg false s
        = (move cfg (centerGcode cfg false (PARAMETER_Y_OFFSET ||| PARAMETER_Z_OFFSET) s)
            BACKLASH_TASK
            (move cfg (centerGcode cfg false (PARAMETER_X_OFFSET ||| PARAMETER_F_OFFSET) s)
              BACKLASH_TASK { s with mode := MODES.RELATIVE }).2).2 := rfl
    rw [e]
    refine ⟨?_, ?_, fun _ => ?_, fun h => absurd h (by decide)⟩
    · apply move_flag_invalid _ _ _ _ ht _ (by decide)
      apply move_flag_invalid _ _ _ _ ht _ (by decide)
      exact hx
    · apply move_flag_invalid _ _ _ _ ht _ (by decide)
      apply move_flag_invalid _ _ _ _ ht _ (by decide)
      exact hy
    · have hm : (move cfg (centerGcode cfg false (PARAMETER_X_OFFSET ||| PARAMETER_F_OFFSET) s)
          BACKLASH_TASK { s with mode := MODES.RELATIVE }).2.mode = MODES.RELATIVE := by
        rw [move_mode _ _ _ _ ht]
      have hv : (gcodeParameter
          (centerGcode cfg false (PARAMETER_Y_OFFSET ||| PARAMETER_Z_OFFSET) s) AXES.Z).2 = 0 := rfl
      have hp : hasFlag
          (centerGcode cfg false (PARAMETER_X_OFFSET ||| PARAMETER_F_OFFSET) s).commandParameters
          (gcodeParameter (centerGcode cfg false (PARAMETER_X_OFFSET ||| PARAMETER_F_OFFSET) s)
            AXES.Z).1 = false := by
        show hasFlag (PARAMETER_X_OFFSET ||| PARAMETER_F_OFFSET) PARAMETER_Z_OFFSET = false
        decide
      rw [(move_flag cfg _ BACKLASH_TASK _ ht AXES.Z (by decide)).2
          (no_steps_of_relative_zero cfg _ _ AXES.Z (by decide) (by decide) hm hv),
        (move_flag cfg _ BACKLASH_TASK _ ht AXES.Z (by decide)).2
          (no_steps_of_absent cfg _ _ _ AXES.Z hp)]
  | true =>
    have e : centerMoves cfg true s
        = (move cfg (centerGcode cfg true (PARAMETER_Y_OFFSET ||| PARAMETER_Z_OFFSET) s)
            BACKLASH_TASK
            (move cfg (centerGcode cfg true (PARAMETER_X_OFFSET ||| PARAMETER_F_OFFSET) s)
              BACKLASH_TASK
              { s with
                currentStateOfValues := upd s.currentStateOfValues AXES.Z INVALID
                mode := MODES.RELATIVE }).2).2 := rfl
    rw [e]
    refine ⟨?_, ?_, fun h => absurd h (by decide), fun _ => ?_⟩
    · apply move_flag_invalid _ _ _ _ ht _ (by decide)
      apply move_flag_invalid _ _ _ _ ht _ (by decide)
      show upd s.currentStateOfValues AXES.Z INVALID AXES.X = INVALID
      rw [hu _ _ _ _ (by decide)]
      exact hx
    · apply move_flag_invalid _ _ _ _ ht _ (by decide)
      apply move_flag_invalid _ _ _ _ ht _ (by decide)
      show upd s.currentStateOfValues AXES.Z INVALID AXES.Y = INVALID
      rw [hu _ _ _ _ (by decide)]
      exact hy
    · apply move_flag_invalid _ _ _ _ ht _ (by decide)
      apply move_flag_invalid _ _ _ _ ht _ (by decide)
      show upd s.currentStateOfValues AXES.Z INVALID AXES.Z = INVALID
      exact hs _ _ _

/-- The validity flags after the part of `homeXY` that follows the homing strokes,
when the emergency stop flag is set at its end. -/
theorem centerAfterHoming_flags (cfg : Config) (adjustHeight : Bool) (s : Motors)
    (hx : s.currentStateOfValues AXES.X = INVALID) (hy : s.currentStateOfValues AXES.Y = INVALID)
    (hstop : (centerAfterHoming cfg adjustHeight s).emergencyStopOccured = true) :
    (centerAfterHoming cfg adjustHeight s).currentStateOfValues AXES.X = INVALID
    ∧ (centerAfterHoming cfg adjustHeight s).currentStateOfValues AXES.Y = INVALID
    ∧ (adjustHeight = false →
        (centerAfterHoming cfg adjustHeight s).currentStateOfValues AXES.Z
          = s.currentStateOfValues AXES.Z)
    ∧ (adjustHeight = true →
        (centerAfterHoming cfg adjustHeight s).currentStateOfValues AXES.Z = INVALID) := by
  have hc : (centerAfterHoming cfg adjustHeight s).emergencyStopOccured
      = (centerMoves cfg adjustHeight s).emergencyStopOccured := by
    unfold centerAfterHoming
    dsimp only
    split_ifs <;> rfl
  rw [hc] at hstop
  have hf : (centerAfterHoming cfg adjustHeight s).currentStateOfValues
      = (centerMoves cfg adjustHeight s).currentStateOfValues := by
    unfold centerAfterHoming
    dsimp only
    rw [hstop, if_neg (by decide)]
  rw [hf]
  exact centerMoves_flags cfg adjustHeight s hx hy

/-- The validity flags when `homeXY` returns with the emergency stop flag set. -/
theorem homeXY_flags (cfg : Config) (sc : SensorConfig) (adjustHeight : Bool) (p : Printer)
    (hstop : (homeXY cfg sc adjustHeight p).2.motors.emergencyStopOccured = true) :
    (homeXY cfg sc adjustHeight p).2.motors.currentStateOfValues AXES.X = INVALID
    ∧ (homeXY cfg sc adjustHeight p).2.motors.currentStateOfValues AXES.Y = INVALID
    ∧ (homingAborted cfg sc p = true ∨ adjustHeight = false →
        (homeXY cfg sc adjustHeight p).2.motors.currentStateOfValues AXES.Z
          = p.motors.currentStateOfValues AXES.Z)
    ∧ (homingAborted cfg sc p = false → adjustHeight = true →
        (homeXY cfg sc adjustHeight p).2.motors.currentStateOfValues AXES.Z = INVALID) := by
  have hu : ∀ (f : AXES → Bool) (j k : AXES) (v : Bool), k ≠ j → upd f j v k = f k := by
    intro f j k v h
    unfold upd
    rw [if_neg h]
  have hs : ∀ (f : AXES → Bool) (j : AXES) (v : Bool), upd f j v j = v := by
    intro f j v
    unfold upd
    rw [if_pos rfl]
  have h0 : (homingStart p).motors.currentStateOfValues
      = upd (upd p.motors.currentStateOfValues AXES.Y INVALID) AXES.X INVALID := rfl
  have hX0 : (homingStart p).motors.currentStateOfValues AXES.X = INVALID := by
    rw [h0, hs]
  have hY0 : (homingStart p).motors.currentStateOfValues AXES.Y = INVALID := by
    rw [h0, hu _ _ _ _ (by decide), hs]
  have hZ0 : (homingStart p).motors.currentStateOfValues AXES.Z
      = p.motors.currentStateOfValues AXES.Z := by
    rw [h0, hu _ _ _ _ (by decide), hu _ _ _ _ (by decide)]
  have f1 := homingStroke_flags cfg sc AXES.Y (homingStart p)
  have f2 := homingStroke_flags cfg sc AXES.X (homingStroke cfg sc AXES.Y (homingStart p))
  rw [homeXY_eq] at hstop ⊢
  unfold homingAborted
  by_cases a1 : strokeFailed (homingStroke cfg sc AXES.Y (homingStart p)) = true
  · rw [if_pos a1] at hstop ⊢
    dsimp only
    rw [f1, hX0, hY0, hZ0, a1]
    exact ⟨rfl, rfl, fun _ => rfl, fun h => absurd h (by simp)⟩
  · rw [if_neg a1] at hstop ⊢
    by_cases a2 : strokeFailed
        (homingStroke cfg sc AXES.X (homingStroke cfg sc AXES.Y (homingStart p))) = true
    · rw [if_pos a2] at hstop ⊢
      dsimp only
      rw [f2, f1, hX0, hY0, hZ0, a2]
      exact ⟨rfl, rfl, fun _ => rfl, fun h => absurd h (by simp)⟩
    · rw [if_neg a2] at hstop ⊢
      dsimp only at hstop ⊢
      have hx : (homingStroke cfg sc AXES.X
          (homingStroke cfg sc AXES.Y (homingStart p))).motors.currentStateOfValues AXES.X
            = INVALID := by rw [f2, f1, hX0]
      have hy : (homingStroke cfg sc AXES.X
          (homingStroke cfg sc AXES.Y (homingStart p))).motors.currentStateOfValues AXES.Y
            = INVALID := by rw [f2, f1, hY0]
      have hz : (homingStroke cfg sc AXES.X
          (homingStroke cfg sc AXES.Y (homingStart p))).motors.currentStateOfValues AXES.Z
            = p.motors.currentStateOfValues AXES.Z := by rw [f2, f1, hZ0]
      obtain ⟨c1, c2, c3, c4⟩ := centerAfterHoming_flags cfg adjustHeight _ hx hy hstop
      refine ⟨c1, c2, ?_, fun _ ha => c4 ha⟩
      intro h
      rcases h with h | h
      · rw [Bool.not_eq_true] at a1 a2
        rw [a1, a2] at h
        exact absurd h (by decide)
      · rw [c3 h, hz]

theorem moveNoTask_stop_mono (cfg : Config) (gcode : Gcode) (s : Motors)
    (h : s.emergencyStopOccured = true) : (moveNoTask cfg gcode s).emergencyStopOccured = true := by
  rw [moveNoTask_eq, h, if_pos rfl]
  exact (physicalLoopState_stop cfg gcode s).1.trans h

theorem backlashPass_stop_mono (cfg : Config) (tasks : Nat) (l : MoveLocals) (s : Motors)
    (h : s.emergencyStopOccured = true) :
    (backlashPass cfg tasks l s).emergencyStopOccured = true := by
  unfold backlashPass
  split_ifs
  · rw [(compensateForBacklash_frame cfg _ _ s).2.1]
    exact moveNoTask_stop_mono cfg _ _ h
  · exact h

/-- A pass with tasks, without bed leveling, of `move` that starts with the
emergency stop flag set returns with the flag set. -/
theorem move_stop_mono (cfg : Config) (gcode : Gcode) (tasks : Nat) (s : Motors)
    (ht : tasks ≠ 0) (hb : hasFlag tasks BED_LEVELING_TASK = false)
    (h : s.emergencyStopOccured = true) :
    (move cfg gcode tasks s).2.emergencyStopOccured = true := by
  by_cases ho : overflows cfg gcode tasks s
  · rw [(move_overflow cfg gcode tasks s ht ho).2]
    exact h
  · rw [(move_task_single cfg gcode tasks s ht hb ho).1]
    apply moveNoTask_stop_mono
    show (afterBacklash cfg gcode tasks s).emergencyStopOccured = true
    exact backlashPass_stop_mono cfg tasks _ _ h

theorem elapse_spec (n : Nat) (s : Motors) :
    (elapse n s).currentValues = s.currentValues ∧ sameLogical s (elapse n s) := by
  induction n generalizing s with
  | zero => exact ⟨rfl, sameLogical_refl _⟩
  | succ n ih =>
    rw [elapse]
    split_ifs
    · have := ih { s with
        emergencyStopOccured := true
        globals := updateMotorsStepTimer s.globals }
      exact ⟨this.1, this.2⟩
    · have := ih { s with
        globals := updateMotorsStepTimer s.globals
        ticksToStop := s.ticksToStop - 1 }
      exact ⟨this.1, this.2⟩

theorem homingLoop_spec (i : AXES) (jerk : Nat) (rs : List Reading) (firstRun : Bool)
    (lastValue : Int) (counter : Nat) (q : Motors × Accelerometer) :
    (homingLoop i jerk rs firstRun lastValue counter q).1.currentValues = q.1.currentValues
    ∧ sameLogical q.1 (homingLoop i jerk rs firstRun lastValue counter q).1 := by
  induction rs generalizing firstRun lastValue counter q with
  | nil =>
    rw [homingLoop]
    split_ifs <;> exact ⟨rfl, sameLogical_refl _⟩
  | cons r rs ih =>
    have he := elapse_spec r.ticks q.1
    rw [homingLoop]
    dsimp only
    split_ifs <;>
      first
      | exact ⟨rfl, sameLogical_refl _⟩
      | exact he
      | exact ⟨(ih _ _ _ _).1.trans he.1, sameLogical_trans _ _ _ he.2 (ih _ _ _ _).2⟩

/-- A homing stroke leaves the current values and the logical state as they are,
the recorded direction of its motor apart. -/
theorem homingStroke_spec (cfg : Config) (sc : SensorConfig) (i : AXES) (p : Printer) :
    (homingStroke cfg sc i p).motors.currentValues = p.motors.currentValues
    ∧ (homingStroke cfg sc i p).motors.eeprom = p.motors.eeprom
    ∧ (homingStroke cfg sc i p).motors.mode = p.motors.mode
    ∧ (homingStroke cfg sc i p).motors.extruderMode = p.motors.extruderMode
    ∧ (homingStroke cfg sc i p).motors.units = p.motors.units
    ∧ (homingStroke cfg sc i p).bedOrientationVersion = p.bedOrientationVersion
    ∧ ∀ j, (homingStroke cfg sc i p).motors.globals.motorsIsMoving j = false := by
  obtain ⟨h1, h2⟩ := homingLoop_spec i (jerkAcceleration sc i) (p.sessions.headD []) true 0 0
    (homingSetup cfg i p.motors, p.accelerometer)
  obtain ⟨-, -, -, a4, a5, a6, -, -, -, -, -, -, -, -, -, -, a17⟩ := h2
  unfold homingStroke
  dsimp only
  exact ⟨h1, a17, a4, a5, a6, rfl, fun j => stopMotorsStepTimer_idle _ j⟩

/-- A homing loop over three readings that take no time, the second and the third
of which deviate from the reading before by the jerk threshold or more: the motor
is stopped at the third reading. -/
theorem homingLoop_jerk (i : AXES) (jerk : Nat) (r1 r2 r3 : Reading)
    (q : Motors × Accelerometer) (hm : areMotorsMoving q.1.globals = true)
    (hs : q.1.emergencyStopOccured = false)
    (hidle : areMotorsMoving
      { q.1.globals with motorsIsMoving := upd q.1.globals.motorsIsMoving i false } = false)
    (h1 : r1.success = true) (h2 : r2.success = true) (h3 : r3.success = true)
    (t1 : r1.ticks = 0) (t2 : r2.ticks = 0) (t3 : r3.ticks = 0)
    (j1 : |(if i = AXES.Y then r1.yAcceleration else r1.xAcceleration)
        - (if i = AXES.Y then r2.yAcceleration else r2.xAcceleration)| ≥ (jerk : Int))
    (j2 : |(if i = AXES.Y then r2.yAcceleration else r2.xAcceleration)
        - (if i = AXES.Y then r3.yAcceleration else r3.xAcceleration)| ≥ (jerk : Int)) :
    homingLoop i jerk [r1, r2, r3] true 0 0 q
      = ({ q.1 with
            globals :=
              { q.1.globals with motorsIsMoving := upd q.1.globals.motorsIsMoving i false } },
          { isWorking := true, xAcceleration := r3.xAcceleration,
            yAcceleration := r3.yAcceleration }) := by
  have hc : (areMotorsMoving q.1.globals && !q.1.emergencyStopOccured) = true := by
    rw [hm, hs]
    rfl
  have e0 : ∀ s : Motors, elapse 0 s = s := fun _ => rfl
  have rd : ∀ (r : Reading) (a : Accelerometer), r.success = true →
      readAccelerationValues r a
        = (true, { isWorking := true, xAcceleration := r.xAcceleration,
                   yAcceleration := r.yAcceleration }) := by
    intro r a h
    unfold readAccelerationValues
    rw [if_pos h]
  rw [homingLoop]
  dsimp only
  rw [if_pos hc, t1, e0, rd r1 _ h1]
  dsimp only
  rw [if_pos rfl, if_pos rfl, homingLoop]
  dsimp only
  rw [if_pos hc, t2, e0, rd r2 _ h2]
  dsimp only
  rw [if_pos rfl, if_neg (by decide), if_pos j1, if_neg (by decide), homingLoop]
  dsimp only
  rw [if_pos hc, t3, e0, rd r3 _ h3]
  dsimp only
  rw [if_pos rfl, if_neg (by decide), if_pos j2, if_pos (by decide), homingLoop]
  dsimp only
  rw [hidle]
  rfl

theorem areMotorsMoving_false (g : Globals) (h : ∀ j, g.motorsIsMoving j = false) :
    areMotorsMoving g = false := by
  unfold areMotorsMoving motorList
  simp [h]

/-- A homing stroke whose session holds three readings that take no time, the
second and the third deviating by the jerk threshold or more, started with every
motor idle and no emergency stop: it ends without emergency stop and with a working
accelerometer, and no time has passed. -/
theorem homingStroke_jerk (cfg : Config) (sc : SensorConfig) (i : AXES) (p : Printer)
    (hi : i ∈ moveOrder) (hidle : ∀ j, p.motors.globals.motorsIsMoving j = false)
    (hs : p.motors.emergencyStopOccured = false) (r1 r2 r3 : Reading)
    (rest : List (List Reading)) (hsess : p.sessions = [r1, r2, r3] :: rest)
    (h1 : r1.success = true) (h2 : r2.success = true) (h3 : r3.success = true)
    (t1 : r1.ticks = 0) (t2 : r2.ticks = 0) (t3 : r3.ticks = 0)
    (j1 : |(if i = AXES.Y then r1.yAcceleration else r1.xAcceleration)
        - (if i = AXES.Y then r2.yAcceleration else r2.xAcceleration)|
          ≥ (jerkAcceleration sc i : Int))
    (j2 : |(if i = AXES.Y then r2.yAcceleration else r2.xAcceleration)
        - (if i = AXES.Y then r3.yAcceleration else r3.xAcceleration)|
          ≥ (jerkAcceleration sc i : Int)) :
    (homingStroke cfg sc i p).motors.emergencyStopOccured = false
    ∧ (homingStroke cfg sc i p).accelerometer.isWorking = true
    ∧ (homingStroke cfg sc i p).sessions = rest
    ∧ (homingStroke cfg sc i p).motors.ticksToStop = p.motors.ticksToStop := by
  have hu : ∀ (f : AXES → Bool) (j : AXES) (v : Bool), upd f j v j = v := by
    intro f j v
    unfold upd
    rw [if_pos rfl]
  have hmv : (homingSetup cfg i p.motors).globals.motorsIsMoving
      = upd p.motors.globals.motorsIsMoving i true := rfl
  have hm : areMotorsMoving (homingSetup cfg i p.motors).globals = true :=
    areMotorsMoving_of _ i hi (by rw [hmv, hu])
  have hid : areMotorsMoving
      { (homingSetup cfg i p.motors).globals with
        motorsIsMoving := upd (homingSetup cfg i p.motors).globals.motorsIsMoving i false }
        = false := by
    apply areMotorsMoving_false
    intro j
    show upd (homingSetup cfg i p.motors).globals.motorsIsMoving i false j = false
    rw [hmv]
    unfold upd
    split_ifs
    · rfl
    · exact hidle j
  have hl := homingLoop_jerk i (jerkAcceleration sc i) r1 r2 r3
    (homingSetup cfg i p.motors, p.accelerometer) hm hs hid h1 h2 h3 t1 t2 t3 j1 j2
  unfold homingStroke
  dsimp only
  rw [hsess]
  show (homingLoop i (jerkAcceleration sc i) [r1, r2, r3] true 0 0
      (homingSetup cfg i p.motors, p.accelerometer)).1.emergencyStopOccured = false
    ∧ (homingLoop i (jerkAcceleration sc i) [r1, r2, r3] true 0 0
      (homingSetup cfg i p.motors, p.accelerometer)).2.isWorking = true
    ∧ rest = rest
    ∧ (homingLoop i (jerkAcceleration sc i) [r1, r2, r3] true 0 0
      (homingSetup cfg i p.motors, p.accelerometer)).1.ticksToStop = p.motors.ticksToStop
  rw [hl]
  exact ⟨hs, rfl, rfl, rfl⟩

theorem resolvedTarget_relative (cfg : Config) (tasks : Nat) (s : Motors) (i : AXES) (v z : ℚ)
    (hr : hasFlag tasks HANDLE_RECEIVED_COMMAND_TASK = false) (hl : isLinear i = true)
    (hm : s.mode = MODES.RELATIVE) :
    resolvedTarget cfg tasks s i v z = s.currentValues i + v := by
  unfold resolvedTarget
  rw [hr, if_neg (fun hc => absurd hc.1 (by decide))]
  unfold unclampedTarget
  rw [hr, if_neg (fun hc => absurd hc.1 (by decide)), hm]
  cases i
  · dsimp only
    rw [if_pos rfl]
  · dsimp only
    rw [if_pos rfl]
  · dsimp only
    rw [if_pos rfl]
  · exact absurd hl (by decide)
  · exact absurd hl (by decide)

/-- The move to the centre X of a state at rest at X = 0 with 100 steps/mm, in an
environment that raises the emergency stop as soon as motors are waited for, raises
the stop. -/
theorem centerMove_raises_stop (cfg : Config) (b : Bool) (s0 s : Motors)
    (hm : s.mode = MODES.RELATIVE) (h0 : s.ticksToStop = 0) (hc : s.currentValues AXES.X = 0)
    (he : stepsPerMmOf s.eeprom AXES.X = 100)
    (hr : s.globals.motorsNumberOfRemainingSteps AXES.X = 0) :
    (move cfg (centerGcode cfg b (PARAMETER_X_OFFSET ||| PARAMETER_F_OFFSET) s0) BACKLASH_TASK
      s).2.emergencyStopOccured = true := by
  have hv : (gcodeParameter (centerGcode cfg b (PARAMETER_X_OFFSET ||| PARAMETER_F_OFFSET) s0)
      AXES.X).2 = -55 := by
    show -BED_CENTER_X_DISTANCE_FROM_HOMING_CORNER = -55
    unfold BED_CENTER_X_DISTANCE_FROM_HOMING_CORNER
    rfl
  have ht : ∀ z, resolvedTarget cfg BACKLASH_TASK s AXES.X
      (gcodeParameter (centerGcode cfg b (PARAMETER_X_OFFSET ||| PARAMETER_F_OFFSET) s0)
        AXES.X).2 z = -55 := by
    intro z
    rw [resolvedTarget_relative cfg _ s AXES.X _ z (by decide) (by decide) hm, hc, hv, zero_add]
  have hflag : ∀ i, hasFlag
      (centerGcode cfg b (PARAMETER_X_OFFSET ||| PARAMETER_F_OFFSET) s0).commandParameters
      (gcodeParameter (centerGcode cfg b (PARAMETER_X_OFFSET ||| PARAMETER_F_OFFSET) s0) i).1
        = hasFlag (PARAMETER_X_OFFSET ||| PARAMETER_F_OFFSET) (gcodeParameter leftGcode i).1 := by
    intro i
    cases i <;> rfl
  have hno : ¬ overflows cfg (centerGcode cfg b (PARAMETER_X_OFFSET ||| PARAMETER_F_OFFSET) s0)
      BACKLASH_TASK s := by
    apply not_overflows_of_steps_le
    intro i hi hp z
    rw [hflag] at hp
    unfold moveOrder at hi
    simp only [List.mem_cons, List.mem_singleton, List.not_mem_nil, or_false] at hi
    rcases hi with rfl | rfl | rfl | rfl
    · exact absurd hp (by decide)
    · exact absurd hp (by decide)
    · exact absurd hp (by decide)
    · rw [ht, totalNumberOfSteps_at_rest s AXES.X _ hc he hr]
      unfold UINT32_MAX
      norm_num
  apply move_task_raises_stop cfg _ BACKLASH_TASK s (by decide) (by decide) hno h0 AXES.X
    (by decide)
  apply stepsAtLeastOne_intro cfg _ BACKLASH_TASK s AXES.X (by decide)
    (by rw [hflag]; decide) (-55) ht
  · rw [hc]
    norm_num
  · rw [totalNumberOfSteps_at_rest s AXES.X _ hc he hr]
    norm_num

theorem centerMoves_raises_stop (cfg : Config) (b : Bool) (s : Motors)
    (h0 : s.ticksToStop = 0) (hc : s.currentValues AXES.X = 0)
    (he : stepsPerMmOf s.eeprom AXES.X = 100)
    (hr : s.globals.motorsNumberOfRemainingSteps AXES.X = 0) :
    (centerAfterHoming cfg b s).emergencyStopOccured = true := by
  have hca : (centerAfterHoming cfg b s).emergencyStopOccured
      = (centerMoves cfg b s).emergencyStopOccured := by
    unfold centerAfterHoming
    dsimp only
    split_ifs <;> rfl
  rw [hca]
  cases b with
  | false =>
    have e : centerMoves cfg false s
        = (move cfg (centerGcode cfg false (PARAMETER_Y_OFFSET ||| PARAMETER_Z_OFFSET) s)
            BACKLASH_TASK
            (move cfg (centerGcode cfg false (PARAMETER_X_OFFSET ||| PARAMETER_F_OFFSET) s)
              BACKLASH_TASK { s with mode := MODES.RELATIVE }).2).2 := rfl
    rw [e]
    apply move_stop_mono _ _ _ _ (by decide) (by decide)
    exact centerMove_raises_stop cfg false s _ rfl h0 hc he hr
  | true =>
    have e : centerMoves cfg true s
        = (move cfg (centerGcode cfg true (PARAMETER_Y_OFFSET ||| PARAMETER_Z_OFFSET) s)
            BACKLASH_TASK
            (move cfg (centerGcode cfg true (PARAMETER_X_OFFSET ||| PARAMETER_F_OFFSET) s)
              BACKLASH_TASK
              { s with
                currentStateOfValues := upd s.currentStateOfValues AXES.Z INVALID
                mode := MODES.RELATIVE }).2).2 := rfl
    rw [e]
    apply move_stop_mono _ _ _ _ (by decide) (by decide)
    exact centerMove_raises_stop cfg true s _ rfl h0 hc he hr

theorem jerkAcceleration_example (i : AXES) : jerkAcceleration exampleSensorConfig i = 50 := by
  cases i <;> rfl

/-- The homing strokes of the sample run: both end without emergency stop and
with a working accelerometer, at rest at X = 0, no time having passed. -/
theorem centeringStop_strokes :
    homingAborted exampleConfig exampleSensorConfig centeringStopPrinter = false
    ∧ (homingStroke exampleConfig exampleSensorConfig AXES.X
        (homingStroke exampleConfig exampleSensorConfig AXES.Y
          (homingStart centeringStopPrinter))).motors.ticksToStop = 0
    ∧ (homingStroke exampleConfig exampleSensorConfig AXES.X
        (homingStroke exampleConfig exampleSensorConfig AXES.Y
          (homingStart centeringStopPrinter))).motors.currentValues AXES.X = 0
    ∧ stepsPerMmOf (homingStroke exampleConfig exampleSensorConfig AXES.X
        (homingStroke exampleConfig exampleSensorConfig AXES.Y
          (homingStart centeringStopPrinter))).motors.eeprom AXES.X = 100
    ∧ (homingStroke exampleConfig exampleSensorConfig AXES.X
        (homingStroke exampleConfig exampleSensorConfig AXES.Y
          (homingStart centeringStopPrinter))).motors.globals.motorsNumberOfRemainingSteps AXES.X
        = 0 := by
  have hj : ∀ (i : AXES) (a b : Int), |a - b| ≥ 50 →
      |(if i = AXES.Y then (jerkReading a).yAcceleration else (jerkReading a).xAcceleration)
        - (if i = AXES.Y then (jerkReading b).yAcceleration else (jerkReading b).xAcceleration)|
        ≥ (jerkAcceleration exampleSensorConfig i : Int) := by
    intro i a b h
    rw [jerkAcceleration_example]
    split_ifs <;> exact h
  obtain ⟨y1, y2, y3, y4⟩ := homingStroke_jerk exampleConfig exampleSensorConfig AXES.Y
    (homingStart centeringStopPrinter) (by decide) (fun _ => rfl) rfl
    (jerkReading 0) (jerkReading 100) (jerkReading 200) [jerkSession] rfl rfl rfl rfl rfl rfl rfl
    (hj _ _ _ (by norm_num)) (hj _ _ _ (by norm_num))
  obtain ⟨sy1, sy2, -, -, -, -, sy7⟩ := homingStroke_spec exampleConfig exampleSensorConfig AXES.Y
    (homingStart centeringStopPrinter)
  obtain ⟨x1, x2, -, x4⟩ := homingStroke_jerk exampleConfig exampleSensorConfig AXES.X
    (homingStroke exampleConfig exampleSensorConfig AXES.Y (homingStart centeringStopPrinter))
    (by decide) sy7 y1
    (jerkReading 0) (jerkReading 100) (jerkReading 200) [] y3 rfl rfl rfl rfl rfl rfl
    (hj _ _ _ (by norm_num)) (hj _ _ _ (by norm_num))
  obtain ⟨sx1, sx2, -⟩ := homingStroke_spec exampleConfig exampleSensorConfig AXES.X
    (homingStroke exampleConfig exampleSensorConfig AXES.Y (homingStart centeringStopPrinter))
  refine ⟨?_, ?_, ?_, ?_, ?_⟩
  · unfold homingAborted strokeFailed
    rw [y1, y2, x1, x2]
    rfl
  · rw [x4, y4]
    rfl
  · rw [sx1, sy1]
    rfl
  · rw [sx2, sy2]
    rfl
  · rw [homingStroke_remaining]
    unfold upd
    rw [if_pos rfl]

theorem centeringStop_stop (b : Bool) :
    (homeXY exampleConfig exampleSensorConfig b centeringStopPrinter).2.motors.emergencyStopOccured
      = true := by
  obtain ⟨ha, h0, hc, he, hr⟩ := centeringStop_strokes
  unfold homingAborted at ha
  rw [Bool.or_eq_false_iff] at ha
  rw [homeXY_eq, ha.1, ha.2]
  exact centerMoves_raises_stop exampleConfig b _ h0 hc he hr

/-- C14 (as stated, refuted): `homeXY(true)` with Z valid before the call; the two
homing strokes end on their jerk signatures and the emergency stop is raised while
the move to the centre X waits for the motor: on return the emergency stop flag is
set and Z is invalid. -/
theorem stop_while_centering_invalidates_z :
    centeringStopPrinter.motors.emergencyStopOccured = false
    ∧ centeringStopPrinter.motors.currentStateOfValues AXES.Z = VALID
    ∧ (homeXY exampleConfig exampleSensorConfig true
        centeringStopPrinter).2.motors.emergencyStopOccured = true
    ∧ (homeXY exampleConfig exampleSensorConfig true
        centeringStopPrinter).2.motors.currentStateOfValues AXES.Z = INVALID := by
  refine ⟨rfl, rfl, centeringStop_stop true, ?_⟩
  exact (homeXY_flags exampleConfig exampleSensorConfig true centeringStopPrinter
    (centeringStop_stop true)).2.2.2 centeringStop_strokes.1 rfl

/-- C14 (amended): if the emergency stop flag is set when `homeXY` returns, the
validity flags of X and Y are invalid; the validity flag of Z equals its value
before the call when the homing strokes ended the procedure (an emergency stop or
an accelerometer failure during a stroke) or `adjustHeight` is false, and Z is
invalid when the moves to the centre were reached with `adjustHeight` true. -/
theorem homeXY_stop_leaves_xy_invalid (cfg : Config) (sc : SensorConfig) (adjustHeight : Bool)
    (p : Printer)
    (hstop : (homeXY cfg sc adjustHeight p).2.motors.emergencyStopOccured = true) :
    (homeXY cfg sc adjustHeight p).2.motors.currentStateOfValues AXES.X = INVALID
    ∧ (homeXY cfg sc adjustHeight p).2.motors.currentStateOfValues AXES.Y = INVALID
    ∧ (homingAborted cfg sc p = true ∨ adjustHeight = false →
        (homeXY cfg sc adjustHeight p).2.motors.currentStateOfValues AXES.Z
          = p.motors.currentStateOfValues AXES.Z)
    ∧ (homingAborted cfg sc p = false → adjustHeight = true →
        (homeXY cfg sc adjustHeight p).2.motors.currentStateOfValues AXES.Z = INVALID) :=
  homeXY_flags cfg sc adjustHeight p hstop

theorem homeXY_stop_leaves_xy_invalid_witness :
    centeringStopPrinter.motors.currentStateOfValues AXES.X = VALID
    ∧ centeringStopPrinter.motors.currentStateOfValues AXES.Z = VALID
    ∧ (homeXY exampleConfig exampleSensorConfig false
        centeringStopPrinter).2.motors.emergencyStopOccured = true
    ∧ (homeXY exampleConfig exampleSensorConfig false
        centeringStopPrinter).2.motors.currentStateOfValues AXES.X = INVALID
    ∧ (homeXY exampleConfig exampleSensorConfig false
        centeringStopPrinter).2.motors.currentStateOfValues AXES.Y = INVALID
    ∧ (homeXY exampleConfig exampleSensorConfig false
        centeringStopPrinter).2.motors.currentStateOfValues AXES.Z = VALID := by
  obtain ⟨h1, h2, h3, -⟩ := homeXY_stop_leaves_xy_invalid exampleConfig exampleSensorConfig false
    centeringStopPrinter (centeringStop_stop false)
  exact ⟨rfl, rfl, centeringStop_stop false, h1, h2, h3 (Or.inr rfl)⟩

/-! ## Theorems: moves that end before the emergency stop -/

theorem axisTick_live (x : AxisState) (h : AxisLive x) :
    (axisTick x).moving = false
    ∨ (AxisLive (axisTick x) ∧ liveMeasure (axisTick x) < liveMeasure x) := by
  obtain ⟨h1, h2, h3, h4, h5, h6⟩ := h
  have hD : 1 ≤ max x.delay 1 := le_max_right _ _
  have hDd : x.delay ≤ max x.delay 1 := le_max_left _ _
  have hDlt : max x.delay 1 < 4294967296 := max_lt h3 (by norm_num)
  have hS : 1 ≤ (if x.steps = 0 then 4294967296 else x.steps) := by
    split_ifs <;> omega
  have hP : max x.delay 1 ≤ (if x.steps = 0 then 4294967296 else x.steps) * max x.delay 1 :=
    Nat.le_mul_of_pos_left _ hS
  by_cases hs : x.skips ≠ 0 ∧ x.skipsCounter ≥ x.skips
  · right
    have he : axisTick x = { x with pin := false, skipsCounter := 0 } := by
      unfold axisTick
      rw [if_pos h1]
      unfold axisAction
      dsimp only
      rw [if_pos hs]
    rw [he]
    refine ⟨⟨h1, h2, h3, h4, h5, Nat.zero_le _⟩, ?_⟩
    unfold liveMeasure
    dsimp only
    rw [if_neg (by omega : ¬ (x.skips ≠ 0 ∧ 0 ≥ x.skips)), if_pos hs]
    omega
  · have hsc : (if x.skips ≠ 0 then (x.skipsCounter + 1) % 4294967296 else x.skipsCounter)
        = countedSkips x := by
      unfold countedSkips
      split_ifs with h0
      · apply Nat.mod_eq_of_lt
        have : ¬ x.skipsCounter ≥ x.skips := fun hc => hs ⟨h0, hc⟩
        omega
      · rfl
    have hcs : countedSkips x ≤ x.skips := by
      unfold countedSkips
      split_ifs with h0
      · have : ¬ x.skipsCounter ≥ x.skips := fun hc => hs ⟨h0, hc⟩
        omega
      · exact h6
    have hc : (x.delayCounter + 1) % 4294967296 = x.delayCounter + 1 :=
      Nat.mod_eq_of_lt (by omega)
    by_cases hd : x.delayCounter + 1 ≥ x.delay
    · have hdc : x.delayCounter + 1 = max x.delay 1 := by
        rcases Nat.lt_or_ge x.delay 1 with h0 | h0
        · have : max x.delay 1 = 1 := max_eq_right (by omega)
          omega
        · have : max x.delay 1 = x.delay := max_eq_left h0
          omega
      have he : axisTick x
          = { x with pin := true, skipsCounter := countedSkips x, delayCounter := 0,
                     steps := (x.steps + 4294967295) % 4294967296,
                     moving := if (x.steps + 4294967295) % 4294967296 = 0 then false
                       else x.moving } := by
        unfold axisTick
        rw [if_pos h1]
        unfold axisAction
        dsimp only
        rw [if_neg hs, hsc, hc, if_pos hd]
      by_cases hn : (x.steps + 4294967295) % 4294967296 = 0
      · left
        rw [he]
        dsimp only
        rw [if_pos hn]
      · right
        rw [he]
        have hmul : (if (x.steps + 4294967295) % 4294967296 = 0 then 4294967296
              else (x.steps + 4294967295) % 4294967296) * max x.delay 1 + max x.delay 1
            = (if x.steps = 0 then 4294967296 else x.steps) * max x.delay 1 := by
          rw [if_neg hn]
          have e : (if x.steps = 0 then 4294967296 else x.steps)
              = (x.steps + 4294967295) % 4294967296 + 1 := by
            split_ifs with h0
            · rw [h0]
            · omega
          rw [e, Nat.add_mul, Nat.one_mul]
        refine ⟨⟨?_, ?_, h3, h4, ?_, hcs⟩, ?_⟩
        · dsimp only
          rw [if_neg hn]
          exact h1
        · exact Nat.mod_lt _ (by norm_num)
        · dsimp only
          omega
        · have hle : (if x.skips ≠ 0 ∧ countedSkips x ≥ x.skips then 1 else 0) ≤ 1 := by
            split_ifs <;> omega
          unfold liveMeasure
          dsimp only
          rw [if_neg hs]
          generalize (if x.skips ≠ 0 ∧ countedSkips x ≥ x.skips then 1 else 0) = A at hle ⊢
          omega
    · right
      have he : axisTick x
          = { x with pin := false, skipsCounter := countedSkips x,
                     delayCounter := x.delayCounter + 1 } := by
        unfold axisTick
        rw [if_pos h1]
        unfold axisAction
        dsimp only
        rw [if_neg hs, hsc, hc, if_neg hd]
      rw [he]
      refine ⟨⟨h1, h2, h3, h4, ?_, hcs⟩, ?_⟩
      · dsimp only
        omega
      · have hle : (if x.skips ≠ 0 ∧ countedSkips x ≥ x.skips then 1 else 0) ≤ 1 := by
          split_ifs <;> omega
        unfold liveMeasure
        dsimp only
        rw [if_neg hs]
        generalize (if x.skips ≠ 0 ∧ countedSkips x ≥ x.skips then 1 else 0) = A at hle ⊢
        omega

theorem axisTicks_stays_idle (k : Nat) (x : AxisState) (h : x.moving = false) :
    (axisTicks k x).moving = false := (axisTicks_idle k x h).1

theorem axis_stops (m : Nat) :
    ∀ x : AxisState, AxisLive x → liveMeasure x ≤ m →
      ∃ T, T ≤ m ∧ (axisTicks T x).moving = false := by
  induction m with
  | zero =>
    intro x h hm
    obtain ⟨h1, h2, h3, h4, h5, h6⟩ := h
    have hS : 1 ≤ (if x.steps = 0 then 4294967296 else x.steps) := by
      split_ifs <;> omega
    have hP : max x.delay 1 ≤ (if x.steps = 0 then 4294967296 else x.steps) * max x.delay 1 :=
      Nat.le_mul_of_pos_left _ hS
    unfold liveMeasure at hm
    omega
  | succ m ih =>
    intro x h hm
    rcases axisTick_live x h with hi | ⟨hl, hlt⟩
    · exact ⟨1, by omega, hi⟩
    · obtain ⟨T, hT, hidle⟩ := ih (axisTick x) hl (by omega)
      exact ⟨T + 1, by omega, hidle⟩

theorem liveMeasure_le (x : AxisState) (h : AxisLive x) : liveMeasure x ≤ WAIT_BOUND := by
  obtain ⟨h1, h2, h3, h4, h5, h6⟩ := h
  have hDlt : max x.delay 1 ≤ 4294967296 := le_of_lt (max_lt h3 (by norm_num))
  have hS : (if x.steps = 0 then 4294967296 else x.steps) ≤ 4294967296 := by
    split_ifs <;> omega
  have := Nat.mul_le_mul hS hDlt
  have hle : (if x.skips ≠ 0 ∧ x.skipsCounter ≥ x.skips then 1 else 0) ≤ 1 := by
    split_ifs <;> omega
  unfold liveMeasure WAIT_BOUND
  generalize (if x.skips ≠ 0 ∧ x.skipsCounter ≥ x.skips then 1 else 0) = A at hle ⊢
  omega

theorem axis_idle_within (g : Globals) (h : GlobalsLive g) (a : AXES) (ha : a ≠ AXES.F) :
    (ticks WAIT_BOUND g).motorsIsMoving a = false := by
  have e : ∀ k, (ticks k g).motorsIsMoving a = (axisTicks k (axisOf g a)).moving := by
    intro k
    rw [← axisOf_ticks a ha k g]
    rfl
  rw [e]
  cases hm : g.motorsIsMoving a with
  | false => exact axisTicks_stays_idle _ _ hm
  | true =>
    obtain ⟨T, hT, hidle⟩ := axis_stops WAIT_BOUND (axisOf g a) (h a ha hm)
      (liveMeasure_le _ (h a ha hm))
    obtain ⟨j, hj⟩ : ∃ j, WAIT_BOUND = T + j := ⟨WAIT_BOUND - T, by omega⟩
    rw [hj, axisTicks_add]
    exact axisTicks_stays_idle _ _ hidle

theorem ticks_idle_within (g : Globals) (h : GlobalsLive g) :
    areMotorsMoving (ticks WAIT_BOUND g) = false := by
  unfold areMotorsMoving motorList
  simp only [List.any_cons, List.any_nil, Bool.or_false]
  rw [axis_idle_within g h AXES.X (by decide), axis_idle_within g h AXES.Y (by decide),
    axis_idle_within g h AXES.Z (by decide), axis_idle_within g h AXES.E (by decide)]
  rfl

theorem waitForMotors_budget (k : Nat) :
    ∀ (s : Motors) (T : Nat), s.emergencyStopOccured = false →
      areMotorsMoving (ticks T s.globals) = false → T ≤ k →
      (waitForMotors k s).emergencyStopOccured = false
      ∧ k - T ≤ (waitForMotors k s).ticksToStop := by
  induction k with
  | zero =>
    intro s T hs hT hk
    have : T = 0 := by omega
    subst this
    have hm : areMotorsMoving s.globals = false := hT
    rw [waitForMotors]
    dsimp only
    rw [hs, hm]
    exact ⟨rfl, Nat.zero_le _⟩
  | succ k ih =>
    intro s T hs hT hk
    rw [waitForMotors]
    by_cases hm : areMotorsMoving s.globals = true
    · rw [if_pos (by rw [hm, hs]; rfl)]
      cases T with
      | zero => exact absurd hm (by rw [show areMotorsMoving s.globals = false from hT]; simp)
      | succ T =>
        have := ih { s with globals := updateMotorsStepTimer s.globals } T hs hT (by omega)
        refine ⟨this.1, ?_⟩
        have h2 := this.2
        omega
    · rw [if_neg (by simp [hm])]
      dsimp only
      exact ⟨hs, by omega⟩

theorem upd_at {α : Type} (f : AXES → α) (i : AXES) (v : α) : upd f i v i = v := by
  unfold upd
  rw [if_pos rfl]

theorem upd_off {α : Type} (f : AXES → α) (i a : AXES) (v : α) (h : a ≠ i) :
    upd f i v a = f a := by
  unfold upd
  rw [if_neg h]

theorem toUInt32_lt (q : ℚ) : toUInt32 q < 4294967296 :=
  Nat.mod_lt _ (by norm_num)

theorem stepDelayFor_lt (c : ℚ) (n : Nat) : stepDelayFor c n < 4294967296 := by
  unfold stepDelayFor
  dsimp only
  split_ifs
  · exact Nat.mod_lt _ (by norm_num)
  · exact toUInt32_lt _

theorem delaySkipsFor_lt (c : ℚ) (n : Nat) : delaySkipsFor c n < 4294967296 := by
  unfold delaySkipsFor
  dsimp only
  split_ifs
  · exact toUInt32_lt _
  · norm_num

theorem setMotorDelayAndSkip_programmed (i : AXES) (c : ℚ) (g : Globals) :
    Programmed (setMotorDelayAndSkip i c g) i := by
  unfold Programmed setMotorDelayAndSkip
  dsimp only
  rw [upd_at, upd_at, upd_at, upd_at]
  exact ⟨rfl, rfl, stepDelayFor_lt _ _, delaySkipsFor_lt _ _⟩

theorem setMotorDelayAndSkip_programmed_off (i a : AXES) (c : ℚ) (g : Globals) (h : a ≠ i)
    (hp : Programmed g a) : Programmed (setMotorDelayAndSkip i c g) a := by
  unfold Programmed setMotorDelayAndSkip
  dsimp only
  rw [upd_off _ _ _ _ h, upd_off _ _ _ _ h, upd_off _ _ _ _ h, upd_off _ _ _ _ h]
  exact hp

theorem delayLoop_programmed (c : ℚ) (l : List AXES) :
    ∀ (g : Globals) (a : AXES), (a ∈ l ∨ Programmed g a) → g.motorsIsMoving a = true →
      Programmed
        (l.foldl (fun acc i => if acc.motorsIsMoving i then setMotorDelayAndSkip i c acc else acc)
          g) a := by
  induction l with
  | nil =>
    intro g a h _
    rcases h with h | h
    · cases h
    · exact h
  | cons i rest ih =>
    intro g a h hm
    rw [List.foldl_cons]
    apply ih
    · by_cases hai : a = i
      · subst hai
        right
        rw [if_pos hm]
        exact setMotorDelayAndSkip_programmed a c g
      · rcases h with h | h
        · left
          rcases List.mem_cons.mp h with h | h
          · exact absurd h hai
          · exact h
        · right
          split_ifs
          · exact setMotorDelayAndSkip_programmed_off i a c g hai h
          · exact h
    · split_ifs
      · exact hm
      · exact hm

theorem delayLoop_steps (c : ℚ) (l : List AXES) (g : Globals) :
    (l.foldl (fun acc i => if acc.motorsIsMoving i then setMotorDelayAndSkip i c acc else acc)
      g).motorsNumberOfSteps = g.motorsNumberOfSteps := by
  induction l generalizing g with
  | nil => rfl
  | cons i rest ih =>
    rw [List.foldl_cons, ih]
    split_ifs <;> rfl

theorem delayLoop_live (c : ℚ) (g : Globals) (h : StepsFit g) :
    GlobalsLive
      (motorList.foldl
        (fun acc i => if acc.motorsIsMoving i then setMotorDelayAndSkip i c acc else acc) g) := by
  intro a ha hm
  rw [delayLoop_moving] at hm
  have hmem : a ∈ motorList := by
    unfold motorList
    cases a <;> first | exact absurd rfl ha | decide
  obtain ⟨p1, p2, p3, p4⟩ := delayLoop_programmed c motorList g a (Or.inl hmem) hm
  have hst := h a hm
  rw [← delayLoop_steps c motorList g] at hst
  have hmv : (motorList.foldl
      (fun acc i => if acc.motorsIsMoving i then setMotorDelayAndSkip i c acc else acc)
      g).motorsIsMoving a = true := by
    rw [delayLoop_moving]
    exact hm
  refine ⟨hmv, hst, p3, p4, ?_, ?_⟩
  · show (motorList.foldl _ g).motorsStepDelayCounter a < _
    rw [p1]
    exact lt_of_lt_of_le Nat.zero_lt_one (le_max_right _ _)
  · show (motorList.foldl _ g).motorsDelaySkipsCounter a ≤ _
    rw [p2]
    exact Nat.zero_le _

theorem physicalPass_budget (l : MoveLocals) (s : Motors) (R : Nat)
    (hs : s.emergencyStopOccured = false) (hf : StepsFit s.globals)
    (hb : WAIT_BOUND + R ≤ s.ticksToStop) :
    (physicalPass l s).emergencyStopOccured = false ∧ R ≤ (physicalPass l s).ticksToStop := by
  have hl := ticks_idle_within _ (delayLoop_live l.movementsHighestNumberOfCycles s.globals hf)
  have hw := waitForMotors_budget s.ticksToStop
    { s with
      globals :=
        motorList.foldl
          (fun acc i =>
            if acc.motorsIsMoving i then setMotorDelayAndSkip i l.movementsHighestNumberOfCycles acc
            else acc)
          s.globals }
    WAIT_BOUND hs hl (by omega)
  unfold physicalPass
  dsimp only
  refine ⟨hw.1, ?_⟩
  have h2 := hw.2
  omega

theorem Ready_mono (R Q : Nat) (s : Motors) (h : Ready R s) (hq : Q ≤ R) : Ready Q s :=
  ⟨h.1, h.2.1, le_trans hq h.2.2⟩

theorem moveMotorPhysical_fit (cfg : Config) (gcode : Gcode) (i : AXES)
    (sl : Motors × MoveLocals) (h : StepsFit sl.1.globals) :
    StepsFit (moveMotorPhysical cfg gcode i sl).1.globals := by
  unfold moveMotorPhysical
  dsimp only
  split_ifs
  · intro a hm
    dsimp only at hm ⊢
    by_cases hai : a = i
    · subst hai
      rw [upd_at]
      exact toUInt32_lt _
    · rw [upd_off _ _ _ _ hai] at hm ⊢
      exact h a hm
  · exact h
  · exact h

theorem physicalLoop_fit (cfg : Config) (gcode : Gcode) (order : List AXES)
    (sl : Motors × MoveLocals) (h : StepsFit sl.1.globals) :
    StepsFit (order.foldl (fun acc i => moveMotorPhysical cfg gcode i acc) sl).1.globals := by
  induction order generalizing sl with
  | nil => exact h
  | cons i rest ih =>
    rw [List.foldl_cons]
    exact ih _ (moveMotorPhysical_fit cfg gcode i sl h)

theorem stepsFit_of_idle (g : Globals) (h : ∀ a, g.motorsIsMoving a = false) : StepsFit g := by
  intro a hm
  rw [h a] at hm
  cases hm

theorem moveNoTask_budget (cfg : Config) (gcode : Gcode) (s : Motors) (R : Nat)
    (h : Ready (WAIT_BOUND + R) s) : Ready R (moveNoTask cfg gcode s) := by
  obtain ⟨hs, hi, hb⟩ := h
  obtain ⟨e1, e2⟩ := physicalLoopState_stop cfg gcode s
  have hfit : StepsFit (physicalLoopState cfg gcode s).1.globals :=
    physicalLoop_fit cfg gcode moveOrder (setFeedRate cfg gcode NO_TASK s, initialLocals)
      (stepsFit_of_idle _ hi)
  obtain ⟨b1, b2⟩ := physicalPass_budget (physicalLoopState cfg gcode s).2
    (physicalLoopState cfg gcode s).1 R (e1.trans hs) hfit (by rw [e2]; exact hb)
  rw [moveNoTask_eq, hs]
  rw [if_neg (by simp)]
  exact ⟨b1, fun a => physicalPass_idle _ _ a, b2⟩

theorem compensateForBacklash_budget (cfg : Config) (a b : BACKLASH_DIRECTION) (s : Motors)
    (R : Nat) (h : Ready (WAIT_BOUND + R) s) : Ready R (compensateForBacklash cfg a b s) := by
  have hr : Ready (WAIT_BOUND + R) (backlashStart s) := h
  obtain ⟨r1, r2, r3⟩ := moveNoTask_budget cfg (backlashGcode s.eeprom a b) (backlashStart s) R hr
  rw [compensateForBacklash_eq]
  exact ⟨r1, r2, r3⟩

theorem backlashPass_budget (cfg : Config) (tasks : Nat) (l : MoveLocals) (s : Motors)
    (R : Nat) (h : Ready (WAIT_BOUND + R) s) : Ready R (backlashPass cfg tasks l s) := by
  unfold backlashPass
  split_ifs
  · exact compensateForBacklash_budget cfg _ _ s R h
  · exact Ready_mono _ _ s h (by omega)

theorem splitUpMovement_budget (cfg : Config) (s : Motors) (R : Nat)
    (h : Ready (WAIT_BOUND + R) s) : Ready R (splitUpMovement cfg false s) := by
  have hr : Ready (WAIT_BOUND + R) (segmentStart s) := h
  obtain ⟨r1, r2, r3⟩ := moveNoTask_budget cfg (endGcode s.currentValues) (segmentStart s) R hr
  rw [splitUpMovement_single]
  exact ⟨r1, r2, r3⟩

/-- A move with tasks, without bed leveling, that starts with no motor moving and
more than two wait bounds before the emergency stop ends without an emergency
stop. -/
theorem move_budget (cfg : Config) (gcode : Gcode) (tasks : Nat) (s : Motors) (R : Nat)
    (ht : tasks ≠ 0) (hb : hasFlag tasks BED_LEVELING_TASK = false)
    (h : Ready (WAIT_BOUND + (WAIT_BOUND + R)) s) : Ready R (move cfg gcode tasks s).2 := by
  by_cases ho : overflows cfg gcode tasks s
  · rw [(move_overflow cfg gcode tasks s ht ho).2]
    exact Ready_mono _ _ s h (by omega)
  · have h0 : Ready (WAIT_BOUND + (WAIT_BOUND + R)) (loopState cfg gcode tasks s) := h
    have h1 := backlashPass_budget cfg tasks (loopLocals cfg gcode tasks s) _ _ h0
    have h2 := splitUpMovement_budget cfg _ R h1
    rw [move_task_eq cfg gcode tasks s ht ho]
    unfold beforeRestore
    rw [hb]
    exact h2

theorem moveToHeight_budget (cfg : Config) (height : ℚ) (s : Motors) (R : Nat)
    (h : Ready (WAIT_BOUND + (WAIT_BOUND + R)) s) : Ready R (moveToHeight cfg height s) := by
  have h0 : Ready (WAIT_BOUND + (WAIT_BOUND + R)) { s with mode := MODES.ABSOLUTE } := h
  exact move_budget cfg (heightGcode cfg height) BACKLASH_TASK _ R (by decide) (by decide) h0

/-! ## Theorems: the stored calibration when the bed calibration aborts -/

theorem move_eeprom (cfg : Config) (gcode : Gcode) (tasks : Nat) (s : Motors) :
    (move cfg gcode tasks s).2.eeprom = s.eeprom := by
  by_cases ht : tasks = 0
  · subst ht
    rw [move_physical_eq]
    obtain ⟨-, -, -, -, -, -, -, -, -, -, -, -, -, -, -, -, a17⟩ := (moveNoTask_spec cfg gcode s).1
    exact a17
  · by_cases ho : overflows cfg gcode tasks s
    · rw [(move_overflow cfg gcode tasks s ht ho).2]
      rfl
    · rw [move_task_eq cfg gcode tasks s ht ho]
      obtain ⟨-, -, -, -, -, -, -, -, -, -, -, -, -, -, -, -, a17⟩ :=
        (splitUpMovement_spec cfg (hasFlag tasks BED_LEVELING_TASK)
          (backlashPass cfg tasks (loopLocals cfg gcode tasks s)
            (loopState cfg gcode tasks s))).2
      obtain ⟨-, -, -, -, -, -, -, -, -, -, -, -, -, -, -, -, b17⟩ :=
        (backlashPass_spec cfg tasks (loopLocals cfg gcode tasks s)
          (loopState cfg gcode tasks s)).2
      show (splitUpMovement cfg (hasFlag tasks BED_LEVELING_TASK)
          (backlashPass cfg tasks (loopLocals cfg gcode tasks s)
            (loopState cfg gcode tasks s))).eeprom = s.eeprom
      rw [a17, b17]
      rfl

theorem moveToHeight_eeprom (cfg : Config) (height : ℚ) (s : Motors) :
    (moveToHeight cfg height s).eeprom = s.eeprom := by
  unfold moveToHeight
  dsimp only
  rw [move_eeprom]

theorem homeXY_frame (cfg : Config) (sc : SensorConfig) (adjustHeight : Bool) (p : Printer) :
    (homeXY cfg sc adjustHeight p).2.motors.eeprom = p.motors.eeprom
    ∧ (homeXY cfg sc adjustHeight p).2.bedOrientationVersion = p.bedOrientationVersion := by
  have f1 := homingStroke_spec cfg sc AXES.Y (homingStart p)
  have f2 := homingStroke_spec cfg sc AXES.X (homingStroke cfg sc AXES.Y (homingStart p))
  have e1 : (homingStroke cfg sc AXES.Y (homingStart p)).motors.eeprom = p.motors.eeprom :=
    f1.2.1
  have e2 : (homingStroke cfg sc AXES.X (homingStroke cfg sc AXES.Y
      (homingStart p))).motors.eeprom = p.motors.eeprom := f2.2.1.trans e1
  have v1 : (homingStroke cfg sc AXES.Y (homingStart p)).bedOrientationVersion
      = p.bedOrientationVersion := f1.2.2.2.2.2.1
  have v2 : (homingStroke cfg sc AXES.X (homingStroke cfg sc AXES.Y
      (homingStart p))).bedOrientationVersion = p.bedOrientationVersion :=
    f2.2.2.2.2.2.1.trans v1
  rw [homeXY_eq]
  split_ifs
  · exact ⟨e1, v1⟩
  · exact ⟨e2, v2⟩
  · refine ⟨?_, v2⟩
    show (centerAfterHoming cfg adjustHeight _).eeprom = _
    have hc : ∀ s : Motors, (centerAfterHoming cfg adjustHeight s).eeprom = s.eeprom := by
      intro s
      have hm : (centerMoves cfg adjustHeight s).eeprom = s.eeprom := by
        unfold centerMoves
        dsimp only
        rw [move_eeprom, move_eeprom]
        split_ifs <;> rfl
      unfold centerAfterHoming
      dsimp only
      split_ifs <;> exact hm
    rw [hc, e2]

theorem z0Loop_spec (sc : SensorConfig) (stillValue : Int) (rs : List Reading)
    (counter : Nat) (q : Motors × Accelerometer) :
    (z0Loop sc stillValue rs counter q).1.currentValues = q.1.currentValues
    ∧ sameLogical q.1 (z0Loop sc stillValue rs counter q).1 := by
  induction rs generalizing counter q with
  | nil =>
    rw [z0Loop]
    split_ifs <;> exact ⟨rfl, sameLogical_refl _⟩
  | cons r rs ih =>
    have he := elapse_spec r.ticks q.1
    rw [z0Loop]
    dsimp only
    split_ifs <;>
      first
      | exact ⟨rfl, sameLogical_refl _⟩
      | exact he
      | exact ⟨(ih _ _).1.trans he.1, sameLogical_trans _ _ _ he.2 (ih _ _).2⟩

theorem z0Descent_eeprom (cfg : Config) (sc : SensorConfig) (session : List Reading)
    (q : Motors × Accelerometer) :
    (z0Descent cfg sc session q).1.eeprom = q.1.eeprom := by
  unfold z0Descent
  dsimp only
  cases session with
  | nil => rfl
  | cons r0 rs =>
    dsimp only
    split_ifs
    · obtain ⟨-, -, -, -, -, -, -, -, -, -, -, -, -, -, -, -, -, a17⟩ :=
        z0Loop_spec sc (readAccelerationValues r0 q.2).2.yAcceleration rs 0
          (z0Setup cfg q.1, (readAccelerationValues r0 q.2).2)
      exact a17
    · rfl

theorem z0Search_eeprom (cfg : Config) (sc : SensorConfig) (maxZ : ℚ)
    (sessions : List (List Reading)) (matchCounter : Nat) (lastZ0 : ℚ)
    (q : Motors × Accelerometer) :
    (z0Search cfg sc maxZ sessions matchCounter lastZ0 q).1.1.eeprom = q.1.eeprom := by
  induction sessions generalizing matchCounter lastZ0 q with
  | nil =>
    rw [z0Search]
    split_ifs
    · exact z0Descent_eeprom cfg sc [] q
    · rfl
  | cons session rest ih =>
    have hd := z0Descent_eeprom cfg sc session q
    rw [z0Search]
    dsimp only
    split_ifs
    · exact hd
    · show (applyZ0Correction cfg sc _).eeprom = _
      unfold applyZ0Correction
      dsimp only
      rw [moveToHeight_eeprom, hd]
    · rw [ih, moveToHeight_eeprom, hd]
    · rw [ih, moveToHeight_eeprom, hd]
    · rfl

theorem moveToZ0_frame (cfg : Config) (sc : SensorConfig) (p : Printer) :
    (moveToZ0 cfg sc p).2.motors.eeprom = p.motors.eeprom
    ∧ (moveToZ0 cfg sc p).2.bedOrientationVersion = p.bedOrientationVersion := by
  have h := z0Search_eeprom cfg sc (p.motors.currentValues AXES.Z) p.sessions 0
    (p.motors.currentValues AXES.Z)
    ({ p.motors with
        currentStateOfValues := upd p.motors.currentStateOfValues AXES.Z INVALID },
      p.accelerometer)
  unfold moveToZ0
  dsimp only
  refine ⟨?_, rfl⟩
  split_ifs <;> exact h

theorem orientationLoop_version (cfg : Config) (sc : SensorConfig)
    (positions : List (ℚ × ℚ × Option BedCorner)) (p : Printer) :
    (orientationLoop cfg sc positions p).bedOrientationVersion = p.bedOrientationVersion := by
  induction positions generalizing p with
  | nil => rfl
  | cons position rest ih =>
    obtain ⟨x, y, c⟩ := position
    cases c with
    | none =>
      rw [orientationLoop]
      dsimp only
      split_ifs
      · rfl
      · rw [ih]
      · rfl
    | some c =>
      rw [orientationLoop]
      dsimp only
      split_ifs
      · rfl
      · exact (moveToZ0_frame cfg sc _).2
      · rw [ih]
        exact (moveToZ0_frame cfg sc _).2
      · rfl

theorem calibrateBedCenterZ0_version (cfg : Config) (sc : SensorConfig) (p : Printer) :
    (calibrateBedCenterZ0 cfg sc p).2.bedOrientationVersion = p.bedOrientationVersion := by
  have hh := (homeXY_frame cfg sc false
    { p with motors := moveToHeight cfg (p.motors.currentValues AXES.Z + 3) p.motors }).2
  have hz := (moveToZ0_frame cfg sc (homeXY cfg sc false
    { p with motors := moveToHeight cfg (p.motors.currentValues AXES.Z + 3) p.motors }).2).2
  unfold calibrateBedCenterZ0
  dsimp only
  split_ifs
  · exact hh
  · exact hz.trans hh
  · exact hz.trans hh
  · exact hz.trans hh
  · exact hh
  · rfl

theorem calibrateBedCenterZ0_unsaved (cfg : Config) (sc : SensorConfig) (p : Printer)
    (h : centerSaved cfg sc p = false) :
    (calibrateBedCenterZ0 cfg sc p).2.motors.eeprom = p.motors.eeprom
    ∧ ((calibrateBedCenterZ0 cfg sc p).1 = false
      ∨ (calibrateBedCenterZ0 cfg sc p).2.motors.emergencyStopOccured = true) := by
  have hm : (moveToHeight cfg (p.motors.currentValues AXES.Z + 3) p.motors).eeprom
      = p.motors.eeprom := moveToHeight_eeprom cfg _ _
  have hh := (homeXY_frame cfg sc false
    { p with motors := moveToHeight cfg (p.motors.currentValues AXES.Z + 3) p.motors }).1
  have hz := (moveToZ0_frame cfg sc (homeXY cfg sc false
    { p with motors := moveToHeight cfg (p.motors.currentValues AXES.Z + 3) p.motors }).2).1
  unfold centerSaved at h
  unfold calibrateBedCenterZ0
  dsimp only at h ⊢
  split_ifs with c1 c2 c3 c4 c5
  · exact ⟨hh.trans hm, Or.inl rfl⟩
  · exact ⟨(hz.trans hh).trans hm, Or.inl rfl⟩
  · exfalso
    simp only [Bool.not_eq_true, Bool.not_eq_true', Bool.not_eq_false] at c1 c2 c3 c4 c5
    rw [c1, c2, c3, c4, c5] at h
    cases h
  · refine ⟨(hz.trans hh).trans hm, Or.inr ?_⟩
    simpa using c5
  · refine ⟨hh.trans hm, Or.inr ?_⟩
    simpa using c3
  · refine ⟨hm, Or.inr ?_⟩
    simpa using c1

theorem updateBedChanges_frame (cfg : Config) (s : Motors) :
    (updateBedChanges cfg false s).eeprom = s.eeprom
    ∧ (updateBedChanges cfg false s).emergencyStopOccured = s.emergencyStopOccured := by
  unfold updateBedChanges
  dsimp only
  rw [if_neg (by decide)]
  exact ⟨rfl, rfl⟩

theorem orientationLoop_stopped (cfg : Config) (sc : SensorConfig)
    (positions : List (ℚ × ℚ × Option BedCorner)) (p : Printer)
    (h : p.motors.emergencyStopOccured = true) : orientationLoop cfg sc positions p = p := by
  cases positions with
  | nil => rfl
  | cons position rest =>
    rw [orientationLoop, if_neg (by rw [h]; decide)]

/-- C19 (amended): when `calibrateBedOrientation` returns after an emergency stop
or with the accelerometer not working, the calibration version marker has its
value from before the call; every stored calibration value has when the abort
comes before `calibrateBedCenterZ0` saves the bed centre Z0. -/
theorem aborted_calibration_keeps_version (cfg : Config) (sc : SensorConfig) (p : Printer)
    (h : (calibrateBedOrientation cfg sc p).2.motors.emergencyStopOccured = true
      ∨ (calibrateBedOrientation cfg sc p).2.accelerometer.isWorking = false) :
    (calibrateBedOrientation cfg sc p).2.bedOrientationVersion = p.bedOrientationVersion
    ∧ (centerSaved cfg sc p = false →
        storedCalibration (calibrateBedOrientation cfg sc p).2 = storedCalibration p) := by
  have hv := calibrateBedCenterZ0_version cfg sc p
  have hl := orientationLoop_version cfg sc calibrationPositions
    { (calibrateBedCenterZ0 cfg sc p).2 with
      motors := { (calibrateBedCenterZ0 cfg sc p).2.motors with mode := MODES.ABSOLUTE } }
  have hver : (calibrateBedOrientation cfg sc p).2.bedOrientationVersion
      = p.bedOrientationVersion := by
    unfold calibrateBedOrientation at h ⊢
    dsimp only at h ⊢
    split_ifs at h ⊢ with h1 h2
    · exact hv
    · exfalso
      simp only [Bool.and_eq_true, Bool.not_eq_true'] at h2
      rcases h with h | h
      · rw [h2.1] at h
        cases h
      · rw [h2.2] at h
        cases h
    · exact hl.trans hv
  refine ⟨hver, ?_⟩
  intro hf
  obtain ⟨he, hc⟩ := calibrateBedCenterZ0_unsaved cfg sc p hf
  have hee : (calibrateBedOrientation cfg sc p).2.motors.eeprom = p.motors.eeprom := by
    rcases hc with hc | hc
    · have hr : (calibrateBedOrientation cfg sc p).2 = (calibrateBedCenterZ0 cfg sc p).2 := by
        unfold calibrateBedOrientation
        dsimp only
        rw [if_pos (by rw [hc]; rfl)]
      rw [hr, he]
    · have ho := orientationLoop_stopped cfg sc calibrationPositions
        { (calibrateBedCenterZ0 cfg sc p).2 with
          motors := { (calibrateBedCenterZ0 cfg sc p).2.motors with mode := MODES.ABSOLUTE } }
        hc
      unfold calibrateBedOrientation
      dsimp only
      split_ifs
      · exact he
      · show (updateBedChanges cfg false _).eeprom = _
        rw [(updateBedChanges_frame cfg _).1, ho]
        exact he
      · show (updateBedChanges cfg false _).eeprom = _
        rw [(updateBedChanges_frame cfg _).1, ho]
        exact he
  unfold storedCalibration
  rw [hee, hver]

theorem jerk_deviation (i : AXES) (a b : Int) (h : |a - b| ≥ 50) :
    |(if i = AXES.Y then (jerkReading a).yAcceleration else (jerkReading a).xAcceleration)
      - (if i = AXES.Y then (jerkReading b).yAcceleration else (jerkReading b).xAcceleration)|
      ≥ (jerkAcceleration exampleSensorConfig i : Int) := by
  rw [jerkAcceleration_example]
  split_ifs <;> exact h

theorem centerAfterHoming_budget (cfg : Config) (adjustHeight : Bool) (s : Motors) (R : Nat)
    (h : Ready (WAIT_BOUND + (WAIT_BOUND + (WAIT_BOUND + (WAIT_BOUND + R)))) s) :
    Ready R (centerAfterHoming cfg adjustHeight s) := by
  have h1 : Ready (WAIT_BOUND + (WAIT_BOUND + (WAIT_BOUND + (WAIT_BOUND + R))))
      { (if adjustHeight then
          { s with currentStateOfValues := upd s.currentStateOfValues AXES.Z INVALID }
        else s) with mode := MODES.RELATIVE } := by
    cases adjustHeight <;> exact h
  have h2 := move_budget cfg
    (centerGcode cfg adjustHeight (PARAMETER_X_OFFSET ||| PARAMETER_F_OFFSET) s) BACKLASH_TASK _
    _ (by decide) (by decide) h1
  have h3 := move_budget cfg
    (centerGcode cfg adjustHeight (PARAMETER_Y_OFFSET ||| PARAMETER_Z_OFFSET) s) BACKLASH_TASK _
    _ (by decide) (by decide) h2
  have h4 : Ready R (centerMoves cfg adjustHeight s) := h3
  unfold centerAfterHoming
  dsimp only
  split_ifs <;> exact h4

/-- The homing of X and Y on two jerk signatures that take no time, with enough
time before the emergency stop for the moves to the centre: it succeeds. -/
theorem homeXY_ready (cfg : Config) (adjustHeight : Bool) (p : Printer)
    (rest : List (List Reading)) (R : Nat)
    (hsess : p.sessions = jerkSession :: jerkSession :: rest)
    (h : Ready (WAIT_BOUND + (WAIT_BOUND + (WAIT_BOUND + (WAIT_BOUND + R)))) p.motors) :
    (homeXY cfg exampleSensorConfig adjustHeight p).1 = true
    ∧ Ready R (homeXY cfg exampleSensorConfig adjustHeight p).2.motors
    ∧ (homeXY cfg exampleSensorConfig adjustHeight p).2.accelerometer.isWorking = true
    ∧ (homeXY cfg exampleSensorConfig adjustHeight p).2.sessions = rest := by
  obtain ⟨hs, hi, hb⟩ := h
  obtain ⟨y1, y2, y3, y4⟩ := homingStroke_jerk cfg exampleSensorConfig AXES.Y
    (homingStart p) (by decide) hi hs
    (jerkReading 0) (jerkReading 100) (jerkReading 200) (jerkSession :: rest) hsess
    rfl rfl rfl rfl rfl rfl
    (jerk_deviation _ _ _ (by norm_num)) (jerk_deviation _ _ _ (by norm_num))
  obtain ⟨-, -, -, -, -, -, sy7⟩ := homingStroke_spec cfg exampleSensorConfig AXES.Y
    (homingStart p)
  obtain ⟨x1, x2, x3, x4⟩ := homingStroke_jerk cfg exampleSensorConfig AXES.X
    (homingStroke cfg exampleSensorConfig AXES.Y (homingStart p))
    (by decide) sy7 y1
    (jerkReading 0) (jerkReading 100) (jerkReading 200) rest y3 rfl rfl rfl rfl rfl rfl
    (jerk_deviation _ _ _ (by norm_num)) (jerk_deviation _ _ _ (by norm_num))
  obtain ⟨-, -, -, -, -, -, sx7⟩ := homingStroke_spec cfg exampleSensorConfig AXES.X
    (homingStroke cfg exampleSensorConfig AXES.Y (homingStart p))
  have hr : Ready (WAIT_BOUND + (WAIT_BOUND + (WAIT_BOUND + (WAIT_BOUND + R))))
      (homingStroke cfg exampleSensorConfig AXES.X
        (homingStroke cfg exampleSensorConfig AXES.Y (homingStart p))).motors := by
    refine ⟨x1, sx7, ?_⟩
    rw [x4, y4]
    exact hb
  have hc := centerAfterHoming_budget cfg adjustHeight _ R hr
  have f1 : strokeFailed (homingStroke cfg exampleSensorConfig AXES.Y (homingStart p))
      = false := by
    unfold strokeFailed
    rw [y1, y2]
    rfl
  have f2 : strokeFailed (homingStroke cfg exampleSensorConfig AXES.X
      (homingStroke cfg exampleSensorConfig AXES.Y (homingStart p))) = false := by
    unfold strokeFailed
    rw [x1, x2]
    rfl
  rw [homeXY_eq, f1, f2]
  exact ⟨rfl, hc, x2, x3⟩

theorem stopMotorsStepTimer_eq (g : Globals) :
    stopMotorsStepTimer g
      = { g with motorsIsMoving := fun _ => false, stepPin := fun _ => false } := by
  unfold stopMotorsStepTimer updateMotorsStepTimer
  dsimp only
  rw [stepLoop_idle _ _ (fun _ => rfl)]

/-- A descent of `moveToZ0` on a touch signature that takes no time: the Z motor is
stopped before its first step, so the current Z stays as it was. -/
theorem z0Descent_touch (cfg : Config) (q : Motors × Accelerometer)
    (hs : q.1.emergencyStopOccured = false) :
    (z0Descent cfg exampleSensorConfig jerkSession q).1.emergencyStopOccured = false
    ∧ (∀ a, (z0Descent cfg exampleSensorConfig jerkSession q).1.globals.motorsIsMoving a = false)
    ∧ (z0Descent cfg exampleSensorConfig jerkSession q).1.ticksToStop = q.1.ticksToStop
    ∧ (z0Descent cfg exampleSensorConfig jerkSession q).2.isWorking = true
    ∧ (z0Descent cfg exampleSensorConfig jerkSession q).1.currentValues AXES.Z
        = q.1.currentValues AXES.Z := by
  have hmv : (z0Setup cfg q.1).globals.motorsIsMoving AXES.Z = true := by
    show upd q.1.globals.motorsIsMoving AXES.Z true AXES.Z = true
    exact upd_at _ _ _
  have hst : (z0Setup cfg q.1).globals.motorsNumberOfSteps AXES.Z = UINT32_MAX := by
    show upd q.1.globals.motorsNumberOfSteps AXES.Z UINT32_MAX AXES.Z = UINT32_MAX
    exact upd_at _ _ _
  have hss : (z0Setup cfg q.1).emergencyStopOccured = false := hs
  have hc : ((z0Setup cfg q.1).globals.motorsIsMoving AXES.Z
      && !(z0Setup cfg q.1).emergencyStopOccured) = true := by
    rw [hmv, hss]
    rfl
  have e0 : ∀ s : Motors, elapse 0 s = s := fun _ => rfl
  have hl : z0Loop exampleSensorConfig 0 [jerkReading 100, jerkReading 200] 0
      (z0Setup cfg q.1, { isWorking := true, xAcceleration := 0, yAcceleration := 0 })
      = ({ z0Setup cfg q.1 with
            globals :=
              { (z0Setup cfg q.1).globals with
                motorsIsMoving := upd (z0Setup cfg q.1).globals.motorsIsMoving AXES.Z false } },
          { isWorking := true, xAcceleration := 200, yAcceleration := 200 }) := by
    rw [z0Loop]
    dsimp only
    rw [if_pos hc]
    have r1 : readAccelerationValues (jerkReading 100)
        { isWorking := true, xAcceleration := 0, yAcceleration := 0 }
        = (true, { isWorking := true, xAcceleration := 100, yAcceleration := 100 }) := rfl
    have t1 : (jerkReading 100).ticks = 0 := rfl
    rw [r1, t1, e0]
    dsimp only
    rw [if_pos rfl, if_pos (by norm_num [exampleSensorConfig]), if_neg (by decide), z0Loop]
    dsimp only
    rw [if_pos hc]
    have r2 : readAccelerationValues (jerkReading 200)
        { isWorking := true, xAcceleration := 100, yAcceleration := 100 }
        = (true, { isWorking := true, xAcceleration := 200, yAcceleration := 200 }) := rfl
    have t2 : (jerkReading 200).ticks = 0 := rfl
    rw [r2, t2, e0]
    dsimp only
    rw [if_pos rfl, if_pos (by norm_num [exampleSensorConfig]), if_pos (by decide), z0Loop]
    dsimp only
    rw [upd_at]
    rfl
  have hd : z0Descent cfg exampleSensorConfig jerkSession q
      = ({ z0Setup cfg q.1 with
            globals :=
              stopMotorsStepTimer
                { (z0Setup cfg q.1).globals with
                  motorsIsMoving := upd (z0Setup cfg q.1).globals.motorsIsMoving AXES.Z false }
            currentValues :=
              upd (z0Setup cfg q.1).currentValues AXES.Z
                ((z0Setup cfg q.1).currentValues AXES.Z
                  - ((UINT32_MAX - (stopMotorsStepTimer
                      { (z0Setup cfg q.1).globals with
                        motorsIsMoving :=
                          upd (z0Setup cfg q.1).globals.motorsIsMoving AXES.Z false
                      }).motorsNumberOfSteps AXES.Z : Nat) : ℚ)
                    / (stepsPerMmOf (z0Setup cfg q.1).eeprom AXES.Z * MICROSTEPS_PER_STEP)) },
          { isWorking := true, xAcceleration := 200, yAcceleration := 200 }) := by
    unfold z0Descent jerkSession
    dsimp only
    have r0 : readAccelerationValues (jerkReading 0) q.2
        = (true, { isWorking := true, xAcceleration := 0, yAcceleration := 0 }) := rfl
    rw [r0]
    dsimp only
    rw [if_pos rfl, hl]
  rw [hd]
  refine ⟨hs, fun a => stopMotorsStepTimer_idle _ a, rfl, rfl, ?_⟩
  dsimp only
  rw [upd_at, stopMotorsStepTimer_eq]
  dsimp only
  rw [hst, Nat.sub_self, Nat.cast_zero, zero_div, sub_zero]
  rfl

theorem moveToHeight_target (cfg : Config) (height : ℚ) (s : Motors)
    (h : ¬ overflows cfg (heightGcode cfg height) BACKLASH_TASK { s with mode := MODES.ABSOLUTE }) :
    (moveToHeight cfg height s).currentValues AXES.Z = height := by
  have ht : BACKLASH_TASK ≠ 0 := by decide
  have hZ := move_task_currentValues cfg (heightGcode cfg height) BACKLASH_TASK
    { s with mode := MODES.ABSOLUTE } ht h AXES.Z (by decide)
  obtain ⟨-, -, fZ, -⟩ := heightGcode_flags cfg height
  rw [fZ, if_pos rfl] at hZ
  have hres : ∀ z, resolvedTarget cfg BACKLASH_TASK { s with mode := MODES.ABSOLUTE } AXES.Z
      height z = height := by
    intro z
    have hb : hasFlag BACKLASH_TASK HANDLE_RECEIVED_COMMAND_TASK = false := by decide
    unfold resolvedTarget
    rw [hb, if_neg (fun hc => absurd hc.1 (by decide))]
    unfold unclampedTarget
    dsimp only
    rw [hb, if_neg (by decide : ¬ MODES.ABSOLUTE = MODES.RELATIVE),
      if_neg (fun hc => absurd hc.1 (by decide))]
  have hcv : (moveToHeight cfg height s).currentValues
      = upd (move cfg (heightGcode cfg height) BACKLASH_TASK
          { s with mode := MODES.ABSOLUTE }).2.currentValues AXES.F (s.currentValues AXES.F) := rfl
  rw [hcv]
  unfold upd
  rw [if_neg (by decide), hZ]
  exact hres _

theorem moveToHeight_height (cfg : Config) (height : ℚ) (s : Motors) :
    (moveToHeight cfg height s).currentValues AXES.Z = height
    ∨ (moveToHeight cfg height s).currentValues AXES.Z = s.currentValues AXES.Z := by
  by_cases ho : overflows cfg (heightGcode cfg height) BACKLASH_TASK
      { s with mode := MODES.ABSOLUTE }
  · right
    have hm := (move_overflow cfg (heightGcode cfg height) BACKLASH_TASK
      { s with mode := MODES.ABSOLUTE } (by decide) ho).2
    have hcv : (moveToHeight cfg height s).currentValues
        = upd (move cfg (heightGcode cfg height) BACKLASH_TASK
            { s with mode := MODES.ABSOLUTE }).2.currentValues AXES.F (s.currentValues AXES.F) :=
      rfl
    rw [hcv, upd_off _ _ _ _ (by decide), hm]
    exact setFeedRate_currentValues cfg (heightGcode cfg height) BACKLASH_TASK
      { s with mode := MODES.ABSOLUTE } AXES.Z (by decide)
  · left
    exact moveToHeight_target cfg height s ho

/-- The search of `moveToZ0` on two touch signatures that take no time, started at
the height that is also its highest height, with enough time before the emergency
stop: the second descent ends the search, which applies the correction. -/
theorem z0Search_touch (cfg : Config) (rest : List (List Reading)) (q : Motors × Accelerometer)
    (R : Nat) (h : Ready (WAIT_BOUND + (WAIT_BOUND + (WAIT_BOUND + (WAIT_BOUND + R)))) q.1) :
    Ready R (z0Search cfg exampleSensorConfig (q.1.currentValues AXES.Z)
        (jerkSession :: jerkSession :: rest) 0 (q.1.currentValues AXES.Z) q).1.1
    ∧ (z0Search cfg exampleSensorConfig (q.1.currentValues AXES.Z)
        (jerkSession :: jerkSession :: rest) 0 (q.1.currentValues AXES.Z) q).1.2.isWorking = true
    ∧ (z0Search cfg exampleSensorConfig (q.1.currentValues AXES.Z)
        (jerkSession :: jerkSession :: rest) 0 (q.1.currentValues AXES.Z) q).2 = rest := by
  obtain ⟨hs, hi, hb⟩ := h
  obtain ⟨a1, a2, a3, a4, a5⟩ := z0Descent_touch cfg q hs
  have hr1 : Ready (WAIT_BOUND + (WAIT_BOUND + (WAIT_BOUND + (WAIT_BOUND + R))))
      (z0Descent cfg exampleSensorConfig jerkSession q).1 := ⟨a1, a2, by rw [a3]; exact hb⟩
  have hu := moveToHeight_budget cfg
    (min ((z0Descent cfg exampleSensorConfig jerkSession q).1.currentValues AXES.Z + 2)
      (q.1.currentValues AXES.Z))
    (z0Descent cfg exampleSensorConfig jerkSession q).1 (WAIT_BOUND + (WAIT_BOUND + R)) hr1
  have hz : (moveToHeight cfg
      (min ((z0Descent cfg exampleSensorConfig jerkSession q).1.currentValues AXES.Z + 2)
        (q.1.currentValues AXES.Z))
      (z0Descent cfg exampleSensorConfig jerkSession q).1).currentValues AXES.Z
      = q.1.currentValues AXES.Z := by
    rcases moveToHeight_height cfg
      (min ((z0Descent cfg exampleSensorConfig jerkSession q).1.currentValues AXES.Z + 2)
        (q.1.currentValues AXES.Z))
      (z0Descent cfg exampleSensorConfig jerkSession q).1 with e | e
    · rw [e, a5]
      exact min_eq_right (by linarith)
    · rw [e, a5]
  obtain ⟨b1, b2, b3, b4, b5⟩ := z0Descent_touch cfg
    (moveToHeight cfg
      (min ((z0Descent cfg exampleSensorConfig jerkSession q).1.currentValues AXES.Z + 2)
        (q.1.currentValues AXES.Z))
      (z0Descent cfg exampleSensorConfig jerkSession q).1,
      (z0Descent cfg exampleSensorConfig jerkSession q).2) hu.1
  have hr2 : Ready (WAIT_BOUND + (WAIT_BOUND + R))
      (z0Descent cfg exampleSensorConfig jerkSession
        (moveToHeight cfg
          (min ((z0Descent cfg exampleSensorConfig jerkSession q).1.currentValues AXES.Z + 2)
            (q.1.currentValues AXES.Z))
          (z0Descent cfg exampleSensorConfig jerkSession q).1,
          (z0Descent cfg exampleSensorConfig jerkSession q).2)).1 :=
    ⟨b1, b2, by rw [b3]; exact hu.2.2⟩
  have hcorr : ∀ s : Motors, Ready (WAIT_BOUND + (WAIT_BOUND + R)) s →
      Ready R (applyZ0Correction cfg exampleSensorConfig s) := by
    intro s hs
    exact moveToHeight_budget cfg _ s R hs
  have hc := hcorr _ hr2
  rw [z0Search]
  dsimp only
  rw [if_pos (by rw [hs]; rfl), if_neg (by rw [a1, a4]; decide),
    if_pos (by rw [a5, sub_self, abs_zero]; norm_num), if_neg (by decide), z0Search]
  dsimp only
  rw [if_pos (by rw [hu.1]; rfl), if_neg (by rw [b1, b4]; decide),
    if_pos (by rw [b5]; dsimp only; rw [hz, a5, sub_self, abs_zero]; norm_num),
    if_pos (by decide)]
  exact ⟨hc, b4, rfl⟩

/-- The Z-touch procedure on two touch signatures that take no time, with enough time
before the emergency stop: it succeeds. -/
theorem moveToZ0_touch (cfg : Config) (p : Printer) (rest : List (List Reading)) (R : Nat)
    (hsess : p.sessions = jerkSession :: jerkSession :: rest)
    (h : Ready (WAIT_BOUND + (WAIT_BOUND + (WAIT_BOUND + (WAIT_BOUND + R)))) p.motors) :
    (moveToZ0 cfg exampleSensorConfig p).1 = true
    ∧ Ready R (moveToZ0 cfg exampleSensorConfig p).2.motors
    ∧ (moveToZ0 cfg exampleSensorConfig p).2.accelerometer.isWorking = true
    ∧ (moveToZ0 cfg exampleSensorConfig p).2.sessions = rest := by
  have h0 : Ready (WAIT_BOUND + (WAIT_BOUND + (WAIT_BOUND + (WAIT_BOUND + R))))
      ({ p.motors with
          currentStateOfValues := upd p.motors.currentStateOfValues AXES.Z INVALID },
        p.accelerometer).1 := h
  obtain ⟨c1, c2, c3⟩ := z0Search_touch cfg rest
    ({ p.motors with
        currentStateOfValues := upd p.motors.currentStateOfValues AXES.Z INVALID },
      p.accelerometer) R h0
  unfold moveToZ0
  dsimp only at c1 c2 c3 ⊢
  rw [hsess]
  refine ⟨c2, ?_, c2, c3⟩
  split_ifs <;> exact c1

theorem saveZAsBedCenterZ0_spec (cfg : Config) (s : Motors) (R : Nat) (h : Ready R s) :
    Ready R (saveZAsBedCenterZ0 cfg s)
    ∧ (saveZAsBedCenterZ0 cfg s).eeprom.BED_HEIGHT_OFFSET = 0 := by
  unfold saveZAsBedCenterZ0 updateBedChanges
  dsimp only
  rw [if_neg (by decide)]
  exact ⟨h, rfl⟩

/-- The calibration of the bed centre Z0 on the readings of two homing strokes and
two Z touches that take no time, with enough time before the emergency stop: it
succeeds and has erased the stored bed height offset. -/
theorem calibrateBedCenterZ0_touch (cfg : Config) (p : Printer) (rest : List (List Reading))
    (R : Nat)
    (hsess : p.sessions = jerkSession :: jerkSession :: jerkSession :: jerkSession :: rest)
    (h : Ready (waitBudget 12 R) p.motors) :
    (calibrateBedCenterZ0 cfg exampleSensorConfig p).1 = true
    ∧ Ready R (calibrateBedCenterZ0 cfg exampleSensorConfig p).2.motors
    ∧ (calibrateBedCenterZ0 cfg exampleSensorConfig p).2.accelerometer.isWorking = true
    ∧ (calibrateBedCenterZ0 cfg exampleSensorConfig p).2.sessions = rest
    ∧ (calibrateBedCenterZ0 cfg exampleSensorConfig p).2.motors.eeprom.BED_HEIGHT_OFFSET = 0 := by
  have h1 : Ready (waitBudget 10 R)
      (moveToHeight cfg (p.motors.currentValues AXES.Z + 3) p.motors) :=
    moveToHeight_budget cfg _ p.motors (waitBudget 10 R) h
  obtain ⟨x1, x2, x3, x4⟩ := homeXY_ready cfg false
    { p with motors := moveToHeight cfg (p.motors.currentValues AXES.Z + 3) p.motors }
    (jerkSession :: jerkSession :: rest) (waitBudget 6 R) hsess h1
  obtain ⟨z1, z2, z3, z4⟩ := moveToZ0_touch cfg
    (homeXY cfg exampleSensorConfig false
      { p with motors := moveToHeight cfg (p.motors.currentValues AXES.Z + 3) p.motors }).2
    rest (waitBudget 2 R) x4 x2
  obtain ⟨s1, s2⟩ := saveZAsBedCenterZ0_spec cfg
    (moveToZ0 cfg exampleSensorConfig (homeXY cfg exampleSensorConfig false
      { p with motors := moveToHeight cfg (p.motors.currentValues AXES.Z + 3) p.motors }).2).2.motors
    (waitBudget 2 R) z2
  have m1 := moveToHeight_budget cfg 3 _ R s1
  unfold calibrateBedCenterZ0
  dsimp only
  rw [if_pos (by rw [h1.1]; rfl), if_neg (by rw [x1]; decide), if_pos (by rw [x2.1]; rfl),
    if_neg (by rw [z1]; decide), if_pos (by rw [z2.1]; rfl)]
  refine ⟨rfl, m1, z3, z4, ?_⟩
  show (moveToHeight cfg 3 _).eeprom.BED_HEIGHT_OFFSET = 0
  rw [moveToHeight_eeprom]
  exact s2

/-- The Z-touch procedure without readings: the accelerometer fails at the still
value of the first descent. -/
theorem moveToZ0_no_reading (cfg : Config) (sc : SensorConfig) (p : Printer)
    (hsess : p.sessions = []) (hs : p.motors.emergencyStopOccured = false) :
    (moveToZ0 cfg sc p).1 = false
    ∧ (moveToZ0 cfg sc p).2.accelerometer.isWorking = false
    ∧ (moveToZ0 cfg sc p).2.motors.emergencyStopOccured = false := by
  unfold moveToZ0
  dsimp only
  rw [hsess, z0Search]
  dsimp only
  rw [if_pos (by rw [hs]; rfl)]
  refine ⟨rfl, rfl, ?_⟩
  have hd : (z0Descent cfg sc []
      ({ p.motors with
          currentStateOfValues := upd p.motors.currentStateOfValues AXES.Z INVALID },
        p.accelerometer)).1.emergencyStopOccured = false := hs
  split_ifs <;> exact hd

/-- The loop over the calibration positions without readings, with enough time
before the emergency stop: the accelerometer fails at the front left corner. -/
theorem orientationLoop_no_reading (cfg : Config) (sc : SensorConfig) (p : Printer) (R : Nat)
    (hsess : p.sessions = []) (h : Ready (waitBudget 6 R) p.motors) :
    (orientationLoop cfg sc calibrationPositions p).accelerometer.isWorking = false
    ∧ (orientationLoop cfg sc calibrationPositions p).motors.emergencyStopOccured = false
    ∧ (orientationLoop cfg sc calibrationPositions p).motors.eeprom = p.motors.eeprom := by
  have m1 := move_budget cfg
    (positionGcode cfg (BED_CENTER_X - BED_CALIBRATION_POSITIONS_DISTANCE_FROM_CENTER)
      BED_CENTER_Y) BACKLASH_TASK p.motors (waitBudget 4 R) (by decide) (by decide) h
  have m2 := moveToHeight_budget cfg 3 _ (waitBudget 2 R) m1
  have m3 := move_budget cfg
    (positionGcode cfg (BED_CENTER_X - BED_CALIBRATION_POSITIONS_DISTANCE_FROM_CENTER)
      (BED_CENTER_Y - BED_CALIBRATION_POSITIONS_DISTANCE_FROM_CENTER)) BACKLASH_TASK _ R
    (by decide) (by decide) m2
  obtain ⟨z1, z2, z3⟩ := moveToZ0_no_reading cfg sc
    { p with
      motors :=
        (move cfg
          (positionGcode cfg (BED_CENTER_X - BED_CALIBRATION_POSITIONS_DISTANCE_FROM_CENTER)
            (BED_CENTER_Y - BED_CALIBRATION_POSITIONS_DISTANCE_FROM_CENTER)) BACKLASH_TASK
          (moveToHeight cfg 3
            (move cfg
              (positionGcode cfg
                (BED_CENTER_X - BED_CALIBRATION_POSITIONS_DISTANCE_FROM_CENTER) BED_CENTER_Y)
              BACKLASH_TASK p.motors).2)).2 }
    hsess m3.1
  unfold calibrationPositions
  rw [orientationLoop]
  dsimp only
  rw [if_pos (by rw [h.1]; rfl), if_neg (by rw [m1.1]; decide), orientationLoop]
  dsimp only
  rw [if_pos (by rw [m2.1]; rfl), if_neg (by rw [m3.1]; decide), if_pos (by rw [z1]; rfl)]
  refine ⟨z2, z3, ?_⟩
  rw [(moveToZ0_frame cfg sc _).1]
  dsimp only
  rw [move_eeprom, moveToHeight_eeprom, move_eeprom]

/-- A calibration run on the readings of two homing strokes and two Z touches that
take no time and no reading after them, with enough time before the emergency stop:
the bed centre Z0 is found and saved, and the accelerometer fails at the first
corner. -/
theorem calibrateBedOrientation_no_reading (cfg : Config) (p : Printer)
    (hsess : p.sessions = [jerkSession, jerkSession, jerkSession, jerkSession])
    (h : Ready (waitBudget 12 (waitBudget 6 0)) p.motors) :
    (calibrateBedOrientation cfg exampleSensorConfig p).1 = false
    ∧ (calibrateBedOrientation cfg exampleSensorConfig p).2.accelerometer.isWorking = false
    ∧ (calibrateBedOrientation cfg exampleSensorConfig p).2.motors.emergencyStopOccured = false
    ∧ (calibrateBedOrientation cfg exampleSensorConfig p).2.motors.eeprom.BED_HEIGHT_OFFSET
        = 0 := by
  obtain ⟨c1, c2, c3, c4, c5⟩ := calibrateBedCenterZ0_touch cfg p [] (waitBudget 6 0) hsess h
  have c2a : Ready (waitBudget 6 0)
      ({ (calibrateBedCenterZ0 cfg exampleSensorConfig p).2 with
        motors :=
          { (calibrateBedCenterZ0 cfg exampleSensorConfig p).2.motors with
            mode := MODES.ABSOLUTE } } : Printer).motors := c2
  obtain ⟨o1, o2, o3⟩ := orientationLoop_no_reading cfg exampleSensorConfig
    { (calibrateBedCenterZ0 cfg exampleSensorConfig p).2 with
      motors :=
        { (calibrateBedCenterZ0 cfg exampleSensorConfig p).2.motors with
          mode := MODES.ABSOLUTE } }
    0 c4 c2a
  have hu : ∀ s : Motors, (updateBedChanges cfg false s).eeprom = s.eeprom
      ∧ (updateBedChanges cfg false s).emergencyStopOccured = s.emergencyStopOccured := by
    intro s
    unfold updateBedChanges
    dsimp only
    rw [if_neg (by decide)]
    exact ⟨rfl, rfl⟩
  unfold calibrateBedOrientation
  dsimp only
  rw [if_neg (by rw [c1]; decide)]
  refine ⟨o1, o1, ?_, ?_⟩
  · show (updateBedChanges cfg false _).emergencyStopOccured = false
    rw [(hu _).2]
    exact o2
  · show (updateBedChanges cfg false _).eeprom.BED_HEIGHT_OFFSET = 0
    rw [(hu _).1, o3]
    exact c5

theorem erasedOffset_ready :
    erasedOffsetPrinter.sessions = [jerkSession, jerkSession, jerkSession, jerkSession]
    ∧ Ready (waitBudget 12 (waitBudget 6 0)) erasedOffsetPrinter.motors := by
  refine ⟨rfl, rfl, fun _ => rfl, ?_⟩
  show waitBudget 12 (waitBudget 6 0) ≤ 1000000000000000000000000000000
  norm_num [waitBudget, WAIT_BOUND]

theorem erasedOffset_before :
    erasedOffsetPrinter.motors.eeprom.BED_HEIGHT_OFFSET = 1 / 2 := by
  unfold erasedOffsetPrinter
  dsimp only

/-- C19 (as stated, refuted): the stored bed height offset is 1/2 mm; the bed centre
Z0 is found and saved, and the accelerometer fails at the still value of the first
corner. `calibrateBedOrientation` returns `false` with the accelerometer not
working, and the stored bed height offset is 0. -/
theorem failed_reading_after_centre_erases_height_offset :
    erasedOffsetPrinter.motors.eeprom.BED_HEIGHT_OFFSET = 1 / 2
    ∧ (calibrateBedOrientation exampleConfig exampleSensorConfig erasedOffsetPrinter).1 = false
    ∧ (calibrateBedOrientation exampleConfig exampleSensorConfig
        erasedOffsetPrinter).2.accelerometer.isWorking = false
    ∧ (calibrateBedOrientation exampleConfig exampleSensorConfig
        erasedOffsetPrinter).2.motors.eeprom.BED_HEIGHT_OFFSET = 0 :=
  ⟨erasedOffset_before,
    (calibrateBedOrientation_no_reading exampleConfig erasedOffsetPrinter erasedOffset_ready.1
      erasedOffset_ready.2).1,
    (calibrateBedOrientation_no_reading exampleConfig erasedOffsetPrinter erasedOffset_ready.1
      erasedOffset_ready.2).2.1,
    (calibrateBedOrientation_no_reading exampleConfig erasedOffsetPrinter erasedOffset_ready.1
      erasedOffset_ready.2).2.2.2⟩

theorem aborted_calibration_keeps_version_witness :
    ((calibrateBedOrientation exampleConfig exampleSensorConfig
          erasedOffsetPrinter).2.motors.emergencyStopOccured = true
      ∨ (calibrateBedOrientation exampleConfig exampleSensorConfig
          erasedOffsetPrinter).2.accelerometer.isWorking = false)
    ∧ (calibrateBedOrientation exampleConfig exampleSensorConfig
          erasedOffsetPrinter).2.bedOrientationVersion
        = erasedOffsetPrinter.bedOrientationVersion
    ∧ (centerSaved exampleConfig exampleSensorConfig erasedOffsetPrinter = false →
        storedCalibration
            (calibrateBedOrientation exampleConfig exampleSensorConfig erasedOffsetPrinter).2
          = storedCalibration erasedOffsetPrinter) :=
  ⟨Or.inr (calibrateBedOrientation_no_reading exampleConfig erasedOffsetPrinter
      erasedOffset_ready.1 erasedOffset_ready.2).2.1,
    aborted_calibration_keeps_version exampleConfig exampleSensorConfig erasedOffsetPrinter
      (Or.inr (calibrateBedOrientation_no_reading exampleConfig erasedOffsetPrinter
        erasedOffset_ready.1 erasedOffset_ready.2).2.1)⟩

/-! ## Theorems: the search for Z0 of the Z touch -/

theorem elapse_budget (n : Nat) :
    ∀ s : Motors, n ≤ s.ticksToStop →
      elapse n s
        = { s with globals := ticks n s.globals, ticksToStop := s.ticksToStop - n } := by
  induction n with
  | zero =>
    intro s _
    rfl
  | succ n ih =>
    intro s h
    rw [elapse, if_neg (by omega), ih _ (by dsimp only; omega)]
    dsimp only
    rw [ticks, Nat.sub_sub, Nat.add_comm 1 n]

/-- A moving motor with a delay of one tick and skipping far away issues a step on
every tick. -/
theorem axisTicks_unit_delay (k : Nat) :
    ∀ x : AxisState, x.moving = true → x.delay = 1 → x.delayCounter = 0 →
      x.skips = 4294967295 → x.skipsCounter + k ≤ 4294967295 → k < x.steps →
      x.steps < 4294967296 →
      (axisTicks k x).steps = x.steps - k ∧ (axisTicks k x).moving = true := by
  induction k with
  | zero =>
    intro x hm _ _ _ _ _ _
    exact ⟨rfl, hm⟩
  | succ k ih =>
    intro x hm hd hc hs hsc hk hst
    have hok : AxisOk x := ⟨by omega, hst, by omega, by omega, by omega, by omega, by omega, hm⟩
    rcases axisTick_cases x hok with ⟨-, hb, -⟩ | ⟨-, hb, -⟩ | ⟨ha, -, he⟩
    · omega
    · omega
    · have hcs : countedSkips x = x.skipsCounter + 1 := by
        unfold countedSkips
        rw [if_pos (by omega)]
      have hmv : decide (x.steps ≠ 1) = true := by
        apply decide_eq_true
        omega
      rw [axisTicks, he, hcs, hmv]
      obtain ⟨i1, i2⟩ := ih
        { x with pin := true, skipsCounter := x.skipsCounter + 1, delayCounter := 0,
                 steps := x.steps - 1, moving := true }
        rfl hd rfl hs (by dsimp only; omega) (by dsimp only; omega) (by dsimp only; omega)
      refine ⟨?_, i2⟩
      rw [i1]
      dsimp only
      omega

theorem descent_cycles (g : Globals) (h : g.motorsNumberOfSteps AXES.Z = UINT32_MAX) :
    getMovementsNumberOfCycles 200000 g AXES.Z 100 CALIBRATING_Z_FEED_RATE = 4398046510080 := by
  unfold getMovementsNumberOfCycles
  rw [h]
  unfold UINT32_MAX MICROSTEPS_PER_STEP MOTORS_STEP_TIMER_PERIOD CALIBRATING_Z_FEED_RATE
  norm_num

theorem descent_delay : stepDelayFor 4398046510080 UINT32_MAX = 1 := by
  have h1 : toUInt32 (getValueInRange
      ((4398046510080 : ℚ) / (MOTORS_STEP_TIMER_PERIOD : ℕ) / ((UINT32_MAX : ℕ) : ℚ)) 1
      (UINT32_MAX : ℕ)) = 1 := by
    have : getValueInRange
        ((4398046510080 : ℚ) / (MOTORS_STEP_TIMER_PERIOD : ℕ) / ((UINT32_MAX : ℕ) : ℚ)) 1
        (UINT32_MAX : ℕ) = ((1 : ℕ) : ℚ) := by
      unfold getValueInRange UINT32_MAX MOTORS_STEP_TIMER_PERIOD
      norm_num
    rw [this, toUInt32_natCast 1 (by norm_num)]
  unfold stepDelayFor
  simp only [h1]
  unfold UINT32_MAX MOTORS_STEP_TIMER_PERIOD
  norm_num

theorem descent_skips : delaySkipsFor 4398046510080 UINT32_MAX = 4294967295 := by
  unfold delaySkipsFor
  simp only [descent_delay]
  have : getValueInRange (((UINT32_MAX : ℕ) : ℚ) * ((1 : ℕ) : ℚ)
      / ((4398046510080 : ℚ) / ((MOTORS_STEP_TIMER_PERIOD : ℕ) : ℚ)
        - (((UINT32_MAX : ℕ) : ℚ) * ((1 : ℕ) : ℚ) - 1))) 0
      (UINT32_MAX : ℕ) = ((4294967295 : ℕ) : ℚ) := by
    unfold getValueInRange UINT32_MAX MOTORS_STEP_TIMER_PERIOD
    norm_num
  rw [this, toUInt32_natCast 4294967295 (by norm_num)]
  unfold UINT32_MAX MOTORS_STEP_TIMER_PERIOD
  norm_num

/-- A move to a height at most 1000 mm away, of a Z motor with 100 steps/mm and no
carry-over, reaches the height. -/
theorem moveToHeight_reaches (cfg : Config) (height : ℚ) (s : Motors)
    (he : stepsPerMmOf s.eeprom AXES.Z = 100)
    (hr : s.globals.motorsNumberOfRemainingSteps AXES.Z = 0)
    (hd : |height - s.currentValues AXES.Z| ≤ 1000) :
    (moveToHeight cfg height s).currentValues AXES.Z = height := by
  obtain ⟨fX, fY, -, fE⟩ := heightGcode_flags cfg height
  apply moveToHeight_target cfg height s
  apply not_overflows_of_steps_le
  intro i hi hp z
  unfold moveOrder at hi
  simp only [List.mem_cons, List.mem_singleton, List.not_mem_nil, or_false] at hi
  rcases hi with rfl | rfl | rfl | rfl
  · rw [fE] at hp
    cases hp
  · rw [resolvedTarget_absolute _ _ _ _ _ _ (by decide) (by decide) rfl]
    have hv : (gcodeParameter (heightGcode cfg height) AXES.Z).2 = height := rfl
    rw [hv]
    unfold totalNumberOfSteps MICROSTEPS_PER_STEP UINT32_MAX
    dsimp only
    rw [he, hr]
    have h0 : (if (s.directionPin AXES.Z
        != directionLevel AXES.Z (decide (height < s.currentValues AXES.Z))) = true
        then -(0 : ℚ) else 0) = 0 := by
      split_ifs <;> norm_num
    rw [h0]
    push_cast
    linarith
  · rw [fY] at hp
    cases hp
  · rw [fX] at hp
    cases hp

theorem z0Loop_travel (s1 : Motors) (k : Nat)
    (hm : s1.globals.motorsIsMoving AXES.Z = true) (hs : s1.emergencyStopOccured = false)
    (hb : k ≤ s1.ticksToStop) (hm2 : (ticks k s1.globals).motorsIsMoving AXES.Z = true) :
    z0Loop exampleSensorConfig 0
        [{ jerkReading 0 with ticks := k }, jerkReading 100, jerkReading 200] 0
        (s1, { isWorking := true, xAcceleration := 0, yAcceleration := 0 })
      = ({ s1 with
            globals :=
              { ticks k s1.globals with
                motorsIsMoving := upd (ticks k s1.globals).motorsIsMoving AXES.Z false }
            ticksToStop := s1.ticksToStop - k },
          { isWorking := true, xAcceleration := 200, yAcceleration := 200 }) := by
  have hc : (s1.globals.motorsIsMoving AXES.Z && !s1.emergencyStopOccured) = true := by
    rw [hm, hs]
    rfl
  have e0 : ∀ s : Motors, elapse 0 s = s := fun _ => rfl
  have hc2 : (({ s1 with globals := ticks k s1.globals, ticksToStop := s1.ticksToStop - k }
      : Motors).globals.motorsIsMoving AXES.Z
      && !({ s1 with globals := ticks k s1.globals, ticksToStop := s1.ticksToStop - k }
      : Motors).emergencyStopOccured) = true := by
    dsimp only
    rw [hm2, hs]
    rfl
  rw [z0Loop]
  dsimp only
  rw [if_pos hc]
  have r1 : readAccelerationValues { jerkReading 0 with ticks := k }
      { isWorking := true, xAcceleration := 0, yAcceleration := 0 }
      = (true, { isWorking := true, xAcceleration := 0, yAcceleration := 0 }) := rfl
  rw [r1, elapse_budget k s1 hb]
  dsimp only
  rw [if_pos rfl, if_neg (by norm_num [exampleSensorConfig]), z0Loop]
  dsimp only
  rw [if_pos hc2]
  have r2 : readAccelerationValues (jerkReading 100)
      { isWorking := true, xAcceleration := 0, yAcceleration := 0 }
      = (true, { isWorking := true, xAcceleration := 100, yAcceleration := 100 }) := rfl
  have t2 : (jerkReading 100).ticks = 0 := rfl
  rw [r2, t2, e0]
  dsimp only
  rw [if_pos rfl, if_pos (by norm_num [exampleSensorConfig]), if_neg (by decide), z0Loop]
  dsimp only
  rw [if_pos hc2]
  have r3 : readAccelerationValues (jerkReading 200)
      { isWorking := true, xAcceleration := 100, yAcceleration := 100 }
      = (true, { isWorking := true, xAcceleration := 200, yAcceleration := 200 }) := rfl
  have t3 : (jerkReading 200).ticks = 0 := rfl
  rw [r3, t3, e0]
  dsimp only
  rw [if_pos rfl, if_pos (by norm_num [exampleSensorConfig]), if_pos (by decide), z0Loop]
  dsimp only
  rw [upd_at]
  rfl

/-- A descent of `moveToZ0` that travels for `k` ticks before the touch, of a Z motor
with 100 steps/mm at a clock of 200 kHz: the motor issues a step on every tick, so the
current Z goes down by `k / 800` mm. -/
theorem z0Descent_travel (q : Motors × Accelerometer) (k R : Nat)
    (hs : q.1.emergencyStopOccured = false) (hb : k + R ≤ q.1.ticksToStop)
    (hk : k < 4294967295) (he : stepsPerMmOf q.1.eeprom AXES.Z = 100) :
    (z0Descent (clockConfig 200000) exampleSensorConfig (travelSession k)
        q).1.emergencyStopOccured = false
    ∧ (∀ a, (z0Descent (clockConfig 200000) exampleSensorConfig (travelSession k)
        q).1.globals.motorsIsMoving a = false)
    ∧ R ≤ (z0Descent (clockConfig 200000) exampleSensorConfig (travelSession k) q).1.ticksToStop
    ∧ (z0Descent (clockConfig 200000) exampleSensorConfig (travelSession k) q).2.isWorking = true
    ∧ (z0Descent (clockConfig 200000) exampleSensorConfig (travelSession k)
        q).1.currentValues AXES.Z = q.1.currentValues AXES.Z - (k : ℚ) / 800 := by
  have hcpu : (clockConfig 200000).cpuHz = 200000 := rfl
  have hg1 : ({ q.1.globals with
      motorsNumberOfSteps := upd q.1.globals.motorsNumberOfSteps AXES.Z UINT32_MAX
      motorsIsMoving := upd q.1.globals.motorsIsMoving AXES.Z true
      motorsNumberOfRemainingSteps := upd q.1.globals.motorsNumberOfRemainingSteps AXES.Z 0 }
      : Globals).motorsNumberOfSteps AXES.Z = UINT32_MAX := by
    dsimp only
    exact upd_at _ _ _
  have hcyc := descent_cycles _ hg1
  have hgl : (z0Setup (clockConfig 200000) q.1).globals
      = setMotorDelayAndSkip AXES.Z 4398046510080
          { q.1.globals with
            motorsNumberOfSteps := upd q.1.globals.motorsNumberOfSteps AXES.Z UINT32_MAX
            motorsIsMoving := upd q.1.globals.motorsIsMoving AXES.Z true
            motorsNumberOfRemainingSteps :=
              upd q.1.globals.motorsNumberOfRemainingSteps AXES.Z 0 } := by
    unfold z0Setup
    dsimp only
    rw [hcpu, he, hcyc]
  have hax : axisOf (z0Setup (clockConfig 200000) q.1).globals AXES.Z
      = { skips := 4294967295, skipsCounter := 0, delay := 1, delayCounter := 0,
          steps := UINT32_MAX, moving := true,
          pin := q.1.globals.stepPin AXES.Z } := by
    rw [hgl]
    unfold axisOf setMotorDelayAndSkip
    dsimp only
    rw [upd_at, upd_at, upd_at, upd_at, upd_at, upd_at, descent_delay, descent_skips]
  obtain ⟨t1, t2⟩ := axisTicks_unit_delay k
    (axisOf (z0Setup (clockConfig 200000) q.1).globals AXES.Z)
    (by rw [hax]) (by rw [hax]) (by rw [hax]) (by rw [hax])
    (by rw [hax]; dsimp only; omega) (by rw [hax]; unfold UINT32_MAX; exact hk)
    (by rw [hax]; unfold UINT32_MAX; norm_num)
  rw [← axisOf_ticks AXES.Z (by decide) k] at t1 t2
  have hsteps : (ticks k (z0Setup (clockConfig 200000) q.1).globals).motorsNumberOfSteps AXES.Z
      = UINT32_MAX - k := by
    have : (axisOf (z0Setup (clockConfig 200000) q.1).globals AXES.Z).steps = UINT32_MAX := by
      rw [hax]
    rw [this] at t1
    exact t1
  have hmov : (ticks k (z0Setup (clockConfig 200000) q.1).globals).motorsIsMoving AXES.Z
      = true := t2
  have hm1 : (z0Setup (clockConfig 200000) q.1).globals.motorsIsMoving AXES.Z = true := by
    have : (axisOf (z0Setup (clockConfig 200000) q.1).globals AXES.Z).moving = true := by
      rw [hax]
    exact this
  have hl := z0Loop_travel (z0Setup (clockConfig 200000) q.1) k hm1 hs
    (le_trans (Nat.le_add_right k R) hb) hmov
  have hd : z0Descent (clockConfig 200000) exampleSensorConfig (travelSession k) q
      = ({ z0Setup (clockConfig 200000) q.1 with
            globals :=
              stopMotorsStepTimer
                { ticks k (z0Setup (clockConfig 200000) q.1).globals with
                  motorsIsMoving :=
                    upd (ticks k (z0Setup (clockConfig 200000) q.1).globals).motorsIsMoving
                      AXES.Z false }
            ticksToStop := (z0Setup (clockConfig 200000) q.1).ticksToStop - k
            currentValues :=
              upd (z0Setup (clockConfig 200000) q.1).currentValues AXES.Z
                ((z0Setup (clockConfig 200000) q.1).currentValues AXES.Z
                  - ((UINT32_MAX - (stopMotorsStepTimer
                      { ticks k (z0Setup (clockConfig 200000) q.1).globals with
                        motorsIsMoving :=
                          upd (ticks k (z0Setup (clockConfig 200000) q.1).globals).motorsIsMoving
                            AXES.Z false }).motorsNumberOfSteps AXES.Z : Nat) : ℚ)
                    / (stepsPerMmOf (z0Setup (clockConfig 200000) q.1).eeprom AXES.Z
                      * MICROSTEPS_PER_STEP)) },
          { isWorking := true, xAcceleration := 200, yAcceleration := 200 }) := by
    unfold z0Descent travelSession
    dsimp only
    have r0 : readAccelerationValues (jerkReading 0) q.2
        = (true, { isWorking := true, xAcceleration := 0, yAcceleration := 0 }) := rfl
    rw [r0]
    dsimp only
    rw [if_pos rfl, hl]
  have hee : stepsPerMmOf (z0Setup (clockConfig 200000) q.1).eeprom AXES.Z = 100 := he
  rw [hd]
  refine ⟨hs, fun a => stopMotorsStepTimer_idle _ a, ?_, rfl, ?_⟩
  · show R ≤ q.1.ticksToStop - k
    omega
  · dsimp only
    rw [upd_at, stopMotorsStepTimer_eq]
    dsimp only
    rw [hsteps, hee]
    have hn : UINT32_MAX - (UINT32_MAX - k) = k := by
      unfold UINT32_MAX
      omega
    rw [hn]
    unfold MICROSTEPS_PER_STEP
    have hz : (z0Setup (clockConfig 200000) q.1).currentValues AXES.Z
        = q.1.currentValues AXES.Z := rfl
    rw [hz]
    norm_num

theorem z0Descent_travel_ready (q : Motors × Accelerometer) (k R : Nat) (z : ℚ)
    (hr : Ready (k + R) q.1) (hk : k < 4294967295)
    (he : stepsPerMmOf q.1.eeprom AXES.Z = 100) (hz : q.1.currentValues AXES.Z = z) :
    Ready R (z0Descent (clockConfig 200000) exampleSensorConfig (travelSession k) q).1
    ∧ (z0Descent (clockConfig 200000) exampleSensorConfig (travelSession k) q).2.isWorking = true
    ∧ (z0Descent (clockConfig 200000) exampleSensorConfig (travelSession k)
        q).1.currentValues AXES.Z = z - (k : ℚ) / 800
    ∧ stepsPerMmOf (z0Descent (clockConfig 200000) exampleSensorConfig (travelSession k)
        q).1.eeprom AXES.Z = 100
    ∧ (z0Descent (clockConfig 200000) exampleSensorConfig (travelSession k)
        q).1.globals.motorsNumberOfRemainingSteps AXES.Z = 0 := by
  obtain ⟨a1, a2, a3, a4, a5⟩ := z0Descent_travel q k R hr.1 hr.2.2 hk he
  refine ⟨⟨a1, a2, a3⟩, a4, ?_, ?_, ?_⟩
  · rw [a5, hz]
  · rw [z0Descent_eeprom]
    exact he
  · rw [z0Descent_remaining]
    exact upd_at _ _ _

theorem moveToHeight_ready (cfg : Config) (height : ℚ) (s : Motors) (R : Nat)
    (hr : Ready (waitBudget 2 R) s) (he : stepsPerMmOf s.eeprom AXES.Z = 100)
    (hrem : s.globals.motorsNumberOfRemainingSteps AXES.Z = 0)
    (hd : |height - s.currentValues AXES.Z| ≤ 1000) :
    Ready R (moveToHeight cfg height s)
    ∧ (moveToHeight cfg height s).currentValues AXES.Z = height
    ∧ stepsPerMmOf (moveToHeight cfg height s).eeprom AXES.Z = 100 := by
  refine ⟨moveToHeight_budget cfg height s R hr, moveToHeight_reaches cfg height s he hrem hd, ?_⟩
  rw [moveToHeight_eeprom]
  exact he

/-- The third attempt of the sample search: from 63.55 mm the descent travels for
1600 ticks to 61.55 mm, the height of the attempt before; the match counter goes
from 1 to 2 and the correction is applied. -/
theorem third_attempt (q : Motors × Accelerometer) (R : Nat)
    (hr : Ready (1600 + waitBudget 2 R) q.1)
    (he : stepsPerMmOf q.1.eeprom AXES.Z = 100)
    (hz : q.1.currentValues AXES.Z = 6355 / 100) :
    (z0Attempts (clockConfig 200000) exampleSensorConfig 65 [travelSession 1600] 1 (6155 / 100)
        q).map (fun q => q.1.currentValues AXES.Z) = [6155 / 100]
    ∧ Ready R (z0Search (clockConfig 200000) exampleSensorConfig 65 [travelSession 1600] 1
        (6155 / 100) q).1.1
    ∧ (z0Search (clockConfig 200000) exampleSensorConfig 65 [travelSession 1600] 1
        (6155 / 100) q).1.2.isWorking = true
    ∧ (z0Search (clockConfig 200000) exampleSensorConfig 65 [travelSession 1600] 1
        (6155 / 100) q).2 = [] := by
  obtain ⟨d1, d2, d3, d4, d5⟩ := z0Descent_travel_ready q 1600 (waitBudget 2 R) _ hr
    (by norm_num) he hz
  have hc : Ready R (applyZ0Correction (clockConfig 200000) exampleSensorConfig
      (z0Descent (clockConfig 200000) exampleSensorConfig (travelSession 1600) q).1) :=
    moveToHeight_budget (clockConfig 200000) _ _ R d1
  have hq : (!q.1.emergencyStopOccured) = true := by
    rw [hr.1]
    rfl
  have hf : ¬ ((z0Descent (clockConfig 200000) exampleSensorConfig (travelSession 1600)
      q).1.emergencyStopOccured
      || !(z0Descent (clockConfig 200000) exampleSensorConfig (travelSession 1600)
      q).2.isWorking) = true := by
    rw [d1.1, d2]
    decide
  have ha : |(6155 / 100 : ℚ) - (z0Descent (clockConfig 200000) exampleSensorConfig
      (travelSession 1600) q).1.currentValues AXES.Z| ≤ 1 := by
    rw [d3]
    norm_num
  rw [z0Attempts, z0Search]
  dsimp only
  rw [if_pos hq, if_neg hf, if_pos ha, if_pos (by decide), if_pos hq, if_neg hf, if_pos ha,
    if_pos (by decide)]
  refine ⟨?_, hc, d2, rfl⟩
  rw [List.map_cons, List.map_nil, d3]
  norm_num

/-- The second attempt of the sample search: from 63.98 mm the descent travels for
1944 ticks to 61.55 mm, within 1 mm of the 61.98 mm of the attempt before; the match
counter goes from 0 to 1 and the search goes on. -/
theorem second_attempt (q : Motors × Accelerometer) (R : Nat)
    (hr : Ready (1944 + waitBudget 2 (1600 + waitBudget 2 R)) q.1)
    (he : stepsPerMmOf q.1.eeprom AXES.Z = 100)
    (hz : q.1.currentValues AXES.Z = 6398 / 100) :
    (z0Attempts (clockConfig 200000) exampleSensorConfig 65
        [travelSession 1944, travelSession 1600] 0 (6198 / 100)
        q).map (fun q => q.1.currentValues AXES.Z) = [6155 / 100, 6155 / 100]
    ∧ Ready R (z0Search (clockConfig 200000) exampleSensorConfig 65
        [travelSession 1944, travelSession 1600] 0 (6198 / 100) q).1.1
    ∧ (z0Search (clockConfig 200000) exampleSensorConfig 65
        [travelSession 1944, travelSession 1600] 0 (6198 / 100) q).1.2.isWorking = true
    ∧ (z0Search (clockConfig 200000) exampleSensorConfig 65
        [travelSession 1944, travelSession 1600] 0 (6198 / 100) q).2 = [] := by
  obtain ⟨d1, d2, d3, d4, d5⟩ := z0Descent_travel_ready q 1944
    (waitBudget 2 (1600 + waitBudget 2 R)) _ hr (by norm_num) he hz
  have hd3 : (z0Descent (clockConfig 200000) exampleSensorConfig (travelSession 1944)
      q).1.currentValues AXES.Z = 6155 / 100 := by
    rw [d3]
    norm_num
  obtain ⟨u1, u2, u3⟩ := moveToHeight_ready (clockConfig 200000) (min (6155 / 100 + 2) 65)
    (z0Descent (clockConfig 200000) exampleSensorConfig (travelSession 1944) q).1
    (1600 + waitBudget 2 R) d1 d4 d5 (by rw [hd3]; norm_num [abs_le])
  have hu2 : (moveToHeight (clockConfig 200000) (min (6155 / 100 + 2) 65)
      (z0Descent (clockConfig 200000) exampleSensorConfig (travelSession 1944)
        q).1).currentValues AXES.Z = 6355 / 100 := by
    rw [u2]
    norm_num
  obtain ⟨t1, t2, t3, t4⟩ := third_attempt
    (moveToHeight (clockConfig 200000) (min (6155 / 100 + 2) 65)
      (z0Descent (clockConfig 200000) exampleSensorConfig (travelSession 1944) q).1,
      (z0Descent (clockConfig 200000) exampleSensorConfig (travelSession 1944) q).2)
    R u1 u3 hu2
  have hq : (!q.1.emergencyStopOccured) = true := by
    rw [hr.1]
    rfl
  have hf : ¬ ((z0Descent (clockConfig 200000) exampleSensorConfig (travelSession 1944)
      q).1.emergencyStopOccured
      || !(z0Descent (clockConfig 200000) exampleSensorConfig (travelSession 1944)
      q).2.isWorking) = true := by
    rw [d1.1, d2]
    decide
  have ha : |(6198 / 100 : ℚ) - (z0Descent (clockConfig 200000) exampleSensorConfig
      (travelSession 1944) q).1.currentValues AXES.Z| ≤ 1 := by
    rw [hd3]
    norm_num [abs_le]
  have hm : (0 + 1) % 256 = 1 := rfl
  rw [z0Attempts, z0Search]
  dsimp only
  rw [if_pos hq, if_neg hf, if_pos ha, if_neg (by decide), if_pos hq, if_neg hf, if_pos ha,
    if_neg (by decide), hm, hd3]
  refine ⟨?_, t2, t3, t4⟩
  rw [List.map_cons, t1, hd3]

/-- The first attempt of the sample search: from 65 mm the descent travels for 2416
ticks to 61.98 mm, more than 1 mm below the height at the call; the match counter
stays 0 and the search goes on. -/
theorem first_attempt (q : Motors × Accelerometer) (R : Nat)
    (hr : Ready (2416 + waitBudget 2 (1944 + waitBudget 2 (1600 + waitBudget 2 R))) q.1)
    (he : stepsPerMmOf q.1.eeprom AXES.Z = 100)
    (hz : q.1.currentValues AXES.Z = 65) :
    (z0Attempts (clockConfig 200000) exampleSensorConfig 65
        [travelSession 2416, travelSession 1944, travelSession 1600] 0 65
        q).map (fun q => q.1.currentValues AXES.Z) = [6198 / 100, 6155 / 100, 6155 / 100]
    ∧ Ready R (z0Search (clockConfig 200000) exampleSensorConfig 65
        [travelSession 2416, travelSession 1944, travelSession 1600] 0 65 q).1.1
    ∧ (z0Search (clockConfig 200000) exampleSensorConfig 65
        [travelSession 2416, travelSession 1944, travelSession 1600] 0 65 q).1.2.isWorking = true
    ∧ (z0Search (clockConfig 200000) exampleSensorConfig 65
        [travelSession 2416, travelSession 1944, travelSession 1600] 0 65 q).2 = [] := by
  obtain ⟨d1, d2, d3, d4, d5⟩ := z0Descent_travel_ready q 2416
    (waitBudget 2 (1944 + waitBudget 2 (1600 + waitBudget 2 R))) _ hr (by norm_num) he hz
  have hd3 : (z0Descent (clockConfig 200000) exampleSensorConfig (travelSession 2416)
      q).1.currentValues AXES.Z = 6198 / 100 := by
    rw [d3]
    norm_num
  obtain ⟨u1, u2, u3⟩ := moveToHeight_ready (clockConfig 200000) (min (6198 / 100 + 2) 65)
    (z0Descent (clockConfig 200000) exampleSensorConfig (travelSession 2416) q).1
    (1944 + waitBudget 2 (1600 + waitBudget 2 R)) d1 d4 d5 (by rw [hd3]; norm_num [abs_le])
  have hu2 : (moveToHeight (clockConfig 200000) (min (6198 / 100 + 2) 65)
      (z0Descent (clockConfig 200000) exampleSensorConfig (travelSession 2416)
        q).1).currentValues AXES.Z = 6398 / 100 := by
    rw [u2]
    norm_num
  obtain ⟨t1, t2, t3, t4⟩ := second_attempt
    (moveToHeight (clockConfig 200000) (min (6198 / 100 + 2) 65)
      (z0Descent (clockConfig 200000) exampleSensorConfig (travelSession 2416) q).1,
      (z0Descent (clockConfig 200000) exampleSensorConfig (travelSession 2416) q).2)
    R u1 u3 hu2
  have hq : (!q.1.emergencyStopOccured) = true := by
    rw [hr.1]
    rfl
  have hf : ¬ ((z0Descent (clockConfig 200000) exampleSensorConfig (travelSession 2416)
      q).1.emergencyStopOccured
      || !(z0Descent (clockConfig 200000) exampleSensorConfig (travelSession 2416)
      q).2.isWorking) = true := by
    rw [d1.1, d2]
    decide
  have ha : ¬ |(65 : ℚ) - (z0Descent (clockConfig 200000) exampleSensorConfig
      (travelSession 2416) q).1.currentValues AXES.Z| ≤ 1 := by
    rw [hd3]
    norm_num [abs_le]
  rw [z0Attempts, z0Search]
  dsimp only
  rw [if_pos hq, if_neg hf, if_neg ha, if_pos hq, if_neg hf, if_neg ha, hd3]
  refine ⟨?_, t2, t3, t4⟩
  rw [List.map_cons, t1, hd3]

/-- A call of `moveToZ0` at 65 mm at a clock of 200 kHz, on the readings of three
descents that travel for 2416, 1944 and 1600 ticks, with enough time before the
emergency stop: the attempts reach 61.98 mm, 61.55 mm and 61.55 mm, and the call
succeeds. -/
theorem moveToZ0_three_attempts (p : Printer)
    (hsess : p.sessions = [travelSession 2416, travelSession 1944, travelSession 1600])
    (hz : p.motors.currentValues AXES.Z = 65)
    (he : stepsPerMmOf p.motors.eeprom AXES.Z = 100)
    (hr : Ready (2416 + waitBudget 2 (1944 + waitBudget 2 (1600 + waitBudget 2 0))) p.motors) :
    contactHeights (clockConfig 200000) exampleSensorConfig p
      = [6198 / 100, 6155 / 100, 6155 / 100]
    ∧ (moveToZ0 (clockConfig 200000) exampleSensorConfig p).1 = true
    ∧ (moveToZ0 (clockConfig 200000) exampleSensorConfig p).2.motors.emergencyStopOccured
        = false := by
  obtain ⟨t1, t2, t3, -⟩ := first_attempt
    ({ p.motors with
        currentStateOfValues := upd p.motors.currentStateOfValues AXES.Z INVALID },
      p.accelerometer) 0 hr he hz
  refine ⟨?_, ?_, ?_⟩
  · unfold contactHeights contactAttempts
    rw [hsess, hz]
    exact t1
  · unfold moveToZ0
    dsimp only
    rw [hsess, hz]
    exact t3
  · unfold moveToZ0
    dsimp only
    rw [hsess, hz]
    split_ifs <;> exact t2.1

theorem threeAttempts_ready :
    threeAttemptsPrinter.sessions = [travelSession 2416, travelSession 1944, travelSession 1600]
    ∧ threeAttemptsPrinter.motors.currentValues AXES.Z = 65
    ∧ stepsPerMmOf threeAttemptsPrinter.motors.eeprom AXES.Z = 100
    ∧ Ready (2416 + waitBudget 2 (1944 + waitBudget 2 (1600 + waitBudget 2 0)))
        threeAttemptsPrinter.motors := by
  refine ⟨rfl, ?_, rfl, rfl, fun _ => rfl, ?_⟩
  · unfold threeAttemptsPrinter
    dsimp only
    rw [if_neg (by decide), if_pos rfl]
  · show 2416 + waitBudget 2 (1944 + waitBudget 2 (1600 + waitBudget 2 0))
      ≤ 1000000000000000000000000000000
    norm_num [waitBudget, WAIT_BOUND]

/-- C18 (as stated, refuted): a call of `moveToZ0` at 65 mm, without emergency stop
and with a working accelerometer. The first attempt reaches 61.98 mm and the second
61.55 mm, within 1 mm of it; the correction is not applied at the second attempt:
the search makes a third attempt, which reaches 61.55 mm again. -/
theorem agreeing_second_attempt_is_not_the_last :
    contactHeights (clockConfig 200000) exampleSensorConfig threeAttemptsPrinter
      = [6198 / 100, 6155 / 100, 6155 / 100]
    ∧ (moveToZ0 (clockConfig 200000) exampleSensorConfig threeAttemptsPrinter).1 = true
    ∧ (moveToZ0 (clockConfig 200000) exampleSensorConfig
        threeAttemptsPrinter).2.motors.emergencyStopOccured = false :=
  moveToZ0_three_attempts threeAttemptsPrinter threeAttempts_ready.1 threeAttempts_ready.2.1
    threeAttempts_ready.2.2.1 threeAttempts_ready.2.2.2

/-! ## Theorems: the bed planes, the backlash compensation and the bed changes -/

theorem updateBedChanges_planes (cfg : Config) (adjustHeight : Bool) (s : Motors) :
    (updateBedChanges cfg adjustHeight s).backPlane
        = generatePlaneEquation (updateBedChanges cfg adjustHeight s).backLeftVector
            (updateBedChanges cfg adjustHeight s).backRightVector
            (updateBedChanges cfg adjustHeight s).centerVector
    ∧ (updateBedChanges cfg adjustHeight s).leftPlane
        = generatePlaneEquation (updateBedChanges cfg adjustHeight s).backLeftVector
            (updateBedChanges cfg adjustHeight s).frontLeftVector
            (updateBedChanges cfg adjustHeight s).centerVector
    ∧ (updateBedChanges cfg adjustHeight s).rightPlane
        = generatePlaneEquation (updateBedChanges cfg adjustHeight s).backRightVector
            (updateBedChanges cfg adjustHeight s).frontRightVector
            (updateBedChanges cfg adjustHeight s).centerVector
    ∧ (updateBedChanges cfg adjustHeight s).frontPlane
        = generatePlaneEquation (updateBedChanges cfg adjustHeight s).frontLeftVector
            (updateBedChanges cfg adjustHeight s).frontRightVector
            (updateBedChanges cfg adjustHeight s).centerVector := by
  unfold updateBedChanges
  cases adjustHeight <;> exact ⟨rfl, rfl, rfl, rfl⟩

theorem updateBedChanges_coordinates (cfg : Config) (adjustHeight : Bool) (s : Motors)
    (h : BedCoordinates s) : BedCoordinates (updateBedChanges cfg adjustHeight s) := by
  unfold updateBedChanges
  cases adjustHeight <;> exact h

theorem getZ_of_nonzero (point plane : Vector) (c : ℚ) (hc : plane.z = c) (h0 : c ≠ 0) :
    getZFromXYAndPlane point plane = (plane.x * point.x + plane.y * point.y + plane.w) / -c := by
  unfold getZFromXYAndPlane
  rw [if_pos (by rw [hc]; exact h0), hc]

/-- C27: for every state whose corner and centre vectors have the bed coordinates
of `Motors::initialize`, whatever the stored corner heights, the planes that
`updateBedChanges` builds have the C coefficients -4050 (back), 4050 (left), -4050
(right) and 4050 (front); the vectors keep the bed coordinates, so this holds after
every later call as well; and the height query on each of these planes takes the
branch that divides by -C, never the branch that returns 0 for C = 0. -/
theorem bed_planes_have_nonzero_c (cfg : Config) (adjustHeight : Bool) (s : Motors)
    (h : BedCoordinates s) :
    (updateBedChanges cfg adjustHeight s).backPlane.z = -4050
    ∧ (updateBedChanges cfg adjustHeight s).leftPlane.z = 4050
    ∧ (updateBedChanges cfg adjustHeight s).rightPlane.z = -4050
    ∧ (updateBedChanges cfg adjustHeight s).frontPlane.z = 4050
    ∧ BedCoordinates (updateBedChanges cfg adjustHeight s)
    ∧ ∀ point : Vector,
        getZFromXYAndPlane point (updateBedChanges cfg adjustHeight s).backPlane
          = ((updateBedChanges cfg adjustHeight s).backPlane.x * point.x
              + (updateBedChanges cfg adjustHeight s).backPlane.y * point.y
              + (updateBedChanges cfg adjustHeight s).backPlane.w) / -(-4050)
        ∧ getZFromXYAndPlane point (updateBedChanges cfg adjustHeight s).leftPlane
          = ((updateBedChanges cfg adjustHeight s).leftPlane.x * point.x
              + (updateBedChanges cfg adjustHeight s).leftPlane.y * point.y
              + (updateBedChanges cfg adjustHeight s).leftPlane.w) / -4050
        ∧ getZFromXYAndPlane point (updateBedChanges cfg adjustHeight s).rightPlane
          = ((updateBedChanges cfg adjustHeight s).rightPlane.x * point.x
              + (updateBedChanges cfg adjustHeight s).rightPlane.y * point.y
              + (updateBedChanges cfg adjustHeight s).rightPlane.w) / -(-4050)
        ∧ getZFromXYAndPlane point (updateBedChanges cfg adjustHeight s).frontPlane
          = ((updateBedChanges cfg adjustHeight s).frontPlane.x * point.x
              + (updateBedChanges cfg adjustHeight s).frontPlane.y * point.y
              + (updateBedChanges cfg adjustHeight s).frontPlane.w) / -4050 := by
  obtain ⟨p1, p2, p3, p4⟩ := updateBedChanges_planes cfg adjustHeight s
  obtain ⟨c1, c2, c3, c4, c5, c6, c7, c8, c9, c10⟩ :=
    updateBedChanges_coordinates cfg adjustHeight s h
  have hb : (updateBedChanges cfg adjustHeight s).backPlane.z = -4050 := by
    rw [p1, generatePlaneEquation_z, c1, c2, c3, c4, c9, c10]
    norm_num
  have hl : (updateBedChanges cfg adjustHeight s).leftPlane.z = 4050 := by
    rw [p2, generatePlaneEquation_z, c3, c4, c5, c6, c9, c10]
    norm_num
  have hr : (updateBedChanges cfg adjustHeight s).rightPlane.z = -4050 := by
    rw [p3, generatePlaneEquation_z, c1, c2, c7, c8, c9, c10]
    norm_num
  have hf : (updateBedChanges cfg adjustHeight s).frontPlane.z = 4050 := by
    rw [p4, generatePlaneEquation_z, c5, c6, c7, c8, c9, c10]
    norm_num
  refine ⟨hb, hl, hr, hf, ⟨c1, c2, c3, c4, c5, c6, c7, c8, c9, c10⟩, ?_⟩
  intro point
  exact ⟨getZ_of_nonzero point _ _ hb (by norm_num), getZ_of_nonzero point _ _ hl (by norm_num),
    getZ_of_nonzero point _ _ hr (by norm_num), getZ_of_nonzero point _ _ hf (by norm_num)⟩

theorem setVectors_coordinates (z0 w0 : ℚ) (s : Motors) : BedCoordinates (setVectors z0 w0 s) := by
  unfold BedCoordinates setVectors
  dsimp only
  norm_num

/-- C28: `compensateForBacklash` restores what it saved: after it returns, the
current X and Y values, the stored feed rate, the positioning mode, the carry-over
of X and Y and the direction pin levels of X and Y equal their values before the
call, for every pair of backlash directions and every state; the current Z and E
values are untouched. -/
theorem compensateForBacklash_restores (cfg : Config) (a b : BACKLASH_DIRECTION) (s : Motors) :
    (compensateForBacklash cfg a b s).currentValues AXES.X = s.currentValues AXES.X
    ∧ (compensateForBacklash cfg a b s).currentValues AXES.Y = s.currentValues AXES.Y
    ∧ (compensateForBacklash cfg a b s).currentValues AXES.F = s.currentValues AXES.F
    ∧ (compensateForBacklash cfg a b s).mode = s.mode
    ∧ (compensateForBacklash cfg a b s).globals.motorsNumberOfRemainingSteps AXES.X
        = s.globals.motorsNumberOfRemainingSteps AXES.X
    ∧ (compensateForBacklash cfg a b s).globals.motorsNumberOfRemainingSteps AXES.Y
        = s.globals.motorsNumberOfRemainingSteps AXES.Y
    ∧ (compensateForBacklash cfg a b s).directionPin AXES.X = s.directionPin AXES.X
    ∧ (compensateForBacklash cfg a b s).directionPin AXES.Y = s.directionPin AXES.Y
    ∧ (compensateForBacklash cfg a b s).currentValues AXES.Z = s.currentValues AXES.Z
    ∧ (compensateForBacklash cfg a b s).currentValues AXES.E = s.currentValues AXES.E := by
  obtain ⟨-, hv, -⟩ := moveNoTask_spec cfg (backlashGcode s.eeprom a b) (backlashStart s)
  obtain ⟨fZ, fE⟩ := backlashGcode_flags s.eeprom a b
  have hZ := hv AXES.Z (by decide)
  have hE := hv AXES.E (by decide)
  unfold physTarget at hZ hE
  rw [fZ, if_neg (by decide)] at hZ
  rw [fE, if_neg (by decide)] at hE
  rw [compensateForBacklash_eq]
  dsimp only
  refine ⟨?_, ?_, ?_, rfl, ?_, ?_, ?_, ?_, ?_, ?_⟩
  · rw [upd_off _ _ _ _ (by decide), upd_off _ _ _ _ (by decide), upd_at]
  · rw [upd_off _ _ _ _ (by decide), upd_at]
  · rw [upd_at]
  · rw [upd_off _ _ _ _ (by decide), upd_at]
  · rw [upd_at]
  · rw [upd_off _ _ _ _ (by decide), upd_at]
  · rw [upd_at]
  · rw [upd_off _ _ _ _ (by decide), upd_off _ _ _ _ (by decide), upd_off _ _ _ _ (by decide),
      hZ]
    rfl
  · rw [upd_off _ _ _ _ (by decide), upd_off _ _ _ _ (by decide), upd_off _ _ _ _ (by decide),
      hE]
    rfl

/-- C29: `updateBedChanges(true)` sets the current Z so that the real height, the
current Z plus the height adjustment at the current X and Y plus the bed height
offset, is the same with the planes and the offset after the call as it was with
the planes and the offset before the call, for every state; it leaves the current
X and Y as they were; `updateBedChanges(false)` leaves the current Z as it was. -/
theorem updateBedChanges_keeps_real_height (cfg : Config) (s : Motors) :
    (updateBedChanges cfg true s).currentValues AXES.Z
        + getHeightAdjustmentRequired cfg (updateBedChanges cfg true s)
            ((updateBedChanges cfg true s).currentValues AXES.X)
            ((updateBedChanges cfg true s).currentValues AXES.Y)
        + (updateBedChanges cfg true s).bedHeightOffset
      = s.currentValues AXES.Z
        + getHeightAdjustmentRequired cfg s (s.currentValues AXES.X) (s.currentValues AXES.Y)
        + s.bedHeightOffset
    ∧ (updateBedChanges cfg true s).currentValues AXES.X = s.currentValues AXES.X
    ∧ (updateBedChanges cfg true s).currentValues AXES.Y = s.currentValues AXES.Y
    ∧ (updateBedChanges cfg false s).currentValues AXES.Z = s.currentValues AXES.Z := by
  have hx : (updateBedChanges cfg true s).currentValues AXES.X = s.currentValues AXES.X := by
    unfold updateBedChanges
    dsimp only
    rw [if_pos rfl]
    dsimp only
    rw [upd_off _ _ _ _ (by decide)]
  have hy : (updateBedChanges cfg true s).currentValues AXES.Y = s.currentValues AXES.Y := by
    unfold updateBedChanges
    dsimp only
    rw [if_pos rfl]
    dsimp only
    rw [upd_off _ _ _ _ (by decide)]
  have hadj : ∀ x y, getHeightAdjustmentRequired cfg (updateBedChanges cfg true s) x y
      = getHeightAdjustmentRequired cfg (updateBedChanges cfg false s) x y := by
    intro x y
    unfold updateBedChanges
    rfl
  have hoff : (updateBedChanges cfg true s).bedHeightOffset
      = (updateBedChanges cfg false s).bedHeightOffset := by
    unfold updateBedChanges
    rfl
  have hz : (updateBedChanges cfg true s).currentValues AXES.Z
      = s.currentValues AXES.Z
        + (getHeightAdjustmentRequired cfg s (s.currentValues AXES.X) (s.currentValues AXES.Y)
            + s.bedHeightOffset
          - getHeightAdjustmentRequired cfg (updateBedChanges cfg false s)
              (s.currentValues AXES.X) (s.currentValues AXES.Y)
          - (updateBedChanges cfg false s).bedHeightOffset) := by
    unfold updateBedChanges
    dsimp only
    rw [if_pos rfl, if_neg (by decide)]
    dsimp only
    rw [upd_at]
  refine ⟨?_, hx, hy, ?_⟩
  · rw [hx, hy, hadj, hoff, hz]
    ring
  · unfold updateBedChanges
    dsimp only
    rw [if_neg (by decide)]

theorem bed_planes_have_nonzero_c_witness :
    BedCoordinates (setVectors 0 1 exampleMotors)
    ∧ (updateBedChanges exampleConfig false (setVectors 0 1 exampleMotors)).backPlane.z = -4050
    ∧ (updateBedChanges exampleConfig false (setVectors 0 1 exampleMotors)).leftPlane.z = 4050
    ∧ (updateBedChanges exampleConfig false (setVectors 0 1 exampleMotors)).rightPlane.z = -4050
    ∧ (updateBedChanges exampleConfig false (setVectors 0 1 exampleMotors)).frontPlane.z = 4050 :=
  ⟨setVectors_coordinates 0 1 exampleMotors,
    (bed_planes_have_nonzero_c exampleConfig false (setVectors 0 1 exampleMotors)
      (setVectors_coordinates 0 1 exampleMotors)).1,
    (bed_planes_have_nonzero_c exampleConfig false (setVectors 0 1 exampleMotors)
      (setVectors_coordinates 0 1 exampleMotors)).2.1,
    (bed_planes_have_nonzero_c exampleConfig false (setVectors 0 1 exampleMotors)
      (setVectors_coordinates 0 1 exampleMotors)).2.2.1,
    (bed_planes_have_nonzero_c exampleConfig false (setVectors 0 1 exampleMotors)
      (setVectors_coordinates 0 1 exampleMotors)).2.2.2.1⟩

/-! ## Theorems: the band of the target Z -/

theorem bedLimits_bands (z : ℚ) (i : AXES) :
    (z < 5 →
      bedLimits z i
        = (if i = AXES.X then BED_LOW_MIN_X else BED_LOW_MIN_Y,
            if i = AXES.X then BED_LOW_MAX_X else BED_LOW_MAX_Y))
    ∧ (5 ≤ z → z < 147 / 2 →
      bedLimits z i
        = (if i = AXES.X then BED_MEDIUM_MIN_X else BED_MEDIUM_MIN_Y,
            if i = AXES.X then BED_MEDIUM_MAX_X else BED_MEDIUM_MAX_Y))
    ∧ (147 / 2 ≤ z →
      bedLimits z i
        = (if i = AXES.X then BED_HIGH_MIN_X else BED_HIGH_MIN_Y,
            if i = AXES.X then BED_HIGH_MAX_X else BED_HIGH_MAX_Y)) := by
  refine ⟨?_, ?_, ?_⟩
  · intro h
    unfold bedLimits BED_LOW_MAX_Z
    rw [if_pos h]
  · intro h1 h2
    unfold bedLimits BED_LOW_MAX_Z BED_MEDIUM_MAX_Z
    rw [if_neg (not_lt.mpr h1), if_pos h2]
  · intro h
    unfold bedLimits BED_LOW_MAX_Z BED_MEDIUM_MAX_Z
    rw [if_neg (not_lt.mpr (le_trans (by norm_num) h)), if_neg (not_lt.mpr h)]

/-- C30: in a received-command move in which no step count overflows and which
holds a Z target and a target for `i`, X or Y, the current Z after the move is the
resolved target of Z, and the value stored for `i` is its unclamped target brought
into the band of that resolved Z target, whatever the Z at the start of the move:
the low band for a Z target below 5, the medium band for a Z target from 5 to below
73.5, the high band otherwise. -/
theorem received_move_clamps_to_band_of_target_z (cfg : Config) (gcode : Gcode) (tasks : Nat)
    (s : Motors) (i : AXES) (hr : hasFlag tasks HANDLE_RECEIVED_COMMAND_TASK = true)
    (hxy : i = AXES.X ∨ i = AXES.Y)
    (hp : hasFlag gcode.commandParameters (gcodeParameter gcode i).1 = true)
    (hz : hasFlag gcode.commandParameters (gcodeParameter gcode AXES.Z).1 = true)
    (h : ¬ overflows cfg gcode tasks s) :
    (move cfg gcode tasks s).2.currentValues AXES.Z
        = unclampedTarget cfg tasks s AXES.Z (gcodeParameter gcode AXES.Z).2
    ∧ (move cfg gcode tasks s).2.currentValues i
        = getValueInRange (unclampedTarget cfg tasks s i (gcodeParameter gcode i).2)
            (bedLimits (unclampedTarget cfg tasks s AXES.Z (gcodeParameter gcode AXES.Z).2) i).1
            (bedLimits (unclampedTarget cfg tasks s AXES.Z (gcodeParameter gcode AXES.Z).2) i).2
    ∧ (unclampedTarget cfg tasks s AXES.Z (gcodeParameter gcode AXES.Z).2 < 5 →
        bedLimits (unclampedTarget cfg tasks s AXES.Z (gcodeParameter gcode AXES.Z).2) i
          = (if i = AXES.X then BED_LOW_MIN_X else BED_LOW_MIN_Y,
              if i = AXES.X then BED_LOW_MAX_X else BED_LOW_MAX_Y))
    ∧ (5 ≤ unclampedTarget cfg tasks s AXES.Z (gcodeParameter gcode AXES.Z).2 →
        unclampedTarget cfg tasks s AXES.Z (gcodeParameter gcode AXES.Z).2 < 147 / 2 →
        bedLimits (unclampedTarget cfg tasks s AXES.Z (gcodeParameter gcode AXES.Z).2) i
          = (if i = AXES.X then BED_MEDIUM_MIN_X else BED_MEDIUM_MIN_Y,
              if i = AXES.X then BED_MEDIUM_MAX_X else BED_MEDIUM_MAX_Y))
    ∧ (147 / 2 ≤ unclampedTarget cfg tasks s AXES.Z (gcodeParameter gcode AXES.Z).2 →
        bedLimits (unclampedTarget cfg tasks s AXES.Z (gcodeParameter gcode AXES.Z).2) i
          = (if i = AXES.X then BED_HIGH_MIN_X else BED_HIGH_MIN_Y,
              if i = AXES.X then BED_HIGH_MAX_X else BED_HIGH_MAX_Y)) := by
  have ht : tasks ≠ 0 := by
    intro h0
    rw [h0, hasFlag_zero] at hr
    exact absurd hr (by decide)
  have hi : i ≠ AXES.F := by
    rcases hxy with hx | hy
    · rw [hx]; decide
    · rw [hy]; decide
  have hvz := move_task_currentValues cfg gcode tasks s ht h AXES.Z (by decide)
  rw [if_pos hz] at hvz
  unfold resolvedTarget at hvz
  rw [if_neg (fun hc => by rcases hc.2 with e | e <;> exact absurd e (by decide))] at hvz
  have hv := move_task_currentValues cfg gcode tasks s ht h i hi
  rw [if_pos hp, hvz] at hv
  unfold resolvedTarget at hv
  rw [if_pos ⟨hr, hxy⟩] at hv
  obtain ⟨b1, b2, b3⟩ :=
    bedLimits_bands (unclampedTarget cfg tasks s AXES.Z (gcodeParameter gcode AXES.Z).2) i
  exact ⟨hvz, hv, b1, b2, b3⟩

theorem highGcode_targets :
    unclampedTarget exampleConfig HANDLE_RECEIVED_COMMAND_TASK exampleMotors AXES.X
        (gcodeParameter highGcode AXES.X).2 = 1000
    ∧ unclampedTarget exampleConfig HANDLE_RECEIVED_COMMAND_TASK exampleMotors AXES.Z
        (gcodeParameter highGcode AXES.Z).2 = 100 := by
  constructor
  · unfold unclampedTarget
    dsimp only
    rw [if_neg (by decide : ¬ exampleMotors.mode = MODES.RELATIVE),
      if_neg (fun hc => absurd hc.2 (by decide))]
    rfl
  · unfold unclampedTarget
    dsimp only
    rw [if_neg (by decide : ¬ exampleMotors.mode = MODES.RELATIVE),
      if_neg (fun hc => absurd hc.2 (by decide))]
    rfl

theorem highGcode_no_overflow :
    ¬ overflows exampleConfig highGcode HANDLE_RECEIVED_COMMAND_TASK exampleMotors := by
  apply not_overflows_of_steps_le
  intro i hi hp z
  unfold moveOrder at hi
  simp only [List.mem_cons, List.mem_singleton, List.not_mem_nil, or_false] at hi
  rcases hi with rfl | rfl | rfl | rfl
  · exact absurd hp (by decide)
  · rw [totalNumberOfSteps_at_rest exampleMotors AXES.Z _ rfl rfl rfl]
    unfold resolvedTarget
    rw [if_neg (fun hc => by rcases hc.2 with e | e <;> exact absurd e (by decide)),
      highGcode_targets.2]
    unfold UINT32_MAX
    norm_num
  · exact absurd hp (by decide)
  · rw [totalNumberOfSteps_at_rest exampleMotors AXES.X _ rfl rfl rfl]
    have hb : |resolvedTarget exampleConfig HANDLE_RECEIVED_COMMAND_TASK exampleMotors AXES.X
        (gcodeParameter highGcode AXES.X).2 z| ≤ 1000 := by
      unfold resolvedTarget
      rw [if_pos ⟨by decide, Or.inl rfl⟩, highGcode_targets.1]
      obtain ⟨hlo, hhi⟩ := bedLimits_bounds z AXES.X
      have hle := bedLimits_le z AXES.X
      unfold getValueInRange
      rw [abs_le]
      constructor
      · exact le_trans (by norm_num) (le_trans hlo (le_min hle (le_max_left _ _)))
      · exact le_trans (min_le_left _ _) (le_trans hhi (by norm_num))
    unfold UINT32_MAX
    have h8 : |resolvedTarget exampleConfig HANDLE_RECEIVED_COMMAND_TASK exampleMotors AXES.X
        (gcodeParameter highGcode AXES.X).2 z| * 800 ≤ 1000 * 800 :=
      mul_le_mul_of_nonneg_right hb (by norm_num)
    exact le_trans h8 (by norm_num)

theorem received_move_clamps_to_band_of_target_z_witness :
    hasFlag HANDLE_RECEIVED_COMMAND_TASK HANDLE_RECEIVED_COMMAND_TASK = true
    ∧ hasFlag highGcode.commandParameters (gcodeParameter highGcode AXES.X).1 = true
    ∧ hasFlag highGcode.commandParameters (gcodeParameter highGcode AXES.Z).1 = true
    ∧ ¬ overflows exampleConfig highGcode HANDLE_RECEIVED_COMMAND_TASK exampleMotors
    ∧ exampleMotors.currentValues AXES.Z = 0
    ∧ (move exampleConfig highGcode HANDLE_RECEIVED_COMMAND_TASK exampleMotors).2.currentValues
        AXES.Z = 100
    ∧ (move exampleConfig highGcode HANDLE_RECEIVED_COMMAND_TASK exampleMotors).2.currentValues
        AXES.X = 97 := by
  have hT := received_move_clamps_to_band_of_target_z exampleConfig highGcode
    HANDLE_RECEIVED_COMMAND_TASK exampleMotors AXES.X (by decide) (Or.inl rfl) (by decide)
    (by decide) highGcode_no_overflow
  obtain ⟨t1, t2, -, -, t5⟩ := hT
  rw [highGcode_targets.2] at t1 t2 t5
  rw [highGcode_targets.1, t5 (by norm_num)] at t2
  refine ⟨by decide, by decide, by decide, highGcode_no_overflow, rfl, t1, ?_⟩
  rw [t2]
  unfold getValueInRange BED_HIGH_MIN_X BED_HIGH_MAX_X
  rw [if_pos rfl, if_pos rfl]
  norm_num

/-! ## Theorems: the ticks of a motor and the delay and skip values -/

theorem idleTime_step (x x1 : AxisState) (h : axisTick x = x1) (hm : x.moving = true)
    (hT : idleTime x = idleTime x1 + 1)
    (ih : (∀ k, k < idleTime x1 → (axisTicks k x1).moving = true)
      ∧ (axisTicks (idleTime x1) x1).moving = false) :
    (∀ k, k < idleTime x → (axisTicks k x).moving = true)
    ∧ (axisTicks (idleTime x) x).moving = false := by
  rw [hT]
  constructor
  · intro k hk
    cases k with
    | zero => exact hm
    | succ k =>
      rw [axisTicks, h]
      exact ih.1 k (by omega)
  · rw [axisTicks, h]
    exact ih.2

/-- A motor in the Stepping state is Stepping for `idleTime` ticks and Idle after
them. -/
theorem axis_idle_time (m : Nat) :
    ∀ x : AxisState, AxisOk x → axisMeasure x ≤ m →
      (∀ k, k < idleTime x → (axisTicks k x).moving = true)
      ∧ (axisTicks (idleTime x) x).moving = false := by
  induction m with
  | zero =>
    intro x h hm
    obtain ⟨h1, h2, h3, h4, h5, h6, h7, h8⟩ := h
    have hsd : x.delay ≤ x.steps * x.delay := Nat.le_mul_of_pos_left _ h1
    unfold axisMeasure at hm
    omega
  | succ m ih =>
    intro x h hm
    have hprog := axisTick_progress x h
    have hcases := axisTick_cases x h
    obtain ⟨h1, h2, h3, h4, h5, h6, h7, h8⟩ := h
    have hsd : x.delay ≤ x.steps * x.delay := Nat.le_mul_of_pos_left _ h1
    rcases hcases with ⟨ha, hb, he⟩ | ⟨ha, hb, he⟩ | ⟨ha, hb, he⟩
    · -- a suppressed tick
      have hok : AxisOk (axisTick x) ∧ axisMeasure (axisTick x) < axisMeasure x := by
        rcases hprog with ⟨-, -, p3, p4⟩ | ⟨p1, -, -⟩
        · exact ⟨p3, p4⟩
        · rw [he] at p1
          cases p1
      refine idleTime_step x _ rfl h8 ?_ (ih _ hok.1 (by omega))
      rw [he]
      unfold idleTime
      dsimp only
      rw [if_neg ha, if_neg ha]
      have hsc : x.skipsCounter = x.skips := by omega
      rw [hsc, Nat.add_div_right _ (Nat.pos_of_ne_zero ha)]
      simp only [Nat.add_zero]
      omega
    · -- a counted tick without a step
      have hok : AxisOk (axisTick x) ∧ axisMeasure (axisTick x) < axisMeasure x := by
        rcases hprog with ⟨-, -, p3, p4⟩ | ⟨p1, -, -⟩
        · exact ⟨p3, p4⟩
        · rw [he] at p1
          cases p1
      refine idleTime_step x _ rfl h8 ?_ (ih _ hok.1 (by omega))
      rw [he]
      unfold idleTime countedSkips
      dsimp only
      by_cases h0 : x.skips = 0
      · rw [if_pos h0, if_pos h0]
        omega
      · rw [if_neg h0, if_neg h0, if_pos h0]
        have e : x.steps * x.delay - (x.delayCounter + 1) - 1 + (x.skipsCounter + 1)
            = x.steps * x.delay - x.delayCounter - 1 + x.skipsCounter := by omega
        rw [e]
        omega
    · -- a counted tick with a step
      by_cases h1s : x.steps = 1
      · have hR : x.steps * x.delay - x.delayCounter = 1 := by
          rw [h1s, Nat.one_mul]
          omega
        have hT : idleTime x = 1 := by
          unfold idleTime
          rw [hR]
          split_ifs with h0
          · rfl
          · have hlt : x.skipsCounter < x.skips := by
              by_contra hc
              exact ha ⟨h0, by omega⟩
            have : (1 - 1 + x.skipsCounter) / x.skips = 0 := by
              rw [Nat.sub_self, Nat.zero_add]
              exact Nat.div_eq_of_lt hlt
            rw [this]
        have hidle : (axisTick x).moving = false := by
          rw [he]
          simp [h1s]
        rw [hT]
        constructor
        · intro k hk
          have : k = 0 := by omega
          subst this
          exact h8
        · exact hidle
      · have hok : AxisOk (axisTick x) ∧ axisMeasure (axisTick x) < axisMeasure x := by
          rcases hprog with ⟨p1, -, -, -⟩ | ⟨-, -, ⟨p3, -⟩ | p4⟩
          · rw [he] at p1
            cases p1
          · exact absurd p3 h1s
          · exact p4
        have hmul : (x.steps - 1) * x.delay + x.delay = x.steps * x.delay := by
          have : x.steps = (x.steps - 1) + 1 := by omega
          conv_rhs => rw [this, Nat.add_mul, Nat.one_mul]
        have hq : x.delay ≤ (x.steps - 1) * x.delay :=
          Nat.le_mul_of_pos_left _ (by omega)
        refine idleTime_step x _ rfl h8 ?_ (ih _ hok.1 (by omega))
        rw [he]
        unfold idleTime countedSkips
        dsimp only
        generalize (x.steps - 1) * x.delay = Q at hmul hq ⊢
        generalize x.steps * x.delay = P at hmul hsd ⊢
        by_cases h0 : x.skips = 0
        · rw [if_pos h0, if_pos h0]
          omega
        · rw [if_neg h0, if_neg h0, if_pos h0]
          have e : Q - 0 - 1 + (x.skipsCounter + 1) = P - x.delayCounter - 1 + x.skipsCounter := by
            omega
          rw [e]
          omega

/-- The ceiling in the comment of `motorsStepAction` for `A` counted ticks and a
skip interval `s`: the counted ticks and one suppressed tick after every `s` of
them but the last. -/
theorem ceil_skip_formula (A s : Nat) (hA : 1 ≤ A) (hs : 1 ≤ s) :
    ⌈(A : ℚ) * (1 + 1 / (s : ℚ)) - 1⌉ = ((A + (A - 1) / s : Nat) : ℤ) := by
  have hsq : (0 : ℚ) < s := by exact_mod_cast hs
  have hdiv : (A - 1) / s * s ≤ A - 1 := Nat.div_mul_le_self _ _
  have hlt : A - 1 < ((A - 1) / s + 1) * s := by
    have := Nat.lt_succ_self ((A - 1) / s)
    exact (Nat.div_lt_iff_lt_mul hs).mp this
  generalize (A - 1) / s = q at hdiv hlt ⊢
  have h1 : q * s + 1 ≤ A := by omega
  have h2 : A ≤ (q + 1) * s := by omega
  have h1q : (q : ℚ) * s + 1 ≤ A := by exact_mod_cast h1
  have h2q : (A : ℚ) ≤ ((q : ℚ) + 1) * s := by exact_mod_cast h2
  have e : (A : ℚ) * (1 + 1 / (s : ℚ)) - 1 = A + (A : ℚ) / s - 1 := by
    field_simp
    ring
  have hc : (((A + q : Nat) : ℤ) : ℚ) = (A : ℚ) + q := by
    push_cast
    rfl
  rw [Int.ceil_eq_iff, hc, e]
  constructor
  · have : (q : ℚ) < (A : ℚ) / s := by
      rw [lt_div_iff₀ hsq]
      linarith
    linarith
  · have : (A : ℚ) / s ≤ (q : ℚ) + 1 := by
      rw [div_le_iff₀ hsq]
      exact h2q
    linarith

theorem ticks_idle_time (g : Globals) (a : AXES) (ha : a ≠ AXES.F) (h : AxisOk (axisOf g a)) :
    (∀ k, k < idleTime (axisOf g a) → (ticks k g).motorsIsMoving a = true)
    ∧ (ticks (idleTime (axisOf g a)) g).motorsIsMoving a = false := by
  have e : ∀ k, (ticks k g).motorsIsMoving a = (axisTicks k (axisOf g a)).moving := by
    intro k
    rw [← axisOf_ticks a ha k g]
    rfl
  obtain ⟨h1, h2⟩ := axis_idle_time (axisMeasure (axisOf g a)) (axisOf g a) h (le_refl _)
  refine ⟨fun k hk => ?_, ?_⟩
  · rw [e]
    exact h1 k hk
  · rw [e]
    exact h2

/-- C21: a motor started with cleared counters, `n ≥ 1` steps, a step delay
`d ≥ 1` and a skip interval `s`, all within `uint32_t`, is Stepping for exactly `T`
ticks and Idle after them, where `T = n * d` when `s = 0` and
`T = ceil(n * d * (1 + 1 / s) - 1)` when `s > 0`, the value of the comment of
`motorsStepAction` in ticks. -/
theorem ticks_until_idle_match_comment (g : Globals) (a : AXES) (ha : a ≠ AXES.F)
    (hmov : g.motorsIsMoving a = true)
    (hdc : g.motorsStepDelayCounter a = 0) (hsc : g.motorsDelaySkipsCounter a = 0)
    (hn1 : 1 ≤ g.motorsNumberOfSteps a) (hn : g.motorsNumberOfSteps a < 4294967296)
    (hd1 : 1 ≤ g.motorsStepDelay a) (hd : g.motorsStepDelay a < 4294967296)
    (hs : g.motorsDelaySkips a < 4294967296) :
    ∃ T : Nat, (∀ k, k < T → (ticks k g).motorsIsMoving a = true)
      ∧ (ticks T g).motorsIsMoving a = false
      ∧ (g.motorsDelaySkips a = 0 → T = g.motorsNumberOfSteps a * g.motorsStepDelay a)
      ∧ (0 < g.motorsDelaySkips a →
          (T : ℤ) = ⌈(g.motorsNumberOfSteps a : ℚ) * (g.motorsStepDelay a : ℚ)
            * (1 + 1 / (g.motorsDelaySkips a : ℚ)) - 1⌉) := by
  have hok : AxisOk (axisOf g a) :=
    ⟨hn1, hn, hd1, hd, by show g.motorsStepDelayCounter a < g.motorsStepDelay a; omega, hs,
      by show g.motorsDelaySkipsCounter a ≤ g.motorsDelaySkips a; omega, hmov⟩
  obtain ⟨t1, t2⟩ := ticks_idle_time g a ha hok
  have hA : 1 ≤ g.motorsNumberOfSteps a * g.motorsStepDelay a := Nat.mul_pos hn1 hd1
  refine ⟨idleTime (axisOf g a), t1, t2, ?_, ?_⟩
  · intro h0
    show (if g.motorsDelaySkips a = 0 then
        g.motorsNumberOfSteps a * g.motorsStepDelay a - g.motorsStepDelayCounter a
      else _) = _
    rw [if_pos h0, hdc, Nat.sub_zero]
  · intro h0
    have hT : idleTime (axisOf g a)
        = g.motorsNumberOfSteps a * g.motorsStepDelay a
          + (g.motorsNumberOfSteps a * g.motorsStepDelay a - 1) / g.motorsDelaySkips a := by
      show (if g.motorsDelaySkips a = 0 then _
        else g.motorsNumberOfSteps a * g.motorsStepDelay a - g.motorsStepDelayCounter a
          + (g.motorsNumberOfSteps a * g.motorsStepDelay a - g.motorsStepDelayCounter a - 1
            + g.motorsDelaySkipsCounter a) / g.motorsDelaySkips a) = _
      rw [if_neg (by omega), hdc, hsc, Nat.sub_zero, Nat.add_zero]
    have hc := ceil_skip_formula (g.motorsNumberOfSteps a * g.motorsStepDelay a)
      (g.motorsDelaySkips a) hA h0
    rw [Nat.cast_mul] at hc
    rw [hT, hc]

theorem stepDelayFor_eq (c : ℚ) (n : Nat) :
    stepDelayFor c n
      = if (2 * (n : ℚ) * (initialStepDelay c n : ℚ) - 1) * MOTORS_STEP_TIMER_PERIOD < c then
          (initialStepDelay c n + 1) % 4294967296
        else initialStepDelay c n := by
  have h2 : (((1 + 1 / 1 : Nat) : ℕ) : ℚ) = 2 := by norm_num
  have hceil : ((⌈(n : ℚ) * (initialStepDelay c n : ℚ) * (((1 + 1 / 1 : Nat) : ℕ) : ℚ) - 1⌉ : ℤ) : ℚ)
      = 2 * (n : ℚ) * (initialStepDelay c n : ℚ) - 1 := by
    rw [h2]
    have e : (n : ℚ) * (initialStepDelay c n : ℚ) * 2 - 1
        = (((2 * (n : ℤ) * (initialStepDelay c n : ℤ) - 1 : ℤ)) : ℚ) := by
      push_cast
      ring
    rw [e, Int.ceil_intCast]
    push_cast
    ring
  unfold stepDelayFor
  dsimp only
  show (if ((⌈(n : ℚ) * (initialStepDelay c n : ℚ) * (((1 + 1 / 1 : Nat) : ℕ) : ℚ) - 1⌉ : ℤ) : ℚ)
      * MOTORS_STEP_TIMER_PERIOD < c then (initialStepDelay c n + 1) % 4294967296
    else initialStepDelay c n) = _
  rw [hceil]

/-- C22 (as stated, refuted): for 42 steps and 43008 cycles the initial delay is 1
and `(n * delay - 1) * timerPeriod = 41984 < 43008`, yet the delay is not
incremented. -/
theorem delay_not_incremented_for_42_steps :
    initialStepDelay 43008 42 = 1
    ∧ (((42 : Nat) : ℚ) * (initialStepDelay 43008 42 : ℚ) - 1) * MOTORS_STEP_TIMER_PERIOD < 43008
    ∧ stepDelayFor 43008 42 = initialStepDelay 43008 42 := by
  have h1 : initialStepDelay 43008 42 = 1 := by
    have : getValueInRange ((43008 : ℚ) / (MOTORS_STEP_TIMER_PERIOD : ℕ) / ((42 : ℕ) : ℚ)) 1
        (UINT32_MAX : ℕ) = ((1 : ℕ) : ℚ) := by
      unfold getValueInRange UINT32_MAX MOTORS_STEP_TIMER_PERIOD
      norm_num
    unfold initialStepDelay
    rw [this, toUInt32_natCast 1 (by norm_num)]
  refine ⟨h1, ?_, ?_⟩
  · rw [h1]
    unfold MOTORS_STEP_TIMER_PERIOD
    norm_num
  · rw [stepDelayFor_42, h1]

/-- C22 (amended): the delay that `setMotorDelayAndSkip` stores is the initial
delay incremented by one, in `uint32_t`, exactly when
`(2 * n * delay - 1) * timerPeriod < cycles`, that is when the ticks of the formula
of `motorsStepAction` for a skip interval of 1 still under-run the required
duration, and the initial delay otherwise. -/
theorem delay_incremented_iff_densest_skipping_under_runs (c : ℚ) (n : Nat) :
    stepDelayFor c n
      = if (2 * (n : ℚ) * (initialStepDelay c n : ℚ) - 1) * MOTORS_STEP_TIMER_PERIOD < c then
          (initialStepDelay c n + 1) % 4294967296
        else initialStepDelay c n := by
  have h2 : (((1 + 1 / 1 : Nat) : ℕ) : ℚ) = 2 := by norm_num
  have hceil : ((⌈(n : ℚ) * (initialStepDelay c n : ℚ) * (((1 + 1 / 1 : Nat) : ℕ) : ℚ) - 1⌉ : ℤ) : ℚ)
      = 2 * (n : ℚ) * (initialStepDelay c n : ℚ) - 1 := by
    rw [h2]
    have e : (n : ℚ) * (initialStepDelay c n : ℚ) * 2 - 1
        = (((2 * (n : ℤ) * (initialStepDelay c n : ℤ) - 1 : ℤ)) : ℚ) := by
      push_cast
      ring
    rw [e, Int.ceil_intCast]
    push_cast
    ring
  unfold stepDelayFor
  dsimp only
  show (if ((⌈(n : ℚ) * (initialStepDelay c n : ℚ) * (((1 + 1 / 1 : Nat) : ℕ) : ℚ) - 1⌉ : ℤ) : ℚ)
      * MOTORS_STEP_TIMER_PERIOD < c then (initialStepDelay c n + 1) % 4294967296
    else initialStepDelay c n) = _
  rw [hceil]

theorem initialStepDelay_bounds (c : ℚ) (n : Nat) (hn1 : 1 ≤ n)
    (hlo : (n : ℚ) * MOTORS_STEP_TIMER_PERIOD ≤ c)
    (hhi : c ≤ (n : ℚ) * MOTORS_STEP_TIMER_PERIOD * UINT32_MAX) :
    1 ≤ initialStepDelay c n
    ∧ (n : ℚ) * (initialStepDelay c n : ℚ) ≤ c / MOTORS_STEP_TIMER_PERIOD
    ∧ c / MOTORS_STEP_TIMER_PERIOD < (n : ℚ) * (initialStepDelay c n : ℚ) + n := by
  have hnq : (0 : ℚ) < n := by exact_mod_cast hn1
  have hp : (0 : ℚ) < (MOTORS_STEP_TIMER_PERIOD : ℚ) := by
    unfold MOTORS_STEP_TIMER_PERIOD
    norm_num
  have hv1 : 1 ≤ c / MOTORS_STEP_TIMER_PERIOD / (n : ℚ) := by
    rw [le_div_iff₀ hnq, le_div_iff₀ hp]
    linarith
  have hv2 : c / MOTORS_STEP_TIMER_PERIOD / (n : ℚ) ≤ (UINT32_MAX : ℚ) := by
    rw [div_le_iff₀ hnq, div_le_iff₀ hp]
    linarith
  have hin : getValueInRange (c / MOTORS_STEP_TIMER_PERIOD / (n : ℚ)) 1 UINT32_MAX
      = c / MOTORS_STEP_TIMER_PERIOD / (n : ℚ) := getValueInRange_inside _ _ _ hv1 hv2
  have hlt : c / MOTORS_STEP_TIMER_PERIOD / (n : ℚ) < 4294967296 := by
    have : (UINT32_MAX : ℚ) < 4294967296 := by
      unfold UINT32_MAX
      norm_num
    linarith
  obtain ⟨f1, f2⟩ := toUInt32_of_fits _ hv1 hlt
  have hd : initialStepDelay c n = toUInt32 (c / MOTORS_STEP_TIMER_PERIOD / (n : ℚ)) := by
    unfold initialStepDelay
    rw [hin]
  rw [hd]
  refine ⟨?_, ?_, ?_⟩
  · have : (0 : ℚ) < (toUInt32 (c / MOTORS_STEP_TIMER_PERIOD / (n : ℚ)) : ℚ) := by linarith
    exact_mod_cast this
  · have := mul_le_mul_of_nonneg_left f1 (le_of_lt hnq)
    rw [mul_div_cancel₀ _ (ne_of_gt hnq)] at this
    exact this
  · have := mul_lt_mul_of_pos_left f2 hnq
    rw [mul_div_cancel₀ _ (ne_of_gt hnq)] at this
    linarith

/-- The delay and the skip interval that `setMotorDelayAndSkip` computes for `n`
steps and a budget of at least `n` timer periods within the range of the delay: the
ticks they give are not fewer than the budget in timer periods. -/
theorem commanded_le_idleTime (c : ℚ) (n : Nat) (hn1 : 1 ≤ n)
    (hlo : (n : ℚ) * MOTORS_STEP_TIMER_PERIOD ≤ c)
    (hhi : c ≤ (n : ℚ) * MOTORS_STEP_TIMER_PERIOD * UINT32_MAX) :
    1 ≤ stepDelayFor c n
    ∧ c / MOTORS_STEP_TIMER_PERIOD
      ≤ ((if delaySkipsFor c n = 0 then n * stepDelayFor c n
          else n * stepDelayFor c n + (n * stepDelayFor c n - 1) / delaySkipsFor c n : Nat) : ℚ) := by
  obtain ⟨b1, b2, b3⟩ := initialStepDelay_bounds c n hn1 hlo hhi
  have hnq : (1 : ℚ) ≤ n := by exact_mod_cast hn1
  have hge : ∀ A s : Nat, ((A : Nat) : ℚ) ≤ ((if s = 0 then A else A + (A - 1) / s : Nat) : ℚ) := by
    intro A s
    split_ifs
    · exact le_refl _
    · exact_mod_cast Nat.le_add_right A _
  by_cases hcond : (2 * (n : ℚ) * (initialStepDelay c n : ℚ) - 1) * MOTORS_STEP_TIMER_PERIOD < c
  · -- the delay is incremented: the initial delay is 1
    have hp : (0 : ℚ) < (MOTORS_STEP_TIMER_PERIOD : ℚ) := by
      unfold MOTORS_STEP_TIMER_PERIOD
      norm_num
    have hc2 : 2 * (n : ℚ) * (initialStepDelay c n : ℚ) - 1 < c / MOTORS_STEP_TIMER_PERIOD := by
      rw [lt_div_iff₀ hp]
      exact hcond
    have hd0 : initialStepDelay c n = 1 := by
      have h3 : (n : ℚ) * (initialStepDelay c n : ℚ) < (n : ℚ) + 1 := by linarith
      have h4 : n * initialStepDelay c n < n + 1 := by exact_mod_cast h3
      have h5 : n * initialStepDelay c n ≤ n * 1 := by omega
      have h6 : initialStepDelay c n ≤ 1 := Nat.le_of_mul_le_mul_left h5 (by omega)
      omega
    have hd : stepDelayFor c n = 2 := by
      rw [stepDelayFor_eq, if_pos hcond, hd0]
    rw [hd]
    refine ⟨by norm_num, le_trans ?_ (hge (n * 2) (delaySkipsFor c n))⟩
    rw [hd0] at b3
    push_cast
    linarith
  · -- the delay is the initial delay
    have hd : stepDelayFor c n = initialStepDelay c n := by
      rw [stepDelayFor_eq, if_neg hcond]
    have hp : (0 : ℚ) < (MOTORS_STEP_TIMER_PERIOD : ℚ) := by
      unfold MOTORS_STEP_TIMER_PERIOD
      norm_num
    have hc2 : c / MOTORS_STEP_TIMER_PERIOD ≤ 2 * (n : ℚ) * (initialStepDelay c n : ℚ) - 1 := by
      rw [div_le_iff₀ hp]
      exact not_lt.mp hcond
    rw [hd]
    refine ⟨b1, ?_⟩
    generalize hA : n * initialStepDelay c n = A at *
    have hAq : (n : ℚ) * (initialStepDelay c n : ℚ) = (A : ℚ) := by
      rw [← hA]
      push_cast
      rfl
    rw [hAq] at b2 b3
    have hc3 : c / MOTORS_STEP_TIMER_PERIOD ≤ 2 * (A : ℚ) - 1 := by
      have : 2 * (n : ℚ) * (initialStepDelay c n : ℚ) = 2 * (A : ℚ) := by
        rw [← hAq]
        ring
      rw [this] at hc2
      exact hc2
    have hA1 : 1 ≤ A := by
      rw [← hA]
      exact Nat.mul_pos hn1 b1
    have hA1q : (1 : ℚ) ≤ A := by exact_mod_cast hA1
    -- the denominator
    have hD1 : 1 ≤ c / MOTORS_STEP_TIMER_PERIOD - ((A : ℚ) - 1) := by linarith
    have hDA : c / MOTORS_STEP_TIMER_PERIOD - ((A : ℚ) - 1) ≤ A := by linarith
    have hDpos : 0 < c / MOTORS_STEP_TIMER_PERIOD - ((A : ℚ) - 1) := by linarith
    have hq1 : 1 ≤ (A : ℚ) / (c / MOTORS_STEP_TIMER_PERIOD - ((A : ℚ) - 1)) := by
      rw [le_div_iff₀ hDpos]
      linarith
    have hmax : (0 : ℚ) ≤ (UINT32_MAX : ℚ) := by
      unfold UINT32_MAX
      norm_num
    have hw : 1 ≤ getValueInRange ((A : ℚ) / (c / MOTORS_STEP_TIMER_PERIOD - ((A : ℚ) - 1))) 0
          UINT32_MAX
        ∧ getValueInRange ((A : ℚ) / (c / MOTORS_STEP_TIMER_PERIOD - ((A : ℚ) - 1))) 0 UINT32_MAX
          ≤ (A : ℚ) / (c / MOTORS_STEP_TIMER_PERIOD - ((A : ℚ) - 1))
        ∧ getValueInRange ((A : ℚ) / (c / MOTORS_STEP_TIMER_PERIOD - ((A : ℚ) - 1))) 0 UINT32_MAX
          < 4294967296 := by
      unfold getValueInRange
      rw [max_eq_right (le_trans (by norm_num) hq1)]
      refine ⟨le_min ?_ hq1, min_le_right _ _, lt_of_le_of_lt (min_le_left _ _) ?_⟩
      · unfold UINT32_MAX
        norm_num
      · unfold UINT32_MAX
        norm_num
    obtain ⟨w1, w2, w3⟩ := hw
    obtain ⟨f1, f2⟩ := toUInt32_of_fits _ w1 w3
    have hs : delaySkipsFor c n
        = toUInt32 (getValueInRange
            ((A : ℚ) / (c / MOTORS_STEP_TIMER_PERIOD - ((A : ℚ) - 1))) 0 UINT32_MAX) := by
      unfold delaySkipsFor
      dsimp only
      rw [hd, hAq, if_pos (ne_of_gt hDpos)]
    rw [hs]
    generalize toUInt32 (getValueInRange
      ((A : ℚ) / (c / MOTORS_STEP_TIMER_PERIOD - ((A : ℚ) - 1))) 0 UINT32_MAX) = s at f1 f2 ⊢
    have hs1 : 1 ≤ s := by
      have : (0 : ℚ) < (s : ℚ) := by linarith
      exact_mod_cast this
    have hsq : (0 : ℚ) < s := by exact_mod_cast hs1
    rw [if_neg (by omega)]
    have hsD : (s : ℚ) * (c / MOTORS_STEP_TIMER_PERIOD - ((A : ℚ) - 1)) ≤ A := by
      have h1 : (s : ℚ) ≤ (A : ℚ) / (c / MOTORS_STEP_TIMER_PERIOD - ((A : ℚ) - 1)) :=
        le_trans f1 w2
      rw [le_div_iff₀ hDpos] at h1
      exact h1
    have hDs : c / MOTORS_STEP_TIMER_PERIOD - ((A : ℚ) - 1) ≤ (A : ℚ) / s := by
      rw [le_div_iff₀ hsq]
      linarith
    have hceil := ceil_skip_formula A s hA1 hs1
    have hle : (A : ℚ) * (1 + 1 / (s : ℚ)) - 1 ≤ ((⌈(A : ℚ) * (1 + 1 / (s : ℚ)) - 1⌉ : ℤ) : ℚ) :=
      Int.le_ceil _
    rw [hceil] at hle
    have e : (A : ℚ) * (1 + 1 / (s : ℚ)) - 1 = A + (A : ℚ) / s - 1 := by
      field_simp
      ring
    rw [e] at hle
    have hcast : (((A + (A - 1) / s : Nat) : ℤ) : ℚ) = ((A + (A - 1) / s : Nat) : ℚ) := by
      norm_cast
    rw [hcast] at hle
    linarith

/-- C21 at the Y motor of `syncStart`: 30 steps, delay 1 and skip interval 2 keep the
motor Stepping for 44 ticks. -/
theorem ticks_until_idle_match_comment_witness :
    syncStart.motorsIsMoving AXES.Y = true
    ∧ syncStart.motorsStepDelayCounter AXES.Y = 0 ∧ syncStart.motorsDelaySkipsCounter AXES.Y = 0
    ∧ syncStart.motorsNumberOfSteps AXES.Y = 30 ∧ syncStart.motorsStepDelay AXES.Y = 1
    ∧ syncStart.motorsDelaySkips AXES.Y = 2
    ∧ ∃ T : Nat, (∀ k, k < T → (ticks k syncStart).motorsIsMoving AXES.Y = true)
      ∧ (ticks T syncStart).motorsIsMoving AXES.Y = false
      ∧ (T : ℤ) = ⌈((30 : Nat) : ℚ) * ((1 : Nat) : ℚ) * (1 + 1 / ((2 : Nat) : ℚ)) - 1⌉ := by
  obtain ⟨T, t1, t2, -, t4⟩ := ticks_until_idle_match_comment syncStart AXES.Y (by decide)
    (by decide) (by decide) (by decide) (by decide) (by decide) (by decide) (by decide)
    (by decide)
  exact ⟨by decide, by decide, by decide, by decide, by decide, by decide, T, t1, t2,
    t4 (by decide)⟩

/-- C26: for a moving motor with `n ≥ 1` steps and a budget of cycles of at least
`n` timer periods and at most `n * UINT32_MAX` timer periods, the delay and the skip
interval that `setMotorDelayAndSkip` stores make the motor Stepping for a number of
ticks `T` that is not less than `cycles / MOTORS_STEP_TIMER_PERIOD`, after which it
is Idle. -/
theorem programmed_motor_runs_for_commanded_time (g : Globals) (a : AXES) (cycles : ℚ)
    (ha : a ≠ AXES.F) (hmov : g.motorsIsMoving a = true)
    (hn1 : 1 ≤ g.motorsNumberOfSteps a) (hn : g.motorsNumberOfSteps a < 4294967296)
    (hlo : (g.motorsNumberOfSteps a : ℚ) * MOTORS_STEP_TIMER_PERIOD ≤ cycles)
    (hhi : cycles ≤ (g.motorsNumberOfSteps a : ℚ) * MOTORS_STEP_TIMER_PERIOD * UINT32_MAX) :
    ∃ T : Nat, cycles / MOTORS_STEP_TIMER_PERIOD ≤ (T : ℚ)
      ∧ (∀ k, k < T → (ticks k (setMotorDelayAndSkip a cycles g)).motorsIsMoving a = true)
      ∧ (ticks T (setMotorDelayAndSkip a cycles g)).motorsIsMoving a = false := by
  obtain ⟨d1, hT⟩ := commanded_le_idleTime cycles (g.motorsNumberOfSteps a) hn1 hlo hhi
  have e1 : (setMotorDelayAndSkip a cycles g).motorsStepDelay a
      = stepDelayFor cycles (g.motorsNumberOfSteps a) := upd_at _ _ _
  have e2 : (setMotorDelayAndSkip a cycles g).motorsDelaySkips a
      = delaySkipsFor cycles (g.motorsNumberOfSteps a) := upd_at _ _ _
  have e3 : (setMotorDelayAndSkip a cycles g).motorsStepDelayCounter a = 0 := upd_at _ _ _
  have e4 : (setMotorDelayAndSkip a cycles g).motorsDelaySkipsCounter a = 0 := upd_at _ _ _
  have e5 : (setMotorDelayAndSkip a cycles g).motorsNumberOfSteps a = g.motorsNumberOfSteps a :=
    rfl
  have e6 : (setMotorDelayAndSkip a cycles g).motorsIsMoving a = g.motorsIsMoving a := rfl
  have hok : AxisOk (axisOf (setMotorDelayAndSkip a cycles g) a) := by
    refine ⟨?_, ?_, ?_, ?_, ?_, ?_, ?_, ?_⟩
    · show 1 ≤ (setMotorDelayAndSkip a cycles g).motorsNumberOfSteps a
      rw [e5]
      exact hn1
    · show (setMotorDelayAndSkip a cycles g).motorsNumberOfSteps a < 4294967296
      rw [e5]
      exact hn
    · show 1 ≤ (setMotorDelayAndSkip a cycles g).motorsStepDelay a
      rw [e1]
      exact d1
    · show (setMotorDelayAndSkip a cycles g).motorsStepDelay a < 4294967296
      rw [e1]
      exact stepDelayFor_lt _ _
    · show (setMotorDelayAndSkip a cycles g).motorsStepDelayCounter a
        < (setMotorDelayAndSkip a cycles g).motorsStepDelay a
      rw [e1, e3]
      exact d1
    · show (setMotorDelayAndSkip a cycles g).motorsDelaySkips a < 4294967296
      rw [e2]
      exact delaySkipsFor_lt _ _
    · show (setMotorDelayAndSkip a cycles g).motorsDelaySkipsCounter a
        ≤ (setMotorDelayAndSkip a cycles g).motorsDelaySkips a
      rw [e4]
      exact Nat.zero_le _
    · show (setMotorDelayAndSkip a cycles g).motorsIsMoving a = true
      rw [e6]
      exact hmov
  obtain ⟨t1, t2⟩ := ticks_idle_time (setMotorDelayAndSkip a cycles g) a ha hok
  have hI : idleTime (axisOf (setMotorDelayAndSkip a cycles g) a)
      = if delaySkipsFor cycles (g.motorsNumberOfSteps a) = 0 then
          g.motorsNumberOfSteps a * stepDelayFor cycles (g.motorsNumberOfSteps a)
        else g.motorsNumberOfSteps a * stepDelayFor cycles (g.motorsNumberOfSteps a)
          + (g.motorsNumberOfSteps a * stepDelayFor cycles (g.motorsNumberOfSteps a) - 1)
            / delaySkipsFor cycles (g.motorsNumberOfSteps a) := by
    show (if (setMotorDelayAndSkip a cycles g).motorsDelaySkips a = 0 then
        (setMotorDelayAndSkip a cycles g).motorsNumberOfSteps a
          * (setMotorDelayAndSkip a cycles g).motorsStepDelay a
          - (setMotorDelayAndSkip a cycles g).motorsStepDelayCounter a
      else (setMotorDelayAndSkip a cycles g).motorsNumberOfSteps a
          * (setMotorDelayAndSkip a cycles g).motorsStepDelay a
          - (setMotorDelayAndSkip a cycles g).motorsStepDelayCounter a
        + ((setMotorDelayAndSkip a cycles g).motorsNumberOfSteps a
          * (setMotorDelayAndSkip a cycles g).motorsStepDelay a
          - (setMotorDelayAndSkip a cycles g).motorsStepDelayCounter a - 1
          + (setMotorDelayAndSkip a cycles g).motorsDelaySkipsCounter a)
          / (setMotorDelayAndSkip a cycles g).motorsDelaySkips a) = _
    rw [e1, e2, e3, e4, e5]
    simp only [Nat.sub_zero, Nat.add_zero]
  refine ⟨idleTime (axisOf (setMotorDelayAndSkip a cycles g) a), ?_, t1, t2⟩
  rw [hI]
  exact hT

/-- C26 at the X motor of `syncExample`: 42 steps and a budget of 43008 cycles, which
is 42 timer periods, keep the motor Stepping for at least 42 ticks. -/
theorem programmed_motor_runs_for_commanded_time_witness :
    syncExample.motorsIsMoving AXES.X = true ∧ syncExample.motorsNumberOfSteps AXES.X = 42
    ∧ (43008 : ℚ) / MOTORS_STEP_TIMER_PERIOD = 42
    ∧ ∃ T : Nat, (42 : ℚ) ≤ (T : ℚ)
      ∧ (∀ k, k < T →
          (ticks k (setMotorDelayAndSkip AXES.X 43008 syncExample)).motorsIsMoving AXES.X = true)
      ∧ (ticks T (setMotorDelayAndSkip AXES.X 43008 syncExample)).motorsIsMoving AXES.X
          = false := by
  have hn : syncExample.motorsNumberOfSteps AXES.X = 42 := rfl
  have hp : (43008 : ℚ) / MOTORS_STEP_TIMER_PERIOD = 42 := by
    unfold MOTORS_STEP_TIMER_PERIOD
    norm_num
  obtain ⟨T, t0, t1, t2⟩ := programmed_motor_runs_for_commanded_time syncExample AXES.X 43008
    (by decide) (by decide) (by decide) (by decide)
    (by
      rw [hn]
      unfold MOTORS_STEP_TIMER_PERIOD
      norm_num)
    (by
      rw [hn]
      unfold MOTORS_STEP_TIMER_PERIOD UINT32_MAX
      norm_num)
  rw [hp] at t0
  exact ⟨by decide, hn, hp, T, t0, t1, t2⟩

/-! ## Theorems: the heights of the search for Z0 -/

/-- The steps of `z0Steps` end at the height at which `z0Search` ends. -/
theorem z0Steps_last (cfg : Config) (sc : SensorConfig) (maxZ : ℚ)
    (sessions : List (List Reading)) (matchCounter : Nat) (lastZ0 : ℚ)
    (q : Motors × Accelerometer) :
    ((z0Steps cfg sc maxZ sessions matchCounter lastZ0 q).map (fun e => e.zAfter)).getLastD
        (q.1.currentValues AXES.Z)
      = (z0Search cfg sc maxZ sessions matchCounter lastZ0 q).1.1.currentValues AXES.Z := by
  induction sessions generalizing matchCounter lastZ0 q with
  | nil =>
    rw [z0Steps, z0Search]
    split_ifs <;> rfl
  | cons session rest ih =>
    rw [z0Steps, z0Search]
    dsimp only
    split_ifs
    · rfl
    · rfl
    · rw [List.map_cons, List.map_cons, List.getLastD_cons, List.getLastD_cons]
      exact ih _ _ _
    · rw [List.map_cons, List.map_cons, List.getLastD_cons, List.getLastD_cons]
      exact ih _ _ _
    · rfl

/-- A descent does not raise the current Z when the steps/mm of the Z motor are
positive. -/
theorem z0Descent_le (cfg : Config) (sc : SensorConfig) (session : List Reading)
    (q : Motors × Accelerometer) (hpos : 0 < stepsPerMmOf q.1.eeprom AXES.Z) :
    (z0Descent cfg sc session q).1.currentValues AXES.Z ≤ q.1.currentValues AXES.Z := by
  have key : ∀ r : Motors, r.currentValues = q.1.currentValues → r.eeprom = q.1.eeprom →
      upd r.currentValues AXES.Z
          (r.currentValues AXES.Z
            - ((UINT32_MAX - r.globals.motorsNumberOfSteps AXES.Z : Nat) : ℚ)
              / (stepsPerMmOf r.eeprom AXES.Z * MICROSTEPS_PER_STEP)) AXES.Z
        ≤ q.1.currentValues AXES.Z := by
    intro r h1 h2
    rw [upd_at, h1, h2]
    apply sub_le_self
    apply div_nonneg (Nat.cast_nonneg _)
    apply mul_nonneg (le_of_lt hpos)
    unfold MICROSTEPS_PER_STEP
    norm_num
  unfold z0Descent
  dsimp only
  cases session with
  | nil => exact key _ rfl rfl
  | cons r0 rs =>
    dsimp only
    split_ifs
    · obtain ⟨c, l⟩ := z0Loop_spec sc (readAccelerationValues r0 q.2).2.yAcceleration rs 0
        (z0Setup cfg q.1, (readAccelerationValues r0 q.2).2)
      obtain ⟨-, -, -, -, -, -, -, -, -, -, -, -, -, -, -, -, a17⟩ := l
      exact key _ c a17
    · exact key _ rfl rfl

theorem z0Steps_below (cfg : Config) (sc : SensorConfig) (maxZ : ℚ)
    (sessions : List (List Reading)) (matchCounter : Nat) (lastZ0 : ℚ)
    (q : Motors × Accelerometer) (hz : q.1.currentValues AXES.Z ≤ maxZ)
    (hpos : 0 < stepsPerMmOf q.1.eeprom AXES.Z) :
    ∀ e ∈ z0Steps cfg sc maxZ sessions matchCounter lastZ0 q,
      (e.kind = Z0Kind.RETRACTION → e.target = min (e.zBefore + 2) maxZ)
      ∧ (e.kind = Z0Kind.DESCENT ∨ e.kind = Z0Kind.RETRACTION →
          e.zBefore ≤ maxZ ∧ e.zAfter ≤ maxZ) := by
  induction sessions generalizing matchCounter lastZ0 q with
  | nil =>
    intro e he
    rw [z0Steps] at he
    split_ifs at he
    · rw [List.mem_singleton] at he
      subst he
      exact ⟨(fun h => by cases h),
        fun _ => ⟨hz, le_trans (z0Descent_le cfg sc [] q hpos) hz⟩⟩
    · cases he
  | cons session rest ih =>
    have hd : (z0Descent cfg sc session q).1.currentValues AXES.Z ≤ maxZ :=
      le_trans (z0Descent_le cfg sc session q hpos) hz
    have hm : (moveToHeight cfg (min ((z0Descent cfg sc session q).1.currentValues AXES.Z + 2)
        maxZ) (z0Descent cfg sc session q).1).currentValues AXES.Z ≤ maxZ := by
      rcases moveToHeight_height cfg
        (min ((z0Descent cfg sc session q).1.currentValues AXES.Z + 2) maxZ)
        (z0Descent cfg sc session q).1 with h | h
      · rw [h]
        exact min_le_right _ _
      · rw [h]
        exact hd
    have hee : 0 < stepsPerMmOf (moveToHeight cfg
        (min ((z0Descent cfg sc session q).1.currentValues AXES.Z + 2) maxZ)
        (z0Descent cfg sc session q).1).eeprom AXES.Z := by
      rw [moveToHeight_eeprom, z0Descent_eeprom]
      exact hpos
    have hdesc : ∀ e : Z0Step, e = Z0Step.mk Z0Kind.DESCENT (q.1.currentValues AXES.Z)
          ((z0Descent cfg sc session q).1.currentValues AXES.Z)
          ((z0Descent cfg sc session q).1.currentValues AXES.Z) →
        (e.kind = Z0Kind.RETRACTION → e.target = min (e.zBefore + 2) maxZ)
        ∧ (e.kind = Z0Kind.DESCENT ∨ e.kind = Z0Kind.RETRACTION →
            e.zBefore ≤ maxZ ∧ e.zAfter ≤ maxZ) := by
      intro e he
      subst he
      exact ⟨(fun h => by cases h), fun _ => ⟨hz, hd⟩⟩
    have hretr : ∀ e : Z0Step, e = Z0Step.mk Z0Kind.RETRACTION
          ((z0Descent cfg sc session q).1.currentValues AXES.Z)
          (min ((z0Descent cfg sc session q).1.currentValues AXES.Z + 2) maxZ)
          ((moveToHeight cfg
            (min ((z0Descent cfg sc session q).1.currentValues AXES.Z + 2) maxZ)
            (z0Descent cfg sc session q).1).currentValues AXES.Z) →
        (e.kind = Z0Kind.RETRACTION → e.target = min (e.zBefore + 2) maxZ)
        ∧ (e.kind = Z0Kind.DESCENT ∨ e.kind = Z0Kind.RETRACTION →
            e.zBefore ≤ maxZ ∧ e.zAfter ≤ maxZ) := by
      intro e he
      subst he
      exact ⟨fun _ => rfl, fun _ => ⟨hd, hm⟩⟩
    intro e he
    rw [z0Steps] at he
    dsimp only at he
    split_ifs at he
    · rw [List.mem_singleton] at he
      exact hdesc e he
    · simp only [List.mem_cons, List.mem_singleton, List.not_mem_nil, or_false] at he
      rcases he with he | he | he
      · exact hdesc e he
      · subst he
        exact ⟨(fun h => by cases h),
          (fun h => by rcases h with h | h <;> cases h)⟩
      · subst he
        exact ⟨(fun h => by cases h),
          (fun h => by rcases h with h | h <;> cases h)⟩
    · rw [List.mem_cons, List.mem_cons] at he
      rcases he with he | he | he
      · exact hdesc e he
      · exact hretr e he
      · exact ih _ _ _ hm hee e he
    · rw [List.mem_cons, List.mem_cons] at he
      rcases he with he | he | he
      · exact hdesc e he
      · exact hretr e he
      · exact ih _ _ _ hm hee e he
    · cases he

theorem z0Loop_congr (sc sc2 : SensorConfig) (h : sc.Y_TILT_ACCELERATION = sc2.Y_TILT_ACCELERATION)
    (stillValue : Int) (rs : List Reading) (counter : Nat) (q : Motors × Accelerometer) :
    z0Loop sc stillValue rs counter q = z0Loop sc2 stillValue rs counter q := by
  induction rs generalizing counter q with
  | nil => rw [z0Loop, z0Loop]
  | cons r rs ih =>
    rw [z0Loop, z0Loop]
    dsimp only
    rw [h]
    simp only [ih]

/-- A descent depends on the sensor constants only through `Y_TILT_ACCELERATION`. -/
theorem z0Descent_congr (cfg : Config) (sc sc2 : SensorConfig)
    (h : sc.Y_TILT_ACCELERATION = sc2.Y_TILT_ACCELERATION) (session : List Reading)
    (q : Motors × Accelerometer) :
    z0Descent cfg sc session q = z0Descent cfg sc2 session q := by
  unfold z0Descent
  cases session with
  | nil => rfl
  | cons r0 rs =>
    dsimp only
    rw [z0Loop_congr sc sc2 h]

/-- The second attempt of the search near the bed: from 65 mm the descent travels for
400 ticks to 64.5 mm, the height of the attempt before; the match counter goes from 1
to 2 and the move by the correction of 1 mm goes to 65.5 mm. -/
theorem near_second_attempt (q : Motors × Accelerometer) (R : Nat)
    (hr : Ready (400 + waitBudget 2 R) q.1)
    (he : stepsPerMmOf q.1.eeprom AXES.Z = 100)
    (hz : q.1.currentValues AXES.Z = 65) :
    z0Steps (clockConfig 200000) raisedCorrectionConfig 65 [travelSession 400] 1 (129 / 2) q
      = [Z0Step.mk Z0Kind.DESCENT 65 (129 / 2) (129 / 2),
          Z0Step.mk Z0Kind.CORRECTION (129 / 2) (131 / 2) (131 / 2),
          Z0Step.mk Z0Kind.ADJUSTMENT (131 / 2) (129 / 2) (129 / 2)] := by
  have hc := z0Descent_congr (clockConfig 200000) raisedCorrectionConfig exampleSensorConfig rfl
    (travelSession 400) q
  obtain ⟨d1, d2, d3, d4, d5⟩ := z0Descent_travel_ready q 400 (waitBudget 2 R) _ hr
    (by norm_num) he hz
  rw [← hc] at d1 d2 d3 d4 d5
  have hd3 : (z0Descent (clockConfig 200000) raisedCorrectionConfig (travelSession 400)
      q).1.currentValues AXES.Z = 129 / 2 := by
    rw [d3]
    norm_num
  have hcorr : raisedCorrectionConfig.CALIBRATE_Z0_CORRECTION = 1 := rfl
  have hm : (moveToHeight (clockConfig 200000) (129 / 2 + 1)
      (z0Descent (clockConfig 200000) raisedCorrectionConfig (travelSession 400)
        q).1).currentValues AXES.Z = 129 / 2 + 1 :=
    moveToHeight_reaches (clockConfig 200000) _ _ d4 d5 (by rw [hd3]; norm_num [abs_le])
  have ha : (applyZ0Correction (clockConfig 200000) raisedCorrectionConfig
      (z0Descent (clockConfig 200000) raisedCorrectionConfig (travelSession 400)
        q).1).currentValues AXES.Z = 129 / 2 := by
    unfold applyZ0Correction
    dsimp only
    rw [upd_at, hcorr, hd3, hm]
    norm_num
  have hq : (!q.1.emergencyStopOccured) = true := by
    rw [hr.1]
    rfl
  have hf : ¬ ((z0Descent (clockConfig 200000) raisedCorrectionConfig (travelSession 400)
      q).1.emergencyStopOccured
      || !(z0Descent (clockConfig 200000) raisedCorrectionConfig (travelSession 400)
      q).2.isWorking) = true := by
    rw [d1.1, d2]
    decide
  have hl : |(129 / 2 : ℚ) - (z0Descent (clockConfig 200000) raisedCorrectionConfig
      (travelSession 400) q).1.currentValues AXES.Z| ≤ 1 := by
    rw [hd3]
    norm_num
  rw [z0Steps]
  dsimp only
  rw [if_pos hq, if_neg hf, if_pos hl, if_pos (by decide), ha, hcorr, hd3, hm, hz]
  norm_num

/-- The first attempt of the search near the bed: from 65 mm the descent travels for
400 ticks to 64.5 mm, within 1 mm of the height at the call; the match counter goes
from 0 to 1 and the retraction goes back to 65 mm. -/
theorem near_first_attempt (q : Motors × Accelerometer) (R : Nat)
    (hr : Ready (400 + waitBudget 2 (400 + waitBudget 2 R)) q.1)
    (he : stepsPerMmOf q.1.eeprom AXES.Z = 100)
    (hz : q.1.currentValues AXES.Z = 65) :
    z0Steps (clockConfig 200000) raisedCorrectionConfig 65
        [travelSession 400, travelSession 400] 0 65 q
      = [Z0Step.mk Z0Kind.DESCENT 65 (129 / 2) (129 / 2),
          Z0Step.mk Z0Kind.RETRACTION (129 / 2) 65 65,
          Z0Step.mk Z0Kind.DESCENT 65 (129 / 2) (129 / 2),
          Z0Step.mk Z0Kind.CORRECTION (129 / 2) (131 / 2) (131 / 2),
          Z0Step.mk Z0Kind.ADJUSTMENT (131 / 2) (129 / 2) (129 / 2)] := by
  have hc := z0Descent_congr (clockConfig 200000) raisedCorrectionConfig exampleSensorConfig rfl
    (travelSession 400) q
  obtain ⟨d1, d2, d3, d4, d5⟩ := z0Descent_travel_ready q 400
    (waitBudget 2 (400 + waitBudget 2 R)) _ hr (by norm_num) he hz
  rw [← hc] at d1 d2 d3 d4 d5
  have hd3 : (z0Descent (clockConfig 200000) raisedCorrectionConfig (travelSession 400)
      q).1.currentValues AXES.Z = 129 / 2 := by
    rw [d3]
    norm_num
  have hmin : min ((129 / 2 : ℚ) + 2) 65 = 65 := by norm_num
  obtain ⟨u1, u2, u3⟩ := moveToHeight_ready (clockConfig 200000) 65
    (z0Descent (clockConfig 200000) raisedCorrectionConfig (travelSession 400) q).1
    (400 + waitBudget 2 R) d1 d4 d5 (by rw [hd3]; norm_num [abs_le])
  have t := near_second_attempt
    (moveToHeight (clockConfig 200000) 65
      (z0Descent (clockConfig 200000) raisedCorrectionConfig (travelSession 400) q).1,
      (z0Descent (clockConfig 200000) raisedCorrectionConfig (travelSession 400) q).2)
    R u1 u3 u2
  have hq : (!q.1.emergencyStopOccured) = true := by
    rw [hr.1]
    rfl
  have hf : ¬ ((z0Descent (clockConfig 200000) raisedCorrectionConfig (travelSession 400)
      q).1.emergencyStopOccured
      || !(z0Descent (clockConfig 200000) raisedCorrectionConfig (travelSession 400)
      q).2.isWorking) = true := by
    rw [d1.1, d2]
    decide
  have hl : |(65 : ℚ) - (z0Descent (clockConfig 200000) raisedCorrectionConfig
      (travelSession 400) q).1.currentValues AXES.Z| ≤ 1 := by
    rw [hd3]
    norm_num [abs_le]
  have hm1 : (0 + 1) % 256 = 1 := rfl
  rw [z0Steps]
  dsimp only
  rw [if_pos hq, if_neg hf, if_pos hl, if_neg (by decide), hm1, hd3, hmin, t, u2, hz]

theorem nearBed_ready :
    nearBedPrinter.sessions = [travelSession 400, travelSession 400]
    ∧ nearBedPrinter.motors.currentValues AXES.Z = 65
    ∧ stepsPerMmOf nearBedPrinter.motors.eeprom AXES.Z = 100
    ∧ Ready (400 + waitBudget 2 (400 + waitBudget 2 0)) nearBedPrinter.motors := by
  refine ⟨rfl, threeAttempts_ready.2.1, rfl, rfl, fun _ => rfl, ?_⟩
  show 400 + waitBudget 2 (400 + waitBudget 2 0) ≤ 1000000000000000000000000000000
  norm_num [waitBudget, WAIT_BOUND]

/-- C25 (as stated, refuted): a call of `moveToZ0` at 65 mm with 100 steps/mm and a
Z0 correction of 1 mm, whose two descents touch after 0.5 mm. The retraction targets
`min(64.5 + 2, 65) = 65`, and the move by the correction, inside the loop "find Z0",
brings the current Z to 65.5 mm, above the 65 mm at which the procedure started. -/
theorem correction_move_rises_above_start :
    nearBedPrinter.motors.currentValues AXES.Z = 65
    ∧ 0 < stepsPerMmOf nearBedPrinter.motors.eeprom AXES.Z
    ∧ searchSteps (clockConfig 200000) raisedCorrectionConfig nearBedPrinter
      = [Z0Step.mk Z0Kind.DESCENT 65 (129 / 2) (129 / 2),
          Z0Step.mk Z0Kind.RETRACTION (129 / 2) 65 65,
          Z0Step.mk Z0Kind.DESCENT 65 (129 / 2) (129 / 2),
          Z0Step.mk Z0Kind.CORRECTION (129 / 2) (131 / 2) (131 / 2),
          Z0Step.mk Z0Kind.ADJUSTMENT (131 / 2) (129 / 2) (129 / 2)]
    ∧ ¬ ∀ e ∈ searchSteps (clockConfig 200000) raisedCorrectionConfig nearBedPrinter,
        e.zAfter ≤ nearBedPrinter.motors.currentValues AXES.Z := by
  obtain ⟨r1, r2, r3, r4⟩ := nearBed_ready
  have hs : searchSteps (clockConfig 200000) raisedCorrectionConfig nearBedPrinter
      = [Z0Step.mk Z0Kind.DESCENT 65 (129 / 2) (129 / 2),
          Z0Step.mk Z0Kind.RETRACTION (129 / 2) 65 65,
          Z0Step.mk Z0Kind.DESCENT 65 (129 / 2) (129 / 2),
          Z0Step.mk Z0Kind.CORRECTION (129 / 2) (131 / 2) (131 / 2),
          Z0Step.mk Z0Kind.ADJUSTMENT (131 / 2) (129 / 2) (129 / 2)] := by
    unfold searchSteps
    rw [r1, r2]
    exact near_first_attempt _ 0 r4 r3 r2
  refine ⟨r2, ?_, hs, ?_⟩
  · rw [r3]
    norm_num
  · intro h
    have h1 := h (Z0Step.mk Z0Kind.CORRECTION (129 / 2) (131 / 2) (131 / 2))
      (by rw [hs]; simp)
    rw [r2] at h1
    norm_num at h1

/-- C25 (amended): in a call of `moveToZ0` with positive steps/mm of the Z motor,
every retraction between contact attempts targets `min(current Z + 2, starting Z)`,
and before and after every descent and every retraction of the loop "find Z0", that
is up to the move by the Z0 correction that ends the search, the current Z does not
exceed the Z at which the procedure started. -/
theorem search_below_start_before_correction (cfg : Config) (sc : SensorConfig) (p : Printer)
    (hpos : 0 < stepsPerMmOf p.motors.eeprom AXES.Z) :
    ∀ e ∈ searchSteps cfg sc p,
      (e.kind = Z0Kind.RETRACTION →
        e.target = min (e.zBefore + 2) (p.motors.currentValues AXES.Z))
      ∧ (e.kind = Z0Kind.DESCENT ∨ e.kind = Z0Kind.RETRACTION →
          e.zBefore ≤ p.motors.currentValues AXES.Z
          ∧ e.zAfter ≤ p.motors.currentValues AXES.Z) := by
  unfold searchSteps
  exact z0Steps_below cfg sc (p.motors.currentValues AXES.Z) p.sessions 0
    (p.motors.currentValues AXES.Z) _ (le_refl _) hpos

theorem search_below_start_before_correction_witness :
    0 < stepsPerMmOf nearBedPrinter.motors.eeprom AXES.Z
    ∧ ∀ e ∈ searchSteps (clockConfig 200000) raisedCorrectionConfig nearBedPrinter,
      (e.kind = Z0Kind.RETRACTION →
        e.target = min (e.zBefore + 2) (nearBedPrinter.motors.currentValues AXES.Z))
      ∧ (e.kind = Z0Kind.DESCENT ∨ e.kind = Z0Kind.RETRACTION →
          e.zBefore ≤ nearBedPrinter.motors.currentValues AXES.Z
          ∧ e.zAfter ≤ nearBedPrinter.motors.currentValues AXES.Z) :=
  ⟨by rw [nearBed_ready.2.2.1]; norm_num,
    search_below_start_before_correction (clockConfig 200000) raisedCorrectionConfig
      nearBedPrinter (by rw [nearBed_ready.2.2.1]; norm_num)⟩

/-! ## Theorems: the jerk detection of the homing strokes -/

theorem firstDoubleDeviation_cons (deviates : Int → Int → Bool) (a b c : Int) (rest : List Int) :
    firstDoubleDeviation deviates (a :: b :: c :: rest)
      = if deviates a b && deviates b c then some 2
        else (firstDoubleDeviation deviates (b :: c :: rest)).map (· + 1) := by
  rw [firstDoubleDeviation]

theorem firstStop_false (bs : List Bool) :
    firstStop (false :: bs) = (firstStop bs).map (· + 1) := rfl

theorem firstStop_true (bs : List Bool) : firstStop (true :: bs) = some 0 := rfl

/-- The loop invariant of the homing loop after its first two samples `a` and `b`:
`lastValue` is `b` and `counter` is 1 when `b` deviates from `a` and 0 otherwise. -/
theorem homingTrace_window (i : AXES) (jerk : Nat) (rs : List Reading) (a b : Int)
    (q : Motors × Accelerometer) :
    firstDoubleDeviation (deviatesByAtLeast jerk)
        (a :: b :: (homingTrace i jerk rs false b
          (if deviatesByAtLeast jerk a b then 1 else 0) q).map Prod.fst)
      = (firstStop ((homingTrace i jerk rs false b
          (if deviatesByAtLeast jerk a b then 1 else 0) q).map Prod.snd)).map (· + 2) := by
  induction rs generalizing a b q with
  | nil =>
    rw [homingTrace]
    rfl
  | cons r rs ih =>
    rw [homingTrace]
    dsimp only
    by_cases hc : (areMotorsMoving q.1.globals && !q.1.emergencyStopOccured) = true
    swap
    · rw [if_neg hc]
      rfl
    rw [if_pos hc]
    by_cases hr : (readAccelerationValues r q.2).1 = true
    swap
    · rw [if_neg hr]
      rfl
    rw [if_pos hr, if_neg (show ¬ (false = true) by decide)]
    generalize (if i = AXES.Y then (readAccelerationValues r q.2).2.yAcceleration
      else (readAccelerationValues r q.2).2.xAcceleration) = v
    generalize ((elapse r.ticks q.1, (readAccelerationValues r q.2).2)
      : Motors × Accelerometer) = q1
    by_cases hbv : |b - v| ≥ (jerk : Int)
    · have dbv : deviatesByAtLeast jerk b v = true := by
        unfold deviatesByAtLeast
        exact decide_eq_true hbv
      rw [if_pos hbv]
      by_cases hab : deviatesByAtLeast jerk a b = true
      · rw [if_pos hab, if_pos (show (1 + 1) % 256 ≥ 2 by decide)]
        rw [List.map_cons, List.map_cons, firstDoubleDeviation_cons, hab, dbv, firstStop_true]
        rfl
      · have hab2 : deviatesByAtLeast jerk a b = false := by
          cases h : deviatesByAtLeast jerk a b
          · rfl
          · exact absurd h hab
        have h1 : (0 + 1) % 256 = if deviatesByAtLeast jerk b v then 1 else 0 := by
          rw [dbv]
          rfl
        rw [if_neg hab, if_neg (show ¬ ((0 + 1) % 256 ≥ 2) by decide), h1, List.map_cons,
          List.map_cons, firstDoubleDeviation_cons, ih b v, hab2, firstStop_false]
        generalize firstStop (List.map Prod.snd (homingTrace i jerk rs false v
          (if deviatesByAtLeast jerk b v then 1 else 0) q1)) = X
        cases X <;> rfl
    · have dbv : deviatesByAtLeast jerk b v = false := by
        unfold deviatesByAtLeast
        exact decide_eq_false hbv
      rw [if_neg hbv]
      have h0 : homingTrace i jerk rs false v 0 q1
          = homingTrace i jerk rs false v (if deviatesByAtLeast jerk b v then 1 else 0) q1 := by
        rw [dbv]
        rfl
      rw [h0, List.map_cons, List.map_cons, firstDoubleDeviation_cons, ih b v, dbv,
        Bool.and_false, firstStop_false]
      generalize firstStop (List.map Prod.snd (homingTrace i jerk rs false v
        (if false = true then 1 else 0) q1)) = X
      cases X <;> rfl

/-- The loop of a homing stroke, from its first run: the first sample at which it
stops the motor is the first sample such that it and the sample before it each
deviate from their predecessor by the jerk threshold or more. -/
theorem homingTrace_first (i : AXES) (jerk : Nat) (rs : List Reading) (lastValue : Int)
    (q : Motors × Accelerometer) :
    firstStop ((homingTrace i jerk rs true lastValue 0 q).map Prod.snd)
      = firstDoubleDeviation (deviatesByAtLeast jerk)
          ((homingTrace i jerk rs true lastValue 0 q).map Prod.fst) := by
  cases rs with
  | nil =>
    rw [homingTrace]
    rfl
  | cons r0 rs =>
    rw [homingTrace]
    dsimp only
    by_cases hc : (areMotorsMoving q.1.globals && !q.1.emergencyStopOccured) = true
    swap
    · rw [if_neg hc]
      rfl
    rw [if_pos hc]
    by_cases hr : (readAccelerationValues r0 q.2).1 = true
    swap
    · rw [if_neg hr]
      rfl
    rw [if_pos hr, if_pos rfl]
    generalize (if i = AXES.Y then (readAccelerationValues r0 q.2).2.yAcceleration
      else (readAccelerationValues r0 q.2).2.xAcceleration) = a
    generalize ((elapse r0.ticks q.1, (readAccelerationValues r0 q.2).2)
      : Motors × Accelerometer) = q1
    cases rs with
    | nil =>
      rw [homingTrace]
      rfl
    | cons r1 rs =>
      rw [homingTrace]
      dsimp only
      by_cases hc1 : (areMotorsMoving q1.1.globals && !q1.1.emergencyStopOccured) = true
      swap
      · rw [if_neg hc1]
        rfl
      rw [if_pos hc1]
      by_cases hr1 : (readAccelerationValues r1 q1.2).1 = true
      swap
      · rw [if_neg hr1]
        rfl
      rw [if_pos hr1, if_neg (show ¬ (false = true) by decide)]
      generalize (if i = AXES.Y then (readAccelerationValues r1 q1.2).2.yAcceleration
        else (readAccelerationValues r1 q1.2).2.xAcceleration) = b
      generalize ((elapse r1.ticks q1.1, (readAccelerationValues r1 q1.2).2)
        : Motors × Accelerometer) = q2
      have key : firstStop (false :: false :: (homingTrace i jerk rs false b
            (if deviatesByAtLeast jerk a b then 1 else 0) q2).map Prod.snd)
          = firstDoubleDeviation (deviatesByAtLeast jerk)
              (a :: b :: (homingTrace i jerk rs false b
                (if deviatesByAtLeast jerk a b then 1 else 0) q2).map Prod.fst) := by
        rw [homingTrace_window i jerk rs a b, firstStop_false, firstStop_false]
        generalize firstStop (List.map Prod.snd (homingTrace i jerk rs false b
          (if deviatesByAtLeast jerk a b then 1 else 0) q2)) = X
        cases X <;> rfl
      by_cases hab : |a - b| ≥ (jerk : Int)
      · have dab : deviatesByAtLeast jerk a b = true := by
          unfold deviatesByAtLeast
          exact decide_eq_true hab
        rw [dab] at key
        rw [if_pos hab, if_neg (show ¬ ((0 + 1) % 256 ≥ 2) by decide)]
        exact key
      · have dab : deviatesByAtLeast jerk a b = false := by
          unfold deviatesByAtLeast
          exact decide_eq_false hab
        rw [dab] at key
        rw [if_neg hab]
        exact key

/-- The value `firstDoubleDeviation` returns is an index `k ≥ 2` of the list such
that the samples `k - 1` and `k` each deviate from the sample before them, and no
smaller index is such. -/
theorem firstDoubleDeviation_some (deviates : Int → Int → Bool) (vs : List Int) :
    ∀ k, firstDoubleDeviation deviates vs = some k →
      2 ≤ k ∧ k < vs.length
      ∧ deviates (vs.getD (k - 2) 0) (vs.getD (k - 1) 0) = true
      ∧ deviates (vs.getD (k - 1) 0) (vs.getD k 0) = true
      ∧ ∀ j, 2 ≤ j → j < k →
          ¬ (deviates (vs.getD (j - 2) 0) (vs.getD (j - 1) 0) = true
            ∧ deviates (vs.getD (j - 1) 0) (vs.getD j 0) = true) := by
  induction vs with
  | nil =>
    intro k h
    rw [firstDoubleDeviation] at h
    · cases h
    · intro a b c rest hx
      cases hx
  | cons a t ih =>
    intro k h
    cases t with
    | nil =>
      rw [firstDoubleDeviation] at h
      · cases h
      · intro a b c rest hx
        cases hx
    | cons b t2 =>
      cases t2 with
      | nil =>
        rw [firstDoubleDeviation] at h
        · cases h
        · intro a b c rest hx
          cases hx
      | cons c rest =>
        rw [firstDoubleDeviation_cons] at h
        by_cases hd : (deviates a b && deviates b c) = true
        · rw [if_pos hd] at h
          have hk : k = 2 := by
            injection h with h
            exact h.symm
          subst hk
          rw [Bool.and_eq_true] at hd
          refine ⟨le_refl _, ?_, hd.1, hd.2, ?_⟩
          · simp
          · intro j h1 h2
            omega
        · rw [if_neg hd] at h
          rw [Option.map_eq_some'] at h
          obtain ⟨k1, hk1, rfl⟩ := h
          obtain ⟨g1, g2, g3, g4, g5⟩ := ih k1 hk1
          obtain ⟨m, rfl⟩ : ∃ m, k1 = m + 2 := ⟨k1 - 2, by omega⟩
          have e1 : m + 2 + 1 - 2 = m + 1 := by omega
          have e2 : m + 2 + 1 - 1 = m + 2 := by omega
          have e3 : m + 2 - 2 = m := by omega
          have e4 : m + 2 - 1 = m + 1 := by omega
          rw [e3, e4] at g3
          rw [e4] at g4
          refine ⟨by omega, ?_, ?_, ?_, ?_⟩
          · rw [List.length_cons]
            omega
          · rw [e1, e2, List.getD_cons_succ, List.getD_cons_succ]
            exact g3
          · rw [e2, List.getD_cons_succ, List.getD_cons_succ]
            exact g4
          · intro j h1 h2
            obtain ⟨n, rfl⟩ : ∃ n, j = n + 2 := ⟨j - 2, by omega⟩
            cases n with
            | zero =>
              intro hx
              apply hd
              rw [Bool.and_eq_true]
              exact hx
            | succ n =>
              have f1 : n + 1 + 2 - 2 = n + 1 := by omega
              have f2 : n + 1 + 2 - 1 = (n + 1) + 1 := by omega
              have f3 : n + 1 + 2 = (n + 2) + 1 := by omega
              have f4 : n + 2 - 2 = n := by omega
              have f5 : n + 2 - 1 = n + 1 := by omega
              have g := g5 (n + 2) (by omega) (by omega)
              rw [f4, f5] at g
              rw [f1, f2, f3, List.getD_cons_succ, List.getD_cons_succ, List.getD_cons_succ]
              exact g

/-- The trace of a homing loop over three readings that take no time, the second
and the third deviating by the jerk threshold or more: the motor is stopped at the
third. -/
theorem homingTrace_three (i : AXES) (jerk : Nat) (r1 r2 r3 : Reading)
    (q : Motors × Accelerometer) (hm : areMotorsMoving q.1.globals = true)
    (hs : q.1.emergencyStopOccured = false)
    (h1 : r1.success = true) (h2 : r2.success = true) (h3 : r3.success = true)
    (t1 : r1.ticks = 0) (t2 : r2.ticks = 0)
    (j1 : |(if i = AXES.Y then r1.yAcceleration else r1.xAcceleration)
        - (if i = AXES.Y then r2.yAcceleration else r2.xAcceleration)| ≥ (jerk : Int))
    (j2 : |(if i = AXES.Y then r2.yAcceleration else r2.xAcceleration)
        - (if i = AXES.Y then r3.yAcceleration else r3.xAcceleration)| ≥ (jerk : Int)) :
    homingTrace i jerk [r1, r2, r3] true 0 0 q
      = [(if i = AXES.Y then r1.yAcceleration else r1.xAcceleration, false),
          (if i = AXES.Y then r2.yAcceleration else r2.xAcceleration, false),
          (if i = AXES.Y then r3.yAcceleration else r3.xAcceleration, true)] := by
  have hc : (areMotorsMoving q.1.globals && !q.1.emergencyStopOccured) = true := by
    rw [hm, hs]
    rfl
  have e0 : ∀ s : Motors, elapse 0 s = s := fun _ => rfl
  have rd : ∀ (r : Reading) (a : Accelerometer), r.success = true →
      readAccelerationValues r a
        = (true, { isWorking := true, xAcceleration := r.xAcceleration,
                   yAcceleration := r.yAcceleration }) := by
    intro r a h
    unfold readAccelerationValues
    rw [if_pos h]
  rw [homingTrace]
  dsimp only
  rw [if_pos hc, t1, e0, rd r1 _ h1]
  dsimp only
  rw [if_pos rfl, if_pos rfl, homingTrace]
  dsimp only
  rw [if_pos hc, t2, e0, rd r2 _ h2]
  dsimp only
  rw [if_pos rfl, if_neg (show ¬ (false = true) by decide), if_pos j1,
    if_neg (show ¬ ((0 + 1) % 256 ≥ 2) by decide), homingTrace]
  dsimp only
  rw [if_pos hc, rd r3 _ h3]
  dsimp only
  rw [if_pos rfl, if_neg (show ¬ (false = true) by decide), if_pos j2,
    if_pos (show (((0 + 1) % 256 + 1) % 256 ≥ 2) by decide), homingTrace]

theorem thresholdPrinter_trace :
    strokeTrace exampleConfig exampleSensorConfig AXES.Y thresholdPrinter
      = [(0, false), (50, false), (100, true)] := by
  have hu : ∀ (f : AXES → Bool) (j : AXES) (v : Bool), upd f j v j = v := by
    intro f j v
    unfold upd
    rw [if_pos rfl]
  have hmv : (homingSetup exampleConfig AXES.Y thresholdPrinter.motors).globals.motorsIsMoving
      = upd thresholdPrinter.motors.globals.motorsIsMoving AXES.Y true := rfl
  have hm : areMotorsMoving (homingSetup exampleConfig AXES.Y thresholdPrinter.motors).globals
      = true :=
    areMotorsMoving_of _ AXES.Y (by decide) (by rw [hmv, hu])
  have hs : (homingSetup exampleConfig AXES.Y thresholdPrinter.motors).emergencyStopOccured
      = false := rfl
  have ht := homingTrace_three AXES.Y (jerkAcceleration exampleSensorConfig AXES.Y)
    (jerkReading 0) (jerkReading 50) (jerkReading 100)
    (homingSetup exampleConfig AXES.Y thresholdPrinter.motors, thresholdPrinter.accelerometer)
    hm hs rfl rfl rfl rfl rfl (jerk_deviation AXES.Y 0 50 (by decide))
    (jerk_deviation AXES.Y 50 100 (by decide))
  unfold strokeTrace
  exact ht

/-! ## Theorems: the sub-moves of a move with tasks -/

/-- The loop over the segments makes its sub-moves one after the other, each from
the state the one before it left. -/
theorem segmentLoop_moves (cfg : Config) (adjustHeight : Bool) (endValues valueChanges : AXES → ℚ)
    (n : Nat) (remaining : Nat) (c : Nat) (s : Motors) :
    segmentLoop cfg adjustHeight endValues valueChanges n remaining c s
      = (segmentMoves cfg adjustHeight endValues valueChanges n remaining c s).foldl
          (fun _ p => moveNoTask cfg p.1 p.2) s := by
  induction remaining generalizing c s with
  | zero =>
    rw [segmentLoop, segmentMoves]
    rfl
  | succ r ih =>
    rw [segmentLoop, segmentMoves, List.foldl_cons, ih]

theorem getHeightAdjustmentRequired_congr (cfg : Config) (s q : Motors) (h : sameLogical s q)
    (x y : ℚ) :
    getHeightAdjustmentRequired cfg q x y = getHeightAdjustmentRequired cfg s x y := by
  obtain ⟨-, -, -, -, -, -, a7, a8, a9, a10, a11, a12, a13, a14, a15, -, -⟩ := h
  unfold getHeightAdjustmentRequired
  rw [a7, a8, a9, a10, a11, a12, a13, a14, a15]

theorem segmentGcode_congr (cfg : Config) (adjustHeight : Bool) (endValues valueChanges : AXES → ℚ)
    (n c : Nat) (s q : Motors) (h : sameLogical s q) :
    segmentGcode cfg adjustHeight endValues valueChanges n c q
      = segmentGcode cfg adjustHeight endValues valueChanges n c s := by
  unfold segmentGcode
  dsimp only
  rw [h.1]
  simp only [getHeightAdjustmentRequired_congr cfg s q h]

/-- The sub-moves of the loop over the segments: there are `remaining + 1` of them,
and the one with index `j` has the G-code of the segment counter
`segmentCounter + j` and starts in absolute modes. -/
theorem segmentMoves_spec (cfg : Config) (adjustHeight : Bool) (endValues valueChanges : AXES → ℚ)
    (n : Nat) (remaining : Nat) :
    ∀ (c : Nat) (s : Motors), s.mode = MODES.ABSOLUTE → s.extruderMode = MODES.ABSOLUTE →
      (segmentMoves cfg adjustHeight endValues valueChanges n remaining c s).length = remaining + 1
      ∧ ∀ j, j ≤ remaining →
          ∃ q, (segmentMoves cfg adjustHeight endValues valueChanges n remaining c s)[j]?
              = some (segmentGcode cfg adjustHeight endValues valueChanges n (c + j) s, q)
            ∧ q.mode = MODES.ABSOLUTE ∧ q.extruderMode = MODES.ABSOLUTE := by
  induction remaining with
  | zero =>
    intro c s hm he
    rw [segmentMoves]
    refine ⟨rfl, ?_⟩
    intro j hj
    have : j = 0 := by omega
    subst this
    exact ⟨s, rfl, hm, he⟩
  | succ r ih =>
    intro c s hm he
    obtain ⟨hl, -, -⟩ := moveNoTask_spec cfg
      (segmentGcode cfg adjustHeight endValues valueChanges n c s) s
    obtain ⟨i1, i2⟩ := ih (c + 1)
      (moveNoTask cfg (segmentGcode cfg adjustHeight endValues valueChanges n c s) s)
      (hl.2.2.2.1.trans hm) (hl.2.2.2.2.1.trans he)
    rw [segmentMoves]
    refine ⟨by rw [List.length_cons, i1], ?_⟩
    intro j hj
    cases j with
    | zero => exact ⟨s, by rw [List.getElem?_cons_zero]; rfl, hm, he⟩
    | succ j =>
      obtain ⟨q, g1, g2, g3⟩ := i2 j (by omega)
      refine ⟨q, ?_, g2, g3⟩
      rw [List.getElem?_cons_succ, g1, segmentGcode_congr cfg adjustHeight endValues valueChanges n
        (c + 1 + j) s _ hl]
      have : c + 1 + j = c + (j + 1) := by omega
      rw [this]

/-- With height adjustment `Motors::splitUpMovement` makes `numberOfSegments`
sub-moves in absolute modes; the `k`-th, for `k` below the last, targets the start
values plus `k` segment lengths of the ratios, and the last targets the end values;
the Z target of each is raised by the height adjustment required at its X and Y
targets. -/
theorem subMoves_leveling (cfg : Config) (s : Motors) :
    (subMoves cfg true s).length = numberOfSegments cfg s
    ∧ ∀ k, 1 ≤ k → k ≤ numberOfSegments cfg s →
        ∃ g q, (subMoves cfg true s)[k - 1]? = some (g, q)
          ∧ q.mode = MODES.ABSOLUTE ∧ q.extruderMode = MODES.ABSOLUTE
          ∧ g.commandParameters
              = PARAMETER_X_OFFSET ||| PARAMETER_Y_OFFSET ||| PARAMETER_Z_OFFSET
                ||| PARAMETER_E_OFFSET
          ∧ (k < numberOfSegments cfg s →
              g.valueX = s.startValues AXES.X + (k : ℚ) * SEGMENT_LENGTH * valueRatio cfg s AXES.X
              ∧ g.valueY
                  = s.startValues AXES.Y + (k : ℚ) * SEGMENT_LENGTH * valueRatio cfg s AXES.Y
              ∧ g.valueZ
                  = s.startValues AXES.Z + (k : ℚ) * SEGMENT_LENGTH * valueRatio cfg s AXES.Z
                    + getHeightAdjustmentRequired cfg s g.valueX g.valueY
              ∧ g.valueE
                  = s.startValues AXES.E + (k : ℚ) * SEGMENT_LENGTH * valueRatio cfg s AXES.E)
          ∧ (k = numberOfSegments cfg s →
              g.valueX = s.currentValues AXES.X ∧ g.valueY = s.currentValues AXES.Y
              ∧ g.valueZ
                  = s.currentValues AXES.Z
                    + getHeightAdjustmentRequired cfg s (s.currentValues AXES.X)
                        (s.currentValues AXES.Y)
              ∧ g.valueE = s.currentValues AXES.E) := by
  have hn1 : 1 ≤ numberOfSegments cfg s := minimumOneCeil_pos _
  have hsub : subMoves cfg true s
      = segmentMoves cfg true s.currentValues (valueRatio cfg s) (numberOfSegments cfg s)
          (numberOfSegments cfg s - 1) 1
          { s with
            currentValues :=
              upd (motorList.foldl (fun acc i => upd acc i (s.startValues i)) s.currentValues)
                AXES.Z
                ((motorList.foldl (fun acc i => upd acc i (s.startValues i)) s.currentValues)
                    AXES.Z
                  + getHeightAdjustmentRequired cfg s (s.startValues AXES.X)
                      (s.startValues AXES.Y))
            mode := MODES.ABSOLUTE
            extruderMode := MODES.ABSOLUTE } := rfl
  obtain ⟨g1, g2⟩ := segmentMoves_spec cfg true s.currentValues (valueRatio cfg s)
    (numberOfSegments cfg s) (numberOfSegments cfg s - 1) 1
    { s with
      currentValues :=
        upd (motorList.foldl (fun acc i => upd acc i (s.startValues i)) s.currentValues)
          AXES.Z
          ((motorList.foldl (fun acc i => upd acc i (s.startValues i)) s.currentValues)
              AXES.Z
            + getHeightAdjustmentRequired cfg s (s.startValues AXES.X)
                (s.startValues AXES.Y))
      mode := MODES.ABSOLUTE
      extruderMode := MODES.ABSOLUTE } rfl rfl
  rw [hsub]
  refine ⟨by rw [g1]; omega, ?_⟩
  intro k hk1 hkn
  obtain ⟨q, e1, e2, e3⟩ := g2 (k - 1) (by omega)
  have hk : 1 + (k - 1) = k := by omega
  rw [hk] at e1
  refine ⟨_, q, e1, e2, e3, rfl, ?_, ?_⟩
  · intro hlt
    have hne : k ≠ numberOfSegments cfg s := by omega
    unfold segmentGcode
    dsimp only
    simp only [if_pos hne, if_pos (rfl : true = true)]
    refine ⟨?_, ?_, ?_, ?_⟩ <;> trivial
  · intro heq
    have hne : ¬ k ≠ numberOfSegments cfg s := by
      intro h
      exact h heq
    unfold segmentGcode
    dsimp only
    simp only [if_neg hne, if_pos (rfl : true = true)]
    refine ⟨?_, ?_, ?_, ?_⟩ <;> trivial

/-- Without height adjustment `Motors::splitUpMovement` makes one sub-move, to the
end values, in absolute modes. -/
theorem subMoves_single (cfg : Config) (s : Motors) :
    subMoves cfg false s = [(endGcode s.currentValues, segmentStart s)] := by
  unfold subMoves
  dsimp only
  rw [if_neg (by decide), Nat.sub_self, segmentMoves, segmentGcode_last]
  rfl

theorem moveSubMoves_eq (cfg : Config) (gcode : Gcode) (tasks : Nat) (s : Motors) (ht : tasks ≠ 0)
    (h : ¬ overflows cfg gcode tasks s) :
    moveSubMoves cfg gcode tasks s
      = subMoves cfg (hasFlag tasks BED_LEVELING_TASK) (afterBacklash cfg gcode tasks s) := by
  have hok := moveLoop_task_ok cfg gcode tasks ht (setFeedRate cfg gcode tasks s) initialLocals
    (fun i hi ho => h ⟨i, hi, ho⟩)
  unfold moveSubMoves
  rw [hok]
  dsimp only
  rw [if_pos ht]
  rfl

/-- The state in which `splitUpMovement` is called in a pass with tasks in which no
step count overflows: the start values are the current values before the call of
`move`, and the current values are those that `move` returns with. -/
theorem afterBacklash_values (cfg : Config) (gcode : Gcode) (tasks : Nat) (s : Motors)
    (ht : tasks ≠ 0) (h : ¬ overflows cfg gcode tasks s) (i : AXES) (hi : i ∈ moveOrder) :
    (afterBacklash cfg gcode tasks s).startValues i = s.currentValues i
    ∧ (afterBacklash cfg gcode tasks s).currentValues i
        = (move cfg gcode tasks s).2.currentValues i := by
  obtain ⟨b1, b2⟩ := backlashPass_spec cfg tasks (loopLocals cfg gcode tasks s)
    (loopState cfg gcode tasks s)
  constructor
  · show (backlashPass cfg tasks (loopLocals cfg gcode tasks s)
      (loopState cfg gcode tasks s)).startValues i = _
    rw [b2.1]
    exact (loopState_values cfg gcode tasks s i hi).1
  · show (backlashPass cfg tasks (loopLocals cfg gcode tasks s)
      (loopState cfg gcode tasks s)).currentValues i = _
    rw [b1, (move_task_spec cfg gcode tasks s ht h).1]
    rfl

theorem tenGcode_no_overflow (tasks : Nat)
    (hr : hasFlag tasks HANDLE_RECEIVED_COMMAND_TASK = false) :
    ¬ overflows squareRootConfig tenGcode tasks exampleMotors := by
  apply not_overflows_of_steps_le
  intro i hi hp z
  unfold moveOrder at hi
  simp only [List.mem_cons, List.mem_singleton, List.not_mem_nil, or_false] at hi
  rcases hi with rfl | rfl | rfl | rfl
  · exact absurd hp (by decide)
  · exact absurd hp (by decide)
  · exact absurd hp (by decide)
  · rw [totalNumberOfSteps_at_rest exampleMotors AXES.X _ rfl rfl rfl,
      resolvedTarget_absolute _ _ _ _ _ _ hr (by decide) rfl]
    have hv : (gcodeParameter tenGcode AXES.X).2 = 10 := rfl
    rw [hv]
    unfold UINT32_MAX
    norm_num

/-- The sample move of X to 10 mm with tasks: the state in which `splitUpMovement`
is called has X at 10 mm, started from 0 mm, and Y at its start value. -/
theorem tenGcode_values (tasks : Nat) (ht : tasks ≠ 0)
    (hr : hasFlag tasks HANDLE_RECEIVED_COMMAND_TASK = false) :
    (afterBacklash squareRootConfig tenGcode tasks exampleMotors).startValues AXES.X = 0
    ∧ (afterBacklash squareRootConfig tenGcode tasks exampleMotors).currentValues AXES.X = 10
    ∧ (afterBacklash squareRootConfig tenGcode tasks exampleMotors).startValues AXES.Y = 0
    ∧ (afterBacklash squareRootConfig tenGcode tasks exampleMotors).currentValues AXES.Y = 0 := by
  obtain ⟨x1, x2⟩ := afterBacklash_values squareRootConfig tenGcode tasks exampleMotors
    ht (tenGcode_no_overflow tasks hr) AXES.X (by decide)
  obtain ⟨y1, y2⟩ := afterBacklash_values squareRootConfig tenGcode tasks exampleMotors
    ht (tenGcode_no_overflow tasks hr) AXES.Y (by decide)
  have mx := move_task_currentValues squareRootConfig tenGcode tasks exampleMotors
    ht (tenGcode_no_overflow tasks hr) AXES.X (by decide)
  have my := move_task_currentValues squareRootConfig tenGcode tasks exampleMotors
    ht (tenGcode_no_overflow tasks hr) AXES.Y (by decide)
  rw [if_pos (by decide),
    resolvedTarget_absolute _ _ _ _ _ _ hr (by decide) rfl] at mx
  rw [if_neg (by decide)] at my
  refine ⟨?_, ?_, ?_, ?_⟩
  · rw [x1]
    rfl
  · rw [x2, mx]
    rfl
  · rw [y1]
    rfl
  · rw [y2, my]
    rfl

theorem tenGcode_distance (tasks : Nat) (ht : tasks ≠ 0)
    (hr : hasFlag tasks HANDLE_RECEIVED_COMMAND_TASK = false) :
    horizontalDistance squareRootConfig
        (afterBacklash squareRootConfig tenGcode tasks exampleMotors) = 10
    ∧ numberOfSegments squareRootConfig
        (afterBacklash squareRootConfig tenGcode tasks exampleMotors) = 5 := by
  obtain ⟨v1, v2, v3, v4⟩ := tenGcode_values tasks ht hr
  have hd : horizontalDistance squareRootConfig
      (afterBacklash squareRootConfig tenGcode tasks exampleMotors) = 10 := by
    unfold horizontalDistance
    rw [v1, v2, v3, v4]
    have h : ((10 : ℚ) - 0) ^ 2 + (0 - 0) ^ 2 = 100 := by norm_num
    rw [h]
    show (if (100 : ℚ) = 100 then (10 : ℚ) else 100) = 10
    rw [if_pos rfl]
  refine ⟨hd, ?_⟩
  unfold numberOfSegments
  rw [hd]
  unfold minimumOneCeil SEGMENT_LENGTH
  have h : ⌈(10 : ℚ) / 2⌉ = 5 := by
    rw [Int.ceil_eq_iff]
    norm_num
  rw [h]
  rfl

/-- C24 (as stated, refuted): the move of X from 0 mm to 10 mm with the backlash task
and without the bed-leveling task, as in the moves to the centre of `homeXY`. The
move is validated, its horizontal length is 10 mm and `numberOfSegments` is
`max(1, ceil(10 / 2)) = 5`, yet it is executed as one sub-move, to the end values. -/
theorem long_move_without_bed_leveling_is_one_sub_move :
    ¬ overflows squareRootConfig tenGcode BACKLASH_TASK exampleMotors
    ∧ hasFlag BACKLASH_TASK BED_LEVELING_TASK = false
    ∧ horizontalDistance squareRootConfig
        (afterBacklash squareRootConfig tenGcode BACKLASH_TASK exampleMotors) = 10
    ∧ numberOfSegments squareRootConfig
        (afterBacklash squareRootConfig tenGcode BACKLASH_TASK exampleMotors) = 5
    ∧ (moveSubMoves squareRootConfig tenGcode BACKLASH_TASK exampleMotors).length = 1
    ∧ (moveSubMoves squareRootConfig tenGcode BACKLASH_TASK exampleMotors).map
          (fun p => p.1.valueX) = [10] := by
  have hr : hasFlag BACKLASH_TASK HANDLE_RECEIVED_COMMAND_TASK = false := by decide
  have hsub := moveSubMoves_eq squareRootConfig tenGcode BACKLASH_TASK exampleMotors
    (by decide) (tenGcode_no_overflow BACKLASH_TASK hr)
  have hb : hasFlag BACKLASH_TASK BED_LEVELING_TASK = false := by decide
  rw [hb, subMoves_single] at hsub
  obtain ⟨d1, d2⟩ := tenGcode_distance BACKLASH_TASK (by decide) hr
  refine ⟨tenGcode_no_overflow BACKLASH_TASK hr, hb, d1, d2, ?_, ?_⟩
  · rw [hsub]
    rfl
  · rw [hsub, List.map_cons, List.map_nil]
    show [(afterBacklash squareRootConfig tenGcode BACKLASH_TASK exampleMotors).currentValues
      AXES.X] = [10]
    rw [(tenGcode_values BACKLASH_TASK (by decide) hr).2.1]

/-- C24 (amended): a validated move with tasks. With the bed-leveling task it is
executed as `max(1, ceil(L / 2mm))` consecutive absolute sub-moves, `L` being its
horizontal length: for `k` below the last the `k`-th sub-move targets the start
values plus `k` times 2 mm along the straight path, every motor advanced by its ratio
to `L`, and the last sub-move targets the end values of the move; the Z target of
every sub-move is raised by the height adjustment required at its X and Y targets.
Without the bed-leveling task it is executed as one absolute sub-move, to the end
values. -/
theorem validated_move_sub_moves (cfg : Config) (gcode : Gcode) (tasks : Nat) (s : Motors)
    (ht : tasks ≠ 0) (h : ¬ overflows cfg gcode tasks s) :
    (∀ i, i ∈ moveOrder →
        (afterBacklash cfg gcode tasks s).startValues i = s.currentValues i
        ∧ (afterBacklash cfg gcode tasks s).currentValues i
            = (move cfg gcode tasks s).2.currentValues i)
    ∧ numberOfSegments cfg (afterBacklash cfg gcode tasks s)
        = max 1 (Int.toNat ⌈horizontalDistance cfg (afterBacklash cfg gcode tasks s) / 2⌉)
    ∧ (hasFlag tasks BED_LEVELING_TASK = true →
        (moveSubMoves cfg gcode tasks s).length
            = numberOfSegments cfg (afterBacklash cfg gcode tasks s)
        ∧ ∀ k, 1 ≤ k → k ≤ numberOfSegments cfg (afterBacklash cfg gcode tasks s) →
            ∃ g q, (moveSubMoves cfg gcode tasks s)[k - 1]? = some (g, q)
              ∧ q.mode = MODES.ABSOLUTE ∧ q.extruderMode = MODES.ABSOLUTE
              ∧ g.commandParameters
                  = PARAMETER_X_OFFSET ||| PARAMETER_Y_OFFSET ||| PARAMETER_Z_OFFSET
                    ||| PARAMETER_E_OFFSET
              ∧ (k < numberOfSegments cfg (afterBacklash cfg gcode tasks s) →
                  g.valueX
                      = (afterBacklash cfg gcode tasks s).startValues AXES.X
                        + (k : ℚ) * 2 * valueRatio cfg (afterBacklash cfg gcode tasks s) AXES.X
                  ∧ g.valueY
                      = (afterBacklash cfg gcode tasks s).startValues AXES.Y
                        + (k : ℚ) * 2 * valueRatio cfg (afterBacklash cfg gcode tasks s) AXES.Y
                  ∧ g.valueZ
                      = (afterBacklash cfg gcode tasks s).startValues AXES.Z
                        + (k : ℚ) * 2 * valueRatio cfg (afterBacklash cfg gcode tasks s) AXES.Z
                        + getHeightAdjustmentRequired cfg (afterBacklash cfg gcode tasks s)
                            g.valueX g.valueY
                  ∧ g.valueE
                      = (afterBacklash cfg gcode tasks s).startValues AXES.E
                        + (k : ℚ) * 2 * valueRatio cfg (afterBacklash cfg gcode tasks s) AXES.E)
              ∧ (k = numberOfSegments cfg (afterBacklash cfg gcode tasks s) →
                  g.valueX = (afterBacklash cfg gcode tasks s).currentValues AXES.X
                  ∧ g.valueY = (afterBacklash cfg gcode tasks s).currentValues AXES.Y
                  ∧ g.valueZ
                      = (afterBacklash cfg gcode tasks s).currentValues AXES.Z
                        + getHeightAdjustmentRequired cfg (afterBacklash cfg gcode tasks s)
                            ((afterBacklash cfg gcode tasks s).currentValues AXES.X)
                            ((afterBacklash cfg gcode tasks s).currentValues AXES.Y)
                  ∧ g.valueE = (afterBacklash cfg gcode tasks s).currentValues AXES.E))
    ∧ (hasFlag tasks BED_LEVELING_TASK = false →
        ∃ q, moveSubMoves cfg gcode tasks s
            = [(endGcode (afterBacklash cfg gcode tasks s).currentValues, q)]
          ∧ q.mode = MODES.ABSOLUTE ∧ q.extruderMode = MODES.ABSOLUTE) := by
  have hsub := moveSubMoves_eq cfg gcode tasks s ht h
  refine ⟨fun i hi => afterBacklash_values cfg gcode tasks s ht h i hi, ?_, ?_, ?_⟩
  · unfold numberOfSegments minimumOneCeil SEGMENT_LENGTH
    rfl
  · intro hb
    rw [hb] at hsub
    rw [hsub]
    have hS : SEGMENT_LENGTH = 2 := rfl
    have hl := subMoves_leveling cfg (afterBacklash cfg gcode tasks s)
    rw [hS] at hl
    exact hl
  · intro hb
    rw [hb, subMoves_single] at hsub
    exact ⟨_, hsub, rfl, rfl⟩

theorem validated_move_sub_moves_witness :
    BACKLASH_TASK ||| BED_LEVELING_TASK ≠ 0
    ∧ ¬ overflows squareRootConfig tenGcode (BACKLASH_TASK ||| BED_LEVELING_TASK) exampleMotors
    ∧ hasFlag (BACKLASH_TASK ||| BED_LEVELING_TASK) BED_LEVELING_TASK = true
    ∧ numberOfSegments squareRootConfig
        (afterBacklash squareRootConfig tenGcode (BACKLASH_TASK ||| BED_LEVELING_TASK)
          exampleMotors) = 5
    ∧ (moveSubMoves squareRootConfig tenGcode (BACKLASH_TASK ||| BED_LEVELING_TASK)
        exampleMotors).length
        = numberOfSegments squareRootConfig
            (afterBacklash squareRootConfig tenGcode (BACKLASH_TASK ||| BED_LEVELING_TASK)
              exampleMotors) :=
  ⟨by decide, tenGcode_no_overflow _ (by decide), by decide,
    (tenGcode_distance _ (by decide) (by decide)).2,
    ((validated_move_sub_moves squareRootConfig tenGcode (BACKLASH_TASK ||| BED_LEVELING_TASK)
      exampleMotors (by decide) (tenGcode_no_overflow _ (by decide))).2.2.1 (by decide)).1⟩

/-! ## Theorems: the axis records and the autosave sequence -/

theorem saveTick_selected (q : SaveTimer × (AxisMemory × AxisRecords)) :
    selected (saveTick q).1 = nextSelected (selected q.1) := by
  unfold saveTick nextSelected selected
  dsimp only
  split_ifs <;> rfl

theorem saveTicks_selected (n : Nat) (q : SaveTimer × (AxisMemory × AxisRecords)) :
    selected (saveTicks n q).1 = nextSelected^[n] (selected q.1) := by
  induction n with
  | zero => rfl
  | succ n ih =>
    rw [Function.iterate_succ_apply', ← ih]
    exact saveTick_selected _

theorem nextSelected_period (n : Nat) :
    nextSelected^[n] (AXES.X, AXES_PARAMETER.DIRECTION)
      = saveCycle.getD (n % 9) (AXES.X, AXES_PARAMETER.DIRECTION) := by
  induction n using Nat.strong_induction_on with
  | _ n ih =>
    by_cases h : n < 9
    · interval_cases n <;> rfl
    · have e : n = (n - 9) + 9 := by omega
      have hm : n % 9 = (n - 9) % 9 := by omega
      rw [hm, ← ih (n - 9) (by omega)]
      conv_lhs => rw [e]
      rw [Function.iterate_add_apply]
      rfl

/-- C15: starting from the initial values of the static variables of the callback,
the save tick number `n + 1` selects the field number `n mod 9` of the sequence
(X, direction), (X, validity), (X, value), (Y, direction), (Y, validity),
(Y, value), (Z, direction), (Z, validity), (Z, value); the first save tick selects
(X, direction), the selection after `n + 9` ticks is the one after `n` ticks, and
the nine fields of the sequence are distinct and are all the fields of X, Y and
Z. -/
theorem autosave_selects_in_cyclic_order (n : Nat) (p : AxisMemory × AxisRecords) :
    selected (saveTicks (n + 1) (initialSaveTimer, p)).1
        = saveCycle.getD (n % 9) (AXES.X, AXES_PARAMETER.DIRECTION)
    ∧ selected (saveTicks 1 (initialSaveTimer, p)).1 = (AXES.X, AXES_PARAMETER.DIRECTION)
    ∧ selected (saveTicks (n + 1 + 9) (initialSaveTimer, p)).1
        = selected (saveTicks (n + 1) (initialSaveTimer, p)).1
    ∧ saveCycle.Nodup
    ∧ saveCycle.length = 9
    ∧ (∀ (i : AXES) (f : AXES_PARAMETER), i = AXES.X ∨ i = AXES.Y ∨ i = AXES.Z →
        (i, f) ∈ saveCycle) := by
  have key : ∀ m, selected (saveTicks (m + 1) (initialSaveTimer, p)).1
      = saveCycle.getD (m % 9) (AXES.X, AXES_PARAMETER.DIRECTION) := by
    intro m
    rw [saveTicks_selected, Function.iterate_succ_apply, ← nextSelected_period]
    rfl
  refine ⟨key n, key 0, ?_, by decide, rfl, ?_⟩
  · rw [show n + 1 + 9 = (n + 9) + 1 by omega, key, key]
    congr 1
    omega
  · intro i f hi
    rcases hi with rfl | rfl | rfl <;> cases f <;> decide

theorem saveState_eq (i : AXES) (f : AXES_PARAMETER) (p : AxisMemory × AxisRecords) :
    saveState i f p = changeStateMotor true f i p := by
  cases i <;> rfl

theorem saveState_memory (i : AXES) (f : AXES_PARAMETER) (p : AxisMemory × AxisRecords) :
    (saveState i f p).1 = p.1 := by
  rw [saveState_eq]
  unfold changeStateMotor
  rw [if_pos rfl]
  split <;> split_ifs <;> rfl

theorem save_direction (i : AXES) (c : ByteCell) (hc : savedDirectionOffset i = some c)
    (p : AxisMemory × AxisRecords) :
    saveState i AXES_PARAMETER.DIRECTION p
      = if p.2.bytes c ≠ boolByte (p.1.currentMotorDirections i) then
          (p.1, writeByte p.2 c (boolByte (p.1.currentMotorDirections i)))
        else p := by
  rw [saveState_eq]
  unfold changeStateMotor
  rw [if_pos rfl, hc]
  dsimp only
  by_cases h : p.2.bytes c = boolByte (p.1.currentMotorDirections i)
  · rw [if_neg (fun hh => hh.2 h), if_neg (fun hh => absurd hh.1 (by decide)),
      if_neg (by decide), if_neg (fun hh => hh h)]
  · rw [if_pos ⟨rfl, h⟩, if_pos h]

theorem save_direction_none (i : AXES) (hc : savedDirectionOffset i = none)
    (p : AxisMemory × AxisRecords) :
    saveState i AXES_PARAMETER.DIRECTION p = p := by
  rw [saveState_eq]
  unfold changeStateMotor
  rw [if_pos rfl, hc]
  dsimp only
  rw [if_neg (fun hh => absurd hh.1 (by decide)), if_neg (by decide)]

theorem save_validity (i : AXES) (p : AxisMemory × AxisRecords) :
    saveState i AXES_PARAMETER.VALIDITY p
      = if p.2.bytes (savedStateOffset i) ≠ boolByte (p.1.currentStateOfValues i) then
          (p.1, writeByte p.2 (savedStateOffset i) (boolByte (p.1.currentStateOfValues i)))
        else p := by
  rw [saveState_eq]
  unfold changeStateMotor
  rw [if_pos rfl]
  have e1 : ∀ (P : Prop), (AXES_PARAMETER.VALIDITY = AXES_PARAMETER.DIRECTION ∧ P) ↔ False :=
    fun P => ⟨fun hh => absurd hh.1 (by decide), False.elim⟩
  have e2 : (AXES_PARAMETER.VALIDITY = AXES_PARAMETER.VALUE) ↔ False :=
    ⟨fun hh => absurd hh (by decide), False.elim⟩
  have e3 : ∀ (P : Prop), (AXES_PARAMETER.VALIDITY = AXES_PARAMETER.VALIDITY ∧ P) ↔ P :=
    fun P => ⟨fun hh => hh.2, fun hh => ⟨rfl, hh⟩⟩
  split <;> simp only [e1, e2, e3, if_false, true_and]

theorem save_value (i : AXES) (p : AxisMemory × AxisRecords) :
    saveState i AXES_PARAMETER.VALUE p
      = if floatDiffers (p.2.values (savedValueOffset i)) (p.1.currentValues i) then
          (p.1, writeValue p.2 (savedValueOffset i) (p.1.currentValues i))
        else p := by
  rw [saveState_eq]
  unfold changeStateMotor
  rw [if_pos rfl]
  have e1 : ∀ (P : Prop), (AXES_PARAMETER.VALUE = AXES_PARAMETER.DIRECTION ∧ P) ↔ False :=
    fun P => ⟨fun hh => absurd hh.1 (by decide), False.elim⟩
  have e2 : ∀ (P : Prop), (AXES_PARAMETER.VALUE = AXES_PARAMETER.VALIDITY ∧ P) ↔ False :=
    fun P => ⟨fun hh => absurd hh.1 (by decide), False.elim⟩
  split <;> simp only [e1, e2, if_false, if_true, true_and]

theorem writeByte_self (r : AxisRecords) (c : ByteCell) (v : Nat) :
    (writeByte r c v).bytes c = v := by
  unfold writeByte
  dsimp only
  rw [if_pos rfl]

theorem writeByte_other (r : AxisRecords) (c d : ByteCell) (v : Nat) (h : d ≠ c) :
    (writeByte r c v).bytes d = r.bytes d := by
  unfold writeByte
  dsimp only
  rw [if_neg h]

theorem writeValue_self (r : AxisRecords) (c : ValueCell) (v : FloatContents) :
    (writeValue r c v).values c = v := by
  unfold writeValue
  dsimp only
  rw [if_pos rfl]

theorem writeValue_other (r : AxisRecords) (c d : ValueCell) (v : FloatContents) (h : d ≠ c) :
    (writeValue r c v).values d = r.values d := by
  unfold writeValue
  dsimp only
  rw [if_neg h]

theorem floatDiffers_of_ne (a b : FloatContents) (h : a ≠ b) : floatDiffers a b = true := by
  cases a with
  | nan => rfl
  | number x =>
    cases b with
    | nan => rfl
    | number y =>
      unfold floatDiffers
      exact decide_eq_true (fun e => h (by rw [e]))

theorem floatDiffers_number (a : FloatContents) (x : ℚ) (h : a = FloatContents.number x) :
    floatDiffers a (FloatContents.number x) = false := by
  rw [h]
  unfold floatDiffers
  exact decide_eq_false (fun hn => hn rfl)

theorem floatDiffers_nan (a : FloatContents) : floatDiffers a FloatContents.nan = true := by
  cases a <;> rfl

/-- A field that is not up to date and has a cell compares unequal; a field that is
up to date compares unequal only when it is a value that holds a NaN. -/
theorem fieldComparesUnequal_iff (s : AxisMemory) (r : AxisRecords) (i : AXES)
    (f : AXES_PARAMETER) :
    fieldComparesUnequal s r i f
      ↔ (¬ fieldUpToDate s r i f ∧ (fieldCell i f).isSome = true)
        ∨ (f = AXES_PARAMETER.VALUE ∧ s.currentValues i = FloatContents.nan) := by
  cases f with
  | DIRECTION =>
    constructor
    · rintro ⟨c, hc, hne⟩
      left
      constructor
      · rintro ⟨c1, h1, h2⟩
        rw [hc] at h1
        cases h1
        exact hne h2
      · unfold fieldCell
        rw [hc]
        rfl
    · rintro (⟨hn, hs⟩ | ⟨hf, -⟩)
      · rcases hd : savedDirectionOffset i with _ | c
        · unfold fieldCell at hs
          rw [hd] at hs
          cases hs
        · exact ⟨c, hd, fun hh => hn ⟨c, hd, hh⟩⟩
      · cases hf
  | VALIDITY =>
    constructor
    · intro h
      exact Or.inl ⟨h, rfl⟩
    · rintro (⟨hn, -⟩ | ⟨hf, -⟩)
      · exact hn
      · cases hf
  | VALUE =>
    constructor
    · intro h
      by_cases hn : s.currentValues i = FloatContents.nan
      · exact Or.inr ⟨rfl, hn⟩
      · left
        refine ⟨?_, rfl⟩
        intro hu
        have he : r.values (savedValueOffset i) = s.currentValues i := hu
        cases hv : s.currentValues i with
        | nan => exact hn hv
        | number x =>
          have h1 : floatDiffers (r.values (savedValueOffset i)) (s.currentValues i) = true := h
          rw [hv] at h1 he
          rw [floatDiffers_number _ x he] at h1
          cases h1
    · rintro (⟨hn, -⟩ | ⟨-, hnan⟩)
      · exact floatDiffers_of_ne _ _ hn
      · show floatDiffers (r.values (savedValueOffset i)) (s.currentValues i) = true
        rw [hnan]
        exact floatDiffers_nan _

/-- What a save of a field does: nothing when the test that guards the write fails,
otherwise one write, of the in-memory field to the cell of the field. -/
theorem saveState_spec (s : AxisMemory) (r : AxisRecords) (i : AXES) (f : AXES_PARAMETER) :
    (saveState i f (s, r)).1 = s
    ∧ (¬ fieldComparesUnequal s r i f → (saveState i f (s, r)).2 = r)
    ∧ (fieldComparesUnequal s r i f →
        (saveState i f (s, r)).2.writes = r.writes ++ (fieldCell i f).toList
        ∧ (fieldCell i f).isSome = true
        ∧ fieldUpToDate s (saveState i f (s, r)).2 i f
        ∧ (∀ c, fieldCell i f ≠ some (RecordCell.byte c) →
            (saveState i f (s, r)).2.bytes c = r.bytes c)
        ∧ (∀ c, fieldCell i f ≠ some (RecordCell.value c) →
            (saveState i f (s, r)).2.values c = r.values c)) := by
  refine ⟨saveState_memory i f (s, r), ?_⟩
  cases f with
  | DIRECTION =>
    rcases hd : savedDirectionOffset i with _ | c
    · rw [save_direction_none i hd]
      refine ⟨fun _ => rfl, ?_⟩
      rintro ⟨c, hc, -⟩
      rw [hd] at hc
      cases hc
    · rw [save_direction i c hd]
      have hc : fieldCell i AXES_PARAMETER.DIRECTION = some (RecordCell.byte c) := by
        unfold fieldCell
        rw [hd]
        rfl
      constructor
      · intro hn
        have he : ¬ r.bytes c ≠ boolByte (s.currentMotorDirections i) :=
          fun hh => hn ⟨c, hd, hh⟩
        rw [if_neg he]
      · rintro ⟨c1, h1, hne⟩
        rw [hd] at h1
        cases h1
        rw [if_pos hne, hc]
        refine ⟨rfl, rfl, ⟨c, hd, writeByte_self _ _ _⟩, ?_, fun _ _ => rfl⟩
        intro d hdc
        exact writeByte_other _ _ _ _ (fun e => hdc (by rw [e]))
  | VALIDITY =>
    rw [save_validity]
    have hc : fieldCell i AXES_PARAMETER.VALIDITY = some (RecordCell.byte (savedStateOffset i)) :=
      rfl
    constructor
    · intro hn
      have he : ¬ r.bytes (savedStateOffset i) ≠ boolByte (s.currentStateOfValues i) := hn
      rw [if_neg he]
    · intro h
      have hne : r.bytes (savedStateOffset i) ≠ boolByte (s.currentStateOfValues i) := h
      rw [if_pos hne, hc]
      refine ⟨rfl, rfl, writeByte_self _ _ _, ?_, fun _ _ => rfl⟩
      intro d hdc
      exact writeByte_other _ _ _ _ (fun e => hdc (by rw [e]))
  | VALUE =>
    rw [save_value]
    have hc : fieldCell i AXES_PARAMETER.VALUE = some (RecordCell.value (savedValueOffset i)) :=
      rfl
    constructor
    · intro hn
      have he : ¬ floatDiffers (r.values (savedValueOffset i)) (s.currentValues i) = true := hn
      rw [if_neg he]
    · intro h
      have hne : floatDiffers (r.values (savedValueOffset i)) (s.currentValues i) = true := h
      rw [if_pos hne, hc]
      refine ⟨rfl, rfl, writeValue_self _ _ _, fun _ _ => rfl, ?_⟩
      intro d hdc
      exact writeValue_other _ _ _ _ (fun e => hdc (by rw [e]))

theorem fieldCell_isSome (i : AXES) (f : AXES_PARAMETER)
    (hi : i = AXES.X ∨ i = AXES.Y ∨ i = AXES.Z)
    (hzd : ¬ (i = AXES.Z ∧ f = AXES_PARAMETER.DIRECTION)) : (fieldCell i f).isSome = true := by
  rcases hi with rfl | rfl | rfl <;> cases f <;> first | rfl | exact absurd ⟨rfl, rfl⟩ hzd

theorem fieldCell_inj (i j : AXES) (f g : AXES_PARAMETER) (c : RecordCell)
    (hi : i = AXES.X ∨ i = AXES.Y ∨ i = AXES.Z) (hj : j = AXES.X ∨ j = AXES.Y ∨ j = AXES.Z)
    (h1 : fieldCell i f = some c) (h2 : fieldCell j g = some c) : i = j ∧ f = g := by
  rw [← h2] at h1
  rcases hi with rfl | rfl | rfl <;> rcases hj with rfl | rfl | rfl <;> cases f <;> cases g <;>
    first
    | exact ⟨rfl, rfl⟩
    | exact absurd h1 (by decide)

theorem saveState_upToDate (s : AxisMemory) (r : AxisRecords) (i : AXES) (f : AXES_PARAMETER)
    (hi : i = AXES.X ∨ i = AXES.Y ∨ i = AXES.Z)
    (hzd : ¬ (i = AXES.Z ∧ f = AXES_PARAMETER.DIRECTION)) :
    fieldUpToDate s (saveState i f (s, r)).2 i f := by
  obtain ⟨-, h2, h3⟩ := saveState_spec s r i f
  by_cases h : fieldComparesUnequal s r i f
  · exact (h3 h).2.2.1
  · rw [h2 h]
    by_contra hu
    exact h ((fieldComparesUnequal_iff s r i f).mpr
      (Or.inl ⟨hu, fieldCell_isSome i f hi hzd⟩))

theorem saveState_keeps_upToDate (s : AxisMemory) (r : AxisRecords) (i j : AXES)
    (f g : AXES_PARAMETER) (hi : i = AXES.X ∨ i = AXES.Y ∨ i = AXES.Z)
    (hj : j = AXES.X ∨ j = AXES.Y ∨ j = AXES.Z) (h : fieldUpToDate s r j g) :
    fieldUpToDate s (saveState i f (s, r)).2 j g := by
  obtain ⟨-, h2, h3⟩ := saveState_spec s r i f
  by_cases hu : fieldComparesUnequal s r i f
  · obtain ⟨-, -, k2, k3, k4⟩ := h3 hu
    have same : ∀ c, fieldCell j g = some c → fieldCell i f = some c →
        fieldUpToDate s (saveState i f (s, r)).2 j g := by
      intro c e1 e2
      obtain ⟨rfl, rfl⟩ := fieldCell_inj i j f g c hi hj e2 e1
      exact k2
    cases g with
    | DIRECTION =>
      obtain ⟨c, hc, hb⟩ := h
      have e1 : fieldCell j AXES_PARAMETER.DIRECTION = some (RecordCell.byte c) := by
        unfold fieldCell
        rw [hc]
        rfl
      by_cases e2 : fieldCell i f = some (RecordCell.byte c)
      · exact same _ e1 e2
      · exact ⟨c, hc, by rw [k3 c e2]; exact hb⟩
    | VALIDITY =>
      by_cases e2 : fieldCell i f = some (RecordCell.byte (savedStateOffset j))
      · exact same _ rfl e2
      · show (saveState i f (s, r)).2.bytes (savedStateOffset j) = _
        rw [k3 _ e2]
        exact h
    | VALUE =>
      by_cases e2 : fieldCell i f = some (RecordCell.value (savedValueOffset j))
      · exact same _ rfl e2
      · show (saveState i f (s, r)).2.values (savedValueOffset j) = _
        rw [k4 _ e2]
        exact h
  · rw [h2 hu]
    exact h

theorem saveFold_spec (s : AxisMemory) (l : List (AXES × AXES_PARAMETER))
    (hl : ∀ x, x ∈ l → x.1 = AXES.X ∨ x.1 = AXES.Y ∨ x.1 = AXES.Z) (r : AxisRecords) :
    (l.foldl (fun acc x => saveState x.1 x.2 acc) (s, r)).1 = s
    ∧ ∀ (j : AXES) (g : AXES_PARAMETER), (j = AXES.X ∨ j = AXES.Y ∨ j = AXES.Z) →
        ¬ (j = AXES.Z ∧ g = AXES_PARAMETER.DIRECTION) →
        ((j, g) ∈ l ∨ fieldUpToDate s r j g) →
        fieldUpToDate s (l.foldl (fun acc x => saveState x.1 x.2 acc) (s, r)).2 j g := by
  induction l generalizing r with
  | nil =>
    refine ⟨rfl, ?_⟩
    intro j g _ _ h
    rcases h with h | h
    · exact absurd h (List.not_mem_nil _)
    · exact h
  | cons x rest ih =>
    have hx := hl x (List.mem_cons_self _ _)
    have hp : saveState x.1 x.2 (s, r) = (s, (saveState x.1 x.2 (s, r)).2) :=
      Prod.ext (saveState_memory x.1 x.2 (s, r)) rfl
    rw [List.foldl_cons, hp]
    obtain ⟨i1, i2⟩ := ih (fun y hy => hl y (List.mem_cons_of_mem _ hy))
      (saveState x.1 x.2 (s, r)).2
    refine ⟨i1, ?_⟩
    intro j g hj hzd h
    apply i2 j g hj hzd
    rcases h with h | h
    · rcases List.mem_cons.mp h with e | e
      · right
        rw [← e]
        exact saveState_upToDate s r j g hj hzd
      · exact Or.inl e
    · exact Or.inr (saveState_keeps_upToDate s r x.1 j x.2 g hx hj h)

theorem byteBool_boolByte (b : Bool) : byteBool (boolByte b) = b := by
  cases b <;> rfl

/-- What a restore reads into memory: for X, Y and Z the stored value and the stored
validity, for X and Y the stored direction; the direction of Z, which has no cell,
and the fields of the other axes stay as they are; the store is not written. -/
theorem restoreState_reads (m : AxisMemory) (r : AxisRecords) :
    (restoreState (m, r)).2 = r
    ∧ (∀ i, i = AXES.X ∨ i = AXES.Y ∨ i = AXES.Z →
        (restoreState (m, r)).1.currentValues i = r.values (savedValueOffset i)
        ∧ (restoreState (m, r)).1.currentStateOfValues i
            = byteBool (r.bytes (savedStateOffset i)))
    ∧ (∀ i c, savedDirectionOffset i = some c →
        (restoreState (m, r)).1.currentMotorDirections i = byteBool (r.bytes c))
    ∧ (restoreState (m, r)).1.currentMotorDirections AXES.Z = m.currentMotorDirections AXES.Z := by
  have hr : changeStateRange false AXES.X = [AXES.X, AXES.Y, AXES.Z] := rfl
  unfold restoreState changeState
  rw [hr, List.foldl_cons, List.foldl_cons, List.foldl_cons, List.foldl_nil]
  refine ⟨rfl, ?_, ?_, ?_⟩
  · intro i hi
    rcases hi with rfl | rfl | rfl <;> exact ⟨rfl, rfl⟩
  · intro i c hc
    cases i <;> first | (cases hc; rfl) | cases hc
  · rfl

theorem restoreMotor_upToDate (s : AxisMemory) (r : AxisRecords) (i : AXES) (f : AXES_PARAMETER)
    (hd : ∀ c, savedDirectionOffset i = some c → r.bytes c = boolByte (s.currentMotorDirections i))
    (hv : fieldUpToDate s r i AXES_PARAMETER.VALIDITY)
    (hval : fieldUpToDate s r i AXES_PARAMETER.VALUE) :
    changeStateMotor false f i (s, r) = (s, r) := by
  have hv1 : r.bytes (savedStateOffset i) = boolByte (s.currentStateOfValues i) := hv
  have hval1 : r.values (savedValueOffset i) = s.currentValues i := hval
  unfold changeStateMotor
  rw [if_neg (by decide)]
  rcases hc : savedDirectionOffset i with _ | c
  · dsimp only
    rw [hv1, hval1, byteBool_boolByte, upd_self, upd_self]
  · dsimp only
    rw [hd c hc, hv1, hval1, byteBool_boolByte, byteBool_boolByte, upd_self, upd_self, upd_self]

theorem restoreState_upToDate (s : AxisMemory) (r : AxisRecords)
    (h : ∀ (j : AXES) (g : AXES_PARAMETER), (j = AXES.X ∨ j = AXES.Y ∨ j = AXES.Z) →
        ¬ (j = AXES.Z ∧ g = AXES_PARAMETER.DIRECTION) → fieldUpToDate s r j g) :
    restoreState (s, r) = (s, r) := by
  have hX : changeStateMotor false AXES_PARAMETER.DIRECTION AXES.X (s, r) = (s, r) := by
    apply restoreMotor_upToDate
    · intro c hc
      obtain ⟨c1, h1, h2⟩ := h AXES.X AXES_PARAMETER.DIRECTION (Or.inl rfl) (by decide)
      rw [hc] at h1
      cases h1
      exact h2
    · exact h AXES.X AXES_PARAMETER.VALIDITY (Or.inl rfl) (by decide)
    · exact h AXES.X AXES_PARAMETER.VALUE (Or.inl rfl) (by decide)
  have hY : changeStateMotor false AXES_PARAMETER.DIRECTION AXES.Y (s, r) = (s, r) := by
    apply restoreMotor_upToDate
    · intro c hc
      obtain ⟨c1, h1, h2⟩ := h AXES.Y AXES_PARAMETER.DIRECTION (Or.inr (Or.inl rfl)) (by decide)
      rw [hc] at h1
      cases h1
      exact h2
    · exact h AXES.Y AXES_PARAMETER.VALIDITY (Or.inr (Or.inl rfl)) (by decide)
    · exact h AXES.Y AXES_PARAMETER.VALUE (Or.inr (Or.inl rfl)) (by decide)
  have hZ : changeStateMotor false AXES_PARAMETER.DIRECTION AXES.Z (s, r) = (s, r) := by
    apply restoreMotor_upToDate
    · intro c hc
      have hn : savedDirectionOffset AXES.Z = none := rfl
      rw [hn] at hc
      cases hc
    · exact h AXES.Z AXES_PARAMETER.VALIDITY (Or.inr (Or.inr rfl)) (by decide)
    · exact h AXES.Z AXES_PARAMETER.VALUE (Or.inr (Or.inr rfl)) (by decide)
  have hr : changeStateRange false AXES.X = [AXES.X, AXES.Y, AXES.Z] := rfl
  unfold restoreState changeState
  rw [hr, List.foldl_cons, List.foldl_cons, List.foldl_cons, List.foldl_nil, hX, hY, hZ]

/-- A restore from a store in which a field of X, Y or Z is up to date with a memory
`s` reads that field of `s` into whatever memory it is performed on. -/
theorem restoreState_field (s m : AxisMemory) (r : AxisRecords) (i : AXES) (f : AXES_PARAMETER)
    (hi : i = AXES.X ∨ i = AXES.Y ∨ i = AXES.Z) (h : fieldUpToDate s r i f) :
    sameField (restoreState (m, r)).1 s i f := by
  obtain ⟨-, r2, r3, -⟩ := restoreState_reads m r
  cases f with
  | DIRECTION =>
    obtain ⟨c, hc, hb⟩ := h
    show (restoreState (m, r)).1.currentMotorDirections i = s.currentMotorDirections i
    rw [r3 i c hc, hb, byteBool_boolByte]
  | VALIDITY =>
    have hb : r.bytes (savedStateOffset i) = boolByte (s.currentStateOfValues i) := h
    show (restoreState (m, r)).1.currentStateOfValues i = s.currentStateOfValues i
    rw [(r2 i hi).2, hb, byteBool_boolByte]
  | VALUE =>
    have hb : r.values (savedValueOffset i) = s.currentValues i := h
    show (restoreState (m, r)).1.currentValues i = s.currentValues i
    rw [(r2 i hi).1, hb]

theorem saveAllFields_spec (s : AxisMemory) (r : AxisRecords) :
    (saveAllFields (s, r)).1 = s
    ∧ (∀ (j : AXES) (g : AXES_PARAMETER), (j = AXES.X ∨ j = AXES.Y ∨ j = AXES.Z) →
        ¬ (j = AXES.Z ∧ g = AXES_PARAMETER.DIRECTION) →
        fieldUpToDate s (saveAllFields (s, r)).2 j g)
    ∧ restoreState (saveAllFields (s, r)) = saveAllFields (s, r) := by
  have hl : ∀ x, x ∈ saveCycle → x.1 = AXES.X ∨ x.1 = AXES.Y ∨ x.1 = AXES.Z := by
    decide
  obtain ⟨h1, h2⟩ := saveFold_spec s saveCycle hl r
  have hp : saveAllFields (s, r) = (s, (saveAllFields (s, r)).2) := Prod.ext h1 rfl
  have hu : ∀ (j : AXES) (g : AXES_PARAMETER), (j = AXES.X ∨ j = AXES.Y ∨ j = AXES.Z) →
      ¬ (j = AXES.Z ∧ g = AXES_PARAMETER.DIRECTION) →
      fieldUpToDate s (saveAllFields (s, r)).2 j g := by
    intro j g hj hzd
    apply h2 j g hj hzd
    left
    rcases hj with rfl | rfl | rfl <;> cases g <;> decide
  refine ⟨h1, hu, ?_⟩
  rw [hp]
  exact restoreState_upToDate s _ hu

/-- C16 (failing input): the axis records of an erased EEPROM, restored at start-up and
then saved. The restore reads the NaN of the cell of the Z value into memory and
leaves the store as it is, so that the stored value and the in-memory value hold the
same contents; yet the save of the Z value writes the cell, leaving the contents of
the store as they were, and the next save of the Z value writes it again; from a
store whose cells hold the number 5 the same restore and save write nothing. -/
theorem save_rewrites_identical_nan :
    (restoreState (exampleMemory, erasedRecords)).2 = erasedRecords
    ∧ (restoreState (exampleMemory, erasedRecords)).1.currentValues AXES.Z = FloatContents.nan
    ∧ erasedRecords.values (savedValueOffset AXES.Z)
        = (restoreState (exampleMemory, erasedRecords)).1.currentValues AXES.Z
    ∧ fieldUpToDate (restoreState (exampleMemory, erasedRecords)).1 erasedRecords AXES.Z
        AXES_PARAMETER.VALUE
    ∧ (saveState AXES.Z AXES_PARAMETER.VALUE
        (restoreState (exampleMemory, erasedRecords))).2.writes
        = [RecordCell.value ValueCell.LAST_RECORDED_Z_VALUE]
    ∧ (saveState AXES.Z AXES_PARAMETER.VALUE
        (restoreState (exampleMemory, erasedRecords))).2.values = erasedRecords.values
    ∧ (saveState AXES.Z AXES_PARAMETER.VALUE
        (restoreState (exampleMemory, erasedRecords))).2.bytes = erasedRecords.bytes
    ∧ (saveState AXES.Z AXES_PARAMETER.VALUE (saveState AXES.Z AXES_PARAMETER.VALUE
        (restoreState (exampleMemory, erasedRecords)))).2.writes
        = [RecordCell.value ValueCell.LAST_RECORDED_Z_VALUE,
            RecordCell.value ValueCell.LAST_RECORDED_Z_VALUE]
    ∧ fieldUpToDate (restoreState (exampleMemory, exampleRecords)).1 exampleRecords AXES.Z
        AXES_PARAMETER.VALUE
    ∧ (saveState AXES.Z AXES_PARAMETER.VALUE
        (restoreState (exampleMemory, exampleRecords))).2.writes = [] := by
  refine ⟨rfl, rfl, rfl, rfl, rfl, ?_, rfl, rfl, rfl, ?_⟩
  swap
  · have h : restoreState (exampleMemory, exampleRecords)
        = ((restoreState (exampleMemory, exampleRecords)).1, exampleRecords) := rfl
    rw [h, save_value]
    have hv : (restoreState (exampleMemory, exampleRecords)).1.currentValues AXES.Z
        = FloatContents.number 5 := rfl
    have hs : exampleRecords.values (savedValueOffset AXES.Z) = FloatContents.number 5 := rfl
    dsimp only
    rw [hv, hs, floatDiffers_number _ 5 rfl, if_neg (by decide)]
    rfl
  funext c
  cases c <;> rfl

/-- C17 (as stated, refuted): the direction of Z has no stored field; a save of it
leaves the store as it is, so that no stored direction of Z equals the in-memory
one afterwards. -/
theorem z_direction_is_not_stored :
    savedDirectionOffset AXES.Z = none
    ∧ saveState AXES.Z AXES_PARAMETER.DIRECTION (exampleMemory, exampleRecords)
        = (exampleMemory, exampleRecords)
    ∧ ¬ fieldUpToDate exampleMemory
        (saveState AXES.Z AXES_PARAMETER.DIRECTION (exampleMemory, exampleRecords)).2
        AXES.Z AXES_PARAMETER.DIRECTION := by
  refine ⟨rfl, save_direction_none AXES.Z rfl _, ?_⟩
  rintro ⟨c, hc, -⟩
  have hn : savedDirectionOffset AXES.Z = none := rfl
  rw [hn] at hc
  cases hc

/-- C17 (amended): for every axis among X, Y and Z and every field other than the
direction of Z, which has no stored field, and for the in-memory state `s` that is
saved, a NaN as a value included: after a save of the field the stored field holds
the in-memory field, the save having left the memory as it was; a restore performed
on the store after the save, whatever the memory `m` holds by then, reads the saved
field of `s` back into memory; a restore performed on the store after a save of all
the fields reads back every field of `s` of X, Y and Z other than the direction of
Z, leaves the direction of Z of the memory as it is and does not write the store;
performed right after the saves, on the memory `s` itself, it leaves memory and
store as they are; and a save of the direction of Z stores nothing. -/
theorem save_then_restore_is_identity (s m : AxisMemory) (r : AxisRecords) (i : AXES)
    (f : AXES_PARAMETER) (hi : i = AXES.X ∨ i = AXES.Y ∨ i = AXES.Z)
    (hzd : ¬ (i = AXES.Z ∧ f = AXES_PARAMETER.DIRECTION)) :
    fieldUpToDate s (saveState i f (s, r)).2 i f
    ∧ (saveState i f (s, r)).1 = s
    ∧ sameField (restoreState (m, (saveState i f (s, r)).2)).1 s i f
    ∧ sameField (restoreState (saveState i f (s, r))).1 s i f
    ∧ (∀ (j : AXES) (g : AXES_PARAMETER), (j = AXES.X ∨ j = AXES.Y ∨ j = AXES.Z) →
        ¬ (j = AXES.Z ∧ g = AXES_PARAMETER.DIRECTION) →
        sameField (restoreState (m, (saveAllFields (s, r)).2)).1 s j g)
    ∧ (restoreState (m, (saveAllFields (s, r)).2)).1.currentMotorDirections AXES.Z
        = m.currentMotorDirections AXES.Z
    ∧ (restoreState (m, (saveAllFields (s, r)).2)).2 = (saveAllFields (s, r)).2
    ∧ (saveAllFields (s, r)).1 = s
    ∧ restoreState (saveAllFields (s, r)) = saveAllFields (s, r)
    ∧ saveState AXES.Z AXES_PARAMETER.DIRECTION (s, r) = (s, r) := by
  have hu := saveState_upToDate s r i f hi hzd
  have hm := saveState_memory i f (s, r)
  have hp : saveState i f (s, r) = (s, (saveState i f (s, r)).2) := Prod.ext hm rfl
  obtain ⟨a1, a2, a3⟩ := saveAllFields_spec s r
  obtain ⟨r1, -, -, r4⟩ := restoreState_reads m (saveAllFields (s, r)).2
  refine ⟨hu, hm, restoreState_field s m _ i f hi hu, ?_, ?_, r4, r1, a1, a3,
    save_direction_none AXES.Z rfl _⟩
  · rw [hp]
    exact restoreState_field s s _ i f hi hu
  · intro j g hj hg
    exact restoreState_field s m _ j g hj (a2 j g hj hg)

theorem save_then_restore_is_identity_witness :
    (saveState AXES.Y AXES_PARAMETER.DIRECTION (exampleMemory, exampleRecords)).2.bytes
        ByteCell.LAST_RECORDED_Y_DIRECTION = 0
    ∧ otherMemory.currentMotorDirections AXES.Y = true
    ∧ (restoreState (otherMemory, (saveState AXES.Y AXES_PARAMETER.DIRECTION
        (exampleMemory, exampleRecords)).2)).1.currentMotorDirections AXES.Y = false
    ∧ (restoreState (otherMemory, (saveAllFields (exampleMemory, exampleRecords)).2)).1.currentValues
        AXES.X = FloatContents.number 0
    ∧ (restoreState (saveAllFields (exampleMemory, exampleRecords))).1 = exampleMemory
    ∧ (restoreState (exampleMemory, exampleRecords)).1.currentValues AXES.X
        = FloatContents.number 5 := by
  obtain ⟨h1, -, h3, -, h5, -, -, h8, h9, -⟩ := save_then_restore_is_identity exampleMemory
    otherMemory exampleRecords AXES.Y AXES_PARAMETER.DIRECTION (Or.inr (Or.inl rfl)) (by decide)
  refine ⟨?_, rfl, h3, h5 AXES.X AXES_PARAMETER.VALUE (Or.inl rfl) (by decide), ?_, rfl⟩
  · obtain ⟨c, hc, hb⟩ := h1
    have hy : savedDirectionOffset AXES.Y = some ByteCell.LAST_RECORDED_Y_DIRECTION := rfl
    rw [hy] at hc
    cases hc
    exact hb
  · rw [h9]
    exact h8

/-! ## Theorems: the overflow check at 2^32 steps -/

/-- No step count overflows when, for every motor present in the command, the
step count from the state before the call to the resolved target is at most 2^32,
whatever Z value selects the band. -/
theorem not_overflows_of_steps_le_float (cfg : Config) (gcode : Gcode) (tasks : Nat) (s : Motors)
    (h : ∀ i, i ∈ moveOrder →
      hasFlag gcode.commandParameters (gcodeParameter gcode i).1 = true →
      ∀ z, totalNumberOfSteps s i (resolvedTarget cfg tasks s i (gcodeParameter gcode i).2 z)
        ≤ UINT32_MAX_AS_FLOAT) :
    ¬ overflows cfg gcode tasks s := by
  apply not_overflows_of_float_bound
  intro i hi hp
  obtain ⟨-, -, -, h4, h5, h6⟩ := stateBefore_frame cfg gcode tasks s i
  have hF : i ≠ AXES.F := by
    intro hF
    rw [hF] at hi
    exact absurd hi (by decide)
  rw [totalNumberOfSteps_stateBefore cfg gcode tasks s i hi,
    resolveNewValue_eq cfg tasks _ s i _ hF h4 h5 h6
      (stateBefore_currentValues_self cfg gcode tasks s i hi)]
  exact h i hi hp _

theorem twoTo32_steps : totalNumberOfSteps coarseMotors AXES.X 4194304 = 4294967296 := by
  unfold totalNumberOfSteps MICROSTEPS_PER_STEP
  dsimp only
  have hc : coarseMotors.currentValues AXES.X = 0 := rfl
  have he : stepsPerMmOf coarseMotors.eeprom AXES.X = 128 := rfl
  have hr : coarseMotors.globals.motorsNumberOfRemainingSteps AXES.X = 0 := rfl
  rw [hc, he, hr]
  split_ifs <;> norm_num

theorem twoTo32_no_overflow :
    ¬ overflows exampleConfig twoTo32Gcode BACKLASH_TASK coarseMotors := by
  apply not_overflows_of_steps_le_float
  intro i hi hp z
  unfold moveOrder at hi
  simp only [List.mem_cons, List.mem_singleton, List.not_mem_nil, or_false] at hi
  rcases hi with rfl | rfl | rfl | rfl
  · exact absurd hp (by decide)
  · exact absurd hp (by decide)
  · exact absurd hp (by decide)
  · rw [resolvedTarget_absolute _ _ _ _ _ _ (by decide) (by decide) rfl]
    have hv : (gcodeParameter twoTo32Gcode AXES.X).2 = 4194304 := rfl
    rw [hv, twoTo32_steps]
    unfold UINT32_MAX_AS_FLOAT
    norm_num

/-- C6 (failing input): a move with tasks of X from 0 mm to 4194304 mm at 128 steps/mm. The
step count computed for X is 2^32, which exceeds `UINT32_MAX`, the range of the step
counter; the comparison `totalNumberOfSteps > UINT32_MAX` of motors.cpp 741 is made
with `UINT32_MAX` converted to `float`, that is with 2^32, and does not hold: `move`
returns `true` and X is at 4194304 mm on return. -/
theorem overflow_check_accepts_two_to_the_32_steps :
    totalNumberOfSteps
        (stateBefore exampleConfig twoTo32Gcode BACKLASH_TASK
          (setFeedRate exampleConfig twoTo32Gcode BACKLASH_TASK coarseMotors) AXES.X) AXES.X
        (resolveNewValue exampleConfig
          (stateBefore exampleConfig twoTo32Gcode BACKLASH_TASK
            (setFeedRate exampleConfig twoTo32Gcode BACKLASH_TASK coarseMotors) AXES.X)
          BACKLASH_TASK AXES.X (gcodeParameter twoTo32Gcode AXES.X).2) = 4294967296
    ∧ ((UINT32_MAX : Nat) : ℚ) < 4294967296
    ∧ hasFlag twoTo32Gcode.commandParameters (gcodeParameter twoTo32Gcode AXES.X).1 = true
    ∧ (move exampleConfig twoTo32Gcode BACKLASH_TASK coarseMotors).1 = true
    ∧ (move exampleConfig twoTo32Gcode BACKLASH_TASK coarseMotors).2.currentValues AXES.X
        = 4194304
    ∧ coarseMotors.currentValues AXES.X = 0 := by
  refine ⟨?_, ?_, by decide, move_no_overflow _ _ _ _ (by decide) twoTo32_no_overflow, ?_, rfl⟩
  · obtain ⟨-, -, -, h4, h5, h6⟩ :=
      stateBefore_frame exampleConfig twoTo32Gcode BACKLASH_TASK coarseMotors AXES.X
    rw [totalNumberOfSteps_stateBefore exampleConfig twoTo32Gcode BACKLASH_TASK coarseMotors
        AXES.X (by decide),
      resolveNewValue_eq exampleConfig BACKLASH_TASK _ coarseMotors AXES.X _ (by decide) h4 h5 h6
        (stateBefore_currentValues_self exampleConfig twoTo32Gcode BACKLASH_TASK coarseMotors
          AXES.X (by decide)),
      resolvedTarget_absolute _ _ _ _ _ _ (by decide) (by decide) rfl]
    exact twoTo32_steps
  · unfold UINT32_MAX
    norm_num
  · rw [move_task_currentValues exampleConfig twoTo32Gcode BACKLASH_TASK coarseMotors
      (by decide) twoTo32_no_overflow AXES.X (by decide), if_pos (by decide),
      resolvedTarget_absolute _ _ _ _ _ _ (by decide) (by decide) rfl]
    rfl

/-! ## Theorems: the search for Z0 ends at the second agreement in a row -/

/-- A search for Z0 that ends without emergency stop and with a working accelerometer
has applied the correction to the state after its last contact attempt, which itself
ended without emergency stop and with a working accelerometer; the match counter is 2
after all attempts and below 2 after every shorter run of them. -/
theorem z0Search_success (cfg : Config) (sc : SensorConfig) (maxZ : ℚ)
    (sessions : List (List Reading)) :
    ∀ (matchCounter : Nat) (lastZ0 : ℚ) (q : Motors × Accelerometer), matchCounter ≤ 1 →
      (z0Search cfg sc maxZ sessions matchCounter lastZ0 q).1.1.emergencyStopOccured = false →
      (z0Search cfg sc maxZ sessions matchCounter lastZ0 q).1.2.isWorking = true →
      ∃ q1, (z0Attempts cfg sc maxZ sessions matchCounter lastZ0 q).getLast? = some q1
        ∧ (z0Search cfg sc maxZ sessions matchCounter lastZ0 q).1
            = (applyZ0Correction cfg sc q1.1, q1.2)
        ∧ matchCount lastZ0 matchCounter
            ((z0Attempts cfg sc maxZ sessions matchCounter lastZ0 q).map
              (fun q => q.1.currentValues AXES.Z)) = 2
        ∧ q1.1.emergencyStopOccured = false
        ∧ q1.2.isWorking = true := by
  induction sessions with
  | nil =>
    intro mc last q _ hs hw
    exfalso
    rw [z0Search] at hs hw
    by_cases hq : (!q.1.emergencyStopOccured) = true
    · rw [if_pos hq] at hw
      have : (z0Descent cfg sc [] q).2.isWorking = false := rfl
      rw [this] at hw
      cases hw
    · rw [if_neg hq] at hs
      simp only [Bool.not_eq_true', Bool.not_eq_false] at hq
      rw [hq] at hs
      cases hs
  | cons session rest ih =>
    intro mc last q hmc hs hw
    rw [z0Search] at hs hw ⊢
    rw [z0Attempts]
    dsimp only at hs hw ⊢
    by_cases hq : (!q.1.emergencyStopOccured) = true
    · rw [if_pos hq] at hs hw ⊢
      rw [if_pos hq]
      by_cases hf : ((z0Descent cfg sc session q).1.emergencyStopOccured
          || !(z0Descent cfg sc session q).2.isWorking) = true
      · exfalso
        rw [if_pos hf] at hs hw
        rw [hs, hw] at hf
        cases hf
      · rw [if_neg hf] at hs hw ⊢
        rw [if_neg hf]
        by_cases ha : |last - (z0Descent cfg sc session q).1.currentValues AXES.Z| ≤ 1
        · rw [if_pos ha] at hs hw ⊢
          rw [if_pos ha]
          by_cases hc : (mc + 1) % 256 ≥ 2
          · rw [if_pos hc] at hs hw ⊢
            rw [if_pos hc]
            have hmc1 : mc = 1 := by omega
            have hok : (z0Descent cfg sc session q).1.emergencyStopOccured = false
                ∧ (z0Descent cfg sc session q).2.isWorking = true := by
              cases h1 : (z0Descent cfg sc session q).1.emergencyStopOccured <;>
                cases h2 : (z0Descent cfg sc session q).2.isWorking <;>
                  rw [h1, h2] at hf <;> first | exact ⟨rfl, rfl⟩ | exact absurd rfl hf
            refine ⟨z0Descent cfg sc session q, rfl, rfl, ?_, hok.1, hok.2⟩
            rw [List.map_cons, List.map_nil, matchCount, matchCount, if_pos ha, hmc1]
          · rw [if_neg hc] at hs hw ⊢
            rw [if_neg hc]
            have hmc0 : (mc + 1) % 256 = mc + 1 := Nat.mod_eq_of_lt (by omega)
            obtain ⟨q1, g1, g2, g3, g5, g6⟩ := ih ((mc + 1) % 256)
              ((z0Descent cfg sc session q).1.currentValues AXES.Z)
              (moveToHeight cfg
                (min ((z0Descent cfg sc session q).1.currentValues AXES.Z + 2) maxZ)
                (z0Descent cfg sc session q).1, (z0Descent cfg sc session q).2)
              (by omega) hs hw
            rw [hmc0] at g1 g2 g3 ⊢
            refine ⟨q1, ?_, g2, ?_, g5, g6⟩
            · rw [List.getLast?_cons, g1]
              rfl
            · rw [List.map_cons, matchCount, if_pos ha]
              exact g3
        · rw [if_neg ha] at hs hw ⊢
          rw [if_neg ha]
          obtain ⟨q1, g1, g2, g3, g5, g6⟩ := ih 0
            ((z0Descent cfg sc session q).1.currentValues AXES.Z)
            (moveToHeight cfg
              (min ((z0Descent cfg sc session q).1.currentValues AXES.Z + 2) maxZ)
              (z0Descent cfg sc session q).1, (z0Descent cfg sc session q).2)
            (by omega) hs hw
          refine ⟨q1, ?_, g2, ?_, g5, g6⟩
          · rw [List.getLast?_cons, g1]
            rfl
          · rw [List.map_cons, matchCount, if_neg ha]
            exact g3
    · exfalso
      rw [if_neg hq] at hs
      simp only [Bool.not_eq_true', Bool.not_eq_false] at hq
      rw [hq] at hs
      cases hs

/-- The match counter is below 2 after every run of contact attempts that is shorter
than the run the search makes: the search goes on to a next attempt only then. -/
theorem z0Attempts_shorter_runs (cfg : Config) (sc : SensorConfig) (maxZ : ℚ)
    (sessions : List (List Reading)) :
    ∀ (matchCounter : Nat) (lastZ0 : ℚ) (q : Motors × Accelerometer), matchCounter ≤ 1 →
      ∀ k, k < (z0Attempts cfg sc maxZ sessions matchCounter lastZ0 q).length →
        matchCount lastZ0 matchCounter
          (((z0Attempts cfg sc maxZ sessions matchCounter lastZ0 q).map
            (fun q => q.1.currentValues AXES.Z)).take k) < 2 := by
  have single : ∀ (mc : Nat) (last : ℚ) (x : Motors × Accelerometer), mc ≤ 1 →
      ∀ k, k < [x].length →
        matchCount last mc (([x].map (fun q => q.1.currentValues AXES.Z)).take k) < 2 := by
    intro mc last x hmc k hk
    have hk0 : k = 0 := by
      rw [List.length_singleton] at hk
      omega
    rw [hk0, List.take_zero, matchCount]
    omega
  induction sessions with
  | nil =>
    intro mc last q hmc k hk
    rw [z0Attempts] at hk ⊢
    by_cases hq : (!q.1.emergencyStopOccured) = true
    · rw [if_pos hq] at hk ⊢
      exact single mc last _ hmc k hk
    · rw [if_neg hq] at hk
      exact absurd hk (by rw [List.length_nil]; omega)
  | cons session rest ih =>
    intro mc last q hmc k hk
    rw [z0Attempts] at hk ⊢
    dsimp only at hk ⊢
    by_cases hq : (!q.1.emergencyStopOccured) = true
    · rw [if_pos hq] at hk ⊢
      by_cases hf : ((z0Descent cfg sc session q).1.emergencyStopOccured
          || !(z0Descent cfg sc session q).2.isWorking) = true
      · rw [if_pos hf] at hk ⊢
        exact single mc last _ hmc k hk
      · rw [if_neg hf] at hk ⊢
        by_cases ha : |last - (z0Descent cfg sc session q).1.currentValues AXES.Z| ≤ 1
        · rw [if_pos ha] at hk ⊢
          by_cases hc : (mc + 1) % 256 ≥ 2
          · rw [if_pos hc] at hk ⊢
            exact single mc last _ hmc k hk
          · rw [if_neg hc] at hk ⊢
            have hmc0 : (mc + 1) % 256 = mc + 1 := Nat.mod_eq_of_lt (by omega)
            rw [hmc0] at hk ⊢
            rw [hmc0] at hc
            cases k with
            | zero =>
              rw [List.take_zero, matchCount]
              omega
            | succ k =>
              rw [List.map_cons, List.take_succ_cons, matchCount, if_pos ha]
              exact ih (mc + 1) _ _ (by omega) k (by rw [List.length_cons] at hk; omega)
        · rw [if_neg ha] at hk ⊢
          cases k with
          | zero =>
            rw [List.take_zero, matchCount]
            omega
          | succ k =>
            rw [List.map_cons, List.take_succ_cons, matchCount, if_neg ha]
            exact ih 0 _ _ (by omega) k (by rw [List.length_cons] at hk; omega)
    · rw [if_neg hq] at hk
      exact absurd hk (by rw [List.length_nil]; omega)

/-- A search for Z0 whose contact attempts reach heights that bring the match counter
to 2, the last attempt ending without emergency stop and with a working
accelerometer, ends by applying the correction to the state after that attempt. -/
theorem z0Search_converges (cfg : Config) (sc : SensorConfig) (maxZ : ℚ)
    (sessions : List (List Reading)) :
    ∀ (matchCounter : Nat) (lastZ0 : ℚ) (q : Motors × Accelerometer), matchCounter ≤ 1 →
      matchCount lastZ0 matchCounter
          ((z0Attempts cfg sc maxZ sessions matchCounter lastZ0 q).map
            (fun q => q.1.currentValues AXES.Z)) = 2 →
      (∀ q1, (z0Attempts cfg sc maxZ sessions matchCounter lastZ0 q).getLast? = some q1 →
        q1.1.emergencyStopOccured = false ∧ q1.2.isWorking = true) →
      ∃ q1, (z0Attempts cfg sc maxZ sessions matchCounter lastZ0 q).getLast? = some q1
        ∧ (z0Search cfg sc maxZ sessions matchCounter lastZ0 q).1
            = (applyZ0Correction cfg sc q1.1, q1.2) := by
  induction sessions with
  | nil =>
    intro mc last q hmc h2 hok
    exfalso
    rw [z0Attempts] at h2 hok
    by_cases hq : (!q.1.emergencyStopOccured) = true
    · rw [if_pos hq] at hok
      have hw := (hok (z0Descent cfg sc [] q) rfl).2
      have : (z0Descent cfg sc [] q).2.isWorking = false := rfl
      rw [this] at hw
      cases hw
    · rw [if_neg hq, List.map_nil, matchCount] at h2
      omega
  | cons session rest ih =>
    intro mc last q hmc h2 hok
    rw [z0Attempts] at h2 hok ⊢
    rw [z0Search]
    dsimp only at h2 hok ⊢
    by_cases hq : (!q.1.emergencyStopOccured) = true
    · rw [if_pos hq] at h2 hok ⊢
      rw [if_pos hq]
      by_cases hf : ((z0Descent cfg sc session q).1.emergencyStopOccured
          || !(z0Descent cfg sc session q).2.isWorking) = true
      · exfalso
        rw [if_pos hf] at hok
        obtain ⟨o1, o2⟩ := hok (z0Descent cfg sc session q) rfl
        rw [o1, o2] at hf
        cases hf
      · rw [if_neg hf] at h2 hok ⊢
        rw [if_neg hf]
        by_cases ha : |last - (z0Descent cfg sc session q).1.currentValues AXES.Z| ≤ 1
        · rw [if_pos ha] at h2 hok ⊢
          rw [if_pos ha]
          by_cases hc : (mc + 1) % 256 ≥ 2
          · rw [if_pos hc]
            rw [if_pos hc]
            exact ⟨z0Descent cfg sc session q, rfl, rfl⟩
          · rw [if_neg hc] at h2 hok ⊢
            rw [if_neg hc]
            have hmc0 : (mc + 1) % 256 = mc + 1 := Nat.mod_eq_of_lt (by omega)
            rw [hmc0] at h2 hok ⊢
            rw [List.map_cons, matchCount, if_pos ha] at h2
            obtain ⟨q1, g1, g2⟩ := ih (mc + 1)
              ((z0Descent cfg sc session q).1.currentValues AXES.Z)
              (moveToHeight cfg
                (min ((z0Descent cfg sc session q).1.currentValues AXES.Z + 2) maxZ)
                (z0Descent cfg sc session q).1, (z0Descent cfg sc session q).2)
              (by omega) h2
              (fun q1 h => hok q1 (by rw [List.getLast?_cons, h]; rfl))
            refine ⟨q1, ?_, g2⟩
            rw [List.getLast?_cons, g1]
            rfl
        · rw [if_neg ha] at h2 hok ⊢
          rw [if_neg ha]
          rw [List.map_cons, matchCount, if_neg ha] at h2
          obtain ⟨q1, g1, g2⟩ := ih 0
            ((z0Descent cfg sc session q).1.currentValues AXES.Z)
            (moveToHeight cfg
              (min ((z0Descent cfg sc session q).1.currentValues AXES.Z + 2) maxZ)
              (z0Descent cfg sc session q).1, (z0Descent cfg sc session q).2)
            (by omega) h2
            (fun q1 h => hok q1 (by rw [List.getLast?_cons, h]; rfl))
          refine ⟨q1, ?_, g2⟩
          rw [List.getLast?_cons, g1]
          rfl
    · exfalso
      rw [if_neg hq, List.map_nil, matchCount] at h2
      omega

/-- When `moveToZ0` returns without emergency stop and with a working accelerometer,
its search has applied the stored correction after the last of its contact attempts,
which ended without emergency stop and with a working accelerometer, and the match
counter is 2 after all attempts. -/
theorem moveToZ0_success_trace (cfg : Config) (sc : SensorConfig) (p : Printer)
    (hs : (moveToZ0 cfg sc p).2.motors.emergencyStopOccured = false)
    (hw : (moveToZ0 cfg sc p).1 = true) :
    (∃ q, (contactAttempts cfg sc p).getLast? = some q
      ∧ q.1.emergencyStopOccured = false ∧ q.2.isWorking = true
      ∧ (moveToZ0 cfg sc p).2.motors
          = { applyZ0Correction cfg sc q.1 with
              currentStateOfValues :=
                upd (applyZ0Correction cfg sc q.1).currentStateOfValues AXES.Z
                  (p.motors.currentStateOfValues AXES.Z) })
    ∧ matchCount (p.motors.currentValues AXES.Z) 0 (contactHeights cfg sc p) = 2 := by
  have hstop : (z0Search cfg sc (p.motors.currentValues AXES.Z) p.sessions 0
      (p.motors.currentValues AXES.Z)
      ({ p.motors with
          currentStateOfValues := upd p.motors.currentStateOfValues AXES.Z INVALID },
        p.accelerometer)).1.1.emergencyStopOccured = false := by
    unfold moveToZ0 at hs
    dsimp only at hs
    split_ifs at hs with h1
    · simpa using h1
    · exact hs
  obtain ⟨q1, g1, g2, g3, g5, g6⟩ := z0Search_success cfg sc (p.motors.currentValues AXES.Z)
    p.sessions 0 (p.motors.currentValues AXES.Z)
    ({ p.motors with
        currentStateOfValues := upd p.motors.currentStateOfValues AXES.Z INVALID },
      p.accelerometer) (by omega) hstop hw
  refine ⟨⟨q1, g1, g5, g6, ?_⟩, g3⟩
  unfold moveToZ0
  dsimp only
  rw [if_pos (by rw [hstop]; rfl), g2]

/-- C18 (amended): a call of `moveToZ0` whose contact attempts reach heights of which
the last is the second in a row within 1 mm of the height before it, the height before
the first attempt being the height at the call (the match counter is 2 after the
heights), the last attempt ending without emergency stop and with a working
accelerometer. The call returns `true`; its search has made these attempts and no
other and has applied the stored correction to the state after the last of them, the
validity of Z being restored unless the move by the correction was stopped by an
emergency stop; the accelerometer is as the last attempt left it; and the last
attempt is the first at which the match counter is 2: it is below 2 after every
shorter run of the attempts. -/
theorem correction_at_second_agreement_in_a_row (cfg : Config) (sc : SensorConfig)
    (p : Printer)
    (hq : ∃ q, (contactAttempts cfg sc p).getLast? = some q
      ∧ q.1.emergencyStopOccured = false ∧ q.2.isWorking = true)
    (h2 : matchCount (p.motors.currentValues AXES.Z) 0 (contactHeights cfg sc p) = 2) :
    (moveToZ0 cfg sc p).1 = true
    ∧ (∃ q, (contactAttempts cfg sc p).getLast? = some q
      ∧ (moveToZ0 cfg sc p).2.accelerometer = q.2
      ∧ (moveToZ0 cfg sc p).2.motors
          = (if !(applyZ0Correction cfg sc q.1).emergencyStopOccured then
              { applyZ0Correction cfg sc q.1 with
                currentStateOfValues :=
                  upd (applyZ0Correction cfg sc q.1).currentStateOfValues AXES.Z
                    (p.motors.currentStateOfValues AXES.Z) }
            else applyZ0Correction cfg sc q.1)
      ∧ ((moveToZ0 cfg sc p).2.motors.emergencyStopOccured = false →
          (moveToZ0 cfg sc p).2.motors
            = { applyZ0Correction cfg sc q.1 with
                currentStateOfValues :=
                  upd (applyZ0Correction cfg sc q.1).currentStateOfValues AXES.Z
                    (p.motors.currentStateOfValues AXES.Z) }))
    ∧ (∀ k, k < (contactHeights cfg sc p).length →
        matchCount (p.motors.currentValues AXES.Z) 0 ((contactHeights cfg sc p).take k) < 2) := by
  obtain ⟨q0, l0, s0, w0⟩ := hq
  obtain ⟨q1, g1, g2⟩ := z0Search_converges cfg sc (p.motors.currentValues AXES.Z)
    p.sessions 0 (p.motors.currentValues AXES.Z)
    ({ p.motors with
        currentStateOfValues := upd p.motors.currentStateOfValues AXES.Z INVALID },
      p.accelerometer) (by omega) h2
    (by
      intro q1 h
      have e : q1 = q0 := Option.some.inj (h.symm.trans l0)
      rw [e]
      exact ⟨s0, w0⟩)
  have e : q0 = q1 := Option.some.inj (l0.symm.trans g1)
  rw [e] at w0
  have hm : (moveToZ0 cfg sc p).2.motors
      = (if !(applyZ0Correction cfg sc q1.1).emergencyStopOccured then
          { applyZ0Correction cfg sc q1.1 with
            currentStateOfValues :=
              upd (applyZ0Correction cfg sc q1.1).currentStateOfValues AXES.Z
                (p.motors.currentStateOfValues AXES.Z) }
        else applyZ0Correction cfg sc q1.1) := by
    unfold moveToZ0
    dsimp only
    rw [g2]
  refine ⟨?_, ⟨q1, g1, ?_, hm, ?_⟩, ?_⟩
  · unfold moveToZ0
    dsimp only
    rw [g2]
    exact w0
  · unfold moveToZ0
    dsimp only
    rw [g2]
  · intro hs
    rw [hm] at hs ⊢
    by_cases hc : (!(applyZ0Correction cfg sc q1.1).emergencyStopOccured) = true
    · rw [if_pos hc]
    · rw [if_neg hc] at hs
      rw [hs] at hc
      exact absurd rfl hc
  · intro k hk
    unfold contactHeights at hk
    rw [List.length_map] at hk
    exact z0Attempts_shorter_runs cfg sc (p.motors.currentValues AXES.Z) p.sessions 0
      (p.motors.currentValues AXES.Z) _ (by omega) k hk

theorem correction_at_second_agreement_in_a_row_witness :
    contactHeights (clockConfig 200000) exampleSensorConfig threeAttemptsPrinter
      = [6198 / 100, 6155 / 100, 6155 / 100]
    ∧ threeAttemptsPrinter.motors.currentValues AXES.Z = 65
    ∧ (moveToZ0 (clockConfig 200000) exampleSensorConfig threeAttemptsPrinter).1 = true
    ∧ ∃ q, (contactAttempts (clockConfig 200000) exampleSensorConfig
          threeAttemptsPrinter).getLast? = some q
        ∧ (moveToZ0 (clockConfig 200000) exampleSensorConfig threeAttemptsPrinter).2.motors
            = { applyZ0Correction (clockConfig 200000) exampleSensorConfig q.1 with
                currentStateOfValues :=
                  upd (applyZ0Correction (clockConfig 200000) exampleSensorConfig
                    q.1).currentStateOfValues AXES.Z
                    (threeAttemptsPrinter.motors.currentStateOfValues AXES.Z) } := by
  obtain ⟨t1, t2, t3⟩ := moveToZ0_three_attempts threeAttemptsPrinter threeAttempts_ready.1
    threeAttempts_ready.2.1 threeAttempts_ready.2.2.1 threeAttempts_ready.2.2.2
  obtain ⟨⟨q, l, s, w, -⟩, c⟩ := moveToZ0_success_trace (clockConfig 200000)
    exampleSensorConfig threeAttemptsPrinter t3 t2
  obtain ⟨r1, ⟨q1, g1, -, -, g4⟩, -⟩ := correction_at_second_agreement_in_a_row
    (clockConfig 200000) exampleSensorConfig threeAttemptsPrinter ⟨q, l, s, w⟩ c
  exact ⟨t1, threeAttempts_ready.2.1, r1, q1, g1, g4 t3⟩

/-! ## Theorems: the loop of the homing strokes and its samples -/

/-- The loop of a homing stroke reads the samples of `homingTrace` and executes
`motorsIsMoving[i] = false` at those that the trace flags, and at no other: its
result is the result of the iterations of `homingStep` on the readings of the trace
with their flags, followed by the end of the loop. -/
theorem homingLoop_replay (i : AXES) (jerk : Nat) (rs : List Reading) :
    ∀ (firstRun : Bool) (lastValue : Int) (counter : Nat) (q : Motors × Accelerometer),
      homingLoop i jerk rs firstRun lastValue counter q
        = homingEnd (rs.drop (homingTrace i jerk rs firstRun lastValue counter q).length)
            ((rs.zip ((homingTrace i jerk rs firstRun lastValue counter q).map Prod.snd)).foldl
              (homingStep i) q) := by
  induction rs with
  | nil =>
    intro fr lv c q
    rw [homingLoop, homingTrace]
    rfl
  | cons r rs ih =>
    intro fr lv c q
    rw [homingLoop, homingTrace]
    dsimp only
    by_cases hc : (areMotorsMoving q.1.globals && !q.1.emergencyStopOccured) = true
    · rw [if_pos hc, if_pos hc]
      by_cases hr : (readAccelerationValues r q.2).1 = true
      · rw [if_pos hr, if_pos hr]
        have step : ∀ (b : Bool) (v : Int) (t : List (Int × Bool)) (q2 : Motors × Accelerometer)
            (X : Motors × Accelerometer),
            homingStep i q (r, b) = q2 →
            X = homingEnd (rs.drop t.length) ((rs.zip (t.map Prod.snd)).foldl (homingStep i) q2) →
            X = homingEnd ((r :: rs).drop ((v, b) :: t).length)
                (((r :: rs).zip (((v, b) :: t).map Prod.snd)).foldl (homingStep i) q) := by
          intro b v t q2 X h1 h2
          rw [List.length_cons, List.drop_succ_cons, List.map_cons, List.zip_cons_cons,
            List.foldl_cons, h1]
          exact h2
        by_cases hf : fr = true
        · rw [if_pos hf, if_pos hf]
          exact step false _ _ _ _ rfl (ih _ _ _ _)
        · rw [if_neg hf, if_neg hf]
          by_cases hj : |lv - (if i = AXES.Y then (readAccelerationValues r q.2).2.yAcceleration
              else (readAccelerationValues r q.2).2.xAcceleration)| ≥ (jerk : Int)
          · rw [if_pos hj, if_pos hj]
            by_cases hk : (c + 1) % 256 ≥ 2
            · rw [if_pos hk, if_pos hk]
              exact step true _ _ _ _ rfl (ih _ _ _ _)
            · rw [if_neg hk, if_neg hk]
              exact step false _ _ _ _ rfl (ih _ _ _ _)
          · rw [if_neg hj, if_neg hj]
            exact step false _ _ _ _ rfl (ih _ _ _ _)
      · rw [if_neg hr, if_neg hr]
        show _ = homingEnd (r :: rs) q
        unfold homingEnd
        rw [if_pos hc]
    · rw [if_neg hc, if_neg hc]
      show _ = homingEnd (r :: rs) q
      unfold homingEnd
      rw [if_neg hc]

/-- The homing stroke that `Motors::homeXY` makes for motor `i` ends in the state of
`strokeEnd`, the step timer being stopped after the loop. -/
theorem homingStroke_replay (cfg : Config) (sc : SensorConfig) (i : AXES) (p : Printer) :
    homingStroke cfg sc i p
      = { p with
          motors :=
            { (strokeEnd cfg sc i p).1 with
              globals := stopMotorsStepTimer (strokeEnd cfg sc i p).1.globals }
          accelerometer := (strokeEnd cfg sc i p).2
          sessions := p.sessions.tail } := by
  unfold homingStroke strokeEnd strokeTrace
  dsimp only
  rw [← homingLoop_replay]

/-- The loop of the homing stroke of the Y motor on the samples 0, 50, 100 with the
threshold 50: the motor, which moves when the loop starts and would make its steps
for as long as it is not stopped (the readings take no time), does not move when the
loop ends; on the samples 0, 50 alone it still moves. -/
theorem thresholdPrinter_loop :
    (homingSetup exampleConfig AXES.Y thresholdPrinter.motors).globals.motorsIsMoving AXES.Y
      = true
    ∧ (homingLoop AXES.Y (jerkAcceleration exampleSensorConfig AXES.Y) thresholdSession true 0 0
        (homingSetup exampleConfig AXES.Y thresholdPrinter.motors,
          thresholdPrinter.accelerometer)).1.globals.motorsIsMoving AXES.Y = false
    ∧ (homingLoop AXES.Y (jerkAcceleration exampleSensorConfig AXES.Y)
        [jerkReading 0, jerkReading 50] true 0 0
        (homingSetup exampleConfig AXES.Y thresholdPrinter.motors,
          thresholdPrinter.accelerometer)).1.globals.motorsIsMoving AXES.Y = true := by
  have hu : ∀ (f : AXES → Bool) (j : AXES) (v : Bool), upd f j v j = v := by
    intro f j v
    unfold upd
    rw [if_pos rfl]
  have hmv : (homingSetup exampleConfig AXES.Y thresholdPrinter.motors).globals.motorsIsMoving
      = upd thresholdPrinter.motors.globals.motorsIsMoving AXES.Y true := rfl
  have hy : (homingSetup exampleConfig AXES.Y thresholdPrinter.motors).globals.motorsIsMoving
      AXES.Y = true := by
    rw [hmv, hu]
  have hm : areMotorsMoving (homingSetup exampleConfig AXES.Y thresholdPrinter.motors).globals
      = true :=
    areMotorsMoving_of _ AXES.Y (by decide) hy
  have hs : (homingSetup exampleConfig AXES.Y thresholdPrinter.motors).emergencyStopOccured
      = false := rfl
  have hid : areMotorsMoving
      { (homingSetup exampleConfig AXES.Y thresholdPrinter.motors).globals with
        motorsIsMoving :=
          upd (homingSetup exampleConfig AXES.Y thresholdPrinter.motors).globals.motorsIsMoving
            AXES.Y false } = false := by
    apply areMotorsMoving_false
    intro j
    show upd (homingSetup exampleConfig AXES.Y thresholdPrinter.motors).globals.motorsIsMoving
      AXES.Y false j = false
    rw [hmv]
    unfold upd
    split_ifs
    · rfl
    · rfl
  have hl := homingLoop_jerk AXES.Y (jerkAcceleration exampleSensorConfig AXES.Y)
    (jerkReading 0) (jerkReading 50) (jerkReading 100)
    (homingSetup exampleConfig AXES.Y thresholdPrinter.motors, thresholdPrinter.accelerometer)
    hm hs hid rfl rfl rfl rfl rfl rfl (jerk_deviation AXES.Y 0 50 (by decide))
    (jerk_deviation AXES.Y 50 100 (by decide))
  have hc : (areMotorsMoving (homingSetup exampleConfig AXES.Y thresholdPrinter.motors).globals
      && !(homingSetup exampleConfig AXES.Y thresholdPrinter.motors).emergencyStopOccured)
      = true := by
    rw [hm, hs]
    rfl
  have e0 : ∀ s : Motors, elapse 0 s = s := fun _ => rfl
  refine ⟨hy, ?_, ?_⟩
  · unfold thresholdSession
    rw [hl]
    show upd (homingSetup exampleConfig AXES.Y thresholdPrinter.motors).globals.motorsIsMoving
      AXES.Y false AXES.Y = false
    exact hu _ _ _
  · have t0 : (jerkReading 0).ticks = 0 := rfl
    have t1 : (jerkReading 50).ticks = 0 := rfl
    have r0 : ∀ a : Accelerometer, readAccelerationValues (jerkReading 0) a
        = (true, { isWorking := true, xAcceleration := 0, yAcceleration := 0 }) := fun _ => rfl
    have r1 : ∀ a : Accelerometer, readAccelerationValues (jerkReading 50) a
        = (true, { isWorking := true, xAcceleration := 50, yAcceleration := 50 }) := fun _ => rfl
    rw [homingLoop]
    dsimp only
    rw [if_pos hc, t0, e0, r0]
    dsimp only
    rw [if_pos rfl, if_pos rfl, homingLoop]
    dsimp only
    rw [if_pos hc, t1, e0, r1]
    dsimp only
    rw [if_pos rfl, if_neg (by decide), if_pos rfl, jerkAcceleration_example,
      if_pos (by decide), if_neg (by decide), homingLoop]
    dsimp only
    rw [if_pos hc]
    exact hy

/-- C23 (as stated, refuted): a homing stroke of the Y motor with a jerk threshold of
50 on the samples 0, 50, 100. No sample deviates from its predecessor by more than
50, so no sample is as the claim requires; the loop stops the motor at the third
sample, the deviations of 50 being not less than the threshold: the motor, moving
when the loop starts, does not move when the loop of `Motors::homeXY` ends, and
still moves when the loop is run on the first two samples alone. -/
theorem homing_stops_on_deviations_equal_to_threshold :
    jerkAcceleration exampleSensorConfig AXES.Y = 50
    ∧ homingSamples exampleConfig exampleSensorConfig AXES.Y thresholdPrinter = [0, 50, 100]
    ∧ homingStopAt exampleConfig exampleSensorConfig AXES.Y thresholdPrinter = some 2
    ∧ firstDoubleDeviation (deviatesByMoreThan 50) [0, 50, 100] = none
    ∧ thresholdPrinter.sessions.headD [] = thresholdSession
    ∧ (homingSetup exampleConfig AXES.Y thresholdPrinter.motors).globals.motorsIsMoving AXES.Y
        = true
    ∧ (homingLoop AXES.Y (jerkAcceleration exampleSensorConfig AXES.Y) thresholdSession true 0 0
        (homingSetup exampleConfig AXES.Y thresholdPrinter.motors,
          thresholdPrinter.accelerometer)).1.globals.motorsIsMoving AXES.Y = false
    ∧ (homingLoop AXES.Y (jerkAcceleration exampleSensorConfig AXES.Y)
        [jerkReading 0, jerkReading 50] true 0 0
        (homingSetup exampleConfig AXES.Y thresholdPrinter.motors,
          thresholdPrinter.accelerometer)).1.globals.motorsIsMoving AXES.Y = true := by
  refine ⟨jerkAcceleration_example AXES.Y, ?_, ?_, by decide, rfl, thresholdPrinter_loop⟩
  · unfold homingSamples
    rw [thresholdPrinter_trace]
    rfl
  · unfold homingStopAt
    rw [thresholdPrinter_trace]
    rfl

/-- C23 (amended): in the homing stroke of motor `i` of `Motors::homeXY`, for every
sequence of accelerometer samples that the loop reads, the first sample at which the
loop stops the motor is the first sample such that it and the sample before it each
deviate from their own immediately preceding sample by at least the jerk threshold;
when there is no such sample the loop does not stop the motor. The samples and the
stops are those of the loop that `Motors::homeXY` runs: the stroke ends in the state
that the iterations of the loop on these samples give, `motorsIsMoving[i] = false`
being executed at the samples at which the trace records a stop and at no other. -/
theorem homing_stops_at_first_double_deviation (cfg : Config) (sc : SensorConfig)
    (i : AXES) (p : Printer) :
    homingStopAt cfg sc i p
      = firstDoubleDeviation (deviatesByAtLeast (jerkAcceleration sc i))
          (homingSamples cfg sc i p)
    ∧ homingLoop i (jerkAcceleration sc i) (p.sessions.headD []) true 0 0
          (homingSetup cfg i p.motors, p.accelerometer)
        = homingEnd ((p.sessions.headD []).drop (strokeTrace cfg sc i p).length)
            (((p.sessions.headD []).zip ((strokeTrace cfg sc i p).map Prod.snd)).foldl
              (homingStep i) (homingSetup cfg i p.motors, p.accelerometer))
    ∧ homingStroke cfg sc i p
        = { p with
            motors :=
              { (strokeEnd cfg sc i p).1 with
                globals := stopMotorsStepTimer (strokeEnd cfg sc i p).1.globals }
            accelerometer := (strokeEnd cfg sc i p).2
            sessions := p.sessions.tail } := by
  refine ⟨?_, ?_, homingStroke_replay cfg sc i p⟩
  · unfold homingStopAt homingSamples strokeTrace
    exact homingTrace_first i (jerkAcceleration sc i) (p.sessions.headD []) 0
      (homingSetup cfg i p.motors, p.accelerometer)
  · unfold strokeTrace
    exact homingLoop_replay i (jerkAcceleration sc i) (p.sessions.headD []) true 0 0
      (homingSetup cfg i p.motors, p.accelerometer)

end IMe
